import Mathlib

/-!
# IPK24-CHAT client: a shallow embedding and its verified properties

The C++ sources (`Message`, `InputHandler`, `Client`, `TCPClient`, `UDPClient`) are
translated function by function.  Conventions of the embedding:

* a byte is the natural number of its unsigned value (0..255); `std::string` and
  `vector<uint8_t>` are both lists of bytes, so that the implicit conversions
  `char` to `uint8_t` and back keep the representation;
* `uint16_t` and `uint8_t` arithmetic is arithmetic on naturals with an explicit
  reduction modulo `2^16` resp. `2^8`;
* everything a client writes (stdout, stderr, socket) is appended to one trace
  `Client.out`, in program order;
* the results of the system calls `send` and `recvfrom` are inputs of the model,
  held in the fields `send_ok` and `net_in`.
-/

namespace IPK24

/-! ## Bytes and strings -/

/-- The contents of a `std::string` or of a `vector<uint8_t>`: its bytes, each given
by its unsigned value. -/
abbrev Str := List Nat

/-- The bytes of an ASCII string literal of the source. -/
def ascii (s : String) : Str := s.toList.map Char.toNat

/-- Conversion to `uint8_t`. -/
def u8 (n : Nat) : Nat := n % 256

/-- Conversion to `uint16_t`. -/
def u16 (n : Nat) : Nat := n % 65536

/-! ## Message.hpp / Message.cpp -/

/-- The enum `MessageType`. -/
inductive MessageType
  | CONFIRM | REPLY | AUTH | JOIN | MSG | ERR | BYE
  deriving DecidableEq, Repr

/-- The enumerator values of `MessageType` (its underlying type is `uint8_t`). -/
def MessageType.toByte : MessageType → Nat
  | .CONFIRM => 0x00
  | .REPLY => 0x01
  | .AUTH => 0x02
  | .JOIN => 0x03
  | .MSG => 0x04
  | .ERR => 0xFE
  | .BYE => 0xFF

/-- The classes derived from `Message`, with the arguments of their constructors in
the order of the source.  The `messageID` argument is converted to `uint16_t` by
`Message.get_msgID`. -/
inductive Message
  | MsgCONFIRM (messageID : Nat)
  | MsgAUTH (username secret display_name : Str) (messageID : Nat)
  | MsgJOIN (channelID display_name : Str) (messageID : Nat)
  | MsgMSG (display_name message_content : Str) (messageID : Nat)
  | MsgERR (display_name message_content : Str) (messageID : Nat)
  | MsgBYE (messageID : Nat)
  deriving DecidableEq, Repr

/-- The getter `Message::get_type`: each constructor sets `type`. -/
def Message.get_type : Message → MessageType
  | .MsgCONFIRM _ => .CONFIRM
  | .MsgAUTH _ _ _ _ => .AUTH
  | .MsgJOIN _ _ _ => .JOIN
  | .MsgMSG _ _ _ => .MSG
  | .MsgERR _ _ _ => .ERR
  | .MsgBYE _ => .BYE

/-- The getter `Message::get_msgID`: the field is a `uint16_t`. -/
def Message.get_msgID : Message → Nat
  | .MsgCONFIRM i => u16 i
  | .MsgAUTH _ _ _ i => u16 i
  | .MsgJOIN _ _ i => u16 i
  | .MsgMSG _ _ i => u16 i
  | .MsgERR _ _ i => u16 i
  | .MsgBYE i => u16 i

/-- The three header bytes every `UDP_msg` starts with: the type, then
`static_cast<uint8_t>(messageID >> 8)` and `static_cast<uint8_t>(messageID & 0xFF)`. -/
def Message.UDP_header (m : Message) : Str :=
  [m.get_type.toByte, u8 (m.get_msgID >>> 8), u8 (m.get_msgID &&& 0xFF)]

/-- The overrides of `UDP_msg`. -/
def Message.UDP_msg : Message → Str
  | .MsgCONFIRM i => (Message.MsgCONFIRM i).UDP_header
  | .MsgAUTH username secret display_name i =>
      (Message.MsgAUTH username secret display_name i).UDP_header
        ++ username ++ [0x00] ++ display_name ++ [0x00] ++ secret ++ [0x00]
  | .MsgJOIN channelID display_name i =>
      (Message.MsgJOIN channelID display_name i).UDP_header
        ++ channelID ++ [0x00] ++ display_name ++ [0x00]
  | .MsgMSG display_name message_content i =>
      (Message.MsgMSG display_name message_content i).UDP_header
        ++ display_name ++ [0x00] ++ message_content ++ [0x00]
  | .MsgERR display_name message_content i =>
      (Message.MsgERR display_name message_content i).UDP_header
        ++ display_name ++ [0x00] ++ message_content ++ [0x00]
  | .MsgBYE i => (Message.MsgBYE i).UDP_header

/-- The overrides of `TCP_msg`; `MsgCONFIRM` inherits the empty string of the base
class. -/
def Message.TCP_msg : Message → Str
  | .MsgCONFIRM _ => []
  | .MsgAUTH username secret display_name _ =>
      ascii "AUTH " ++ username ++ ascii " AS " ++ display_name ++ ascii " USING "
        ++ secret ++ ascii "\r\n"
  | .MsgJOIN channelID display_name _ =>
      ascii "JOIN " ++ channelID ++ ascii " AS " ++ display_name ++ ascii "\r\n"
  | .MsgMSG display_name message_content _ =>
      ascii "MSG FROM " ++ display_name ++ ascii " IS " ++ message_content ++ ascii "\r\n"
  | .MsgERR display_name message_content _ =>
      ascii "ERR FROM " ++ display_name ++ ascii " IS " ++ message_content ++ ascii "\r\n"
  | .MsgBYE _ => ascii "BYE\r\n"

/-! ## The parts of the C++ library the sources use -/

/-- The function `isspace` of the "C" locale: space, `\t`, `\n`, `\v`, `\f`, `\r`. -/
def isspace (c : Nat) : Bool := c == 0x20 || (0x09 ≤ c && c ≤ 0x0D)

/-- The function `toupper` of the "C" locale. -/
def toupper (c : Nat) : Nat := if 0x61 ≤ c ∧ c ≤ 0x7A then c - 0x20 else c

/-- The helper `str_toupper` of TCPClient.cpp. -/
def str_toupper (str : Str) : Str := str.map toupper

/-- An `istringstream`: the characters not yet read and the two state bits the
sources depend on. -/
structure IStringStream where
  buf : Str
  eofbit : Bool
  failbit : Bool
  deriving DecidableEq, Repr

/-- The constructor `istringstream iss(str)`. -/
def IStringStream.ofStr (str : Str) : IStringStream := ⟨str, false, false⟩

/-- The member `good()`. -/
def IStringStream.good (iss : IStringStream) : Bool := !iss.eofbit && !iss.failbit

/-- The formatted extraction `iss >> str` into a string whose old value is `str`.
The sentry fails on a stream that is not good, and on end of input after skipping
whitespace; otherwise `str` is replaced by the characters up to the next whitespace,
and `eofbit` is set when the end of the input stopped the extraction. -/
def IStringStream.extract (iss : IStringStream) (str : Str) : IStringStream × Str :=
  if iss.good then
    match iss.buf.dropWhile isspace with
    | [] => (⟨[], true, true⟩, str)
    | c :: cs =>
        let rest := (c :: cs).dropWhile (fun x => !isspace x)
        (⟨rest, rest.isEmpty, false⟩, (c :: cs).takeWhile (fun x => !isspace x))
  else (⟨iss.buf, iss.eofbit, true⟩, str)

/-- The unformatted `getline(iss, str)` with the delimiter `\n`, into a string whose
old value is `str`.  On a stream that is not good it only sets `failbit`. It sets
`failbit` also when it extracts no character at all. -/
def IStringStream.getline (iss : IStringStream) (str : Str) : IStringStream × Str :=
  if iss.good then
    match iss.buf.dropWhile (fun x => x != 0x0A) with
    | [] => (⟨[], true, iss.buf.isEmpty⟩, iss.buf)
    | _ :: rest => (⟨rest, false, false⟩, iss.buf.takeWhile (fun x => x != 0x0A))
  else (⟨iss.buf, iss.eofbit, true⟩, str)

/-- A regular expression of the shape `[class]{lo,hi}`, the only shape in the
sources. -/
structure Regex where
  cls : Nat → Bool
  lo : Nat
  hi : Nat

/-- The function `regex_match`: the whole string has to match. -/
def regex_match (str : Str) (re : Regex) : Bool :=
  decide (re.lo ≤ str.length) && decide (str.length ≤ re.hi) && str.all re.cls

/-- The character class `[A-Za-z0-9-]`. -/
def alnum_dash (c : Nat) : Bool :=
  (0x41 ≤ c && c ≤ 0x5A) || (0x61 ≤ c && c ≤ 0x7A) || (0x30 ≤ c && c ≤ 0x39) || c == 0x2D

/-- The pattern `[A-Za-z0-9-]{1,20}`. -/
def username_channelID_pattern : Regex := ⟨alnum_dash, 1, 20⟩

/-- The pattern `[A-Za-z0-9-]{1,128}`. -/
def secret_pattern : Regex := ⟨alnum_dash, 1, 128⟩

/-- The pattern `[\x21-\x7E]{1,20}`. -/
def display_name_pattern : Regex := ⟨fun c => 0x21 ≤ c && c ≤ 0x7E, 1, 20⟩

/-- The pattern `[\x20-\x7E]{1,1400}`. -/
def message_content_pattern : Regex := ⟨fun c => 0x20 ≤ c && c ≤ 0x7E, 1, 1400⟩

/-! ## What a client writes -/

/-- A socket address. -/
abbrev Addr := Nat

/-- One write of the program: to stdout, to stderr, to the connected TCP socket
(`send`) or to a UDP destination (`sendto`). -/
inductive Output
  | cout (text : Str)
  | cerr (text : Str)
  | send (data : Str)
  | sendto (dest : Addr) (data : Str)
  deriving DecidableEq, Repr

/-! ## InputHandler.hpp / InputHandler.cpp -/

/-- The class `InputHandler`; `msgID_sent` is a `uint16_t`. -/
structure InputHandler where
  msgID_sent : Nat
  display_name : Str
  deriving DecidableEq, Repr

/-- The constructor `InputHandler()`. -/
def InputHandler.new : InputHandler := ⟨0, []⟩

/-- The member `inc_msgID_sent`, and every `this->msgID_sent++`. -/
def InputHandler.inc_msgID_sent (h : InputHandler) : InputHandler :=
  { h with msgID_sent := u16 (h.msgID_sent + 1) }

/-- The loop `while (iss >> arg) args.push_back(arg);`.  Every round but the last
consumes at least one character, so that `iss.buf.length + 1` rounds are enough. -/
def read_args : Nat → IStringStream → Str → List Str → List Str
  | 0, _, _, args => args
  | fuel + 1, iss, arg, args =>
      let r := iss.extract arg
      if r.1.failbit then args else read_args fuel r.1 r.2 (args ++ [r.2])

/-- What `handle_input` hands back: the message (`none` is `nullptr`), the handler
after the call and what the call printed. -/
structure HandlerResult where
  msg : Option Message
  handler : InputHandler
  out : List Output
  deriving DecidableEq, Repr

/-- The text of `/help`. -/
def help_text : List Output :=
  [ .cout (ascii "\nList of commands:\n"),
    .cout (ascii "\t/help - display this message\n"),
    .cout (ascii "\t/auth <username> <secret> <display_name> - authenticate\n"),
    .cout (ascii "\t/join <channelID> - join a channel\n"),
    .cout (ascii "\t/rename <new_display_name> - change display name\n"),
    .cout (ascii "\t/exit - exit the application\n") ]

/-- The branches of `handle_input` for a command other than `help`, given the command
word and the vector `args` of its parameters. -/
def InputHandler.handle_command (h : InputHandler) (command : Str) (args : List Str) :
    HandlerResult :=
  if command = ascii "auth" ∧ args.length = 3 then
    if !regex_match (args.getD 0 []) username_channelID_pattern then
      ⟨none, h, [.cerr (ascii "ERR: Username is not valid\n")]⟩
    else if !regex_match (args.getD 1 []) secret_pattern then
      ⟨none, h, [.cerr (ascii "ERR: Secret is not valid\n")]⟩
    else if !regex_match (args.getD 2 []) display_name_pattern then
      ⟨none, h, [.cerr (ascii "ERR: Display name is not valid\n")]⟩
    else
      let h1 : InputHandler := { h with display_name := args.getD 2 [] }
      ⟨some (.MsgAUTH (args.getD 0 []) (args.getD 1 []) h1.display_name h1.msgID_sent),
        h1.inc_msgID_sent, []⟩
  else if command = ascii "join" ∧ args.length = 1 then
    if !regex_match (args.getD 0 []) username_channelID_pattern then
      ⟨none, h, [.cerr (ascii "ERR: Channel ID is not valid\n")]⟩
    else
      ⟨some (.MsgJOIN (args.getD 0 []) h.display_name h.msgID_sent), h.inc_msgID_sent, []⟩
  else if command = ascii "rename" ∧ args.length = 1 then
    if !regex_match (args.getD 0 []) display_name_pattern then
      ⟨none, h, [.cerr (ascii "ERR: Display name is not valid\n")]⟩
    else
      ⟨none, { h with display_name := args.getD 0 [] }, []⟩
  else if command = ascii "exit" ∧ args.length = 0 then
    ⟨some (.MsgBYE h.msgID_sent), h.inc_msgID_sent, []⟩
  else
    ⟨none, h, [.cerr (ascii "ERR: Unknown or malformed command\n")]⟩

/-- The member `InputHandler::handle_input`. -/
def InputHandler.handle_input (h : InputHandler) (input : Str) : HandlerResult :=
  if input.isEmpty then ⟨none, h, []⟩
  else if input.head? = some 0x2F then
    let r := (IStringStream.ofStr (input.drop 1)).extract []
    if r.2 = ascii "help" then ⟨none, h, help_text⟩
    else h.handle_command r.2 (read_args (r.1.buf.length + 1) r.1 [] [])
  else
    if !regex_match input message_content_pattern then
      ⟨none, h, [.cerr (ascii "ERR: Message content is not valid\n")]⟩
    else
      ⟨some (.MsgMSG h.display_name input h.msgID_sent), h.inc_msgID_sent, []⟩

/-- A handler fed a sequence of lines, one call of `handle_input` per line: the
handler at the end and the messages returned, in order. -/
def InputHandler.run (h : InputHandler) : List Str → InputHandler × List Message
  | [] => (h, [])
  | line :: lines =>
      let r := h.handle_input line
      let rest := InputHandler.run r.handler lines
      (rest.1, r.msg.toList ++ rest.2)

/-! ## Client.hpp -/

/-- The macro `BUFFER_SIZE`. -/
def BUFFER_SIZE : Nat := 1500

/-- The enum `ClientState`. -/
inductive ClientState
  | START | AUTHENTICATE | OPEN | END | ERROR | ERROR_EXIT
  deriving DecidableEq, Repr

/-- The result of one `recvfrom`: a negative return value (`timeout` tells whether
`errno` is `EAGAIN` or `EWOULDBLOCK`), or the bytes written to `buffer`, at most
`BUFFER_SIZE` of them, and the address the datagram came from. -/
inductive RecvResult
  | error (timeout : Bool)
  | data (src : Addr) (bytes : Str)
  deriving DecidableEq, Repr

/-- The classes `Client`, `TCPClient` and `UDPClient` in one record, together with
the inputs of the model and the trace of what was written.

* `received` is the function-local `static` accumulator of `TCPClient::receive_msg`;
* `char_is_signed` tells whether plain `char`, the element type of `buffer`, is a
  signed type on the platform (it is on x86-64 Linux);
* `send_ok` holds the outcomes of the coming calls of `send` (`true`: no error), an
  exhausted list meaning success;
* `net_in` holds the results of the coming calls of `recvfrom`, an exhausted list
  meaning that every further call times out;
* `ub` records that the run left the behaviour defined by C++ (`front` or `pop` on an
  empty queue, a null pointer dereferenced, a vector read past its end). -/
structure Client where
  max_retransmissions : Int
  state : ClientState
  server_addr : Addr
  client_msg_queue : List (Option Message)
  server_msg_queue : List Str
  waiting_on_reply : Bool
  err_received : Bool
  auth : Bool
  error_msg : Str
  received : Str
  response_addr : Addr
  seen_msg_ids : List Nat
  char_is_signed : Bool
  send_ok : List Bool
  net_in : List RecvResult
  out : List Output
  ub : Bool
  deriving DecidableEq, Repr

/-- The state the constructors leave behind when socket, address resolution and
`connect` succeed: `START`, all flags cleared, empty queues. -/
def Client.init (max_retransmissions : Int) (server_addr : Addr) (char_is_signed : Bool)
    (send_ok : List Bool) (net_in : List RecvResult) : Client :=
  { max_retransmissions := max_retransmissions, state := .START, server_addr := server_addr,
    client_msg_queue := [], server_msg_queue := [], waiting_on_reply := false,
    err_received := false, auth := false, error_msg := [], received := [],
    response_addr := 0, seen_msg_ids := [], char_is_signed := char_is_signed,
    send_ok := send_ok, net_in := net_in, out := [], ub := false }

/-- Appends one write to the trace. -/
def Client.emit (c : Client) (o : Output) : Client := { c with out := c.out ++ [o] }

/-- The statement `cerr << text`. -/
def Client.cerr (c : Client) (text : Str) : Client := c.emit (.cerr text)

/-- The statement `cout << text`. -/
def Client.cout (c : Client) (text : Str) : Client := c.emit (.cout text)

/-- The setter `set_state`. -/
def Client.set_state (c : Client) (state : ClientState) : Client := { c with state := state }

/-- The member `push_client_msg`. -/
def Client.push_client_msg (c : Client) (msg : Option Message) : Client :=
  { c with client_msg_queue := c.client_msg_queue ++ [msg] }

/-- The member `push_server_msg`. -/
def Client.push_server_msg (c : Client) (msg : Str) : Client :=
  { c with server_msg_queue := c.server_msg_queue ++ [msg] }

/-- The statement `this->client_msg_queue.pop()`, undefined on an empty queue. -/
def Client.pop_client_msg (c : Client) : Client :=
  match c.client_msg_queue with
  | [] => { c with ub := true }
  | _ :: rest => { c with client_msg_queue := rest }

/-- The getter `get_curr_msg` followed by a dereference: `none` when the queue is
empty or its front is a null pointer, both undefined in C++. -/
def Client.get_curr_msg (c : Client) : Option Message :=
  match c.client_msg_queue with
  | some msg :: _ => some msg
  | _ => none

/-- The getter `get_curr_msgID`. -/
def Client.get_curr_msgID (c : Client) : Option Nat := c.get_curr_msg.map Message.get_msgID

/-! ## TCPClient.cpp -/

namespace TCPClient

/-- The member `TCPClient::send_msg`. -/
def send_msg (msg : Message) (c : Client) : Client :=
  let c1 : Client := { c with send_ok := c.send_ok.tail }
  if c.send_ok.headD true = false then
    (c1.cerr (ascii "ERR: Failed to send message to server\n")).set_state .ERROR
  else
    let c2 := c1.emit (.send msg.TCP_msg)
    let c3 := if msg.get_type = .BYE then c2.set_state .END else c2
    if c3.state = .START then c3.set_state .AUTHENTICATE else c3

/-- The call `search(received.begin(), received.end(), delimiter.begin(),
delimiter.end())` for the delimiter CR LF: the index of the first occurrence, `none`
standing for `received.end()`. -/
def search_delimiter : Str → Option Nat
  | [] => none
  | c :: rest =>
      if c = 0x0D ∧ rest.head? = some 0x0A then some 0
      else (search_delimiter rest).map (· + 1)

/-- The loop of `receive_msg` that moves every complete frame from `received` to the
inbound queue.  Every round removes at least two bytes from `received`, so that
`received.length` rounds are enough. -/
def extract_frames : Nat → Client → Client
  | 0, c => c
  | fuel + 1, c =>
      match search_delimiter c.received with
      | none => c
      | some iter =>
          extract_frames fuel
            { c.push_server_msg (c.received.take iter) with
              received := c.received.drop (iter + 2) }

/-- The member `TCPClient::receive_msg`, given what `recv` returned: `none` for a
negative value, otherwise the bytes read, at most `BUFFER_SIZE` of them (none at all
when the peer closed). -/
def receive_msg (rx : Option Str) (c : Client) : Client :=
  match rx with
  | none => c.cerr (ascii "ERR: Failed to receive message from server\n")
  | some bytes =>
      if bytes.isEmpty then c.set_state .END
      else
        let c1 : Client := { c with received := c.received ++ bytes }
        extract_frames c1.received.length c1

/-- The loop of `TCPClient::process_client_messages`; the first argument is the
outbound queue of the client, which every further round finds one message shorter. -/
def process_client_messages_loop : List (Option Message) → Client → Client
  | [], c => c
  | front :: rest, c =>
      if c.waiting_on_reply then c
      else
        let popped : Client := { c with client_msg_queue := rest }
        match front with
        | none => process_client_messages_loop rest popped
        | some msg =>
            if msg.get_type ≠ .AUTH ∧ c.auth = false then
              process_client_messages_loop rest
                (popped.cerr (ascii "ERR: You need to authenticate first\n"))
            else if (msg.get_type = .MSG ∨ msg.get_type = .JOIN) ∧ c.state ≠ .OPEN then
              process_client_messages_loop rest
                (popped.cerr (ascii "ERR: Cannot send message in non-open state\n"))
            else if msg.get_type = .AUTH ∧ c.auth = true then
              process_client_messages_loop rest
                (popped.cerr (ascii "ERR: No need to authenticate, already authenticated\n"))
            else
              let sent := send_msg msg c
              if msg.get_type = .AUTH ∨ msg.get_type = .JOIN then
                { sent with waiting_on_reply := true }
              else
                process_client_messages_loop rest { sent with client_msg_queue := rest }

/-- The member `TCPClient::process_client_messages`. -/
def process_client_messages (c : Client) : Client :=
  process_client_messages_loop c.client_msg_queue c

/-- The statements both the ERR and the MSG branch of `process_server_messages` parse
their frame with, after the first token: `FROM`, the display name, `IS` and the rest
of the line.  `none` is the branch that reports an invalid message. -/
def parse_from_is (iss : IStringStream) : Option (Str × Str) :=
  let token_from := iss.extract []
  if token_from.1.failbit = false ∧ str_toupper token_from.2 = ascii "FROM" then
    let display_name := token_from.1.extract []
    let token_is := display_name.1.extract []
    if token_is.1.failbit = false ∧ str_toupper token_is.2 = ascii "IS" then
      some (display_name.2, (token_is.1.getline []).2)
    else none
  else none

/-- The error exit of `process_server_messages`: diagnostic, `error_msg`, `ERROR`. -/
def fail (c : Client) (what : String) : Client :=
  ({ c.cerr (ascii ("ERR: " ++ what ++ "\n")) with error_msg := ascii what }).set_state .ERROR

/-- The REPLY branch of `process_server_messages` while `waiting_on_reply`.  The
flag of the result tells whether the function returns at once (`return`). -/
def process_reply (iss : IStringStream) (c : Client) : Client × Bool :=
  let result := iss.extract []
  let token_is := result.1.extract []
  if token_is.1.failbit = false ∧ str_toupper token_is.2 = ascii "IS" then
    let message_content := (token_is.1.getline []).2
    if str_toupper result.2 = ascii "NOK" then
      let c1 := c.cerr (ascii "Failure:" ++ message_content ++ ascii "\n")
      (process_client_messages { c1.pop_client_msg with waiting_on_reply := false }, false)
    else if str_toupper result.2 = ascii "OK" then
      let c1 := c.cerr (ascii "Success:" ++ message_content ++ ascii "\n")
      match c1.get_curr_msg with
      | none => ({ c1 with ub := true }, true)
      | some curr =>
          let c2 := if curr.get_type = .AUTH then ({ c1 with auth := true }).set_state .OPEN else c1
          (process_client_messages { c2.pop_client_msg with waiting_on_reply := false }, false)
    else (fail c "Unknown result", true)
  else (fail c "Invalid REPLY message", true)

/-- The loop of `TCPClient::process_server_messages`; the first argument is the
inbound queue of the client, which every round finds one frame shorter. -/
def process_server_messages_loop : List Str → Client → Client
  | [], c => c
  | msg_bytes :: rest, c0 =>
      let c : Client := { c0 with server_msg_queue := rest }
      if msg_bytes.isEmpty then process_server_messages_loop rest c
      else
        let first := (IStringStream.ofStr msg_bytes).extract []
        let iss := first.1
        let msg_type := str_toupper first.2
        if msg_type = ascii "REPLY" then
          if c.waiting_on_reply then
            let r := process_reply iss c
            if r.2 then r.1 else process_server_messages_loop rest r.1
          else process_server_messages_loop rest c
        else if msg_type = ascii "ERR" then
          match parse_from_is iss with
          | none => fail c "Invalid ERR message"
          | some (display_name, message_content) =>
              process_server_messages_loop rest
                { c.cerr (ascii "ERR FROM " ++ display_name ++ ascii ":" ++ message_content
                    ++ ascii "\n") with err_received := true }
        else if msg_type = ascii "MSG" then
          match parse_from_is iss with
          | none => fail c "Invalid MSG message"
          | some (display_name, message_content) =>
              process_server_messages_loop rest
                (c.cout (display_name ++ ascii ":" ++ message_content ++ ascii "\n"))
        else if msg_type = ascii "BYE" then
          process_server_messages_loop rest (c.set_state .END)
        else
          process_server_messages_loop rest (fail c "Unknown message type")

/-- The member `TCPClient::process_server_messages`. -/
def process_server_messages (c : Client) : Client :=
  process_server_messages_loop c.server_msg_queue c

end TCPClient

/-! ## UDPClient.cpp -/

namespace UDPClient

/-- The member `msgID_seen`. -/
def msgID_seen (c : Client) (msgID : Nat) : Bool := decide (msgID ∈ c.seen_msg_ids)

/-- The member `mark_msgID_as_seen`: insertion into a `set`. -/
def mark_msgID_as_seen (c : Client) (msgID : Nat) : Client :=
  { c with seen_msg_ids := if msgID ∈ c.seen_msg_ids then c.seen_msg_ids
                            else c.seen_msg_ids ++ [msgID] }

/-- The call `recvfrom(sock, buffer, BUFFER_SIZE, 0, &response_addr, ...)`: takes the
next result; a datagram overwrites `response_addr` with its source address. -/
def recvfrom (c : Client) : RecvResult × Client :=
  match c.net_in with
  | [] => (.error true, c)
  | .error timeout :: rest => (.error timeout, { c with net_in := rest })
  | .data src bytes :: rest => (.data src bytes, { c with net_in := rest, response_addr := src })

/-- The value of an element of `char buffer[]` after integral promotion, as a 32-bit
pattern: sign-extended where `char` is signed. -/
def char_to_int (char_is_signed : Bool) (b : Nat) : Nat :=
  if char_is_signed ∧ 0x80 ≤ b then 0xFFFFFF00 + b else b

/-- The expression `(this->buffer[1] << 8) | this->buffer[2]` of `send_msg`, converted
to `uint16_t`; `buffer` was zeroed before `bytes` was received into it. -/
def buffer_msgID (char_is_signed : Bool) (bytes : Str) : Nat :=
  u16 (((char_to_int char_is_signed (bytes.getD 1 0) <<< 8) % 2 ^ 32)
        ||| char_to_int char_is_signed (bytes.getD 2 0))

/-- The expression `(msg[1] << 8) | msg[2]` of `process_server_messages`, on a
`vector<uint8_t>` of at least three bytes, converted to `uint16_t`. -/
def vector_msgID (msg : Str) : Nat := u16 ((msg.getD 1 0 <<< 8) ||| msg.getD 2 0)

/-- One loop `while (idx < msg.size() && msg[idx] != 0) { str += msg[idx]; ++idx; }`
started at index `idx`: the string read. -/
def read_string (msg : Str) (idx : Nat) : Str := (msg.drop idx).takeWhile (fun b => b != 0)

/-- The two loops of the ERR and MSG branches, separated by `++idx`: the display name
and the message content. -/
def read_fields (msg : Str) : Str × Str :=
  let display_name := read_string msg 3
  (display_name, read_string msg (3 + display_name.length + 1))

/-- The error exit of the dispatcher: diagnostic, `error_msg`, `ERROR`. -/
def fail (c : Client) (what : String) : Client :=
  ({ c.cerr (ascii ("ERR: " ++ what ++ "\n")) with error_msg := ascii what }).set_state .ERROR

/-- The content the REPLY branch extracts: `string(msg.begin() + 6, msg.end())`. -/
def reply_content (msg : Str) : Str := msg.drop 6

/-- The REPLY case of the `switch` of `process_server_messages`. -/
def dispatch_reply (msg : Str) (c : Client) : Client :=
  if c.waiting_on_reply = false then c
  else if msg.length < 6 then { c with ub := true }
  else
    let ref_msgID := u16 ((msg.getD 4 0 <<< 8) ||| msg.getD 5 0)
    match c.get_curr_msg with
    | none => { c with ub := true }
    | some curr =>
        if curr.get_msgID ≠ ref_msgID then fail c "Received reply for wrong message"
        else
          let message_content := reply_content msg
          if msg.getD 3 0 = 0x00 then
            let c1 := c.cerr (ascii "Failure: " ++ message_content ++ ascii "\n")
            { c1.pop_client_msg with waiting_on_reply := false }
          else if msg.getD 3 0 = 0x01 then
            let c1 := c.cerr (ascii "Success: " ++ message_content ++ ascii "\n")
            let c2 := if curr.get_type = .AUTH then ({ c1 with auth := true }).set_state .OPEN
                      else c1
            { c2.pop_client_msg with waiting_on_reply := false }
          else fail c "Unknown reply type"

/-- The `switch (msg[0])` of `process_server_messages`. -/
def dispatch (msg : Str) (c : Client) : Client :=
  if msg.getD 0 0 = MessageType.REPLY.toByte then dispatch_reply msg c
  else if msg.getD 0 0 = MessageType.CONFIRM.toByte then c
  else if msg.getD 0 0 = MessageType.ERR.toByte then
    let fields := read_fields msg
    { c.cerr (ascii "ERR FROM " ++ fields.1 ++ ascii ": " ++ fields.2 ++ ascii "\n") with
      err_received := true }
  else if msg.getD 0 0 = MessageType.MSG.toByte then
    let fields := read_fields msg
    c.cout (fields.1 ++ ascii ": " ++ fields.2 ++ ascii "\n")
  else if msg.getD 0 0 = MessageType.BYE.toByte then c.set_state .END
  else fail c "Unknown message type"

/-- The body of one round of `process_server_messages` for a datagram of at least
three bytes at the front of the inbound queue, up to and including the CONFIRM it
sends: duplicate check, dispatch, `pop`, confirmation. -/
def handle_datagram (msg : Str) (c : Client) : Client :=
  let msgID := vector_msgID msg
  let c1 :=
    if msgID_seen c msgID = false ∨ msg.getD 0 0 = MessageType.CONFIRM.toByte then
      dispatch msg
        (if msg.getD 0 0 ≠ MessageType.CONFIRM.toByte then mark_msgID_as_seen c msgID else c)
    else c
  let c2 : Client := { c1 with server_msg_queue := c1.server_msg_queue.tail }
  if msg.getD 0 0 ≠ MessageType.CONFIRM.toByte then
    c2.emit (.sendto c2.response_addr (Message.MsgCONFIRM msgID).UDP_msg)
  else c2

mutual

/-- The top of the loop `while (!confirmed)` of `send_msg`: the message is sent, to
`server_addr` in state `START` and to `response_addr` otherwise.  `none`: the fuel
ran out. -/
def send_loop : Nat → Message → Int → Client → Option Client
  | 0, _, _, _ => none
  | fuel + 1, msg, retransmissions, c =>
      let dest := if c.state = .START then c.server_addr else c.response_addr
      wait_loop fuel msg retransmissions (c.emit (.sendto dest msg.UDP_msg))

/-- The top of the loop `while (!retransmit)` of `send_msg`: one `recvfrom` and what
follows from its result. -/
def wait_loop : Nat → Message → Int → Client → Option Client
  | 0, _, _, _ => none
  | fuel + 1, msg, retransmissions, c0 =>
      match recvfrom c0 with
      | (.error timeout, c) =>
          if timeout = true ∧ retransmissions < c.max_retransmissions then
            send_loop fuel msg (retransmissions + 1) c
          else some (c.set_state .END)
      | (.data _ bytes, c) =>
          if bytes.getD 0 0 = MessageType.CONFIRM.toByte then
            if buffer_msgID c.char_is_signed bytes ≠ msg.get_msgID then
              wait_loop fuel msg retransmissions c
            else
              let c1 := if msg.get_type = .BYE then c.set_state .END else c
              some (if c1.state = .START then c1.set_state .AUTHENTICATE else c1)
          else
            match process_server_messages fuel (c.push_server_msg bytes) with
            | none => none
            | some c1 => if c1.ub then some c1 else wait_loop fuel msg retransmissions c1

/-- The loop of `UDPClient::process_client_messages`. -/
def process_client_messages : Nat → Client → Option Client
  | 0, _ => none
  | fuel + 1, c =>
      if c.waiting_on_reply then some c
      else
        match c.client_msg_queue with
        | [] => some c
        | none :: rest => process_client_messages fuel { c with client_msg_queue := rest }
        | some msg :: rest =>
            let popped : Client := { c with client_msg_queue := rest }
            if msg.get_type ≠ .AUTH ∧ c.auth = false then
              process_client_messages fuel
                (popped.cerr (ascii "ERR: You need to authenticate first\n"))
            else if (msg.get_type = .MSG ∨ msg.get_type = .JOIN) ∧ c.state ≠ .OPEN then
              process_client_messages fuel
                (popped.cerr (ascii "ERR: Cannot send message in non-open state\n"))
            else if msg.get_type = .AUTH ∧ c.auth = true then
              process_client_messages fuel
                (popped.cerr (ascii "ERR: No need to authenticate, already authenticated\n"))
            else
              match send_loop fuel msg 0 c with
              | none => none
              | some sent =>
                  if sent.ub then some sent
                  else if msg.get_type = .AUTH ∨ msg.get_type = .JOIN then
                    process_client_messages fuel { sent with waiting_on_reply := true }
                  else
                    let c1 := sent.pop_client_msg
                    if c1.ub then some c1 else process_client_messages fuel c1

/-- The loop of `UDPClient::process_server_messages`. -/
def process_server_messages : Nat → Client → Option Client
  | 0, _ => none
  | fuel + 1, c =>
      match c.server_msg_queue with
      | [] => some c
      | msg :: rest =>
          if msg.length < 3 then
            process_server_messages fuel { c with server_msg_queue := rest }
          else
            let c1 := handle_datagram msg c
            if c1.ub then some c1
            else if msg.getD 0 0 = MessageType.REPLY.toByte ∧ c1.state ≠ .ERROR then
              match process_client_messages fuel c1 with
              | none => none
              | some c2 => if c2.ub then some c2 else process_server_messages fuel c2
            else process_server_messages fuel c1

end

/-- The member `UDPClient::send_msg`: the loop entered with `retransmissions = 0`. -/
def send_msg (fuel : Nat) (msg : Message) (c : Client) : Option Client :=
  send_loop fuel msg 0 c

/-- The member `UDPClient::receive_msg`. -/
def receive_msg (c0 : Client) : Client :=
  match recvfrom c0 with
  | (.error _, c) => c.cerr (ascii "ERR: Failed to receive message\n")
  | (.data _ bytes, c) => c.push_server_msg bytes

end UDPClient

/-! ## main.cpp -/

/-- The exit status of `main`. -/
inductive ExitCode
  | EXIT_SUCCESS | EXIT_FAILURE
  deriving DecidableEq, Repr

/-- The virtual members of `Client` that `main` calls, as one of the two clients
implements them; `none`: the fuel of the UDP loops ran out.  The argument of
`receive_msg` is what `recv` returned (the UDP client takes its datagram from
`net_in` instead). -/
structure Transport where
  send_msg : Message → Client → Option Client
  receive_msg : Option Str → Client → Client
  process_client_messages : Client → Option Client
  process_server_messages : Client → Option Client

/-- The members of `TCPClient`. -/
def TCPClient.transport : Transport :=
  { send_msg := fun msg c => some (TCPClient.send_msg msg c)
    receive_msg := TCPClient.receive_msg
    process_client_messages := fun c => some (TCPClient.process_client_messages c)
    process_server_messages := fun c => some (TCPClient.process_server_messages c) }

/-- The members of `UDPClient`, their loops run on `fuel`. -/
def UDPClient.transport (fuel : Nat) : Transport :=
  { send_msg := UDPClient.send_msg fuel
    receive_msg := fun _ c => UDPClient.receive_msg c
    process_client_messages := UDPClient.process_client_messages fuel
    process_server_messages := UDPClient.process_server_messages fuel }

/-- What one call of `poll` in the loop of `main` reports, with what the reads that
follow return: interrupted by SIGINT (the handler has set `interrupt`, `errno` is
`EINTR`); failed otherwise; or ready, with the line `getline(cin, line)` reads and the
value of `cin.eof()` after it when stdin is readable, and with the result of `recv`
when the socket is readable. -/
inductive PollResult
  | sigint
  | failed
  | ready (stdin : Option (Str × Bool)) (sock : Option (Option Str))
  deriving DecidableEq, Repr

/-- The variables of `main`: the client, the input handler and the flag `interrupt`. -/
structure MainState where
  client : Client
  input_handler : InputHandler
  interrupt : Bool
  deriving DecidableEq, Repr

/-- The condition of the main loop. -/
def loop_condition (s : MainState) : Bool :=
  decide (s.client.state ≠ .ERROR_EXIT) && decide (s.client.state ≠ .ERROR)
    && !s.client.err_received && !s.interrupt && decide (s.client.state ≠ .END)

/-- One call `input_handler->handle_input(line)` of `main` with what the handler
prints; the message returned is pushed if it is not null. -/
def feed_line (line : Str) (s : MainState) : MainState :=
  let r := s.input_handler.handle_input line
  let c1 : Client := { s.client with out := s.client.out ++ r.out }
  { s with
    client := match r.msg with
      | some msg => c1.push_client_msg (some msg)
      | none => c1
    input_handler := r.handler }

/-- The statements of `main` for a readable stdin, behind the test for `/exit` in
state `START`: the line is handled, and at end of input `/exit` is handled after it
and what it returns is pushed. -/
def read_stdin (line : Str) (eof : Bool) (s : MainState) : MainState :=
  let s1 := feed_line line s
  if eof then
    let r := s1.input_handler.handle_input (ascii "/exit")
    { s1 with
      client := ({ s1.client with out := s1.client.out ++ r.out } : Client).push_client_msg r.msg
      input_handler := r.handler }
  else s1

/-- The main loop over the results of the calls of `poll`.  The flag of the result
tells whether the loop was left; it is false when the results are used up with the
loop condition still true (`poll` waits indefinitely), and when the client ran into
undefined behaviour. -/
def main_loop (t : Transport) : List PollResult → MainState → Option (MainState × Bool)
  | [], s => some (s, !loop_condition s)
  | p :: ps, s =>
      if loop_condition s = false then some (s, true)
      else
        match p with
        | .sigint => main_loop t ps { s with interrupt := true }
        | .failed =>
            some ({ s with
                    client := ({ s.client with error_msg := ascii "poll()" } : Client).cerr
                      (ascii "ERR: poll\n") |>.set_state .ERROR }, true)
        | .ready stdin sock =>
            if stdin.map Prod.fst = some (ascii "/exit") ∧ s.client.state = .START then
              some (s, true)
            else
              let s1 := match stdin with
                | some (line, eof) => read_stdin line eof s
                | none => s
              let s2 := match sock with
                | some rx => { s1 with client := t.receive_msg rx s1.client }
                | none => s1
              match t.process_client_messages s2.client with
              | none => none
              | some c3 =>
                  if c3.ub then some ({ s2 with client := c3 }, false)
                  else
                    match t.process_server_messages c3 with
                    | none => none
                    | some c4 =>
                        if c4.ub then some ({ s2 with client := c4 }, false)
                        else main_loop t ps { s2 with client := c4 }

/-- The statements of `main` behind the loop: in state `ERROR` an ERR with the display
name of the handler, `error_msg` and the counter of the handler is sent and the
counter incremented; then a BYE is sent in state `ERROR`, after an ERR of the server,
and after an interrupt outside state `START`. -/
def shutdown (t : Transport) (s : MainState) : Option MainState :=
  let s1 : Option MainState :=
    if s.client.state = .ERROR then
      (t.send_msg (.MsgERR s.input_handler.display_name s.client.error_msg
          s.input_handler.msgID_sent) s.client).map
        (fun c => { s with client := c, input_handler := s.input_handler.inc_msgID_sent })
    else some s
  s1.bind fun s1 =>
    if s1.client.state = .ERROR ∨ s1.client.err_received = true
        ∨ (s1.interrupt = true ∧ s1.client.state ≠ .START) then
      (t.send_msg (.MsgBYE s1.input_handler.msgID_sent) s1.client).map
        (fun c => { s1 with client := c })
    else some s1

/-- The value `main` returns. -/
def exit_code (c : Client) : ExitCode :=
  if c.state = .ERROR ∨ c.state = .ERROR_EXIT ∨ c.err_received = true then .EXIT_FAILURE
  else .EXIT_SUCCESS

/-- The function `main` from the main loop on, started with the variables `s`: the
variables at the end and the exit status, which is `none` while the loop has not been
left. -/
def run_main (t : Transport) (events : List PollResult) (s : MainState) :
    Option (MainState × Option ExitCode) :=
  match main_loop t events s with
  | none => none
  | some (s1, false) => some (s1, none)
  | some (s1, true) =>
      match shutdown t s1 with
      | none => none
      | some s2 => some (s2, some (exit_code s2.client))

/-- The function `main` for a client whose construction succeeded. -/
def main (t : Transport) (events : List PollResult) (c : Client) :
    Option (MainState × Option ExitCode) :=
  run_main t events ⟨c, InputHandler.new, false⟩

/-! ## Definitions used to state the properties -/

/-- The fields the MSG and ERR branches of `TCPClient::process_server_messages` parse
out of a frame: the first token is extracted, then `parse_from_is` runs on the rest. -/
def TCPClient.frame_fields (frame : Str) : Option (Str × Str) :=
  TCPClient.parse_from_is ((IStringStream.ofStr frame).extract []).1

/-- The command word `handle_input` reads from what follows the slash of a line. -/
def command_word (rest : Str) : Str := ((IStringStream.ofStr rest).extract []).2

/-- The vector `args` that `handle_input` reads behind the command word. -/
def command_args (rest : Str) : List Str :=
  read_args (((IStringStream.ofStr rest).extract []).1.buf.length + 1)
    ((IStringStream.ofStr rest).extract []).1 [] []

/-- The words of a string, scanned from left to right: `cur` is the word being read,
whitespace ends it. -/
def words_from : Str → Str → List Str
  | cur, [] => if cur.isEmpty then [] else [cur]
  | cur, c :: cs =>
      if isspace c then (if cur.isEmpty then words_from [] cs else cur :: words_from [] cs)
      else words_from (cur ++ [c]) cs

/-- The whitespace-separated words of a string, in order. -/
def words (s : Str) : List Str := words_from [] s

/-- The MessageIDs of the messages a fresh handler returns for a sequence of lines. -/
def returned_ids (lines : List Str) : List Nat :=
  (InputHandler.new.run lines).2.map Message.get_msgID

/-- A byte of the class `[A-Za-z0-9-]`. -/
def is_alnum_dash (b : Nat) : Prop :=
  (0x41 ≤ b ∧ b ≤ 0x5A) ∨ (0x61 ≤ b ∧ b ≤ 0x7A) ∨ (0x30 ≤ b ∧ b ≤ 0x39) ∨ b = 0x2D

instance (b : Nat) : Decidable (is_alnum_dash b) :=
  inferInstanceAs (Decidable
    ((0x41 ≤ b ∧ b ≤ 0x5A) ∨ (0x61 ≤ b ∧ b ≤ 0x7A) ∨ (0x30 ≤ b ∧ b ≤ 0x39) ∨ b = 0x2D))

/-- A username or channel id of the specification: `[A-Za-z0-9-]{1,20}`. -/
def valid_username (s : Str) : Prop :=
  1 ≤ s.length ∧ s.length ≤ 20 ∧ ∀ b ∈ s, is_alnum_dash b

instance (s : Str) : Decidable (valid_username s) :=
  inferInstanceAs (Decidable (1 ≤ s.length ∧ s.length ≤ 20 ∧ ∀ b ∈ s, is_alnum_dash b))

/-- A secret of the specification: `[A-Za-z0-9-]{1,128}`. -/
def valid_secret (s : Str) : Prop :=
  1 ≤ s.length ∧ s.length ≤ 128 ∧ ∀ b ∈ s, is_alnum_dash b

instance (s : Str) : Decidable (valid_secret s) :=
  inferInstanceAs (Decidable (1 ≤ s.length ∧ s.length ≤ 128 ∧ ∀ b ∈ s, is_alnum_dash b))

/-- A display name of the specification: 1 to 20 bytes in 0x21-0x7E. -/
def valid_display_name (s : Str) : Prop :=
  1 ≤ s.length ∧ s.length ≤ 20 ∧ ∀ b ∈ s, 0x21 ≤ b ∧ b ≤ 0x7E

instance (s : Str) : Decidable (valid_display_name s) :=
  inferInstanceAs (Decidable (1 ≤ s.length ∧ s.length ≤ 20 ∧ ∀ b ∈ s, 0x21 ≤ b ∧ b ≤ 0x7E))

/-- A message content of the specification: 1 to 1400 bytes in 0x20-0x7E. -/
def valid_content (s : Str) : Prop :=
  1 ≤ s.length ∧ s.length ≤ 1400 ∧ ∀ b ∈ s, 0x20 ≤ b ∧ b ≤ 0x7E

instance (s : Str) : Decidable (valid_content s) :=
  inferInstanceAs (Decidable (1 ≤ s.length ∧ s.length ≤ 1400 ∧ ∀ b ∈ s, 0x20 ≤ b ∧ b ≤ 0x7E))

/-- The display name a command with the given words sets: the third argument of an
`auth` with three valid arguments, the argument of a `rename` with one valid argument. -/
def name_of_words : List Str → Option Str
  | [command, username, secret, display_name] =>
      if command = ascii "auth" ∧ valid_username username ∧ valid_secret secret
          ∧ valid_display_name display_name then some display_name
      else none
  | [command, display_name] =>
      if command = ascii "rename" ∧ valid_display_name display_name then some display_name
      else none
  | _ => none

/-- The display name a line sets, if it is a valid `/auth` or `/rename`. -/
def name_set_by (line : Str) : Option Str :=
  if line.head? = some 0x2F then name_of_words (words line.tail) else none

/-- The display name set by the most recent valid `/auth` or `/rename` of a sequence
of lines; the empty string of a fresh handler when there is none. -/
def current_name (lines : List Str) : Str :=
  ((lines.filterMap name_set_by).getLast?).getD []

/-- The diagnostics `process_client_messages` prints when it drops every message of a
queue before authentication: one per message, none for a null pointer. -/
def unauthenticated_errors (queue : List (Option Message)) : List Output :=
  queue.filterMap
    (fun front => front.map (fun _ => Output.cerr (ascii "ERR: You need to authenticate first\n")))

/-- The head messages `process_client_messages` hands to `send_msg`: an AUTH before
authentication; after it, every message that is not an AUTH, a MSG or a JOIN in any
state, and a MSG or a JOIN in state `OPEN`. -/
def admissible (msg : Message) (c : Client) : Prop :=
  (msg.get_type = .AUTH ∧ c.auth = false)
  ∨ (c.auth = true ∧ msg.get_type ≠ .AUTH
      ∧ ((msg.get_type ≠ .MSG ∧ msg.get_type ≠ .JOIN) ∨ c.state = .OPEN))

instance (msg : Message) (c : Client) : Decidable (admissible msg c) :=
  inferInstanceAs (Decidable
    ((msg.get_type = .AUTH ∧ c.auth = false)
      ∨ (c.auth = true ∧ msg.get_type ≠ .AUTH
          ∧ ((msg.get_type ≠ .MSG ∧ msg.get_type ≠ .JOIN) ∨ c.state = .OPEN))))

/-- The diagnostic `process_client_messages` prints when it drops a head message. -/
def drop_diagnostic (msg : Message) (c : Client) : Str :=
  if msg.get_type ≠ .AUTH ∧ c.auth = false then ascii "ERR: You need to authenticate first\n"
  else if (msg.get_type = .MSG ∨ msg.get_type = .JOIN) ∧ c.state ≠ .OPEN then
    ascii "ERR: Cannot send message in non-open state\n"
  else ascii "ERR: No need to authenticate, already authenticated\n"

/-- The scan that cuts a byte stream at every CR LF, from the left: `cur` holds the
bytes read of the segment at hand, `skip` tells that the next byte is the LF of a
delimiter.  The result is the list of the segments ended by a delimiter, without
their delimiters and in order, and the bytes behind the last delimiter. -/
def segments_from (cur : Str) (skip : Bool) : Str → List Str × Str
  | [] => ([], cur)
  | c :: rest =>
      if skip then segments_from cur false rest
      else if c = 0x0D ∧ rest.head? = some 0x0A then
        let r := segments_from [] true rest
        (cur :: r.1, r.2)
      else segments_from (cur ++ [c]) false rest

/-- The CRLF-terminated segments of a byte stream, delimiters stripped, and the bytes
behind the last CR LF. -/
def segments (stream : Str) : List Str × Str := segments_from [] false stream

/-- A byte stream put together again from its segments and the bytes behind them. -/
def unsegment (frames : List Str) (tail : Str) : Str :=
  frames.foldr (fun frame acc => frame ++ [0x0D, 0x0A] ++ acc) tail

/-- The member `TCPClient::receive_msg` called once for every read of a sequence of
reads, `recv` returning the bytes of the read. -/
def TCPClient.receive_all (reads : List Str) (c : Client) : Client :=
  reads.foldl (fun c bytes => TCPClient.receive_msg (some bytes) c) c

/-- A frame with the first tokens written in upper case where `mask` says so, one
entry of `mask` per token; whitespace, the other tokens and everything behind the
tokens of `mask` stay as they are. -/
def fold_tokens : List Bool → Str → Str
  | [], a => a
  | kw :: mask, a =>
      a.takeWhile isspace
        ++ (if kw then str_toupper ((a.dropWhile isspace).takeWhile (fun x => !isspace x))
            else (a.dropWhile isspace).takeWhile (fun x => !isspace x))
        ++ fold_tokens mask ((a.dropWhile isspace).dropWhile (fun x => !isspace x))

/-- Which of the first tokens of an inbound TCP frame are keywords: in a REPLY the
type, the result and `IS`; in an ERR and a MSG the type, `FROM` and `IS`, but not the
display name between them; in every other frame the type. -/
def keyword_mask (frame : Str) : List Bool :=
  let msg_type := str_toupper ((frame.dropWhile isspace).takeWhile (fun x => !isspace x))
  if msg_type = ascii "REPLY" then [true, true, true]
  else if msg_type = ascii "ERR" ∨ msg_type = ascii "MSG" then [true, true, false, true]
  else [true]

/-- An inbound TCP frame with its keyword tokens written in upper case. -/
def fold_keywords (frame : Str) : Str := fold_tokens (keyword_mask frame) frame

/-- Two streams that agree up to the letter case of the coming tokens marked in
`mask`: the state bits are equal and, unless an operation has failed or hit the end,
the second holds the characters of the first with those tokens in upper case. -/
def stream_variant (mask : List Bool) (s t : IStringStream) : Prop :=
  s.eofbit = t.eofbit ∧ s.failbit = t.failbit
    ∧ (s.good = true → t.buf = fold_tokens mask s.buf)

/-- The body of one round of the loop of `TCPClient::process_server_messages` for a
frame that is not empty, behind `pop`: the client after the round, and whether the
function returns at once (`return`). -/
def TCPClient.handle_frame (msg_bytes : Str) (c : Client) : Client × Bool :=
  let first := (IStringStream.ofStr msg_bytes).extract []
  let iss := first.1
  let msg_type := str_toupper first.2
  if msg_type = ascii "REPLY" then
    if c.waiting_on_reply then TCPClient.process_reply iss c else (c, false)
  else if msg_type = ascii "ERR" then
    match TCPClient.parse_from_is iss with
    | none => (TCPClient.fail c "Invalid ERR message", true)
    | some (display_name, message_content) =>
        ({ c.cerr (ascii "ERR FROM " ++ display_name ++ ascii ":" ++ message_content
              ++ ascii "\n") with err_received := true }, false)
  else if msg_type = ascii "MSG" then
    match TCPClient.parse_from_is iss with
    | none => (TCPClient.fail c "Invalid MSG message", true)
    | some (display_name, message_content) =>
        (c.cout (display_name ++ ascii ":" ++ message_content ++ ascii "\n"), false)
  else if msg_type = ascii "BYE" then (c.set_state .END, false)
  else (TCPClient.fail c "Unknown message type", false)

/-- A client that is not authenticated, is not in state `AUTHENTICATE` and has no AUTH
in its outbound queue. -/
def cannot_authenticate (c : Client) : Prop :=
  c.auth = false ∧ c.state ≠ .AUTHENTICATE
    ∧ ∀ x ∈ c.client_msg_queue, x.map Message.get_type ≠ some .AUTH

instance (c : Client) : Decidable (cannot_authenticate c) :=
  inferInstanceAs (Decidable
    (c.auth = false ∧ c.state ≠ .AUTHENTICATE
      ∧ ∀ x ∈ c.client_msg_queue, x.map Message.get_type ≠ some .AUTH))

/-- The first token of a frame: the stream behind `iss >> msg_type` and the token
read. -/
def TCPClient.token1 (frame : Str) : IStringStream × Str :=
  (IStringStream.ofStr frame).extract []

/-- The second token of a frame, read by the next `iss >> token`. -/
def TCPClient.token2 (frame : Str) : IStringStream × Str :=
  (TCPClient.token1 frame).1.extract []

/-- The third token of a frame. -/
def TCPClient.token3 (frame : Str) : IStringStream × Str :=
  (TCPClient.token2 frame).1.extract []

/-- The fourth token of a frame. -/
def TCPClient.token4 (frame : Str) : IStringStream × Str :=
  (TCPClient.token3 frame).1.extract []

/-- The condition `iss >> token && str_toupper(token) == kw` on what the extraction
returned. -/
def TCPClient.is_keyword (t : IStringStream × Str) (kw : String) : Prop :=
  t.1.failbit = false ∧ str_toupper t.2 = ascii kw

instance (t : IStringStream × Str) (kw : String) : Decidable (TCPClient.is_keyword t kw) :=
  inferInstanceAs (Decidable (t.1.failbit = false ∧ str_toupper t.2 = ascii kw))

/-- The condition of the specification under which a head message is handed to
`send_msg`: an AUTH before authentication; after it, every message but an AUTH if it
is a BYE or an ERR or the state is `OPEN`. -/
def spec_admissible (msg : Message) (c : Client) : Prop :=
  (msg.get_type = .AUTH ∧ c.auth = false)
  ∨ (c.auth = true ∧ msg.get_type ≠ .AUTH
      ∧ ((msg.get_type = .BYE ∨ msg.get_type = .ERR) ∨ c.state = .OPEN))

instance (msg : Message) (c : Client) : Decidable (spec_admissible msg c) :=
  inferInstanceAs (Decidable
    ((msg.get_type = .AUTH ∧ c.auth = false)
      ∨ (c.auth = true ∧ msg.get_type ≠ .AUTH
          ∧ ((msg.get_type = .BYE ∨ msg.get_type = .ERR) ∨ c.state = .OPEN))))

/-- An outbound queue that holds no CONFIRM. -/
def no_confirm_queued (c : Client) : Prop :=
  ∀ x ∈ c.client_msg_queue, x.map Message.get_type ≠ some .CONFIRM

instance (c : Client) : Decidable (no_confirm_queued c) :=
  inferInstanceAs (Decidable
    (∀ x ∈ c.client_msg_queue, x.map Message.get_type ≠ some .CONFIRM))

/-! # Theorems -/

/-! ## Arithmetic of the two MessageID bytes -/

theorem u8_hi_byte (id : Nat) (hid : id < 65536) : u8 (u16 id >>> 8) = id >>> 8 := by
  have h : id >>> 8 < 256 := by
    rw [Nat.shiftRight_eq_div_pow]
    omega
  simp only [u8, u16, Nat.mod_eq_of_lt hid, Nat.mod_eq_of_lt h]

theorem and_0xFF (n : Nat) : n &&& 0xFF = n % 256 :=
  Nat.and_pow_two_sub_one_eq_mod n 8

theorem u8_lo_byte (id : Nat) (hid : id < 65536) : u8 (u16 id &&& 0xFF) = id &&& 0xFF := by
  simp only [u8, u16, Nat.mod_eq_of_lt hid, and_0xFF, Nat.mod_mod]

theorem UDP_header_eq (m : Message) (id : Nat) (hid : id < 65536) (h : m.get_msgID = u16 id) :
    m.UDP_header = [m.get_type.toByte, id >>> 8, id &&& 0xFF] := by
  simp only [Message.UDP_header, h, u8_hi_byte id hid, u8_lo_byte id hid]

/-! ## C1, C2: the two wire encodings -/

/-- C1: for every MessageID `id` in 0..65535 and all field strings, `UDP_msg` is the
type byte, the two bytes `id >> 8` and `id & 0xFF` (the high and the low byte of `id`,
that is network byte order), and then the fields of the variant, each followed by one
zero byte, in the order username, display name, secret for AUTH, channel, display
name for JOIN and display name, content for MSG and ERR. -/
theorem UDP_msg_layout (id : Nat) (hid : id < 65536)
    (username secret display_name channel_id content : Str) :
    (Message.MsgCONFIRM id).UDP_msg = [0x00, id >>> 8, id &&& 0xFF]
    ∧ (Message.MsgBYE id).UDP_msg = [0xFF, id >>> 8, id &&& 0xFF]
    ∧ (Message.MsgAUTH username secret display_name id).UDP_msg
        = [0x02, id >>> 8, id &&& 0xFF] ++ username ++ [0] ++ display_name ++ [0]
            ++ secret ++ [0]
    ∧ (Message.MsgJOIN channel_id display_name id).UDP_msg
        = [0x03, id >>> 8, id &&& 0xFF] ++ channel_id ++ [0] ++ display_name ++ [0]
    ∧ (Message.MsgMSG display_name content id).UDP_msg
        = [0x04, id >>> 8, id &&& 0xFF] ++ display_name ++ [0] ++ content ++ [0]
    ∧ (Message.MsgERR display_name content id).UDP_msg
        = [0xFE, id >>> 8, id &&& 0xFF] ++ display_name ++ [0] ++ content ++ [0]
    ∧ id >>> 8 = id / 256 ∧ id &&& 0xFF = id % 256 := by
  refine ⟨?_, ?_, ?_, ?_, ?_, ?_, ?_, and_0xFF id⟩
  · rw [Message.UDP_msg, UDP_header_eq (.MsgCONFIRM id) id hid rfl]; rfl
  · rw [Message.UDP_msg, UDP_header_eq (.MsgBYE id) id hid rfl]; rfl
  · rw [Message.UDP_msg, UDP_header_eq (.MsgAUTH username secret display_name id) id hid rfl]; rfl
  · rw [Message.UDP_msg, UDP_header_eq (.MsgJOIN channel_id display_name id) id hid rfl]; rfl
  · rw [Message.UDP_msg, UDP_header_eq (.MsgMSG display_name content id) id hid rfl]; rfl
  · rw [Message.UDP_msg, UDP_header_eq (.MsgERR display_name content id) id hid rfl]; rfl
  · exact Nat.shiftRight_eq_div_pow id 8

/-- Witness of C1 at `id = 0x1234` with one-letter fields. -/
theorem UDP_msg_layout_witness :
    0x1234 < 65536
    ∧ (Message.MsgAUTH [0x75] [0x73] [0x64] 0x1234).UDP_msg
        = [0x02, 0x1234 >>> 8, 0x1234 &&& 0xFF] ++ [0x75] ++ [0] ++ [0x64] ++ [0] ++ [0x73] ++ [0] :=
  ⟨by decide, (UDP_msg_layout 0x1234 (by decide) [0x75] [0x73] [0x64] [0x63] [0x78]).2.2.1⟩

/-- C2: for all field strings, `TCP_msg` is the keyword frame of the variant, written
with the literal uppercase keywords, and ends with CR LF. -/
theorem TCP_msg_layout (username secret display_name channel_id content : Str) (id : Nat) :
    (Message.MsgAUTH username secret display_name id).TCP_msg
        = ascii "AUTH " ++ username ++ ascii " AS " ++ display_name ++ ascii " USING "
            ++ secret ++ ascii "\r\n"
    ∧ (Message.MsgJOIN channel_id display_name id).TCP_msg
        = ascii "JOIN " ++ channel_id ++ ascii " AS " ++ display_name ++ ascii "\r\n"
    ∧ (Message.MsgMSG display_name content id).TCP_msg
        = ascii "MSG FROM " ++ display_name ++ ascii " IS " ++ content ++ ascii "\r\n"
    ∧ (Message.MsgERR display_name content id).TCP_msg
        = ascii "ERR FROM " ++ display_name ++ ascii " IS " ++ content ++ ascii "\r\n"
    ∧ (Message.MsgBYE id).TCP_msg = ascii "BYE\r\n"
    ∧ (∀ m : Message, m.get_type ≠ .CONFIRM → ∃ body, m.TCP_msg = body ++ [0x0D, 0x0A])
    ∧ (∀ k ∈ [ascii "AUTH ", ascii " AS ", ascii " USING ", ascii "JOIN ", ascii "MSG FROM ",
               ascii " IS ", ascii "ERR FROM ", ascii "BYE\r\n"], str_toupper k = k) := by
  refine ⟨rfl, rfl, rfl, rfl, rfl, ?_, by decide⟩
  intro m hm
  have hcrlf : ascii "\r\n" = [0x0D, 0x0A] := by decide
  cases m with
  | MsgCONFIRM i => exact absurd rfl hm
  | MsgAUTH u s d i => exact ⟨_, by rw [Message.TCP_msg, hcrlf]⟩
  | MsgJOIN ch d i => exact ⟨_, by rw [Message.TCP_msg, hcrlf]⟩
  | MsgMSG d ct i => exact ⟨_, by rw [Message.TCP_msg, hcrlf]⟩
  | MsgERR d ct i => exact ⟨_, by rw [Message.TCP_msg, hcrlf]⟩
  | MsgBYE i => exact ⟨ascii "BYE", by rw [Message.TCP_msg]; decide⟩

/-! ## The stream operations on tokens -/

theorem dropWhile_isspace_token (ws w tail : Str) (hws : ∀ b ∈ ws, isspace b = true)
    (hw : ∀ b ∈ w, isspace b = false) (hne : w ≠ []) :
    (ws ++ w ++ tail).dropWhile isspace = w ++ tail := by
  rw [List.append_assoc, List.dropWhile_append_of_pos hws]
  cases w with
  | nil => exact absurd rfl hne
  | cons a w1 =>
      have ha : isspace a = false := hw a (List.mem_cons_self a w1)
      simp [List.dropWhile_cons, ha]

theorem takeWhile_token (w : Str) (s : Nat) (rest : Str) (hw : ∀ b ∈ w, isspace b = false)
    (hs : isspace s = true) :
    (w ++ s :: rest).takeWhile (fun x => !isspace x) = w := by
  induction w with
  | nil => simp [List.takeWhile_cons, hs]
  | cons a w1 ih =>
      have ha : isspace a = false := hw a (List.mem_cons_self a w1)
      have ih1 := ih (fun b hb => hw b (List.mem_cons_of_mem a hb))
      simp [List.takeWhile_cons, ha, ih1]

theorem dropWhile_token (w : Str) (s : Nat) (rest : Str) (hw : ∀ b ∈ w, isspace b = false)
    (hs : isspace s = true) :
    (w ++ s :: rest).dropWhile (fun x => !isspace x) = s :: rest := by
  induction w with
  | nil => simp [List.dropWhile_cons, hs]
  | cons a w1 ih =>
      have ha : isspace a = false := hw a (List.mem_cons_self a w1)
      have ih1 := ih (fun b hb => hw b (List.mem_cons_of_mem a hb))
      simp [List.dropWhile_cons, ha, ih1]

/-- Extraction of a token that is followed by whitespace: leading whitespace is
skipped, the token is returned and the stream stays good, positioned on the
whitespace after the token. -/
theorem extract_token (ws w : Str) (s : Nat) (rest str : Str)
    (hws : ∀ b ∈ ws, isspace b = true) (hw : ∀ b ∈ w, isspace b = false) (hne : w ≠ [])
    (hs : isspace s = true) :
    (IStringStream.mk (ws ++ w ++ s :: rest) false false).extract str
      = (⟨s :: rest, false, false⟩, w) := by
  have h1 := dropWhile_isspace_token ws w (s :: rest) hws hw hne
  cases w with
  | nil => exact absurd rfl hne
  | cons a w1 =>
      have h2 := takeWhile_token (a :: w1) s rest hw hs
      have h3 := dropWhile_token (a :: w1) s rest hw hs
      simp only [List.cons_append] at h1 h2 h3
      simp only [IStringStream.extract, IStringStream.good, h1, List.cons_append, h2, h3]
      simp

/-- The rest of a line without a line feed, read by `getline` from a good stream: all
of it, the first character included. -/
theorem getline_rest (a : Nat) (l str : Str) (h : ∀ b ∈ a :: l, b ≠ 0x0A) :
    (IStringStream.mk (a :: l) false false).getline str = (⟨[], true, false⟩, a :: l) := by
  have hd : (a :: l).dropWhile (fun x => x != 0x0A) = [] := by
    rw [List.dropWhile_eq_nil_iff]
    intro b hb
    simpa using h b hb
  simp only [IStringStream.getline, IStringStream.good, hd]
  simp

/-! ## C3: a MSG or ERR frame through the TCP framing and parser -/

theorem search_delimiter_first (l rest : Str) (h : ∀ b ∈ l, b ≠ 0x0D) :
    TCPClient.search_delimiter (l ++ 0x0D :: 0x0A :: rest) = some l.length := by
  induction l with
  | nil => simp [TCPClient.search_delimiter]
  | cons a l1 ih =>
      have ha : a ≠ 0x0D := h a (List.mem_cons_self a l1)
      have ih1 := ih (fun b hb => h b (List.mem_cons_of_mem a hb))
      simp [TCPClient.search_delimiter, ha, ih1]

/-- One frame terminated by CR LF, received into an empty accumulator: the frame is
pushed to the inbound queue without its delimiter and the accumulator is empty again. -/
theorem receive_msg_one_frame (body : Str) (c : Client) (h : ∀ b ∈ body, b ≠ 0x0D)
    (hacc : c.received = []) :
    TCPClient.receive_msg (some (body ++ [0x0D, 0x0A])) c
      = { c with server_msg_queue := c.server_msg_queue ++ [body], received := [] } := by
  have hs := search_delimiter_first body [] h
  have hlen : (body ++ [0x0D, 0x0A]).length = (body.length + 1) + 1 := by simp
  simp only [TCPClient.receive_msg, hacc, List.nil_append, hlen, TCPClient.extract_frames, hs,
    Client.push_server_msg]
  simp [TCPClient.extract_frames, TCPClient.search_delimiter]

theorem isspace_false_of_graph (b : Nat) (h : 0x21 ≤ b ∧ b ≤ 0x7E) : isspace b = false := by
  simp only [isspace, Bool.or_eq_false_iff, beq_eq_false_iff_ne, Bool.and_eq_false_iff,
    decide_eq_false_iff_not]
  omega

/-- The statements after the first token, on the rest of a frame built by `TCP_msg`:
the display name is read back, and the content is read back behind the blank that
separates it from `IS`. -/
theorem parse_from_is_encoded (d ct : Str) (hd : ∀ b ∈ d, 0x21 ≤ b ∧ b ≤ 0x7E) (hd1 : d ≠ [])
    (hct : ∀ b ∈ ct, 0x20 ≤ b ∧ b ≤ 0x7E) :
    TCPClient.parse_from_is ⟨ascii " FROM " ++ d ++ ascii " IS " ++ ct, false, false⟩
      = some (d, 0x20 :: ct) := by
  have hdsp : ∀ b ∈ d, isspace b = false := fun b hb => isspace_false_of_graph b (hd b hb)
  have e1 : ascii " FROM " ++ d ++ ascii " IS " ++ ct
      = [0x20] ++ ascii "FROM" ++ 0x20 :: (d ++ 0x20 :: (ascii "IS" ++ 0x20 :: ct)) := by
    have k1 : ascii " FROM " = [0x20] ++ ascii "FROM" ++ [0x20] := by decide
    have k2 : ascii " IS " = [0x20] ++ ascii "IS" ++ [0x20] := by decide
    rw [k1, k2]
    simp
  have t1 := extract_token [0x20] (ascii "FROM") 0x20 (d ++ 0x20 :: (ascii "IS" ++ 0x20 :: ct)) []
    (by decide) (by decide) (by decide) (by decide)
  have t2 := extract_token [0x20] d 0x20 (ascii "IS" ++ 0x20 :: ct) []
    (by decide) hdsp hd1 (by decide)
  have t3 := extract_token [0x20] (ascii "IS") 0x20 ct [] (by decide) (by decide) (by decide)
    (by decide)
  have t4 := getline_rest 0x20 ct [] (by
    intro b hb
    rcases List.mem_cons.1 hb with h | h
    · rw [h]; decide
    · have := hct b h
      omega)
  have u1 : str_toupper (ascii "FROM") = ascii "FROM" := by decide
  have u2 : str_toupper (ascii "IS") = ascii "IS" := by decide
  simp only [List.singleton_append, List.cons_append, List.append_assoc, List.nil_append] at t1 t2 t3 e1
  simp only [List.append_assoc, e1]
  simp only [TCPClient.parse_from_is, t1, u1, t2, t3, u2, t4, and_self, if_true]

/-- The first token of a frame `KEYWORD FROM ...` and the stream behind it. -/
theorem extract_keyword (kw tail : Str) (hkw : ∀ b ∈ kw, isspace b = false) (hne : kw ≠ []) :
    (IStringStream.ofStr (kw ++ ascii " FROM " ++ tail)).extract []
      = (⟨ascii " FROM " ++ tail, false, false⟩, kw) := by
  have k1 : ascii " FROM " = 0x20 :: ascii "FROM " := by decide
  have t := extract_token [] kw 0x20 (ascii "FROM " ++ tail) [] (by simp) hkw hne (by decide)
  rw [k1]
  simpa [IStringStream.ofStr] using t

/-- The fields parsed out of the frames `TCP_msg` builds for MSG and ERR. -/
theorem frame_fields_encoded (d ct : Str) (hd : ∀ b ∈ d, 0x21 ≤ b ∧ b ≤ 0x7E) (hd1 : d ≠ [])
    (hct : ∀ b ∈ ct, 0x20 ≤ b ∧ b ≤ 0x7E) :
    TCPClient.frame_fields (ascii "MSG FROM " ++ d ++ ascii " IS " ++ ct) = some (d, 0x20 :: ct)
    ∧ TCPClient.frame_fields (ascii "ERR FROM " ++ d ++ ascii " IS " ++ ct)
        = some (d, 0x20 :: ct) := by
  have m1 : ascii "MSG FROM " = ascii "MSG" ++ ascii " FROM " := by decide
  have m2 : ascii "ERR FROM " = ascii "ERR" ++ ascii " FROM " := by decide
  have p := parse_from_is_encoded d ct hd hd1 hct
  have a1 := extract_keyword (ascii "MSG") (d ++ ascii " IS " ++ ct) (by decide) (by decide)
  have a2 := extract_keyword (ascii "ERR") (d ++ ascii " IS " ++ ct) (by decide) (by decide)
  simp only [← List.append_assoc] at a1 a2 p
  constructor
  · simp only [TCPClient.frame_fields, m1, a1, p]
  · simp only [TCPClient.frame_fields, m2, a2, p]

theorem ne_cr_of_printable (l : Str) (h : ∀ b ∈ l, 0x20 ≤ b ∧ b ≤ 0x7E) : ∀ b ∈ l, b ≠ 0x0D := by
  intro b hb
  have := h b hb
  omega

theorem body_printable (kw d ct : Str) (hkw : ∀ b ∈ kw, 0x20 ≤ b ∧ b ≤ 0x7E)
    (hd : ∀ b ∈ d, 0x21 ≤ b ∧ b ≤ 0x7E) (hct : ∀ b ∈ ct, 0x20 ≤ b ∧ b ≤ 0x7E) :
    ∀ b ∈ kw ++ d ++ ascii " IS " ++ ct, 0x20 ≤ b ∧ b ≤ 0x7E := by
  have his : ∀ b ∈ ascii " IS ", 0x20 ≤ b ∧ b ≤ 0x7E := by decide
  intro b hb
  simp only [List.mem_append] at hb
  rcases hb with ((h | h) | h) | h
  · exact hkw b h
  · have := hd b h
    omega
  · exact his b h
  · exact hct b h

theorem received_reset (c : Client) (hacc : c.received = []) (q : List Str) :
    ({ c with server_msg_queue := q, received := [] } : Client)
      = { c with server_msg_queue := q } := by
  cases c
  simp only at hacc
  subst hacc
  rfl

theorem queue_reset (c : Client) (hq : c.server_msg_queue = []) :
    ({ c with server_msg_queue := [] } : Client) = c := by
  cases c
  simp only at hq
  subst hq
  rfl

/-- The dispatch of one well-formed MSG frame: the line `d: ct` goes to stdout, the
blank of it being the first character of the parsed content. -/
theorem process_server_messages_msg (d ct : Str) (c : Client)
    (hd : ∀ b ∈ d, 0x21 ≤ b ∧ b ≤ 0x7E) (hd1 : d ≠ []) (hct : ∀ b ∈ ct, 0x20 ≤ b ∧ b ≤ 0x7E)
    (hq : c.server_msg_queue = [ascii "MSG FROM " ++ d ++ ascii " IS " ++ ct]) :
    TCPClient.process_server_messages c
      = ({ c with server_msg_queue := [] }).cout (d ++ ascii ": " ++ ct ++ ascii "\n") := by
  have hf := (frame_fields_encoded d ct hd hd1 hct).1
  have m1 : ascii "MSG FROM " = ascii "MSG" ++ ascii " FROM " := by decide
  have a1 := extract_keyword (ascii "MSG") (d ++ ascii " IS " ++ ct) (by decide) (by decide)
  simp only [← List.append_assoc, ← m1] at a1
  have hne : (ascii "MSG FROM " ++ d ++ ascii " IS " ++ ct).isEmpty = false := by
    rw [m1]; rfl
  have hout : d ++ ascii ":" ++ 0x20 :: ct ++ ascii "\n" = d ++ ascii ": " ++ ct ++ ascii "\n" := by
    have k : ascii ": " = ascii ":" ++ [0x20] := by decide
    rw [k]; simp
  have u : str_toupper (ascii "MSG") = ascii "MSG" := by decide
  have n1 : ¬ ascii "MSG" = ascii "REPLY" := by decide
  have n2 : ¬ ascii "MSG" = ascii "ERR" := by decide
  simp only [TCPClient.frame_fields, a1] at hf
  simp only [TCPClient.process_server_messages, hq, TCPClient.process_server_messages_loop, hne,
    a1, u, n1, n2, hf, hout, if_false, if_true, Bool.false_eq_true]

/-- The dispatch of one well-formed ERR frame: the line `ERR FROM d: ct` goes to
stderr and `err_received` is set. -/
theorem process_server_messages_err (d ct : Str) (c : Client)
    (hd : ∀ b ∈ d, 0x21 ≤ b ∧ b ≤ 0x7E) (hd1 : d ≠ []) (hct : ∀ b ∈ ct, 0x20 ≤ b ∧ b ≤ 0x7E)
    (hq : c.server_msg_queue = [ascii "ERR FROM " ++ d ++ ascii " IS " ++ ct]) :
    TCPClient.process_server_messages c
      = { ({ c with server_msg_queue := [] }).cerr
            (ascii "ERR FROM " ++ d ++ ascii ": " ++ ct ++ ascii "\n") with
          err_received := true } := by
  have hf := (frame_fields_encoded d ct hd hd1 hct).2
  have m1 : ascii "ERR FROM " = ascii "ERR" ++ ascii " FROM " := by decide
  have a1 := extract_keyword (ascii "ERR") (d ++ ascii " IS " ++ ct) (by decide) (by decide)
  simp only [← List.append_assoc, ← m1] at a1
  have hne : (ascii "ERR FROM " ++ d ++ ascii " IS " ++ ct).isEmpty = false := by
    rw [m1]; rfl
  have hout : ascii "ERR FROM " ++ d ++ ascii ":" ++ 0x20 :: ct ++ ascii "\n"
      = ascii "ERR FROM " ++ d ++ ascii ": " ++ ct ++ ascii "\n" := by
    have k : ascii ": " = ascii ":" ++ [0x20] := by decide
    rw [k]; simp
  have u : str_toupper (ascii "ERR") = ascii "ERR" := by decide
  have n1 : ¬ ascii "ERR" = ascii "REPLY" := by decide
  simp only [TCPClient.frame_fields, a1] at hf
  simp only [TCPClient.process_server_messages, hq, TCPClient.process_server_messages_loop, hne,
    a1, u, n1, hf, hout, if_false, if_true, Bool.false_eq_true]

/-- C3, counterexample: for the display name `a` and the content `hi`, both within the
ranges of the claim, the frame of `MsgMSG::TCP_msg` is extracted as
`MSG FROM a IS hi`, and the message content the parser holds for it is ` hi`, with a
leading blank: it is not equal to the content that was encoded. -/
theorem tcp_round_trip_counterexample :
    (∀ b ∈ ascii "a", 0x21 ≤ b ∧ b ≤ 0x7E) ∧ (∀ b ∈ ascii "hi", 0x20 ≤ b ∧ b ≤ 0x7E)
    ∧ (TCPClient.receive_msg (some (Message.MsgMSG (ascii "a") (ascii "hi") 0).TCP_msg)
          (Client.init 3 0 true [] [])).server_msg_queue = [ascii "MSG FROM a IS hi"]
    ∧ TCPClient.frame_fields (ascii "MSG FROM a IS hi") = some (ascii "a", ascii " hi")
    ∧ TCPClient.frame_fields (ascii "MSG FROM a IS hi") ≠ some (ascii "a", ascii "hi") := by
  decide

/-- C3, amended: for every display name `d` (non-empty, bytes 0x21-0x7E) and content
`ct` (bytes 0x20-0x7E), the frame `TCP_msg` builds for MSG (resp. ERR), received into
an empty accumulator, is pushed to the inbound queue without its CR LF; the parser
reads back the display name `d` and, as message content, a blank followed by `ct` (the
blank behind `IS` is kept); dispatching the frame prints `d: ct` on stdout (resp.
`ERR FROM d: ct` on stderr, setting `err_received`). -/
theorem tcp_round_trip (d ct : Str) (id : Nat) (c : Client)
    (hd : ∀ b ∈ d, 0x21 ≤ b ∧ b ≤ 0x7E) (hd1 : d ≠ []) (hct : ∀ b ∈ ct, 0x20 ≤ b ∧ b ≤ 0x7E)
    (hacc : c.received = []) (hq : c.server_msg_queue = []) :
    TCPClient.receive_msg (some (Message.MsgMSG d ct id).TCP_msg) c
        = { c with server_msg_queue := [ascii "MSG FROM " ++ d ++ ascii " IS " ++ ct] }
    ∧ TCPClient.frame_fields (ascii "MSG FROM " ++ d ++ ascii " IS " ++ ct)
        = some (d, 0x20 :: ct)
    ∧ TCPClient.process_server_messages
          (TCPClient.receive_msg (some (Message.MsgMSG d ct id).TCP_msg) c)
        = c.cout (d ++ ascii ": " ++ ct ++ ascii "\n")
    ∧ TCPClient.receive_msg (some (Message.MsgERR d ct id).TCP_msg) c
        = { c with server_msg_queue := [ascii "ERR FROM " ++ d ++ ascii " IS " ++ ct] }
    ∧ TCPClient.frame_fields (ascii "ERR FROM " ++ d ++ ascii " IS " ++ ct)
        = some (d, 0x20 :: ct)
    ∧ TCPClient.process_server_messages
          (TCPClient.receive_msg (some (Message.MsgERR d ct id).TCP_msg) c)
        = { c.cerr (ascii "ERR FROM " ++ d ++ ascii ": " ++ ct ++ ascii "\n") with
            err_received := true } := by
  have hcrlf : ascii "\r\n" = [0x0D, 0x0A] := by decide
  have hm := body_printable (ascii "MSG FROM ") d ct (by decide) hd hct
  have he := body_printable (ascii "ERR FROM ") d ct (by decide) hd hct
  have rm := receive_msg_one_frame _ c (ne_cr_of_printable _ hm) hacc
  have re := receive_msg_one_frame _ c (ne_cr_of_printable _ he) hacc
  have ff := frame_fields_encoded d ct hd hd1 hct
  have em : (Message.MsgMSG d ct id).TCP_msg
      = ascii "MSG FROM " ++ d ++ ascii " IS " ++ ct ++ [0x0D, 0x0A] := by
    rw [Message.TCP_msg, hcrlf]
  have ee : (Message.MsgERR d ct id).TCP_msg
      = ascii "ERR FROM " ++ d ++ ascii " IS " ++ ct ++ [0x0D, 0x0A] := by
    rw [Message.TCP_msg, hcrlf]
  rw [em, ee, rm, re, hq, List.nil_append, List.nil_append]
  have pm := process_server_messages_msg d ct
    { c with server_msg_queue := [ascii "MSG FROM " ++ d ++ ascii " IS " ++ ct], received := [] }
    hd hd1 hct rfl
  have pe := process_server_messages_err d ct
    { c with server_msg_queue := [ascii "ERR FROM " ++ d ++ ascii " IS " ++ ct], received := [] }
    hd hd1 hct rfl
  have hc1 := received_reset c hacc
  have hc : ({ c with server_msg_queue := [], received := [] } : Client) = c := by
    rw [hc1]
    exact queue_reset c hq
  refine ⟨hc1 _, ff.1, ?_, hc1 _, ff.2, ?_⟩
  · rw [pm]
    exact congrArg (fun x : Client => x.cout (d ++ ascii ": " ++ ct ++ ascii "\n")) hc
  · rw [pe]
    exact congrArg (fun x : Client =>
      ({ x.cerr (ascii "ERR FROM " ++ d ++ ascii ": " ++ ct ++ ascii "\n") with
         err_received := true } : Client)) hc

/-- Witness of C3 (amended) at the display name `a` and the content `hi`. -/
theorem tcp_round_trip_witness :
    TCPClient.frame_fields (ascii "MSG FROM " ++ ascii "a" ++ ascii " IS " ++ ascii "hi")
        = some (ascii "a", 0x20 :: ascii "hi")
    ∧ TCPClient.process_server_messages
          (TCPClient.receive_msg (some (Message.MsgMSG (ascii "a") (ascii "hi") 7).TCP_msg)
            (Client.init 3 0 true [] []))
        = (Client.init 3 0 true [] []).cout (ascii "a" ++ ascii ": " ++ ascii "hi" ++ ascii "\n") :=
  have h := tcp_round_trip (ascii "a") (ascii "hi") 7 (Client.init 3 0 true [] [])
    (by decide) (by decide) (by decide) rfl rfl
  ⟨h.2.1, h.2.2.1⟩

/-! ## Fuel: more of it never changes a result -/

/-- Whatever one of the four loops of the UDP client returns with some fuel, it
returns with one unit more. -/
theorem udp_fuel_succ (fuel : Nat) :
    (∀ msg r c c1, UDPClient.send_loop fuel msg r c = some c1 →
        UDPClient.send_loop (fuel + 1) msg r c = some c1)
    ∧ (∀ msg r c c1, UDPClient.wait_loop fuel msg r c = some c1 →
        UDPClient.wait_loop (fuel + 1) msg r c = some c1)
    ∧ (∀ c c1, UDPClient.process_client_messages fuel c = some c1 →
        UDPClient.process_client_messages (fuel + 1) c = some c1)
    ∧ (∀ c c1, UDPClient.process_server_messages fuel c = some c1 →
        UDPClient.process_server_messages (fuel + 1) c = some c1) := by
  induction fuel with
  | zero =>
      refine ⟨?_, ?_, ?_, ?_⟩ <;> intros <;> simp_all [UDPClient.send_loop, UDPClient.wait_loop,
        UDPClient.process_client_messages, UDPClient.process_server_messages]
  | succ fuel ih =>
      obtain ⟨ihs, ihw, ihc, ihp⟩ := ih
      refine ⟨?_, ?_, ?_, ?_⟩
      · intro msg r c c1 h
        rw [UDPClient.send_loop] at h ⊢
        exact ihw _ _ _ _ h
      · intro msg r c0 c1 h
        rw [UDPClient.wait_loop] at h ⊢
        rcases hrec : UDPClient.recvfrom c0 with ⟨res, c⟩
        rw [hrec] at h
        cases res with
        | error timeout =>
            simp only at h ⊢
            by_cases hc : timeout = true ∧ r < c.max_retransmissions
            · rw [if_pos hc] at h ⊢
              exact ihs _ _ _ _ h
            · rw [if_neg hc] at h ⊢
              exact h
        | data src bytes =>
            simp only at h ⊢
            by_cases h0 : bytes.getD 0 0 = MessageType.CONFIRM.toByte
            · rw [if_pos h0] at h ⊢
              by_cases h1 : UDPClient.buffer_msgID c.char_is_signed bytes ≠ msg.get_msgID
              · rw [if_pos h1] at h ⊢
                exact ihw _ _ _ _ h
              · rw [if_neg h1] at h ⊢
                exact h
            · rw [if_neg h0] at h ⊢
              cases hp : UDPClient.process_server_messages fuel (c.push_server_msg bytes) with
              | none => rw [hp] at h; exact absurd h (by simp)
              | some c2 =>
                  rw [hp] at h
                  rw [ihp _ _ hp]
                  simp only at h ⊢
                  by_cases hub : c2.ub = true
                  · rw [if_pos hub] at h ⊢
                    exact h
                  · rw [if_neg hub] at h ⊢
                    exact ihw _ _ _ _ h
      · intro c c1 h
        rw [UDPClient.process_client_messages] at h ⊢
        by_cases hw : c.waiting_on_reply = true
        · rw [if_pos hw] at h ⊢
          exact h
        · rw [if_neg hw] at h ⊢
          cases hq : c.client_msg_queue with
          | nil => rw [hq] at h; exact h
          | cons front rest =>
              rw [hq] at h
              cases front with
              | none => exact ihc _ _ h
              | some msg =>
                  simp only at h ⊢
                  by_cases h1 : msg.get_type ≠ .AUTH ∧ c.auth = false
                  · rw [if_pos h1] at h ⊢
                    exact ihc _ _ h
                  · rw [if_neg h1] at h ⊢
                    by_cases h2 : (msg.get_type = .MSG ∨ msg.get_type = .JOIN) ∧ c.state ≠ .OPEN
                    · rw [if_pos h2] at h ⊢
                      exact ihc _ _ h
                    · rw [if_neg h2] at h ⊢
                      by_cases h3 : msg.get_type = .AUTH ∧ c.auth = true
                      · rw [if_pos h3] at h ⊢
                        exact ihc _ _ h
                      · rw [if_neg h3] at h ⊢
                        cases hs : UDPClient.send_loop fuel msg 0 c with
                        | none => rw [hs] at h; exact absurd h (by simp)
                        | some sent =>
                            rw [hs] at h
                            rw [ihs _ _ _ _ hs]
                            simp only at h ⊢
                            by_cases hub : sent.ub = true
                            · rw [if_pos hub] at h ⊢
                              exact h
                            · rw [if_neg hub] at h ⊢
                              by_cases ht : msg.get_type = .AUTH ∨ msg.get_type = .JOIN
                              · rw [if_pos ht] at h ⊢
                                exact ihc _ _ h
                              · rw [if_neg ht] at h ⊢
                                by_cases hub2 : sent.pop_client_msg.ub = true
                                · rw [if_pos hub2] at h ⊢
                                  exact h
                                · rw [if_neg hub2] at h ⊢
                                  exact ihc _ _ h
      · intro c c1 h
        rw [UDPClient.process_server_messages] at h ⊢
        cases hq : c.server_msg_queue with
        | nil => rw [hq] at h; exact h
        | cons msg rest =>
            rw [hq] at h
            simp only at h ⊢
            by_cases hl : msg.length < 3
            · rw [if_pos hl] at h ⊢
              exact ihp _ _ h
            · rw [if_neg hl] at h ⊢
              by_cases hub : (UDPClient.handle_datagram msg c).ub = true
              · rw [if_pos hub] at h ⊢
                exact h
              · rw [if_neg hub] at h ⊢
                by_cases hr : msg.getD 0 0 = MessageType.REPLY.toByte
                    ∧ (UDPClient.handle_datagram msg c).state ≠ .ERROR
                · rw [if_pos hr] at h ⊢
                  cases hc : UDPClient.process_client_messages fuel
                      (UDPClient.handle_datagram msg c) with
                  | none => rw [hc] at h; exact absurd h (by simp)
                  | some c2 =>
                      rw [hc] at h
                      rw [ihc _ _ hc]
                      simp only at h ⊢
                      by_cases hub2 : c2.ub = true
                      · rw [if_pos hub2] at h ⊢
                        exact h
                      · rw [if_neg hub2] at h ⊢
                        exact ihp _ _ h
                · rw [if_neg hr] at h ⊢
                  exact ihp _ _ h

/-- Any amount of additional fuel leaves the results of the four loops unchanged. -/
theorem udp_fuel_add (fuel k : Nat) :
    (∀ msg r c c1, UDPClient.send_loop fuel msg r c = some c1 →
        UDPClient.send_loop (fuel + k) msg r c = some c1)
    ∧ (∀ msg r c c1, UDPClient.wait_loop fuel msg r c = some c1 →
        UDPClient.wait_loop (fuel + k) msg r c = some c1)
    ∧ (∀ c c1, UDPClient.process_client_messages fuel c = some c1 →
        UDPClient.process_client_messages (fuel + k) c = some c1)
    ∧ (∀ c c1, UDPClient.process_server_messages fuel c = some c1 →
        UDPClient.process_server_messages (fuel + k) c = some c1) := by
  induction k with
  | zero => exact ⟨fun _ _ _ _ h => h, fun _ _ _ _ h => h, fun _ _ h => h, fun _ _ h => h⟩
  | succ k ih =>
      obtain ⟨ihs, ihw, ihc, ihp⟩ := ih
      obtain ⟨s1, w1, c1, p1⟩ := udp_fuel_succ (fuel + k)
      exact ⟨fun msg r c c2 h => s1 _ _ _ _ (ihs msg r c c2 h),
        fun msg r c c2 h => w1 _ _ _ _ (ihw msg r c c2 h),
        fun c c2 h => c1 _ _ (ihc c c2 h), fun c c2 h => p1 _ _ (ihp c c2 h)⟩

/-- The same for `send_msg`. -/
theorem udp_send_msg_fuel_add (fuel k : Nat) (msg : Message) (c c1 : Client)
    (h : UDPClient.send_msg fuel msg c = some c1) :
    UDPClient.send_msg (fuel + k) msg c = some c1 :=
  (udp_fuel_add fuel k).1 msg 0 c c1 h

theorem search_delimiter_bound (l : Str) (i : Nat) (h : TCPClient.search_delimiter l = some i) :
    i + 2 ≤ l.length := by
  induction l generalizing i with
  | nil => simp [TCPClient.search_delimiter] at h
  | cons a rest ih =>
      rw [TCPClient.search_delimiter] at h
      split_ifs at h with hc
      · cases rest with
        | nil => simp at hc
        | cons b rest1 =>
            simp only [Option.some.injEq] at h
            subst h
            simp
      · cases hs : TCPClient.search_delimiter rest with
        | none => rw [hs] at h; simp at h
        | some j =>
            rw [hs] at h
            simp only [Option.map_some', Option.some.injEq] at h
            have := ih j hs
            simp only [List.length_cons]
            omega

/-- The loop of `receive_msg` is given enough fuel: it stops only when no delimiter
is left in the accumulator. -/
theorem extract_frames_complete (fuel : Nat) (c : Client) (h : c.received.length ≤ fuel) :
    TCPClient.search_delimiter (TCPClient.extract_frames fuel c).received = none := by
  induction fuel generalizing c with
  | zero =>
      have h0 : c.received = [] := List.length_eq_zero.1 (Nat.le_zero.1 h)
      simp [TCPClient.extract_frames, h0, TCPClient.search_delimiter]
  | succ fuel ih =>
      rw [TCPClient.extract_frames]
      cases hs : TCPClient.search_delimiter c.received with
      | none => simpa using hs
      | some iter =>
          simp only
          apply ih
          have hb := search_delimiter_bound _ _ hs
          simp only [Client.push_server_msg, List.length_drop]
          omega

/-! ## C4: a MSG or ERR datagram through the UDP dispatcher -/

theorem shl8_or (hi lo : Nat) (hlo : lo < 256) : (hi <<< 8) ||| lo = hi * 256 + lo := by
  have h := Nat.mul_add_lt_is_or (i := 8) (b := lo) hlo hi
  rw [Nat.shiftLeft_eq, Nat.mul_comm]
  exact h.symm

/-- The MessageID the dispatcher computes from the header bytes `UDP_msg` writes. -/
theorem vector_msgID_header (t id : Nat) (tail : Str) :
    UDPClient.vector_msgID (t :: u8 (u16 id >>> 8) :: u8 (u16 id &&& 0xFF) :: tail) = u16 id := by
  have hlo : u8 (u16 id &&& 0xFF) < 256 := Nat.mod_lt _ (by decide)
  have h16 : u16 id < 65536 := Nat.mod_lt _ (by decide)
  simp only [UDPClient.vector_msgID, List.getD_cons_succ, List.getD_cons_zero, shl8_or _ _ hlo]
  simp only [u8, and_0xFF, Nat.shiftRight_eq_div_pow, Nat.mod_mod] at *
  simp only [u16] at *
  omega

theorem takeWhile_nonzero (s tail : Str) (hs : ∀ b ∈ s, b ≠ 0) :
    (s ++ 0 :: tail).takeWhile (fun b => b != 0) = s := by
  induction s with
  | nil => simp [List.takeWhile_cons]
  | cons a s1 ih =>
      have ha : a ≠ 0 := hs a (List.mem_cons_self a s1)
      have ih1 := ih (fun b hb => hs b (List.mem_cons_of_mem a hb))
      simp [List.takeWhile_cons, ha, ih1]

/-- The two strings the ERR and MSG branches read behind a three-byte header. -/
theorem read_fields_encoded (t hi lo : Nat) (d ct : Str) (hd : ∀ b ∈ d, b ≠ 0)
    (hct : ∀ b ∈ ct, b ≠ 0) :
    UDPClient.read_fields (t :: hi :: lo :: (d ++ 0 :: (ct ++ [0]))) = (d, ct) := by
  have h1 : UDPClient.read_string (t :: hi :: lo :: (d ++ 0 :: (ct ++ [0]))) 3 = d := by
    simp only [UDPClient.read_string, List.drop_succ_cons, List.drop_zero]
    exact takeWhile_nonzero d _ hd
  have h2 : UDPClient.read_string (t :: hi :: lo :: (d ++ 0 :: (ct ++ [0]))) (3 + d.length + 1)
      = ct := by
    have e : 3 + d.length + 1 = (d.length + 1) + 3 := by omega
    simp only [UDPClient.read_string, e, List.drop_succ_cons]
    have e2 : (d ++ 0 :: (ct ++ [0])).drop (d.length + 1) = ct ++ [0] := by
      have : d ++ 0 :: (ct ++ [0]) = (d ++ [0]) ++ (ct ++ [0]) := by simp
      rw [this, List.drop_left' (by simp)]
    rw [e2]
    exact takeWhile_nonzero ct [] hct
  simp only [UDPClient.read_fields, h1, h2]

theorem UDP_msg_MSG_cons (d ct : Str) (id : Nat) :
    (Message.MsgMSG d ct id).UDP_msg
      = 0x04 :: u8 (u16 id >>> 8) :: u8 (u16 id &&& 0xFF) :: (d ++ 0 :: (ct ++ [0])) := by
  simp [Message.UDP_msg, Message.UDP_header, Message.get_type, Message.get_msgID,
    MessageType.toByte]

theorem UDP_msg_ERR_cons (d ct : Str) (id : Nat) :
    (Message.MsgERR d ct id).UDP_msg
      = 0xFE :: u8 (u16 id >>> 8) :: u8 (u16 id &&& 0xFF) :: (d ++ 0 :: (ct ++ [0])) := by
  simp [Message.UDP_msg, Message.UDP_header, Message.get_type, Message.get_msgID,
    MessageType.toByte]

/-- The dispatcher of one datagram that is neither a REPLY nor shorter than three
bytes, alone in the inbound queue: `process_server_messages` does what
`handle_datagram` does and returns, for every fuel of at least two. -/
theorem process_server_messages_single (msg : Str) (c : Client) (fuel : Nat)
    (hq : c.server_msg_queue = [msg]) (hlen : 3 ≤ msg.length)
    (ht : msg.getD 0 0 ≠ MessageType.REPLY.toByte)
    (hq1 : (UDPClient.handle_datagram msg c).server_msg_queue = []) :
    UDPClient.process_server_messages (fuel + 2) c = some (UDPClient.handle_datagram msg c) := by
  have hl : ¬ msg.length < 3 := by omega
  rw [UDPClient.process_server_messages]
  simp only [hq, hl, if_false, ht, false_and]
  split
  · rfl
  · rw [UDPClient.process_server_messages]
    simp only [hq1]

theorem handle_datagram_MSG (hi lo m : Nat) (tail : Str) (c : Client)
    (hm : UDPClient.vector_msgID (0x04 :: hi :: lo :: tail) = m) (hseen : m ∉ c.seen_msg_ids) :
    UDPClient.handle_datagram (0x04 :: hi :: lo :: tail) c
      = { c with
          seen_msg_ids := c.seen_msg_ids ++ [m]
          server_msg_queue := c.server_msg_queue.tail
          out := c.out ++
            [.cout ((UDPClient.read_fields (0x04 :: hi :: lo :: tail)).1 ++ ascii ": "
                ++ (UDPClient.read_fields (0x04 :: hi :: lo :: tail)).2 ++ ascii "\n"),
             .sendto c.response_addr (Message.MsgCONFIRM m).UDP_msg] } := by
  simp [UDPClient.handle_datagram, hm, UDPClient.msgID_seen, hseen, UDPClient.mark_msgID_as_seen,
    UDPClient.dispatch, MessageType.toByte, Client.cout, Client.emit]

theorem handle_datagram_ERR (hi lo m : Nat) (tail : Str) (c : Client)
    (hm : UDPClient.vector_msgID (0xFE :: hi :: lo :: tail) = m) (hseen : m ∉ c.seen_msg_ids) :
    UDPClient.handle_datagram (0xFE :: hi :: lo :: tail) c
      = { c with
          seen_msg_ids := c.seen_msg_ids ++ [m]
          server_msg_queue := c.server_msg_queue.tail
          err_received := true
          out := c.out ++
            [.cerr (ascii "ERR FROM " ++ (UDPClient.read_fields (0xFE :: hi :: lo :: tail)).1
                ++ ascii ": " ++ (UDPClient.read_fields (0xFE :: hi :: lo :: tail)).2 ++ ascii "\n"),
             .sendto c.response_addr (Message.MsgCONFIRM m).UDP_msg] } := by
  simp [UDPClient.handle_datagram, hm, UDPClient.msgID_seen, hseen, UDPClient.mark_msgID_as_seen,
    UDPClient.dispatch, MessageType.toByte, Client.cerr, Client.emit]

/-- C4: for every MessageID `id` in 0..65535 not yet seen and every display name `d`
and content `ct` without a zero byte, the datagram `UDP_msg` builds for MSG (resp.
ERR), dispatched by `process_server_messages`, is decoded to the MessageID `id`, the
display name `d` and the content `ct`: these are the strings printed (`d: ct` on
stdout, resp. `ERR FROM d: ct` on stderr with `err_received` set), `id` is the
MessageID marked as seen and confirmed, and the call returns for every fuel of at least
two. -/
theorem udp_round_trip (d ct : Str) (id fuel : Nat) (c : Client)
    (hid : id < 65536) (hd : ∀ b ∈ d, b ≠ 0) (hct : ∀ b ∈ ct, b ≠ 0)
    (hseen : id ∉ c.seen_msg_ids) (hq : c.server_msg_queue = []) :
    UDPClient.vector_msgID (Message.MsgMSG d ct id).UDP_msg = id
    ∧ UDPClient.read_fields (Message.MsgMSG d ct id).UDP_msg = (d, ct)
    ∧ UDPClient.process_server_messages (fuel + 2)
          (c.push_server_msg (Message.MsgMSG d ct id).UDP_msg)
        = some { c with
            seen_msg_ids := c.seen_msg_ids ++ [id]
            out := c.out ++ [.cout (d ++ ascii ": " ++ ct ++ ascii "\n"),
                             .sendto c.response_addr (Message.MsgCONFIRM id).UDP_msg] }
    ∧ UDPClient.vector_msgID (Message.MsgERR d ct id).UDP_msg = id
    ∧ UDPClient.read_fields (Message.MsgERR d ct id).UDP_msg = (d, ct)
    ∧ UDPClient.process_server_messages (fuel + 2)
          (c.push_server_msg (Message.MsgERR d ct id).UDP_msg)
        = some { c with
            seen_msg_ids := c.seen_msg_ids ++ [id]
            err_received := true
            out := c.out ++ [.cerr (ascii "ERR FROM " ++ d ++ ascii ": " ++ ct ++ ascii "\n"),
                             .sendto c.response_addr (Message.MsgCONFIRM id).UDP_msg] } := by
  have h16 : u16 id = id := Nat.mod_eq_of_lt hid
  have vm := (vector_msgID_header 0x04 id (d ++ 0 :: (ct ++ [0]))).trans h16
  have ve := (vector_msgID_header 0xFE id (d ++ 0 :: (ct ++ [0]))).trans h16
  have fm := read_fields_encoded 0x04 (u8 (u16 id >>> 8)) (u8 (u16 id &&& 0xFF)) d ct hd hct
  have fe := read_fields_encoded 0xFE (u8 (u16 id >>> 8)) (u8 (u16 id &&& 0xFF)) d ct hd hct
  have hpush : ∀ dg : Str, (c.push_server_msg dg).server_msg_queue = [dg] := by
    intro dg
    simp [Client.push_server_msg, hq]
  have hseen1 : ∀ dg : Str, id ∉ (c.push_server_msg dg).seen_msg_ids := fun _ => hseen
  have hm := handle_datagram_MSG _ _ id _ (c.push_server_msg (Message.MsgMSG d ct id).UDP_msg) vm
    (hseen1 _)
  have he := handle_datagram_ERR _ _ id _ (c.push_server_msg (Message.MsgERR d ct id).UDP_msg) ve
    (hseen1 _)
  rw [fm] at hm
  rw [fe] at he
  have pm := process_server_messages_single
    (0x04 :: u8 (u16 id >>> 8) :: u8 (u16 id &&& 0xFF) :: (d ++ 0 :: (ct ++ [0])))
    (c.push_server_msg (Message.MsgMSG d ct id).UDP_msg) fuel
    (by rw [hpush, UDP_msg_MSG_cons]) (by simp) (by simp [MessageType.toByte])
    (by rw [hm]; simp [hpush])
  have pe := process_server_messages_single
    (0xFE :: u8 (u16 id >>> 8) :: u8 (u16 id &&& 0xFF) :: (d ++ 0 :: (ct ++ [0])))
    (c.push_server_msg (Message.MsgERR d ct id).UDP_msg) fuel
    (by rw [hpush, UDP_msg_ERR_cons]) (by simp) (by simp [MessageType.toByte])
    (by rw [he]; simp [hpush])
  rw [hm] at pm
  rw [he] at pe
  refine ⟨?_, ?_, ?_, ?_, ?_, ?_⟩
  · rw [UDP_msg_MSG_cons]; exact vm
  · rw [UDP_msg_MSG_cons]; exact fm
  · rw [pm]
    simp [Client.push_server_msg, hq]
  · rw [UDP_msg_ERR_cons]; exact ve
  · rw [UDP_msg_ERR_cons]; exact fe
  · rw [pe]
    simp [Client.push_server_msg, hq]

/-- Witness of C4 at the MessageID 0x1234, the display name `a` and the content `hi`. -/
theorem udp_round_trip_witness :
    UDPClient.vector_msgID (Message.MsgMSG (ascii "a") (ascii "hi") 0x1234).UDP_msg = 0x1234
    ∧ UDPClient.read_fields (Message.MsgMSG (ascii "a") (ascii "hi") 0x1234).UDP_msg
        = (ascii "a", ascii "hi") :=
  have h := udp_round_trip (ascii "a") (ascii "hi") 0x1234 0 (Client.init 3 0 true [] [])
    (by decide) (by decide) (by decide) (by decide) rfl
  ⟨h.1, h.2.1⟩

/-! ## C5: the content of a UDP REPLY -/

/-- The content the REPLY branch extracts from a datagram whose content string is
terminated by a zero byte: the terminator is part of it. -/
theorem reply_content_keeps_terminator (id_hi id_lo result ref_hi ref_lo : Nat) (content : Str) :
    UDPClient.reply_content
        ([0x01, id_hi, id_lo, result, ref_hi, ref_lo] ++ content ++ [0x00])
      = content ++ [0x00]
    ∧ UDPClient.reply_content
        ([0x01, id_hi, id_lo, result, ref_hi, ref_lo] ++ content ++ [0x00]) ≠ content := by
  have h : UDPClient.reply_content
      ([0x01, id_hi, id_lo, result, ref_hi, ref_lo] ++ content ++ [0x00]) = content ++ [0x00] := by
    simp [UDPClient.reply_content]
  refine ⟨h, ?_⟩
  rw [h]
  intro e
  have := congrArg List.length e
  simp at this

/-- The run of C5 with fuel 3. -/
theorem udp_reply_eval :
    UDPClient.process_server_messages 3
        { Client.init 3 0 true [] [] with
          state := .AUTHENTICATE
          waiting_on_reply := true
          client_msg_queue := [some (.MsgAUTH (ascii "u") (ascii "s") (ascii "d") 0)]
          server_msg_queue := [[0x01, 0, 1, 0x01, 0, 0] ++ ascii "hi" ++ [0x00]] }
      = some
        { Client.init 3 0 true [] [] with
          state := .OPEN
          auth := true
          seen_msg_ids := [1]
          out := [.cerr (ascii "Success: hi" ++ [0x00] ++ ascii "\n"),
                  .sendto 0 [0x00, 0, 1]] } := by
  decide

/-- C5, the code at the failing input: an OK REPLY with MessageID 1, reference 0 and
content `hi`, dispatched while the client waits for the reply to its AUTH with
MessageID 0.  The reply is accepted (state `OPEN`, head popped), but the content
extracted is `hi` followed by the zero byte, and that byte is written to stderr
between `Success: hi` and the newline; this is the result for every fuel of at least
three. -/
theorem udp_reply_content_failing_input (fuel : Nat) :
    UDPClient.reply_content ([0x01, 0, 1, 0x01, 0, 0] ++ ascii "hi" ++ [0x00])
        = ascii "hi" ++ [0x00]
    ∧ UDPClient.process_server_messages (3 + fuel)
        { Client.init 3 0 true [] [] with
          state := .AUTHENTICATE
          waiting_on_reply := true
          client_msg_queue := [some (.MsgAUTH (ascii "u") (ascii "s") (ascii "d") 0)]
          server_msg_queue := [[0x01, 0, 1, 0x01, 0, 0] ++ ascii "hi" ++ [0x00]] }
      = some
        { Client.init 3 0 true [] [] with
          state := .OPEN
          auth := true
          seen_msg_ids := [1]
          out := [.cerr (ascii "Success: hi" ++ [0x00] ++ ascii "\n"),
                  .sendto 0 [0x00, 0, 1]] } :=
  ⟨by decide, (udp_fuel_add 3 fuel).2.2.2 _ _ udp_reply_eval⟩

/-! ## C6: the MessageID of a CONFIRM, read from `char buffer[]` -/

/-- Where `char` is unsigned, the expression of `send_msg` decodes the MessageID of
every CONFIRM datagram. -/
theorem buffer_msgID_unsigned (m : Nat) (hm : m < 65536) :
    UDPClient.buffer_msgID false (Message.MsgCONFIRM m).UDP_msg = m := by
  have hhi : m >>> 8 < 256 := by
    rw [Nat.shiftRight_eq_div_pow]
    omega
  have hlo : m &&& 0xFF < 256 := by
    rw [and_0xFF]
    omega
  have e : (Message.MsgCONFIRM m).UDP_msg = [0x00, m >>> 8, m &&& 0xFF] := by
    rw [Message.UDP_msg, UDP_header_eq (.MsgCONFIRM m) m hm rfl]; rfl
  have h32 : (m >>> 8 <<< 8) % 2 ^ 32 = m >>> 8 <<< 8 := by
    apply Nat.mod_eq_of_lt
    rw [Nat.shiftLeft_eq]
    omega
  simp only [e, UDPClient.buffer_msgID, UDPClient.char_to_int, List.getD_cons_succ,
    List.getD_cons_zero, Bool.false_eq_true, false_and, if_false, h32, shl8_or _ _ hlo]
  rw [and_0xFF, Nat.shiftRight_eq_div_pow] at *
  simp only [u16]
  omega

/-- Where `char` is signed, every MessageID from 128 to 255 is decoded to the value
with the high byte `0xFF`, which is another MessageID. -/
theorem buffer_msgID_signed_low_byte :
    ∀ m, m < 256 → 128 ≤ m →
      UDPClient.buffer_msgID true (Message.MsgCONFIRM m).UDP_msg = 0xFF00 + m := by
  set_option maxRecDepth 20000 in decide

/-- The run of C6 with fuel 6. -/
theorem udp_confirm_eval :
    UDPClient.send_msg 6 (.MsgAUTH (ascii "u") (ascii "s") (ascii "d") 128)
        (Client.init 1 7 true [] [.data 9 (Message.MsgCONFIRM 128).UDP_msg])
      = some
        { Client.init 1 7 true [] [] with
          state := .END
          response_addr := 9
          out := [.sendto 7 (Message.MsgAUTH (ascii "u") (ascii "s") (ascii "d") 128).UDP_msg,
                  .sendto 7 (Message.MsgAUTH (ascii "u") (ascii "s") (ascii "d") 128).UDP_msg] } := by
  decide

/-- C6, the code at the failing input: an AUTH with MessageID 128 is sent in state
`START` with one retransmission allowed, on a platform with signed `char`, and the
server answers with the CONFIRM of MessageID 128.  The reference read from the
buffer is 0xFF80, so the CONFIRM is skipped as stale: the AUTH is sent a second time
after the timeout and the state becomes `END`, not `AUTHENTICATE`; this is the result
for every fuel of at least six. -/
theorem udp_confirm_failing_input (fuel : Nat) :
    (Message.MsgCONFIRM 128).UDP_msg = [0x00, 0x00, 0x80]
    ∧ UDPClient.buffer_msgID true (Message.MsgCONFIRM 128).UDP_msg = 0xFF80
    ∧ UDPClient.send_msg (6 + fuel) (.MsgAUTH (ascii "u") (ascii "s") (ascii "d") 128)
        (Client.init 1 7 true [] [.data 9 (Message.MsgCONFIRM 128).UDP_msg])
      = some
        { Client.init 1 7 true [] [] with
          state := .END
          response_addr := 9
          out := [.sendto 7 (Message.MsgAUTH (ascii "u") (ascii "s") (ascii "d") 128).UDP_msg,
                  .sendto 7 (Message.MsgAUTH (ascii "u") (ascii "s") (ascii "d") 128).UDP_msg] } :=
  ⟨by decide, by decide, udp_send_msg_fuel_add 6 fuel _ _ _ udp_confirm_eval⟩

/-- Where `char` is unsigned, the CONFIRM of the message `send_msg` waits for is
accepted for every MessageID: the wait ends, with state `END` for a BYE and
`AUTHENTICATE` when the state was `START`. -/
theorem confirm_accepted_unsigned (fuel m : Nat) (retransmissions : Int) (msg : Message)
    (c : Client) (src : Addr) (rest : List RecvResult) (hm : m < 65536)
    (hid : msg.get_msgID = m) (hch : c.char_is_signed = false)
    (hnet : c.net_in = .data src (Message.MsgCONFIRM m).UDP_msg :: rest) :
    UDPClient.wait_loop (fuel + 1) msg retransmissions c
      = some
          (if (if msg.get_type = .BYE
                then ({ c with net_in := rest, response_addr := src } : Client).set_state .END
                else { c with net_in := rest, response_addr := src }).state = .START
            then (if msg.get_type = .BYE
                then ({ c with net_in := rest, response_addr := src } : Client).set_state .END
                else { c with net_in := rest, response_addr := src }).set_state .AUTHENTICATE
            else (if msg.get_type = .BYE
                then ({ c with net_in := rest, response_addr := src } : Client).set_state .END
                else { c with net_in := rest, response_addr := src })) := by
  have hb := buffer_msgID_unsigned m hm
  have h0 : (Message.MsgCONFIRM m).UDP_msg.getD 0 0 = MessageType.CONFIRM.toByte := rfl
  rw [UDPClient.wait_loop]
  simp only [UDPClient.recvfrom, hnet, h0, hch, hb, hid, ne_eq, not_true_eq_false, if_false,
    if_true]

/-! ## C7: the MessageIDs the input handler hands out -/

theorem handle_command_counter (h : InputHandler) (command : Str) (args : List Str) :
    ((h.handle_command command args).msg = none
        ∧ (h.handle_command command args).handler.msgID_sent = h.msgID_sent)
    ∨ (∃ m, (h.handle_command command args).msg = some m ∧ m.get_msgID = u16 h.msgID_sent
        ∧ (h.handle_command command args).handler.msgID_sent = u16 (h.msgID_sent + 1)) := by
  unfold InputHandler.handle_command
  split_ifs <;> simp [InputHandler.inc_msgID_sent, Message.get_msgID]

theorem handle_input_slash (h : InputHandler) (rest : Str) :
    h.handle_input (0x2F :: rest)
      = if command_word rest = ascii "help" then ⟨none, h, help_text⟩
        else h.handle_command (command_word rest) (command_args rest) := by
  simp [InputHandler.handle_input, command_word, command_args]

theorem handle_input_chat (h : InputHandler) (a : Nat) (rest : Str) (ha : a ≠ 0x2F) :
    h.handle_input (a :: rest)
      = if regex_match (a :: rest) message_content_pattern = false then
          ⟨none, h, [.cerr (ascii "ERR: Message content is not valid\n")]⟩
        else ⟨some (.MsgMSG h.display_name (a :: rest) h.msgID_sent), h.inc_msgID_sent, []⟩ := by
  simp [InputHandler.handle_input, ha]

/-- One call of `handle_input`: either no message is returned and the counter is
unchanged, or the message returned carries the counter as MessageID and the counter is
incremented modulo `2^16`. -/
theorem handle_input_counter (h : InputHandler) (line : Str) :
    ((h.handle_input line).msg = none
        ∧ (h.handle_input line).handler.msgID_sent = h.msgID_sent)
    ∨ (∃ m, (h.handle_input line).msg = some m ∧ m.get_msgID = u16 h.msgID_sent
        ∧ (h.handle_input line).handler.msgID_sent = u16 (h.msgID_sent + 1)) := by
  cases line with
  | nil => simp [InputHandler.handle_input]
  | cons a rest =>
      by_cases ha : a = 0x2F
      · subst ha
        rw [handle_input_slash]
        split_ifs
        · simp
        · exact handle_command_counter h _ _
      · rw [handle_input_chat h a rest ha]
        split_ifs <;> simp [InputHandler.inc_msgID_sent, Message.get_msgID]

/-- The MessageIDs of the messages returned for a sequence of lines count up from the
counter of the handler, modulo `2^16`. -/
theorem run_ids (lines : List Str) (h : InputHandler) :
    (h.run lines).2.map Message.get_msgID
      = (List.range (h.run lines).2.length).map (fun k => u16 (h.msgID_sent + k)) := by
  induction lines generalizing h with
  | nil => simp [InputHandler.run]
  | cons line lines ih =>
      have ih1 := ih (h.handle_input line).handler
      rcases handle_input_counter h line with ⟨h1, h2⟩ | ⟨m, h1, h2, h3⟩
      · simp only [InputHandler.run, h1, Option.toList, List.nil_append]
        rw [ih1, h2]
      · simp only [InputHandler.run, h1, Option.toList, List.singleton_append, List.map_cons,
          List.length_cons, List.range_succ_eq_map, h2, ih1, h3, List.map_map, Nat.add_zero]
        congr 1
        apply List.map_congr_left
        intro k _
        simp only [Function.comp, u16]
        omega

/-- The MessageIDs a fresh handler hands out are 0, 1, 2, ... modulo `2^16`. -/
theorem returned_ids_eq (lines : List Str) :
    returned_ids lines = (List.range (returned_ids lines).length).map (fun k => k % 65536) := by
  have h := run_ids lines InputHandler.new
  simp only [returned_ids, List.length_map]
  rw [h]
  apply List.map_congr_left
  intro k _
  simp [InputHandler.new, u16]

/-- Every chat line `a` makes the handler return a message. -/
theorem run_replicate_length (n : Nat) (h : InputHandler) :
    (h.run (List.replicate n (ascii "a"))).2.length = n := by
  induction n generalizing h with
  | zero => rfl
  | succ n ih =>
      have e : ascii "a" = [0x61] := by decide
      have hm : (h.handle_input (ascii "a")).msg
          = some (.MsgMSG h.display_name (ascii "a") h.msgID_sent) := by
        rw [e, handle_input_chat h 0x61 [] (by decide)]
        have hr : regex_match [0x61] message_content_pattern = true := by decide
        simp [hr]
      simp only [List.replicate_succ, InputHandler.run, hm, Option.toList,
        List.singleton_append, List.length_cons, ih]

/-- C7, counterexample: a fresh handler is handed 65537 times the chat line `a`.  It
returns 65537 messages; the first has the MessageID 0 and so has the last one, the
counter being a `uint16_t`: the MessageIDs are not strictly increasing. -/
theorem monotonic_ids_counterexample :
    (returned_ids (List.replicate 65537 (ascii "a"))).length = 65537
    ∧ (returned_ids (List.replicate 65537 (ascii "a")))[0]? = some 0
    ∧ (returned_ids (List.replicate 65537 (ascii "a")))[65536]? = some 0
    ∧ ¬ List.Pairwise (fun a b => a < b) (returned_ids (List.replicate 65537 (ascii "a"))) := by
  have hl : (returned_ids (List.replicate 65537 (ascii "a"))).length = 65537 := by
    simp only [returned_ids, List.length_map]
    exact run_replicate_length 65537 InputHandler.new
  have he := returned_ids_eq (List.replicate 65537 (ascii "a"))
  rw [hl] at he
  have h0 : (returned_ids (List.replicate 65537 (ascii "a")))[0]? = some 0 := by
    rw [he, List.getElem?_map, List.getElem?_range (by decide)]
    rfl
  have h1 : (returned_ids (List.replicate 65537 (ascii "a")))[65536]? = some 0 := by
    rw [he, List.getElem?_map, List.getElem?_range (by decide)]
    rfl
  refine ⟨hl, h0, h1, ?_⟩
  intro hp
  rw [List.pairwise_iff_getElem] at hp
  have hlt := hp 0 65536 (by rw [hl]; decide) (by rw [hl]; decide) (by decide)
  obtain ⟨_, e0⟩ := List.getElem?_eq_some.1 h0
  obtain ⟨_, e1⟩ := List.getElem?_eq_some.1 h1
  rw [e0, e1] at hlt
  exact absurd hlt (by decide)

/-- C7, amended: for every finite sequence of stdin lines handed to a fresh
`InputHandler` that makes it return at most 65536 messages, the MessageIDs of the
messages returned are 0, 1, 2, ... in this order: they are strictly increasing and the
first one is 0.  (Without the bound the k-th MessageID is `k mod 2^16`, see
`returned_ids_eq`.) -/
theorem monotonic_ids (lines : List Str) (hn : (returned_ids lines).length ≤ 65536) :
    returned_ids lines = List.range (returned_ids lines).length
    ∧ List.Pairwise (fun a b => a < b) (returned_ids lines)
    ∧ (∀ x, (returned_ids lines).head? = some x → x = 0) := by
  have he := returned_ids_eq lines
  have hr : returned_ids lines = List.range (returned_ids lines).length := by
    conv_lhs => rw [he]
    conv_rhs => rw [← List.map_id (List.range (returned_ids lines).length)]
    apply List.map_congr_left
    intro k hk
    have := List.mem_range.1 hk
    simp only [id]
    omega
  refine ⟨hr, ?_, ?_⟩
  · rw [hr]
    exact List.pairwise_lt_range _
  · intro x hx
    rw [hr] at hx
    cases hlen : (returned_ids lines).length with
    | zero => rw [hlen] at hx; simp at hx
    | succ n =>
        rw [hlen, List.range_succ_eq_map] at hx
        simpa using hx.symm

/-- Witness of C7 (amended): login, a chat line, `/help` and `/exit` hand out the
MessageIDs 0, 1, 2. -/
theorem monotonic_ids_witness :
    (returned_ids [ascii "/auth u s Alice", ascii "hello", ascii "/help", ascii "/exit"]).length
        ≤ 65536
    ∧ returned_ids [ascii "/auth u s Alice", ascii "hello", ascii "/help", ascii "/exit"]
        = List.range
            (returned_ids
              [ascii "/auth u s Alice", ascii "hello", ascii "/help", ascii "/exit"]).length
    ∧ returned_ids [ascii "/auth u s Alice", ascii "hello", ascii "/help", ascii "/exit"]
        = [0, 1, 2] :=
  ⟨by decide,
   (monotonic_ids [ascii "/auth u s Alice", ascii "hello", ascii "/help", ascii "/exit"]
      (by decide)).1,
   by decide⟩

/-! ## C8, C9: which lines make `handle_input` return a message -/

theorem words_from_dropWhile (l : Str) :
    words_from [] l = words_from [] (l.dropWhile isspace) := by
  induction l with
  | nil => rfl
  | cons a l ih =>
      by_cases h : isspace a = true
      · simp [words_from, h, List.dropWhile_cons, ih]
      · simp [List.dropWhile_cons, h]

theorem words_from_takeWhile (cur l : Str) :
    words_from cur l
      = if (cur ++ l.takeWhile (fun x => !isspace x)).isEmpty
          then words_from [] (l.dropWhile (fun x => !isspace x))
          else (cur ++ l.takeWhile (fun x => !isspace x))
                :: words_from [] (l.dropWhile (fun x => !isspace x)) := by
  induction l generalizing cur with
  | nil => simp [words_from]
  | cons a l ih =>
      by_cases h : isspace a = true
      · simp [words_from, h, List.takeWhile_cons, List.dropWhile_cons]
      · have h1 : isspace a = false := by simpa using h
        rw [words_from, if_neg h, ih (cur ++ [a])]
        simp [List.takeWhile_cons, List.dropWhile_cons, h1]

theorem head_dropWhile_isspace (l : Str) (c : Nat) (cs : Str)
    (h : l.dropWhile isspace = c :: cs) : isspace c = false := by
  induction l with
  | nil => simp at h
  | cons a l ih =>
      by_cases ha : isspace a = true
      · rw [List.dropWhile_cons, if_pos ha] at h
        exact ih h
      · rw [List.dropWhile_cons, if_neg ha] at h
        have := (List.cons.inj h).1
        subst this
        simpa using ha

/-- The words of a string, one step at a time: leading whitespace is dropped, the
first word reaches up to the next whitespace, the other words are those of the rest. -/
theorem words_step (l : Str) :
    words l = match l.dropWhile isspace with
      | [] => []
      | c :: cs => (c :: cs).takeWhile (fun x => !isspace x)
                    :: words ((c :: cs).dropWhile (fun x => !isspace x)) := by
  rw [words, words_from_dropWhile]
  cases hd : l.dropWhile isspace with
  | nil => rfl
  | cons c cs =>
      have hc := head_dropWhile_isspace l c cs hd
      rw [words_from_takeWhile]
      simp [List.takeWhile_cons, hc, words]

theorem length_dropWhile_le (p : Nat → Bool) (l : Str) : (l.dropWhile p).length ≤ l.length := by
  induction l with
  | nil => simp
  | cons a l ih =>
      rw [List.dropWhile_cons]
      split
      · exact Nat.le_succ_of_le ih
      · exact Nat.le_refl _

/-- The loop `while (iss >> arg) args.push_back(arg)` appends the words of the unread
input, whenever its fuel exceeds the length of that input. -/
theorem read_args_eq (fuel : Nat) (buf : Str) (eof : Bool) (arg : Str) (args : List Str)
    (hfuel : buf.length < fuel) (heof : eof = true → buf = []) :
    read_args fuel ⟨buf, eof, false⟩ arg args = args ++ words buf := by
  induction fuel generalizing buf eof arg args with
  | zero => exact absurd hfuel (Nat.not_lt_zero _)
  | succ fuel ih =>
      cases eof with
      | true =>
          have hb := heof rfl
          subst hb
          simp [read_args, IStringStream.extract, IStringStream.good, words, words_from]
      | false =>
          have hw := words_step buf
          cases hd : buf.dropWhile isspace with
          | nil =>
              rw [hd] at hw
              simp [read_args, IStringStream.extract, IStringStream.good, hd, hw]
          | cons c cs =>
              rw [hd] at hw
              have hc := head_dropWhile_isspace buf c cs hd
              have hlen : ((c :: cs).dropWhile (fun x => !isspace x)).length < fuel := by
                have h1 := length_dropWhile_le isspace buf
                rw [hd] at h1
                have h2 : (c :: cs).dropWhile (fun x => !isspace x)
                    = cs.dropWhile (fun x => !isspace x) := by
                  simp [List.dropWhile_cons, hc]
                have h3 := length_dropWhile_le (fun x => !isspace x) cs
                rw [h2]
                simp only [List.length_cons] at h1
                omega
              have hrec := ih ((c :: cs).dropWhile (fun x => !isspace x))
                ((c :: cs).dropWhile (fun x => !isspace x)).isEmpty
                ((c :: cs).takeWhile (fun x => !isspace x))
                (args ++ [(c :: cs).takeWhile (fun x => !isspace x)]) hlen
                (by intro h; exact List.isEmpty_iff.1 h)
              rw [read_args]
              simp only [IStringStream.extract, IStringStream.good, hd, Bool.not_false,
                Bool.and_self, if_true, Bool.false_eq_true, if_false, hrec, hw]
              simp

/-- The command word and the vector `args` of `handle_input` are the words of what
follows the slash; both are empty when there is no word. -/
theorem command_tokens (rest : Str) :
    (words rest = [] ∧ command_word rest = [] ∧ command_args rest = [])
    ∨ words rest = command_word rest :: command_args rest := by
  have hw := words_step rest
  cases hd : rest.dropWhile isspace with
  | nil =>
      rw [hd] at hw
      left
      refine ⟨hw, ?_, ?_⟩
      · simp [command_word, IStringStream.ofStr, IStringStream.extract, IStringStream.good, hd]
      · simp [command_args, IStringStream.ofStr, IStringStream.extract, IStringStream.good, hd,
          read_args]
  | cons c cs =>
      rw [hd] at hw
      right
      have hr := read_args_eq (((c :: cs).dropWhile (fun x => !isspace x)).length + 1)
        ((c :: cs).dropWhile (fun x => !isspace x))
        ((c :: cs).dropWhile (fun x => !isspace x)).isEmpty [] [] (Nat.lt_succ_self _)
        (by intro h; exact List.isEmpty_iff.1 h)
      have e1 : command_word rest = (c :: cs).takeWhile (fun x => !isspace x) := by
        simp [command_word, IStringStream.ofStr, IStringStream.extract, IStringStream.good, hd]
      have e2 : command_args rest = words ((c :: cs).dropWhile (fun x => !isspace x)) := by
        simp only [command_args, IStringStream.ofStr, IStringStream.extract, IStringStream.good,
          hd, Bool.not_false, Bool.and_self, if_true]
        rw [hr]
        simp
      rw [hw, e1, e2]

theorem regex_match_iff (s : Str) (re : Regex) :
    regex_match s re = true ↔ re.lo ≤ s.length ∧ s.length ≤ re.hi ∧ ∀ b ∈ s, re.cls b = true := by
  simp [regex_match, and_assoc]

theorem alnum_dash_iff (b : Nat) : alnum_dash b = true ↔ is_alnum_dash b := by
  simp [alnum_dash, is_alnum_dash, or_assoc]

theorem regex_match_username (s : Str) :
    regex_match s username_channelID_pattern = true ↔ valid_username s := by
  simp only [regex_match_iff, username_channelID_pattern, valid_username, alnum_dash_iff]

theorem regex_match_secret (s : Str) :
    regex_match s secret_pattern = true ↔ valid_secret s := by
  simp only [regex_match_iff, secret_pattern, valid_secret, alnum_dash_iff]

theorem regex_match_display_name (s : Str) :
    regex_match s display_name_pattern = true ↔ valid_display_name s := by
  simp [regex_match_iff, display_name_pattern, valid_display_name]

theorem regex_match_content (s : Str) :
    regex_match s message_content_pattern = true ↔ valid_content s := by
  simp [regex_match_iff, message_content_pattern, valid_content]

/-- The command `auth` with three parameters. -/
theorem handle_command_auth (h : InputHandler) (u s d : Str) :
    h.handle_command (ascii "auth") [u, s, d]
      = if valid_username u then
          if valid_secret s then
            if valid_display_name d then
              ⟨some (.MsgAUTH u s d h.msgID_sent),
                ({ h with display_name := d } : InputHandler).inc_msgID_sent, []⟩
            else ⟨none, h, [.cerr (ascii "ERR: Display name is not valid\n")]⟩
          else ⟨none, h, [.cerr (ascii "ERR: Secret is not valid\n")]⟩
        else ⟨none, h, [.cerr (ascii "ERR: Username is not valid\n")]⟩ := by
  simp only [← regex_match_username, ← regex_match_secret, ← regex_match_display_name]
  unfold InputHandler.handle_command
  cases hu : regex_match u username_channelID_pattern <;>
    cases hs : regex_match s secret_pattern <;>
      cases hd : regex_match d display_name_pattern <;>
        simp [hu, hs, hd]

/-- The command `join` with one parameter. -/
theorem handle_command_join (h : InputHandler) (ch : Str) :
    h.handle_command (ascii "join") [ch]
      = if valid_username ch then
          ⟨some (.MsgJOIN ch h.display_name h.msgID_sent), h.inc_msgID_sent, []⟩
        else ⟨none, h, [.cerr (ascii "ERR: Channel ID is not valid\n")]⟩ := by
  simp only [← regex_match_username]
  have n1 : ¬ ascii "join" = ascii "auth" := by decide
  unfold InputHandler.handle_command
  cases hu : regex_match ch username_channelID_pattern <;> simp [hu, n1]

/-- The command `rename` with one parameter. -/
theorem handle_command_rename (h : InputHandler) (d : Str) :
    h.handle_command (ascii "rename") [d]
      = if valid_display_name d then ⟨none, { h with display_name := d }, []⟩
        else ⟨none, h, [.cerr (ascii "ERR: Display name is not valid\n")]⟩ := by
  simp only [← regex_match_display_name]
  have n1 : ¬ ascii "rename" = ascii "auth" := by decide
  have n2 : ¬ ascii "rename" = ascii "join" := by decide
  unfold InputHandler.handle_command
  cases hu : regex_match d display_name_pattern <;> simp [hu, n1, n2]

/-- A command that is not `auth` with three parameters returns no AUTH, and a command
that is not `join` with one parameter returns no JOIN. -/
theorem handle_command_type (h : InputHandler) (command : Str) (args : List Str) (m : Message)
    (hm : (h.handle_command command args).msg = some m) :
    (m.get_type = .AUTH → command = ascii "auth" ∧ args.length = 3)
    ∧ (m.get_type = .JOIN → command = ascii "join" ∧ args.length = 1) := by
  unfold InputHandler.handle_command at hm
  split_ifs at hm with h1 h2 h3 h4 h5 h6 h7 h8 h9 <;>
    simp only [Option.some.injEq, reduceCtorEq] at hm <;>
    subst hm <;>
    simp_all [Message.get_type]

/-- A command that is not `rename` with one parameter (nor `auth` with three) leaves
the display name of the handler as it is. -/
theorem handle_command_display_name (h : InputHandler) (command : Str) (args : List Str)
    (h1 : ¬ (command = ascii "auth" ∧ args.length = 3))
    (h2 : ¬ (command = ascii "rename" ∧ args.length = 1)) :
    (h.handle_command command args).handler.display_name = h.display_name := by
  unfold InputHandler.handle_command
  split_ifs <;> simp_all [InputHandler.inc_msgID_sent]

/-- A command line whose rest has the words `command :: args`. -/
theorem handle_input_words (h : InputHandler) (rest command : Str) (args : List Str)
    (hw : words rest = command :: args) :
    h.handle_input (0x2F :: rest)
      = if command = ascii "help" then ⟨none, h, help_text⟩
        else h.handle_command command args := by
  rcases command_tokens rest with ⟨h0, _, _⟩ | h1
  · rw [h0] at hw
    exact absurd hw (by simp)
  · rw [h1] at hw
    obtain ⟨e1, e2⟩ := List.cons.inj hw
    rw [handle_input_slash, e1, e2]

/-- A command line without any word behind the slash is rejected. -/
theorem handle_input_no_words (h : InputHandler) (rest : Str) (hw : words rest = []) :
    h.handle_input (0x2F :: rest)
      = ⟨none, h, [.cerr (ascii "ERR: Unknown or malformed command\n")]⟩ := by
  rcases command_tokens rest with ⟨_, e1, e2⟩ | h1
  · have n0 : ¬ ([] : Str) = ascii "help" := by decide
    have n1 : ¬ ([] : Str) = ascii "auth" := by decide
    have n2 : ¬ ([] : Str) = ascii "join" := by decide
    have n3 : ¬ ([] : Str) = ascii "rename" := by decide
    have n4 : ¬ ([] : Str) = ascii "exit" := by decide
    rw [handle_input_slash, e1, e2, if_neg n0]
    simp [InputHandler.handle_command, n1, n2, n3, n4]
  · rw [h1] at hw
    exact absurd hw (by simp)

/-- The message of a line that does not start with a slash is a MSG, if any. -/
theorem handle_input_chat_type (h : InputHandler) (a : Nat) (rest : Str) (ha : a ≠ 0x2F)
    (m : Message) (hm : (h.handle_input (a :: rest)).msg = some m) : m.get_type = .MSG := by
  rw [handle_input_chat h a rest ha] at hm
  split_ifs at hm
  simp only [Option.some.injEq] at hm
  subst hm
  rfl

/-- The lines for which `handle_input` returns an AUTH, and the AUTH returned. -/
theorem handle_input_auth_iff (h : InputHandler) (line : Str) (m : Message) :
    ((h.handle_input line).msg = some m ∧ m.get_type = .AUTH) ↔
      ∃ rest u s d, line = 0x2F :: rest ∧ words rest = [ascii "auth", u, s, d]
        ∧ valid_username u ∧ valid_secret s ∧ valid_display_name d
        ∧ m = .MsgAUTH u s d h.msgID_sent := by
  have nh : ¬ ascii "auth" = ascii "help" := by decide
  constructor
  · rintro ⟨hm, ht⟩
    cases line with
    | nil => simp [InputHandler.handle_input] at hm
    | cons a rest =>
        by_cases ha : a = 0x2F
        · subst ha
          cases hw : words rest with
          | nil => rw [handle_input_no_words h rest hw] at hm; simp at hm
          | cons command args =>
              rw [handle_input_words h rest command args hw] at hm
              split_ifs at hm with hhelp
              obtain ⟨hc, hl⟩ := (handle_command_type h command args m hm).1 ht
              obtain ⟨u, s, d, hargs⟩ := List.length_eq_three.1 hl
              subst hc hargs
              rw [handle_command_auth] at hm
              split_ifs at hm with hu hs hd
              simp only [Option.some.injEq] at hm
              exact ⟨rest, u, s, d, rfl, hw, hu, hs, hd, hm.symm⟩
        · have := handle_input_chat_type h a rest ha m hm
          rw [this] at ht
          exact absurd ht (by decide)
  · rintro ⟨rest, u, s, d, hl, hw, hu, hs, hd, hm⟩
    subst hl hm
    rw [handle_input_words h rest _ _ hw, if_neg nh, handle_command_auth, if_pos hu, if_pos hs,
      if_pos hd]
    exact ⟨rfl, rfl⟩

/-- The lines for which `handle_input` returns a JOIN, and the JOIN returned. -/
theorem handle_input_join_iff (h : InputHandler) (line : Str) (m : Message) :
    ((h.handle_input line).msg = some m ∧ m.get_type = .JOIN) ↔
      ∃ rest ch, line = 0x2F :: rest ∧ words rest = [ascii "join", ch] ∧ valid_username ch
        ∧ m = .MsgJOIN ch h.display_name h.msgID_sent := by
  have nh : ¬ ascii "join" = ascii "help" := by decide
  constructor
  · rintro ⟨hm, ht⟩
    cases line with
    | nil => simp [InputHandler.handle_input] at hm
    | cons a rest =>
        by_cases ha : a = 0x2F
        · subst ha
          cases hw : words rest with
          | nil => rw [handle_input_no_words h rest hw] at hm; simp at hm
          | cons command args =>
              rw [handle_input_words h rest command args hw] at hm
              split_ifs at hm with hhelp
              obtain ⟨hc, hl⟩ := (handle_command_type h command args m hm).2 ht
              obtain ⟨ch, hargs⟩ := List.length_eq_one.1 hl
              subst hc hargs
              rw [handle_command_join] at hm
              split_ifs at hm with hu
              simp only [Option.some.injEq] at hm
              exact ⟨rest, ch, rfl, hw, hu, hm.symm⟩
        · have := handle_input_chat_type h a rest ha m hm
          rw [this] at ht
          exact absurd ht (by decide)
  · rintro ⟨rest, ch, hl, hw, hu, hm⟩
    subst hl hm
    rw [handle_input_words h rest _ _ hw, if_neg nh, handle_command_join, if_pos hu]
    exact ⟨rfl, rfl⟩

/-- The command `exit` without parameters. -/
theorem handle_input_exit (h : InputHandler) (rest : Str) (hw : words rest = [ascii "exit"]) :
    h.handle_input (0x2F :: rest) = ⟨some (.MsgBYE h.msgID_sent), h.inc_msgID_sent, []⟩ := by
  have n0 : ¬ ascii "exit" = ascii "help" := by decide
  have n1 : ¬ ascii "exit" = ascii "auth" := by decide
  have n2 : ¬ ascii "exit" = ascii "join" := by decide
  have n3 : ¬ ascii "exit" = ascii "rename" := by decide
  rw [handle_input_words h rest _ _ hw, if_neg n0]
  unfold InputHandler.handle_command
  simp only [n1, n2, n3, false_and, if_false, List.length_nil, and_self, if_true]

/-- A command returns a message in three cases only: `auth` with three valid
parameters, `join` with one valid parameter, `exit` without parameters.  In every
other case it returns nothing and leaves the counter as it is. -/
theorem handle_command_none (h : InputHandler) (command : Str) (args : List Str)
    (h1 : ¬ ∃ u s d, command :: args = [ascii "auth", u, s, d]
      ∧ valid_username u ∧ valid_secret s ∧ valid_display_name d)
    (h2 : ¬ ∃ ch, command :: args = [ascii "join", ch] ∧ valid_username ch)
    (h3 : command :: args ≠ [ascii "exit"]) :
    (h.handle_command command args).msg = none
    ∧ (h.handle_command command args).handler.msgID_sent = h.msgID_sent := by
  by_cases a1 : command = ascii "auth" ∧ args.length = 3
  · obtain ⟨hc, hl⟩ := a1
    subst hc
    rcases args with _ | ⟨u, _ | ⟨s, _ | ⟨d, _ | ⟨e, l⟩⟩⟩⟩ <;> simp at hl
    rw [handle_command_auth]
    split_ifs with v1 v2 v3
    · exact absurd ⟨u, s, d, rfl, v1, v2, v3⟩ h1
    · exact ⟨rfl, rfl⟩
    · exact ⟨rfl, rfl⟩
    · exact ⟨rfl, rfl⟩
  · by_cases a2 : command = ascii "join" ∧ args.length = 1
    · obtain ⟨hc, hl⟩ := a2
      subst hc
      rcases args with _ | ⟨ch, _ | ⟨e, l⟩⟩ <;> simp at hl
      rw [handle_command_join]
      split_ifs with v1
      · exact absurd ⟨ch, rfl, v1⟩ h2
      · exact ⟨rfl, rfl⟩
    · by_cases a3 : command = ascii "rename" ∧ args.length = 1
      · obtain ⟨hc, hl⟩ := a3
        subst hc
        rcases args with _ | ⟨d, _ | ⟨e, l⟩⟩ <;> simp at hl
        rw [handle_command_rename]
        split_ifs <;> exact ⟨rfl, rfl⟩
      · by_cases a4 : command = ascii "exit" ∧ args.length = 0
        · obtain ⟨hc, hl⟩ := a4
          subst hc
          rcases args with _ | ⟨e, l⟩
          · exact absurd rfl h3
          · simp at hl
        · unfold InputHandler.handle_command
          rw [if_neg a1, if_neg a2, if_neg a3, if_neg a4]
          exact ⟨rfl, rfl⟩

/-- A command line returns a message in three cases only: the words behind the slash
are `auth` and three valid parameters, `join` and one valid parameter, or `exit`
alone.  In every other case, `/help`, `/rename`, an unknown command word, a wrong
number of parameters, a parameter that is not valid, no word at all, `handle_input`
returns nothing and leaves the counter as it is. -/
theorem handle_input_command_none (h : InputHandler) (rest : Str)
    (h1 : ¬ ∃ u s d, words rest = [ascii "auth", u, s, d]
      ∧ valid_username u ∧ valid_secret s ∧ valid_display_name d)
    (h2 : ¬ ∃ ch, words rest = [ascii "join", ch] ∧ valid_username ch)
    (h3 : words rest ≠ [ascii "exit"]) :
    (h.handle_input (0x2F :: rest)).msg = none
    ∧ (h.handle_input (0x2F :: rest)).handler.msgID_sent = h.msgID_sent := by
  rcases command_tokens rest with ⟨hw, _, _⟩ | hw
  · rw [handle_input_no_words h rest hw]
    exact ⟨rfl, rfl⟩
  · rw [handle_input_words h rest _ _ hw]
    rw [hw] at h1 h2 h3
    split_ifs
    · exact ⟨rfl, rfl⟩
    · exact handle_command_none h _ _ h1 h2 h3

/-- A line that does not start with a slash and is not a valid message content is
answered with a diagnostic: no message, and the counter stays as it is. -/
theorem handle_input_chat_none (h : InputHandler) (a : Nat) (rest : Str) (ha : a ≠ 0x2F)
    (hv : ¬ valid_content (a :: rest)) :
    (h.handle_input (a :: rest)).msg = none
    ∧ (h.handle_input (a :: rest)).handler.msgID_sent = h.msgID_sent := by
  have hr : regex_match (a :: rest) message_content_pattern = false := by
    cases hb : regex_match (a :: rest) message_content_pattern
    · rfl
    · exact absurd ((regex_match_content _).1 hb) hv
  rw [handle_input_chat h a rest ha, if_pos hr]
  exact ⟨rfl, rfl⟩

/-- The messages `handle_input` returns are of type AUTH, JOIN, MSG or BYE. -/
theorem handle_input_types (h : InputHandler) (line : Str) (m : Message)
    (hm : (h.handle_input line).msg = some m) :
    m.get_type = .AUTH ∨ m.get_type = .JOIN ∨ m.get_type = .MSG ∨ m.get_type = .BYE := by
  cases line with
  | nil => simp [InputHandler.handle_input] at hm
  | cons a rest =>
      by_cases ha : a = 0x2F
      · subst ha
        by_cases h1 : ∃ u s d, words rest = [ascii "auth", u, s, d]
            ∧ valid_username u ∧ valid_secret s ∧ valid_display_name d
        · obtain ⟨u, s, d, hw, vu, vs, vd⟩ := h1
          have := (handle_input_auth_iff h (0x2F :: rest) (.MsgAUTH u s d h.msgID_sent)).2
            ⟨rest, u, s, d, rfl, hw, vu, vs, vd, rfl⟩
          rw [this.1] at hm
          cases hm
          exact Or.inl rfl
        · by_cases h2 : ∃ ch, words rest = [ascii "join", ch] ∧ valid_username ch
          · obtain ⟨ch, hw, vc⟩ := h2
            have := (handle_input_join_iff h (0x2F :: rest)
              (.MsgJOIN ch h.display_name h.msgID_sent)).2 ⟨rest, ch, rfl, hw, vc, rfl⟩
            rw [this.1] at hm
            cases hm
            exact Or.inr (Or.inl rfl)
          · by_cases h3 : words rest = [ascii "exit"]
            · rw [handle_input_exit h rest h3] at hm
              cases hm
              exact Or.inr (Or.inr (Or.inr rfl))
            · rw [(handle_input_command_none h rest h1 h2 h3).1] at hm
              cases hm
      · exact Or.inr (Or.inr (Or.inl (handle_input_chat_type h a rest ha m hm)))

/-- C8, counterexample: the line `/ auth u s Alice`, with a blank between the slash and
the command word, does not start with `/auth`, and yet `handle_input` returns the AUTH
message of username `u`, secret `s` and display name `Alice` for it. -/
theorem command_validation_counterexample :
    (InputHandler.new.handle_input (ascii "/ auth u s Alice")).msg
        = some (.MsgAUTH (ascii "u") (ascii "s") (ascii "Alice") 0)
    ∧ ¬ ∃ tail, ascii "/ auth u s Alice" = ascii "/auth" ++ tail := by
  refine ⟨by decide, ?_⟩
  rintro ⟨tail, ht⟩
  have e1 : ascii "/ auth u s Alice" = 0x2F :: 0x20 :: ascii "auth u s Alice" := by decide
  have e2 : ascii "/auth" = 0x2F :: 0x61 :: ascii "uth" := by decide
  rw [e1, e2] at ht
  simp at ht

/-- C8, amended: `handle_input` returns an AUTH message if and only if the line is a
slash followed by a rest whose whitespace-separated words are `auth` (whitespace
before it being skipped) and exactly three arguments, a username matching
`[A-Za-z0-9-]{1,20}`, a secret matching `[A-Za-z0-9-]{1,128}` and a display name of 1
to 20 bytes in 0x21-0x7E; the AUTH returned carries them in that order.  It returns a
JOIN message if and only if the words behind the slash are `join` and one argument
matching `[A-Za-z0-9-]{1,20}`.  In every rejected case it returns nothing: for every
line whose command word is `auth` or `join` and which does not meet these
conditions, because the number of arguments is another or because an argument is not
valid, no message at all is returned; more generally a command line returns a
message only as such an `auth`, such a `join`, or `exit` alone. -/
theorem command_validation (h : InputHandler) (line : Str) :
    (∀ m, ((h.handle_input line).msg = some m ∧ m.get_type = .AUTH) ↔
        ∃ rest u s d, line = 0x2F :: rest ∧ words rest = [ascii "auth", u, s, d]
          ∧ valid_username u ∧ valid_secret s ∧ valid_display_name d
          ∧ m = .MsgAUTH u s d h.msgID_sent)
    ∧ (∀ m, ((h.handle_input line).msg = some m ∧ m.get_type = .JOIN) ↔
        ∃ rest ch, line = 0x2F :: rest ∧ words rest = [ascii "join", ch] ∧ valid_username ch
          ∧ m = .MsgJOIN ch h.display_name h.msgID_sent)
    ∧ (∀ rest args, line = 0x2F :: rest → words rest = ascii "auth" :: args →
        ¬ (∃ u s d, args = [u, s, d]
            ∧ valid_username u ∧ valid_secret s ∧ valid_display_name d) →
        (h.handle_input line).msg = none)
    ∧ (∀ rest args, line = 0x2F :: rest → words rest = ascii "join" :: args →
        ¬ (∃ ch, args = [ch] ∧ valid_username ch) →
        (h.handle_input line).msg = none)
    ∧ (∀ rest, line = 0x2F :: rest →
        ¬ (∃ u s d, words rest = [ascii "auth", u, s, d]
            ∧ valid_username u ∧ valid_secret s ∧ valid_display_name d) →
        ¬ (∃ ch, words rest = [ascii "join", ch] ∧ valid_username ch) →
        words rest ≠ [ascii "exit"] →
        (h.handle_input line).msg = none) := by
  refine ⟨handle_input_auth_iff h line, handle_input_join_iff h line, ?_, ?_,
    fun rest hl h1 h2 h3 => by
      subst hl
      exact (handle_input_command_none h rest h1 h2 h3).1⟩
  · intro rest args hl hw hv
    subst hl
    refine (handle_input_command_none h rest ?_ ?_ ?_).1
    · rintro ⟨u, s, d, hw2, vu, vs, vd⟩
      rw [hw] at hw2
      exact hv ⟨u, s, d, (List.cons.inj hw2).2, vu, vs, vd⟩
    · rintro ⟨ch, hw2, _⟩
      rw [hw] at hw2
      exact absurd (List.cons.inj hw2).1 (by decide)
    · intro hw2
      rw [hw] at hw2
      exact absurd (List.cons.inj hw2).1 (by decide)
  · intro rest args hl hw hv
    subst hl
    refine (handle_input_command_none h rest ?_ ?_ ?_).1
    · rintro ⟨u, s, d, hw2, _⟩
      rw [hw] at hw2
      exact absurd (List.cons.inj hw2).1 (by decide)
    · rintro ⟨ch, hw2, vc⟩
      rw [hw] at hw2
      exact hv ⟨ch, (List.cons.inj hw2).2, vc⟩
    · intro hw2
      rw [hw] at hw2
      exact absurd (List.cons.inj hw2).1 (by decide)

/-- Witness of C8 (amended): `/auth u s`, an `auth` with two arguments, returns
nothing. -/
theorem command_validation_witness :
    (InputHandler.new.handle_input (ascii "/auth u s")).msg = none :=
  (command_validation InputHandler.new (ascii "/auth u s")).2.2.1 (ascii "auth u s")
    [ascii "u", ascii "s"] (by decide) (by decide)
    (by rintro ⟨u, s, d, h, _⟩; simp at h)

/-- The display name of the handler after one call of `handle_input`: the one the
line sets if it is a valid `/auth` or `/rename`, the one before otherwise. -/
theorem handle_input_display_name (h : InputHandler) (line : Str) :
    (h.handle_input line).handler.display_name = (name_set_by line).getD h.display_name := by
  cases line with
  | nil => simp [InputHandler.handle_input, name_set_by]
  | cons a rest =>
      by_cases ha : a = 0x2F
      · subst ha
        simp only [name_set_by, List.head?_cons, List.tail_cons, if_true]
        cases hw : words rest with
        | nil => rw [handle_input_no_words h rest hw]; rfl
        | cons command args =>
            rw [handle_input_words h rest command args hw]
            by_cases hhelp : command = ascii "help"
            · subst hhelp
              rw [if_pos rfl]
              have n1 : ¬ ascii "help" = ascii "auth" := by decide
              have n2 : ¬ ascii "help" = ascii "rename" := by decide
              unfold name_of_words
              split <;> simp_all
            · rw [if_neg hhelp]
              by_cases hauth : command = ascii "auth" ∧ args.length = 3
              · obtain ⟨hc, hl⟩ := hauth
                obtain ⟨u, s, d, hargs⟩ := List.length_eq_three.1 hl
                subst hc hargs
                rw [handle_command_auth]
                simp only [name_of_words]
                split_ifs <;> simp_all [InputHandler.inc_msgID_sent]
              · by_cases hren : command = ascii "rename" ∧ args.length = 1
                · obtain ⟨hc, hl⟩ := hren
                  obtain ⟨d, hargs⟩ := List.length_eq_one.1 hl
                  subst hc hargs
                  rw [handle_command_rename]
                  simp only [name_of_words]
                  split_ifs <;> simp_all
                · rw [handle_command_display_name h command args hauth hren]
                  unfold name_of_words
                  split <;> simp_all
      · rw [handle_input_chat h a rest ha]
        simp only [name_set_by, List.head?_cons, Option.some.injEq, ha, if_false, Option.getD_none]
        split_ifs <;> simp [InputHandler.inc_msgID_sent]

/-- The display name of a handler after a sequence of lines: the one set by the most
recent valid `/auth` or `/rename`, and the one it started with when there is none. -/
theorem run_display_name (lines : List Str) (h : InputHandler) :
    (h.run lines).1.display_name
      = ((lines.filterMap name_set_by).getLast?).getD h.display_name := by
  induction lines generalizing h with
  | nil => rfl
  | cons line lines ih =>
      have hs := handle_input_display_name h line
      simp only [InputHandler.run, ih, hs]
      cases hn : name_set_by line with
      | none => simp [List.filterMap_cons, hn]
      | some d =>
          simp only [List.filterMap_cons, hn, Option.getD_some]
          cases hl : List.filterMap name_set_by lines with
          | nil => simp
          | cons x xs =>
              have hx : (x :: xs).getLast? = some ((x :: xs).getLast (by simp)) :=
                List.getLast?_eq_getLast _ _
              simp [List.getLast?_cons_cons, hx]

/-- C9: for every non-empty line that does not start with a slash, handed to a handler
that was fresh before the lines `pre`, `handle_input` returns a message if and only if
the line has 1 to 1400 bytes, all in 0x20-0x7E; the message is then the MSG whose
content is the line and whose display name is the one set by the most recent valid
`/auth` or `/rename` of `pre`.  A `/rename` with an invalid name and an `/auth` with an
invalid argument leave the stored display name unchanged. -/
theorem chat_lines (pre : List Str) (line : Str) (hne : line ≠ [])
    (hslash : line.head? ≠ some 0x2F) :
    ((∃ m, ((InputHandler.new.run pre).1.handle_input line).msg = some m) ↔ valid_content line)
    ∧ (valid_content line →
        ((InputHandler.new.run pre).1.handle_input line).msg
          = some (.MsgMSG (current_name pre) line (InputHandler.new.run pre).1.msgID_sent))
    ∧ (∀ (h : InputHandler) (rest d : Str), words rest = [ascii "rename", d] →
        ¬ valid_display_name d →
        (h.handle_input (0x2F :: rest)).handler.display_name = h.display_name)
    ∧ (∀ (h : InputHandler) (rest u s d : Str), words rest = [ascii "auth", u, s, d] →
        ¬ (valid_username u ∧ valid_secret s ∧ valid_display_name d) →
        (h.handle_input (0x2F :: rest)).handler.display_name = h.display_name) := by
  have hname : (InputHandler.new.run pre).1.display_name = current_name pre :=
    run_display_name pre InputHandler.new
  refine ⟨?_, ?_, ?_, ?_⟩
  · cases line with
    | nil => exact absurd rfl hne
    | cons a rest =>
        have ha : a ≠ 0x2F := by
          intro h
          exact hslash (by rw [h]; rfl)
        rw [handle_input_chat _ a rest ha, ← regex_match_content]
        cases hr : regex_match (a :: rest) message_content_pattern <;> simp
  · intro hv
    cases line with
    | nil => exact absurd rfl hne
    | cons a rest =>
        have ha : a ≠ 0x2F := by
          intro h
          exact hslash (by rw [h]; rfl)
        have hr := (regex_match_content (a :: rest)).2 hv
        rw [handle_input_chat _ a rest ha, hr, hname]
        rfl
  · intro h rest d hw hv
    rw [handle_input_display_name]
    simp [name_set_by, hw, name_of_words, hv]
  · intro h rest u s d hw hv
    rw [handle_input_display_name]
    have hv1 : ¬ (valid_username u ∧ valid_secret s ∧ valid_display_name d) := hv
    simp only [name_set_by, List.head?_cons, List.tail_cons, if_true, hw, name_of_words]
    rw [if_neg (fun hx => hv1 hx.2)]
    rfl

/-- Witness of C9: after a login as `Alice`, a renaming to `Bob` and a renaming
without a name, the chat line `hello` becomes the MSG of `Bob` with MessageID 1. -/
theorem chat_lines_witness :
    ascii "hello" ≠ [] ∧ (ascii "hello").head? ≠ some 0x2F
    ∧ valid_content (ascii "hello")
    ∧ ((InputHandler.new.run [ascii "/auth u s Alice", ascii "/rename Bob",
          ascii "/rename"]).1.handle_input (ascii "hello")).msg
        = some (.MsgMSG (current_name [ascii "/auth u s Alice", ascii "/rename Bob",
            ascii "/rename"]) (ascii "hello")
            (InputHandler.new.run [ascii "/auth u s Alice", ascii "/rename Bob",
              ascii "/rename"]).1.msgID_sent)
    ∧ current_name [ascii "/auth u s Alice", ascii "/rename Bob", ascii "/rename"]
        = ascii "Bob" :=
  ⟨by decide, by decide, by decide,
   (chat_lines [ascii "/auth u s Alice", ascii "/rename Bob", ascii "/rename"] (ascii "hello")
      (by decide) (by decide)).2.1 (by decide),
   by decide⟩

/-! ## C10: messages queued before authentication -/

/-- One round of the TCP loop on a message that is not an AUTH, before authentication:
the message is popped with a diagnostic, nothing is sent, and the loop goes on with the
rest of the queue. -/
theorem tcp_drop_unauthenticated (c : Client) (m : Message) (rest : List (Option Message))
    (hauth : c.auth = false) (hw : c.waiting_on_reply = false)
    (hq : c.client_msg_queue = some m :: rest) (hm : m.get_type ≠ .AUTH) :
    TCPClient.process_client_messages c
      = TCPClient.process_client_messages
          (({ c with client_msg_queue := rest } : Client).cerr
            (ascii "ERR: You need to authenticate first\n")) := by
  simp only [TCPClient.process_client_messages, hq, TCPClient.process_client_messages_loop, hw,
    hauth, hm, ne_eq, not_false_eq_true, and_self, if_true, Bool.false_eq_true, if_false,
    Client.cerr, Client.emit]

/-- The TCP loop on a queue without AUTH, before authentication: every message is
dropped and nothing is sent. -/
theorem tcp_drop_all (q : List (Option Message)) (c : Client)
    (hauth : c.auth = false) (hw : c.waiting_on_reply = false) (hq : c.client_msg_queue = q)
    (hno : ∀ m, some m ∈ q → m.get_type ≠ .AUTH) :
    TCPClient.process_client_messages_loop q c
      = { c with client_msg_queue := [], out := c.out ++ unauthenticated_errors q } := by
  induction q generalizing c with
  | nil =>
      cases c
      simp only at hq
      subst hq
      simp [TCPClient.process_client_messages_loop, unauthenticated_errors]
  | cons front rest ih =>
      have hno1 : ∀ m, some m ∈ rest → m.get_type ≠ .AUTH :=
        fun m hm => hno m (List.mem_cons_of_mem _ hm)
      cases c
      simp only at hq hw hauth
      subst hq hw hauth
      cases front with
      | none =>
          simp only [TCPClient.process_client_messages_loop, Bool.false_eq_true, if_false]
          rw [ih _ rfl rfl rfl hno1]
          simp [unauthenticated_errors]
      | some m =>
          have hm := hno m (List.mem_cons_self _ _)
          simp only [TCPClient.process_client_messages_loop, Bool.false_eq_true, if_false,
            hm, ne_eq, not_false_eq_true, and_self, if_true, Client.cerr, Client.emit]
          rw [ih _ rfl rfl rfl hno1]
          simp [unauthenticated_errors]

/-- One round of the UDP loop on a message that is not an AUTH, before authentication. -/
theorem udp_drop_unauthenticated (fuel : Nat) (c : Client) (m : Message)
    (rest : List (Option Message)) (hauth : c.auth = false) (hw : c.waiting_on_reply = false)
    (hq : c.client_msg_queue = some m :: rest) (hm : m.get_type ≠ .AUTH) :
    UDPClient.process_client_messages (fuel + 1) c
      = UDPClient.process_client_messages fuel
          (({ c with client_msg_queue := rest } : Client).cerr
            (ascii "ERR: You need to authenticate first\n")) := by
  rw [UDPClient.process_client_messages]
  simp only [hw, Bool.false_eq_true, if_false, hq, hauth, hm, ne_eq, not_false_eq_true, and_self,
    if_true]

/-- The UDP loop on a queue without AUTH, before authentication: every message is
dropped and nothing is sent; the loop returns whenever the fuel exceeds the length of
the queue. -/
theorem udp_drop_all (q : List (Option Message)) (fuel : Nat) (c : Client)
    (hauth : c.auth = false) (hw : c.waiting_on_reply = false) (hq : c.client_msg_queue = q)
    (hno : ∀ m, some m ∈ q → m.get_type ≠ .AUTH) (hfuel : q.length < fuel) :
    UDPClient.process_client_messages fuel c
      = some { c with client_msg_queue := [], out := c.out ++ unauthenticated_errors q } := by
  induction q generalizing c fuel with
  | nil =>
      cases fuel with
      | zero => exact absurd hfuel (Nat.lt_irrefl _)
      | succ fuel =>
          cases c
          simp only at hq hw
          subst hq hw
          simp [UDPClient.process_client_messages, unauthenticated_errors]
  | cons front rest ih =>
      have hno1 : ∀ m, some m ∈ rest → m.get_type ≠ .AUTH :=
        fun m hm => hno m (List.mem_cons_of_mem _ hm)
      cases fuel with
      | zero => exact absurd hfuel (Nat.not_lt_zero _)
      | succ fuel =>
          have hf : rest.length < fuel := by
            simp only [List.length_cons] at hfuel
            omega
          cases c
          simp only at hq hw hauth
          subst hq hw hauth
          cases front with
          | none =>
              rw [UDPClient.process_client_messages]
              simp only [Bool.false_eq_true, if_false]
              rw [ih fuel _ rfl rfl rfl hno1 hf]
              simp [unauthenticated_errors]
          | some m =>
              have hm := hno m (List.mem_cons_self _ _)
              rw [udp_drop_unauthenticated fuel _ m rest rfl rfl rfl hm]
              simp only [Client.cerr, Client.emit]
              rw [ih fuel _ rfl rfl rfl hno1 hf]
              simp [unauthenticated_errors]

/-- C10, counterexample: the TCP client after a failed authentication (state
`AUTHENTICATE`, `auth` and `waiting_on_reply` false) with a MSG and then an AUTH in
its outbound queue.  `process_client_messages` drops the MSG and goes on: it sends the
AUTH frame and sets `waiting_on_reply`. -/
theorem pre_auth_rejection_counterexample :
    (Message.MsgMSG (ascii "d") (ascii "hi") 1).get_type ≠ .AUTH
    ∧ TCPClient.process_client_messages
        { Client.init 3 0 true [] [] with
          state := .AUTHENTICATE
          client_msg_queue := [some (.MsgMSG (ascii "d") (ascii "hi") 1),
                               some (.MsgAUTH (ascii "u") (ascii "s") (ascii "d") 2)] }
      = { Client.init 3 0 true [] [] with
          state := .AUTHENTICATE
          waiting_on_reply := true
          client_msg_queue := [some (.MsgAUTH (ascii "u") (ascii "s") (ascii "d") 2)]
          out := [.cerr (ascii "ERR: You need to authenticate first\n"),
                  .send (ascii "AUTH u AS d USING s\r\n")] } := by
  decide

/-- C10, amended: for every client state with `auth = false` and
`waiting_on_reply = false` and every message at the head of the outbound queue whose
type is not AUTH, `process_client_messages` (TCP and UDP) pops the message without
sending it, printing a diagnostic and leaving state, `auth` and `waiting_on_reply` as
they are, and then goes on with the rest of the queue.  When no AUTH is queued behind
the message, the call sends nothing at all: it returns with an empty queue, only
diagnostics added to the trace, and state, `auth` and `waiting_on_reply` unchanged. -/
theorem pre_auth_rejection (c : Client) (m : Message) (rest : List (Option Message))
    (fuel : Nat) (hauth : c.auth = false) (hw : c.waiting_on_reply = false)
    (hq : c.client_msg_queue = some m :: rest) (hm : m.get_type ≠ .AUTH) :
    TCPClient.process_client_messages c
        = TCPClient.process_client_messages
            (({ c with client_msg_queue := rest } : Client).cerr
              (ascii "ERR: You need to authenticate first\n"))
    ∧ UDPClient.process_client_messages (fuel + 1) c
        = UDPClient.process_client_messages fuel
            (({ c with client_msg_queue := rest } : Client).cerr
              (ascii "ERR: You need to authenticate first\n"))
    ∧ ((∀ x, some x ∈ rest → x.get_type ≠ .AUTH) →
        TCPClient.process_client_messages c
          = { c with client_msg_queue := []
                     out := c.out ++ unauthenticated_errors (some m :: rest) }
        ∧ UDPClient.process_client_messages (rest.length + 2 + fuel) c
          = some { c with client_msg_queue := []
                          out := c.out ++ unauthenticated_errors (some m :: rest) }) := by
  refine ⟨tcp_drop_unauthenticated c m rest hauth hw hq hm,
    udp_drop_unauthenticated fuel c m rest hauth hw hq hm, ?_⟩
  intro hrest
  have hno : ∀ x, some x ∈ some m :: rest → x.get_type ≠ .AUTH := by
    intro x hx
    rcases List.mem_cons.1 hx with h | h
    · rw [Option.some.inj h]; exact hm
    · exact hrest x h
  constructor
  · rw [TCPClient.process_client_messages, hq]
    exact tcp_drop_all _ c hauth hw hq hno
  · exact udp_drop_all _ _ c hauth hw hq hno (by simp only [List.length_cons]; omega)

/-- Witness of C10 (amended): the chat line `hi` typed before any `/auth`. -/
theorem pre_auth_rejection_witness :
    TCPClient.process_client_messages
        { Client.init 3 0 true [] [] with client_msg_queue := [some (.MsgMSG [] (ascii "hi") 0)] }
      = { Client.init 3 0 true [] [] with
          out := [.cerr (ascii "ERR: You need to authenticate first\n")] }
    ∧ UDPClient.process_client_messages 2
        { Client.init 3 0 true [] [] with client_msg_queue := [some (.MsgMSG [] (ascii "hi") 0)] }
      = some { Client.init 3 0 true [] [] with
          out := [.cerr (ascii "ERR: You need to authenticate first\n")] } :=
  have h := (pre_auth_rejection
    { Client.init 3 0 true [] [] with client_msg_queue := [some (.MsgMSG [] (ascii "hi") 0)] }
    (.MsgMSG [] (ascii "hi") 0) [] 0 rfl rfl rfl (by decide)).2.2 (by simp)
  ⟨h.1, h.2⟩

/-! ## C11, C12: which head message is sent -/

/-- The three checks of `process_client_messages` all fail exactly for the admissible
messages. -/
theorem admissible_iff (msg : Message) (c : Client) :
    admissible msg c ↔
      ¬ (msg.get_type ≠ .AUTH ∧ c.auth = false)
      ∧ ¬ ((msg.get_type = .MSG ∨ msg.get_type = .JOIN) ∧ c.state ≠ .OPEN)
      ∧ ¬ (msg.get_type = .AUTH ∧ c.auth = true) := by
  unfold admissible
  cases hauth : c.auth <;> cases ht : msg.get_type <;> simp

/-- One round of the TCP loop on an admissible head message. -/
theorem tcp_send_admissible (c : Client) (m : Message) (rest : List (Option Message))
    (hw : c.waiting_on_reply = false) (hq : c.client_msg_queue = some m :: rest)
    (ha : admissible m c) :
    TCPClient.process_client_messages c
      = if m.get_type = .AUTH ∨ m.get_type = .JOIN then
          { TCPClient.send_msg m c with waiting_on_reply := true }
        else
          TCPClient.process_client_messages_loop rest
            { TCPClient.send_msg m c with client_msg_queue := rest } := by
  obtain ⟨h1, h2, h3⟩ := (admissible_iff m c).1 ha
  rw [TCPClient.process_client_messages, hq, TCPClient.process_client_messages_loop]
  simp only [hw, Bool.false_eq_true, if_false, if_neg h1, if_neg h2, if_neg h3]

/-- One round of the TCP loop on a head message that is not admissible. -/
theorem tcp_drop_inadmissible (c : Client) (m : Message) (rest : List (Option Message))
    (hw : c.waiting_on_reply = false) (hq : c.client_msg_queue = some m :: rest)
    (ha : ¬ admissible m c) :
    TCPClient.process_client_messages c
      = TCPClient.process_client_messages
          (({ c with client_msg_queue := rest } : Client).cerr (drop_diagnostic m c)) := by
  rw [admissible_iff] at ha
  rw [TCPClient.process_client_messages, hq, TCPClient.process_client_messages_loop]
  simp only [hw, Bool.false_eq_true, if_false, TCPClient.process_client_messages, Client.cerr,
    Client.emit, drop_diagnostic]
  by_cases h1 : m.get_type ≠ .AUTH ∧ c.auth = false
  · simp only [if_pos h1]
  · by_cases h2 : (m.get_type = .MSG ∨ m.get_type = .JOIN) ∧ c.state ≠ .OPEN
    · simp only [if_neg h1, if_pos h2]
    · have h3 : m.get_type = .AUTH ∧ c.auth = true := by
        by_contra h3
        exact ha ⟨h1, h2, h3⟩
      simp only [if_neg h1, if_neg h2, if_pos h3]

/-- One round of the UDP loop on an admissible head message. -/
theorem udp_send_admissible (fuel : Nat) (c : Client) (m : Message)
    (rest : List (Option Message)) (hw : c.waiting_on_reply = false)
    (hq : c.client_msg_queue = some m :: rest) (ha : admissible m c) :
    UDPClient.process_client_messages (fuel + 1) c
      = match UDPClient.send_msg fuel m c with
        | none => none
        | some sent =>
            if sent.ub then some sent
            else if m.get_type = .AUTH ∨ m.get_type = .JOIN then
              UDPClient.process_client_messages fuel { sent with waiting_on_reply := true }
            else if sent.pop_client_msg.ub then some sent.pop_client_msg
            else UDPClient.process_client_messages fuel sent.pop_client_msg := by
  obtain ⟨h1, h2, h3⟩ := (admissible_iff m c).1 ha
  rw [UDPClient.process_client_messages]
  simp only [hw, Bool.false_eq_true, if_false, hq, if_neg h1, if_neg h2, if_neg h3,
    UDPClient.send_msg]

/-- One round of the UDP loop on a head message that is not admissible. -/
theorem udp_drop_inadmissible (fuel : Nat) (c : Client) (m : Message)
    (rest : List (Option Message)) (hw : c.waiting_on_reply = false)
    (hq : c.client_msg_queue = some m :: rest) (ha : ¬ admissible m c) :
    UDPClient.process_client_messages (fuel + 1) c
      = UDPClient.process_client_messages fuel
          (({ c with client_msg_queue := rest } : Client).cerr (drop_diagnostic m c)) := by
  rw [admissible_iff] at ha
  rw [UDPClient.process_client_messages]
  simp only [hw, Bool.false_eq_true, if_false, hq, Client.cerr, Client.emit, drop_diagnostic]
  by_cases h1 : m.get_type ≠ .AUTH ∧ c.auth = false
  · simp only [if_pos h1]
  · by_cases h2 : (m.get_type = .MSG ∨ m.get_type = .JOIN) ∧ c.state ≠ .OPEN
    · simp only [if_neg h1, if_pos h2]
    · have h3 : m.get_type = .AUTH ∧ c.auth = true := by
        by_contra h3
        exact ha ⟨h1, h2, h3⟩
      simp only [if_neg h1, if_neg h2, if_pos h3]

/-- A CONFIRM at the head of the outbound queue, which `main` never puts there, would
pass the three checks of `process_client_messages` in every state: here for an
authenticated client in state `END`, where the TCP client writes its (empty) frame and
the UDP client sends its datagram. -/
theorem confirm_head_is_sent :
    (Message.MsgCONFIRM 5).get_type ≠ .AUTH ∧ (Message.MsgCONFIRM 5).get_type ≠ .BYE
    ∧ (Message.MsgCONFIRM 5).get_type ≠ .ERR
    ∧ TCPClient.process_client_messages
        { Client.init 0 7 true [] [] with
          state := .END, auth := true, client_msg_queue := [some (.MsgCONFIRM 5)] }
      = { Client.init 0 7 true [] [] with
          state := .END, auth := true, out := [.send (Message.MsgCONFIRM 5).TCP_msg] }
    ∧ UDPClient.process_client_messages 4
        { Client.init 0 7 true [] [] with
          state := .END, auth := true, client_msg_queue := [some (.MsgCONFIRM 5)] }
      = some { Client.init 0 7 true [] [] with
          state := .END, auth := true, out := [.sendto 0 [0x00, 0x00, 0x05]] } := by
  decide

/-- C12: whenever `waiting_on_reply` is true, `process_client_messages` (TCP and UDP)
returns the client as it is, for every content of the outbound queue: nothing is
sent, and queue, state, `auth` and `waiting_on_reply` are unchanged. -/
theorem one_outstanding_reply (c : Client) (fuel : Nat) (hw : c.waiting_on_reply = true) :
    TCPClient.process_client_messages c = c
    ∧ UDPClient.process_client_messages (fuel + 1) c = some c := by
  constructor
  · rw [TCPClient.process_client_messages]
    cases hq : c.client_msg_queue with
    | nil => rfl
    | cons front rest => simp [TCPClient.process_client_messages_loop, hw]
  · rw [UDPClient.process_client_messages]
    simp [hw]

/-- Witness of C12: a client waiting for the reply to its AUTH, with a MSG and a BYE
queued behind it. -/
theorem one_outstanding_reply_witness :
    TCPClient.process_client_messages
        { Client.init 0 7 true [] [] with
          state := .AUTHENTICATE, waiting_on_reply := true
          client_msg_queue := [some (.MsgAUTH (ascii "u") (ascii "s") (ascii "d") 0),
                               some (.MsgMSG (ascii "d") (ascii "hi") 1), some (.MsgBYE 2)] }
      = { Client.init 0 7 true [] [] with
          state := .AUTHENTICATE, waiting_on_reply := true
          client_msg_queue := [some (.MsgAUTH (ascii "u") (ascii "s") (ascii "d") 0),
                               some (.MsgMSG (ascii "d") (ascii "hi") 1), some (.MsgBYE 2)] } :=
  (one_outstanding_reply
    { Client.init 0 7 true [] [] with
      state := .AUTHENTICATE, waiting_on_reply := true
      client_msg_queue := [some (.MsgAUTH (ascii "u") (ascii "s") (ascii "d") 0),
                           some (.MsgMSG (ascii "d") (ascii "hi") 1), some (.MsgBYE 2)] }
    0 rfl).1

/-! ## C13, C14: a REPLY while the client waits for one -/

/-- The line `getline` reads from a good stream that is not at its end: the characters
before the first line feed. -/
theorem getline_content (a : Nat) (l str : Str) :
    ((IStringStream.mk (a :: l) false false).getline str).2
      = (a :: l).takeWhile (fun x => x != 0x0A) := by
  simp only [IStringStream.getline, IStringStream.good, Bool.not_false, Bool.and_self, if_true]
  cases hd : (a :: l).dropWhile (fun x => x != 0x0A) with
  | nil =>
      have h := List.takeWhile_append_dropWhile (fun x => x != 0x0A) (a :: l)
      rw [hd, List.append_nil] at h
      exact h.symm
  | cons b rest => rfl

/-- The tokens of a frame `REPLY <result> IS <content>`: the keyword and the stream
behind it, the result, and the content `getline` reads, which starts with the blank
after `IS` and ends before the first line feed. -/
theorem reply_tokens (res content : Str) (hres : ∀ b ∈ res, isspace b = false)
    (hne : res ≠ []) :
    (IStringStream.ofStr (ascii "REPLY " ++ res ++ ascii " IS " ++ content)).extract []
      = (⟨0x20 :: (res ++ ascii " IS " ++ content), false, false⟩, ascii "REPLY")
    ∧ (IStringStream.mk (0x20 :: (res ++ ascii " IS " ++ content)) false false).extract []
      = (⟨ascii " IS " ++ content, false, false⟩, res)
    ∧ (IStringStream.mk (ascii " IS " ++ content) false false).extract []
      = (⟨0x20 :: content, false, false⟩, ascii "IS")
    ∧ ((IStringStream.mk (0x20 :: content) false false).getline []).2
      = 0x20 :: content.takeWhile (fun x => x != 0x0A) := by
  have k1 : ascii "REPLY " = ascii "REPLY" ++ [0x20] := by decide
  have k2 : ascii " IS " = 0x20 :: (ascii "IS" ++ [0x20]) := by decide
  have t1 := extract_token [] (ascii "REPLY") 0x20 (res ++ ascii " IS " ++ content) []
    (by simp) (by decide) (by decide) (by decide)
  have t2 := extract_token [0x20] res 0x20 (ascii "IS" ++ 0x20 :: content) []
    (by decide) hres hne (by decide)
  have t3 := extract_token [0x20] (ascii "IS") 0x20 content []
    (by decide) (by decide) (by decide) (by decide)
  refine ⟨?_, ?_, ?_, ?_⟩
  · rw [k1]
    simpa [IStringStream.ofStr] using t1
  · rw [k2]
    simpa using t2
  · rw [k2]
    simpa using t3
  · rw [getline_content]
    rfl

/-- The TCP dispatch of a negative REPLY while waiting, for a content without line
feed. -/
theorem tcp_reply_nok (c : Client) (m : Option Message) (rest : List (Option Message))
    (content : Str) (more : List Str) (hct : ∀ b ∈ content, b ≠ 0x0A)
    (hw : c.waiting_on_reply = true) (hq : c.client_msg_queue = m :: rest) :
    TCPClient.process_server_messages_loop ((ascii "REPLY NOK IS " ++ content) :: more) c
      = TCPClient.process_server_messages_loop more
          (TCPClient.process_client_messages
            { c with
              server_msg_queue := more
              out := c.out ++ [.cerr (ascii "Failure: " ++ content ++ ascii "\n")]
              client_msg_queue := rest
              waiting_on_reply := false }) := by
  obtain ⟨t1, t2, t3, t4⟩ := reply_tokens (ascii "NOK") content (by decide) (by decide)
  have e1 : ascii "REPLY " ++ ascii "NOK" ++ ascii " IS " ++ content
      = ascii "REPLY NOK IS " ++ content := by
    have k : ascii "REPLY NOK IS " = ascii "REPLY " ++ ascii "NOK" ++ ascii " IS " := by decide
    rw [k]
  rw [e1] at t1
  have hne : (ascii "REPLY NOK IS " ++ content).isEmpty = false := by
    have k : ascii "REPLY NOK IS " = 0x52 :: ascii "EPLY NOK IS " := by decide
    rw [k]; rfl
  have htw : content.takeWhile (fun x => x != 0x0A) = content := by
    rw [List.takeWhile_eq_self_iff]
    intro b hb
    simpa using hct b hb
  rw [htw] at t4
  have u1 : str_toupper (ascii "REPLY") = ascii "REPLY" := by decide
  have u2 : str_toupper (ascii "IS") = ascii "IS" := by decide
  have u3 : str_toupper (ascii "NOK") = ascii "NOK" := by decide
  have htext : ascii "Failure:" ++ 0x20 :: content ++ ascii "\n"
      = ascii "Failure: " ++ content ++ ascii "\n" := by
    have k : ascii "Failure: " = ascii "Failure:" ++ [0x20] := by decide
    rw [k]; simp
  cases c
  simp only at hw hq
  subst hw hq
  rw [TCPClient.process_server_messages_loop]
  simp only [hne, Bool.false_eq_true, if_false, t1, u1, if_true, TCPClient.process_reply,
    t2, t3, u2, u3, t4, htext, and_self, Client.cerr, Client.emit, Client.pop_client_msg]

/-- C14: a TCP client that waits for a reply, with `m` at the head of its outbound
queue, dispatches the frame `REPLY NOK IS <content>` (a content without line feed) by
writing exactly `Failure: <content>` and a newline to stderr, popping the head and
clearing `waiting_on_reply`; state and `auth` are left as they are (`AUTHENTICATE` and
false after an AUTH), and the outbound queue is driven again from there.  With no
message queued behind the head and no further frame, that is the final client. -/
theorem negative_reply (c : Client) (m : Message) (rest : List (Option Message))
    (content : Str) (more : List Str)
    (hw : c.waiting_on_reply = true) (hq : c.client_msg_queue = some m :: rest)
    (hct : ∀ b ∈ content, b ≠ 0x0A) :
    TCPClient.process_server_messages_loop ((ascii "REPLY NOK IS " ++ content) :: more) c
        = TCPClient.process_server_messages_loop more
            (TCPClient.process_client_messages
              { c with
                server_msg_queue := more
                out := c.out ++ [.cerr (ascii "Failure: " ++ content ++ ascii "\n")]
                client_msg_queue := rest
                waiting_on_reply := false })
    ∧ (rest = [] →
        TCPClient.process_server_messages_loop [ascii "REPLY NOK IS " ++ content] c
          = { c with
              server_msg_queue := []
              out := c.out ++ [.cerr (ascii "Failure: " ++ content ++ ascii "\n")]
              state := c.state
              auth := c.auth
              client_msg_queue := []
              waiting_on_reply := false }) := by
  refine ⟨tcp_reply_nok c (some m) rest content more hct hw hq, ?_⟩
  intro hr
  subst hr
  rw [tcp_reply_nok c (some m) [] content [] hct hw hq]
  rfl

/-- Witness of C14: the second scenario of the TCP client, `REPLY NOK IS wrong` for
the AUTH sent in state `AUTHENTICATE`. -/
theorem negative_reply_witness :
    TCPClient.process_server_messages_loop [ascii "REPLY NOK IS wrong"]
        { Client.init 0 7 true [] [] with
          state := .AUTHENTICATE, waiting_on_reply := true
          client_msg_queue := [some (.MsgAUTH (ascii "u") (ascii "bad") (ascii "Alice") 0)] }
      = { Client.init 0 7 true [] [] with
          state := .AUTHENTICATE, auth := false, waiting_on_reply := false
          out := [.cerr (ascii "Failure: wrong\n")] } :=
  ((negative_reply
      { Client.init 0 7 true [] [] with
        state := .AUTHENTICATE, waiting_on_reply := true
        client_msg_queue := [some (.MsgAUTH (ascii "u") (ascii "bad") (ascii "Alice") 0)] }
      (.MsgAUTH (ascii "u") (ascii "bad") (ascii "Alice") 0) [] (ascii "wrong") [] rfl rfl
      (by decide)).2 rfl).trans (by decide)

/-! ## C15: `/exit` after a failed authentication -/

/-- C15, failing input: a TCP client in state `AUTHENTICATE` with `auth = false` and
`waiting_on_reply = false` reads the line `/exit`.  The BYE the handler returns is
dropped by `process_client_messages` with the diagnostic `ERR: You need to
authenticate first`: no frame is sent, the state stays `AUTHENTICATE`, and the main
loop is not left, so that there is no exit status.  The same holds for the whole
scenario from the start of `main`.  An interrupt in the same state, which sends its
BYE from `main`, does send `BYE\r\n`, ends in state `END` and exits with success. -/
theorem exit_after_failed_auth_failing_input :
    run_main TCPClient.transport [.ready (some (ascii "/exit", false)) none]
        ⟨{ Client.init 0 7 true [] [] with state := .AUTHENTICATE },
          ⟨1, ascii "Alice"⟩, false⟩
      = some (⟨{ Client.init 0 7 true [] [] with
                  state := .AUTHENTICATE
                  out := [.cerr (ascii "ERR: You need to authenticate first\n")] },
                ⟨2, ascii "Alice"⟩, false⟩, none)
    ∧ main TCPClient.transport
        [.ready (some (ascii "/auth u bad Alice", false)) none,
         .ready none (some (some (ascii "REPLY NOK IS wrong\r\n"))),
         .ready (some (ascii "/exit", false)) none]
        (Client.init 0 7 true [] [])
      = some (⟨{ Client.init 0 7 true [] [] with
                  state := .AUTHENTICATE
                  out := [.send (ascii "AUTH u AS Alice USING bad\r\n"),
                          .cerr (ascii "Failure: wrong\n"),
                          .cerr (ascii "ERR: You need to authenticate first\n")] },
                ⟨2, ascii "Alice"⟩, false⟩, none)
    ∧ run_main TCPClient.transport [.sigint]
        ⟨{ Client.init 0 7 true [] [] with state := .AUTHENTICATE },
          ⟨1, ascii "Alice"⟩, false⟩
      = some (⟨{ Client.init 0 7 true [] [] with
                  state := .END
                  out := [.send (ascii "BYE\r\n")] },
                ⟨1, ascii "Alice"⟩, true⟩, some .EXIT_SUCCESS) := by
  decide

/-! ## C16: a datagram delivered twice -/

/-- The round of the UDP dispatcher on a datagram that is not a CONFIRM and whose
MessageID was seen before: the `switch` is skipped, the datagram is popped and
confirmed, and nothing else changes. -/
theorem handle_datagram_duplicate (msg : Str) (c : Client)
    (h0 : msg.getD 0 0 ≠ MessageType.CONFIRM.toByte)
    (hseen : UDPClient.msgID_seen c (UDPClient.vector_msgID msg) = true) :
    UDPClient.handle_datagram msg c
      = { c with
          server_msg_queue := c.server_msg_queue.tail
          out := c.out ++ [.sendto c.response_addr
                    (Message.MsgCONFIRM (UDPClient.vector_msgID msg)).UDP_msg] } := by
  simp only [UDPClient.handle_datagram, hseen, Bool.true_eq_false, h0, or_self, if_false,
    ne_eq, not_false_eq_true, if_true, Client.emit]

/-- One round of the UDP dispatcher on a REPLY, given the client `handle_datagram`
leaves behind and the client the driven outbound queue leaves behind, when the
latter has left the behaviour defined by C++. -/
theorem udp_reply_round (fuel : Nat) (c : Client) (msg : Str) (more : List Str)
    (c1 c2 : Client) (hs : c.server_msg_queue = msg :: more) (hl : 3 ≤ msg.length)
    (h0 : msg.getD 0 0 = MessageType.REPLY.toByte)
    (hd : UDPClient.handle_datagram msg c = c1) (hub : c1.ub = false)
    (hst : c1.state ≠ .ERROR)
    (hp : UDPClient.process_client_messages fuel c1 = some c2) (hub2 : c2.ub = true) :
    UDPClient.process_server_messages (fuel + 1) c = some c2 := by
  have hl3 : ¬ msg.length < 3 := by omega
  rw [UDPClient.process_server_messages]
  simp only [hs, hl3, if_false, hd, hub, Bool.false_eq_true, h0, true_and, hst, ne_eq,
    not_false_eq_true, if_true, hp, hub2]

/-- The `send_msg` of the MSG in the run of C16, with fuel 6: the REPLY that arrives a
second time makes the MSG go out three times. -/
theorem udp_duplicate_send :
    UDPClient.send_msg 6 (.MsgMSG (ascii "d") (ascii "hi") 1)
        { Client.init 1 7 true [] [] with
          state := .OPEN, auth := true, response_addr := 9, seen_msg_ids := [5]
          client_msg_queue := [some (.MsgMSG (ascii "d") (ascii "hi") 1)]
          net_in := [.data 9 ([0x01, 0x00, 0x05, 0x01, 0x00, 0x00] ++ ascii "ok" ++ [0x00]),
                     .data 9 (Message.MsgCONFIRM 1).UDP_msg]
          out := [.cerr (ascii "Success: ok" ++ [0x00] ++ ascii "\n"),
                  .sendto 9 (Message.MsgCONFIRM 5).UDP_msg] }
      = some
        { Client.init 1 7 true [] [] with
          state := .END, auth := true, response_addr := 9, seen_msg_ids := [5]
          out := [.cerr (ascii "Success: ok" ++ [0x00] ++ ascii "\n"),
                  .sendto 9 (Message.MsgCONFIRM 5).UDP_msg,
                  .sendto 9 (Message.MsgMSG (ascii "d") (ascii "hi") 1).UDP_msg,
                  .sendto 9 (Message.MsgCONFIRM 5).UDP_msg,
                  .sendto 9 (Message.MsgMSG (ascii "d") (ascii "hi") 1).UDP_msg,
                  .sendto 9 (Message.MsgMSG (ascii "d") (ascii "hi") 1).UDP_msg] } := by
  decide

/-- The outbound queue driven after the first REPLY in the run of C16, with fuel 7. -/
theorem udp_duplicate_drive :
    UDPClient.process_client_messages 7
        { Client.init 1 7 true [] [] with
          state := .OPEN, auth := true, response_addr := 9, seen_msg_ids := [5]
          client_msg_queue := [some (.MsgMSG (ascii "d") (ascii "hi") 1)]
          net_in := [.data 9 ([0x01, 0x00, 0x05, 0x01, 0x00, 0x00] ++ ascii "ok" ++ [0x00]),
                     .data 9 (Message.MsgCONFIRM 1).UDP_msg]
          out := [.cerr (ascii "Success: ok" ++ [0x00] ++ ascii "\n"),
                  .sendto 9 (Message.MsgCONFIRM 5).UDP_msg] }
      = some
        { Client.init 1 7 true [] [] with
          state := .END, auth := true, response_addr := 9, seen_msg_ids := [5], ub := true
          out := [.cerr (ascii "Success: ok" ++ [0x00] ++ ascii "\n"),
                  .sendto 9 (Message.MsgCONFIRM 5).UDP_msg,
                  .sendto 9 (Message.MsgMSG (ascii "d") (ascii "hi") 1).UDP_msg,
                  .sendto 9 (Message.MsgCONFIRM 5).UDP_msg,
                  .sendto 9 (Message.MsgMSG (ascii "d") (ascii "hi") 1).UDP_msg,
                  .sendto 9 (Message.MsgMSG (ascii "d") (ascii "hi") 1).UDP_msg] } := by
  rw [udp_send_admissible 6 _ (.MsgMSG (ascii "d") (ascii "hi") 1) [] rfl rfl (by decide),
    udp_duplicate_send]
  decide

/-- The run of C16 with fuel 8. -/
theorem udp_duplicate_eval :
    UDPClient.process_server_messages 8
        { Client.init 1 7 true [] [] with
          state := .AUTHENTICATE, waiting_on_reply := true, response_addr := 9
          client_msg_queue := [some (.MsgAUTH (ascii "u") (ascii "s") (ascii "d") 0),
                               some (.MsgMSG (ascii "d") (ascii "hi") 1)]
          server_msg_queue := [[0x01, 0x00, 0x05, 0x01, 0x00, 0x00] ++ ascii "ok" ++ [0x00]]
          net_in := [.data 9 ([0x01, 0x00, 0x05, 0x01, 0x00, 0x00] ++ ascii "ok" ++ [0x00]),
                     .data 9 (Message.MsgCONFIRM 1).UDP_msg] }
      = some
        { Client.init 1 7 true [] [] with
          state := .END, auth := true, response_addr := 9, seen_msg_ids := [5], ub := true
          out := [.cerr (ascii "Success: ok" ++ [0x00] ++ ascii "\n"),
                  .sendto 9 (Message.MsgCONFIRM 5).UDP_msg,
                  .sendto 9 (Message.MsgMSG (ascii "d") (ascii "hi") 1).UDP_msg,
                  .sendto 9 (Message.MsgCONFIRM 5).UDP_msg,
                  .sendto 9 (Message.MsgMSG (ascii "d") (ascii "hi") 1).UDP_msg,
                  .sendto 9 (Message.MsgMSG (ascii "d") (ascii "hi") 1).UDP_msg] } := by
  exact udp_reply_round 7 _ _ [] _ _ rfl (by decide) (by decide) (by decide) rfl (by decide)
    udp_duplicate_drive rfl

/-- C16, the code at the failing input: a client waits for the REPLY to its AUTH
(MessageID 0) with a MSG (MessageID 1) queued behind it; one retransmission is
allowed.  The REPLY (MessageID 5, result OK, ref_id 0) is dispatched: `Success` is
printed, the state becomes `OPEN`, the REPLY is confirmed and the MSG is sent.  While
`send_msg` waits for the CONFIRM of the MSG, the same REPLY arrives again and is
dispatched a second time.  Its `switch` is skipped and a second CONFIRM is sent, but
`process_client_messages` is called all the same: it sends the MSG a second time,
takes the CONFIRM that arrives and pops the MSG.  The first `send_msg` then finds no
CONFIRM, sends the MSG a third time and sets the state to `END`, and the `pop` that
follows it is applied to an empty queue.  This is the result for every fuel of at
least eight. -/
theorem duplicate_suppression_failing_input (fuel : Nat) :
    UDPClient.process_server_messages (8 + fuel)
        { Client.init 1 7 true [] [] with
          state := .AUTHENTICATE, waiting_on_reply := true, response_addr := 9
          client_msg_queue := [some (.MsgAUTH (ascii "u") (ascii "s") (ascii "d") 0),
                               some (.MsgMSG (ascii "d") (ascii "hi") 1)]
          server_msg_queue := [[0x01, 0x00, 0x05, 0x01, 0x00, 0x00] ++ ascii "ok" ++ [0x00]]
          net_in := [.data 9 ([0x01, 0x00, 0x05, 0x01, 0x00, 0x00] ++ ascii "ok" ++ [0x00]),
                     .data 9 (Message.MsgCONFIRM 1).UDP_msg] }
      = some
        { Client.init 1 7 true [] [] with
          state := .END, auth := true, response_addr := 9, seen_msg_ids := [5], ub := true
          out := [.cerr (ascii "Success: ok" ++ [0x00] ++ ascii "\n"),
                  .sendto 9 (Message.MsgCONFIRM 5).UDP_msg,
                  .sendto 9 (Message.MsgMSG (ascii "d") (ascii "hi") 1).UDP_msg,
                  .sendto 9 (Message.MsgCONFIRM 5).UDP_msg,
                  .sendto 9 (Message.MsgMSG (ascii "d") (ascii "hi") 1).UDP_msg,
                  .sendto 9 (Message.MsgMSG (ascii "d") (ascii "hi") 1).UDP_msg] } :=
  (udp_fuel_add 8 fuel).2.2.2 _ _ udp_duplicate_eval

/-! ## C17: the copies `send_msg` sends -/

/-- The loop of `send_msg` entered with `retransmissions = k` when every `recvfrom`
times out and `n` retransmissions are left: `n + 1` copies of the message are sent to
the same destination, then the state is set to `END`. -/
theorem send_loop_timeouts (n : Nat) : ∀ (fuel : Nat) (msg : Message) (k : Int) (c : Client),
    c.net_in = [] → k + n = c.max_retransmissions →
    UDPClient.send_loop (2 * n + 2 + fuel) msg k c
      = some { c with
               out := c.out ++ List.replicate (n + 1)
                 (.sendto (if c.state = .START then c.server_addr else c.response_addr)
                   msg.UDP_msg)
               state := .END } := by
  induction n with
  | zero =>
      intro fuel msg k c hn hk
      have hf : 2 * 0 + 2 + fuel = (fuel + 1) + 1 := by omega
      have hlt : ¬ k < c.max_retransmissions := by omega
      cases c
      simp only at hn hlt
      subst hn
      rw [hf, UDPClient.send_loop, UDPClient.wait_loop]
      simp [UDPClient.recvfrom, Client.emit, hlt, Client.set_state]
  | succ n ih =>
      intro fuel msg k c hn hk
      have hf : 2 * (n + 1) + 2 + fuel = ((2 * n + 2 + fuel) + 1) + 1 := by omega
      have hlt : k < c.max_retransmissions := by omega
      have hk1 : (k + 1) + n = c.max_retransmissions := by omega
      cases c
      simp only at hn hlt hk1
      subst hn
      rw [hf, UDPClient.send_loop, UDPClient.wait_loop]
      simp only [UDPClient.recvfrom, Client.emit, hlt, and_self, if_true]
      rw [ih fuel msg (k + 1) _ rfl hk1]
      simp [List.replicate_succ]

/-- The member `send_msg` when every `recvfrom` times out, for `max_retransmissions`
equal to `r`: exactly `r + 1` copies of the message are sent, the state is set to
`END`, and nothing else changes. -/
theorem send_msg_timeouts (r fuel : Nat) (msg : Message) (c : Client)
    (hn : c.net_in = []) (hr : c.max_retransmissions = r) :
    UDPClient.send_msg (2 * r + 2 + fuel) msg c
      = some { c with
               out := c.out ++ List.replicate (r + 1)
                 (.sendto (if c.state = .START then c.server_addr else c.response_addr)
                   msg.UDP_msg)
               state := .END } :=
  send_loop_timeouts r fuel msg 0 c hn (by omega)

/-- The run of C17 with fuel 6. -/
theorem udp_retransmission_eval :
    UDPClient.send_msg 6 (.MsgMSG (ascii "d") (ascii "hi") 1)
        { Client.init 0 7 true [] [] with
          state := .OPEN, auth := true, response_addr := 9
          client_msg_queue := [some (.MsgMSG (ascii "d") (ascii "hi") 1)]
          net_in := [.data 9 ([0x01, 0x00, 0x05, 0x01, 0x00, 0x00] ++ ascii "ok" ++ [0x00]),
                     .data 9 (Message.MsgCONFIRM 1).UDP_msg] }
      = some
        { Client.init 0 7 true [] [] with
          state := .END, auth := true, response_addr := 9, seen_msg_ids := [5]
          out := [.sendto 9 (Message.MsgMSG (ascii "d") (ascii "hi") 1).UDP_msg,
                  .sendto 9 (Message.MsgCONFIRM 5).UDP_msg,
                  .sendto 9 (Message.MsgMSG (ascii "d") (ascii "hi") 1).UDP_msg] } := by
  decide

/-- C17, the code at the failing input: with `max_retransmissions = 0`,
`process_client_messages` calls `send_msg` for the MSG at the head of the outbound
queue (state `OPEN`, not waiting for a reply).  The MSG is sent; instead of its
CONFIRM a REPLY arrives, which is dispatched, confirmed and, although nobody waits
for it, followed by a call of `process_client_messages`: the MSG, still at the head of
the queue, is sent a second time, takes the CONFIRM that arrives and is popped.  The
first loop then runs into its timeout and sets the state to `END`.  Two copies of the
MSG were sent during the one call, one more than `max_retransmissions + 1`.  This is
the result for every fuel of at least six. -/
theorem retransmission_bound_failing_input (fuel : Nat) :
    UDPClient.send_msg (6 + fuel) (.MsgMSG (ascii "d") (ascii "hi") 1)
        { Client.init 0 7 true [] [] with
          state := .OPEN, auth := true, response_addr := 9
          client_msg_queue := [some (.MsgMSG (ascii "d") (ascii "hi") 1)]
          net_in := [.data 9 ([0x01, 0x00, 0x05, 0x01, 0x00, 0x00] ++ ascii "ok" ++ [0x00]),
                     .data 9 (Message.MsgCONFIRM 1).UDP_msg] }
      = some
        { Client.init 0 7 true [] [] with
          state := .END, auth := true, response_addr := 9, seen_msg_ids := [5]
          out := [.sendto 9 (Message.MsgMSG (ascii "d") (ascii "hi") 1).UDP_msg,
                  .sendto 9 (Message.MsgCONFIRM 5).UDP_msg,
                  .sendto 9 (Message.MsgMSG (ascii "d") (ascii "hi") 1).UDP_msg] }
    ∧ ([Output.sendto 9 (Message.MsgMSG (ascii "d") (ascii "hi") 1).UDP_msg,
        .sendto 9 (Message.MsgCONFIRM 5).UDP_msg,
        .sendto 9 (Message.MsgMSG (ascii "d") (ascii "hi") 1).UDP_msg].count
          (.sendto 9 (Message.MsgMSG (ascii "d") (ascii "hi") 1).UDP_msg)) = 2 :=
  ⟨udp_send_msg_fuel_add 6 fuel _ _ _ udp_retransmission_eval, by decide⟩

/-! ## C18: where the datagrams go -/

/-- The `switch` of the UDP dispatcher leaves `response_addr` as it is. -/
theorem dispatch_response_addr (msg : Str) (c : Client) :
    (UDPClient.dispatch msg c).response_addr = c.response_addr := by
  unfold UDPClient.dispatch UDPClient.dispatch_reply
  simp only [UDPClient.fail, Client.cerr, Client.emit, Client.cout, Client.set_state,
    Client.pop_client_msg]
  split_ifs <;> first
    | rfl
    | (split <;> first
        | rfl
        | (split_ifs <;> first
            | rfl
            | (split <;> rfl)))

/-- One round of the UDP dispatcher on a datagram that is not a CONFIRM ends with the
CONFIRM for it, sent to the `response_addr` the round started with, and leaves
`response_addr` as it is. -/
theorem handle_datagram_confirm_dest (msg : Str) (c : Client)
    (h0 : msg.getD 0 0 ≠ MessageType.CONFIRM.toByte) :
    (UDPClient.handle_datagram msg c).out.getLast?
        = some (.sendto c.response_addr
            (Message.MsgCONFIRM (UDPClient.vector_msgID msg)).UDP_msg)
    ∧ (UDPClient.handle_datagram msg c).response_addr = c.response_addr := by
  rcases Bool.eq_false_or_eq_true (UDPClient.msgID_seen c (UDPClient.vector_msgID msg))
    with hs | hs
  · simp only [UDPClient.handle_datagram, hs, h0, Bool.true_eq_false, or_self, if_false,
      ne_eq, not_false_eq_true, if_true, Client.emit]
    simp
  · simp only [UDPClient.handle_datagram, hs, h0, true_or, if_true, ne_eq,
      not_false_eq_true, Client.emit, dispatch_response_addr, UDPClient.mark_msgID_as_seen]
    simp

/-- C18, counterexample: a UDP client in state `START` with an AUTH and a MSG in its
outbound queue.  The AUTH goes to the configured address 7 and its CONFIRM comes
from address 5000, which becomes `response_addr`.  The REPLY then comes from address
6000: its CONFIRM and the MSG sent after it both go to 6000, not to 5000, the source
of the first CONFIRM. -/
theorem port_switch_counterexample :
    UDPClient.process_client_messages 4
        { Client.init 1 7 true []
            [.data 5000 (Message.MsgCONFIRM 0).UDP_msg,
             .data 6000 ([0x01, 0x00, 0x00, 0x01, 0x00, 0x00] ++ ascii "ok" ++ [0x00]),
             .data 6000 (Message.MsgCONFIRM 1).UDP_msg] with
          client_msg_queue := [some (.MsgAUTH (ascii "u") (ascii "s") (ascii "d") 0),
                               some (.MsgMSG (ascii "d") (ascii "hi") 1)] }
      = some
        { Client.init 1 7 true []
            [.data 6000 ([0x01, 0x00, 0x00, 0x01, 0x00, 0x00] ++ ascii "ok" ++ [0x00]),
             .data 6000 (Message.MsgCONFIRM 1).UDP_msg] with
          state := .AUTHENTICATE, waiting_on_reply := true, response_addr := 5000
          client_msg_queue := [some (.MsgAUTH (ascii "u") (ascii "s") (ascii "d") 0),
                               some (.MsgMSG (ascii "d") (ascii "hi") 1)]
          out := [.sendto 7 (Message.MsgAUTH (ascii "u") (ascii "s") (ascii "d") 0).UDP_msg] }
    ∧ UDPClient.process_server_messages 6
        (UDPClient.receive_msg
          { Client.init 1 7 true []
              [.data 6000 ([0x01, 0x00, 0x00, 0x01, 0x00, 0x00] ++ ascii "ok" ++ [0x00]),
               .data 6000 (Message.MsgCONFIRM 1).UDP_msg] with
            state := .AUTHENTICATE, waiting_on_reply := true, response_addr := 5000
            client_msg_queue := [some (.MsgAUTH (ascii "u") (ascii "s") (ascii "d") 0),
                                 some (.MsgMSG (ascii "d") (ascii "hi") 1)]
            out := [.sendto 7 (Message.MsgAUTH (ascii "u") (ascii "s") (ascii "d") 0).UDP_msg] })
      = some
        { Client.init 1 7 true [] [] with
          state := .OPEN, auth := true, response_addr := 6000, seen_msg_ids := [0]
          out := [.sendto 7 (Message.MsgAUTH (ascii "u") (ascii "s") (ascii "d") 0).UDP_msg,
                  .cerr (ascii "Success: ok" ++ [0x00] ++ ascii "\n"),
                  .sendto 6000 (Message.MsgCONFIRM 0).UDP_msg,
                  .sendto 6000 (Message.MsgMSG (ascii "d") (ascii "hi") 1).UDP_msg] } := by
  constructor
  · decide
  · decide

/-- C18, amended: a datagram sent by `send_msg` goes to the configured server address
while the state is `START` and to `response_addr` otherwise; the CONFIRM for an
inbound datagram goes to `response_addr`; and every `recvfrom` that receives a
datagram, in `send_msg` and in `receive_msg`, overwrites `response_addr` with the
source address of that datagram.  Outside state `START` the datagrams thus go to the
source of the datagram received most recently. -/
theorem port_switch (c : Client) (msg : Message) (k : Int) (fuel : Nat) (src : Addr)
    (bytes : Str) (rest : List RecvResult) (hn : c.net_in = .data src bytes :: rest) :
    UDPClient.send_loop (fuel + 1) msg k c
        = UDPClient.wait_loop fuel msg k
            (c.emit (.sendto (if c.state = .START then c.server_addr else c.response_addr)
              msg.UDP_msg))
    ∧ UDPClient.recvfrom c = (.data src bytes, { c with net_in := rest, response_addr := src })
    ∧ UDPClient.receive_msg c
        = ({ c with net_in := rest, response_addr := src } : Client).push_server_msg bytes
    ∧ (∀ dg : Str, dg.getD 0 0 ≠ MessageType.CONFIRM.toByte →
        (UDPClient.handle_datagram dg c).out.getLast?
            = some (.sendto c.response_addr
                (Message.MsgCONFIRM (UDPClient.vector_msgID dg)).UDP_msg)
        ∧ (UDPClient.handle_datagram dg c).response_addr = c.response_addr) := by
  have hr : UDPClient.recvfrom c
      = (.data src bytes, { c with net_in := rest, response_addr := src }) := by
    simp only [UDPClient.recvfrom, hn]
  refine ⟨?_, hr, ?_, fun dg h0 => handle_datagram_confirm_dest dg c h0⟩
  · rw [UDPClient.send_loop]
  · simp only [UDPClient.receive_msg, hr]

/-- Witness of C18 (amended): with `response_addr` holding 5000, a datagram received
from 6000 makes `response_addr` 6000. -/
theorem port_switch_witness :
    UDPClient.recvfrom
        { Client.init 1 7 true [] [.data 6000 (Message.MsgCONFIRM 1).UDP_msg] with
          state := .OPEN, response_addr := 5000 }
      = (.data 6000 (Message.MsgCONFIRM 1).UDP_msg,
          { Client.init 1 7 true [] [] with state := .OPEN, response_addr := 6000 }) :=
  (port_switch
    { Client.init 1 7 true [] [.data 6000 (Message.MsgCONFIRM 1).UDP_msg] with
      state := .OPEN, response_addr := 5000 }
    (.MsgBYE 0) 0 0 6000 (Message.MsgCONFIRM 1).UDP_msg [] rfl).2.1

/-! ## C19: frames cut by the reads -/

theorem segments_from_skip (cur : Str) (b : Nat) (rest : Str) :
    segments_from cur true (b :: rest) = segments_from cur false rest := by
  simp [segments_from]

/-- Without a delimiter the scan returns no segment and keeps every byte. -/
theorem segments_from_none (l : Str) : ∀ cur : Str, TCPClient.search_delimiter l = none →
    segments_from cur false l = ([], cur ++ l) := by
  induction l with
  | nil => intro cur _; simp [segments_from]
  | cons a rest ih =>
      intro cur h
      rw [TCPClient.search_delimiter] at h
      by_cases hc : a = 0x0D ∧ rest.head? = some 0x0A
      · rw [if_pos hc] at h
        exact absurd h (by simp)
      · rw [if_neg hc] at h
        have hr : TCPClient.search_delimiter rest = none := by
          cases hs : TCPClient.search_delimiter rest with
          | none => rfl
          | some j => rw [hs] at h; simp at h
        rw [segments_from]
        simp only [Bool.false_eq_true, if_false, if_neg hc]
        rw [ih (cur ++ [a]) hr]
        simp

/-- With the first delimiter at index `i` the scan returns the bytes before it as
its first segment and goes on behind the delimiter. -/
theorem segments_from_some (l : Str) : ∀ (cur : Str) (i : Nat),
    TCPClient.search_delimiter l = some i →
    segments_from cur false l
      = ((cur ++ l.take i) :: (segments (l.drop (i + 2))).1, (segments (l.drop (i + 2))).2) := by
  induction l with
  | nil => intro cur i h; simp [TCPClient.search_delimiter] at h
  | cons a rest ih =>
      intro cur i h
      rw [TCPClient.search_delimiter] at h
      by_cases hc : a = 0x0D ∧ rest.head? = some 0x0A
      · rw [if_pos hc] at h
        simp only [Option.some.injEq] at h
        subst h
        cases rest with
        | nil => simp at hc
        | cons b rest1 =>
            rw [segments_from]
            simp only [Bool.false_eq_true, if_false, if_pos hc, segments_from_skip]
            simp [segments]
      · rw [if_neg hc] at h
        cases hs : TCPClient.search_delimiter rest with
        | none => rw [hs] at h; simp at h
        | some j =>
            rw [hs] at h
            simp only [Option.map_some', Option.some.injEq] at h
            subst h
            rw [segments_from]
            simp only [Bool.false_eq_true, if_false, if_neg hc]
            rw [ih (cur ++ [a]) j hs]
            simp

/-- The bytes at the index `search` returns are CR LF. -/
theorem search_delimiter_split (l : Str) : ∀ i : Nat, TCPClient.search_delimiter l = some i →
    l = l.take i ++ 0x0D :: 0x0A :: l.drop (i + 2) := by
  induction l with
  | nil => intro i h; simp [TCPClient.search_delimiter] at h
  | cons a rest ih =>
      intro i h
      rw [TCPClient.search_delimiter] at h
      by_cases hc : a = 0x0D ∧ rest.head? = some 0x0A
      · rw [if_pos hc] at h
        simp only [Option.some.injEq] at h
        subst h
        cases rest with
        | nil => simp at hc
        | cons b rest1 =>
            obtain ⟨h1, h2⟩ := hc
            simp only [List.head?_cons, Option.some.injEq] at h2
            subst h1 h2
            simp
      · rw [if_neg hc] at h
        cases hs : TCPClient.search_delimiter rest with
        | none => rw [hs] at h; simp at h
        | some j =>
            rw [hs] at h
            simp only [Option.map_some', Option.some.injEq] at h
            subst h
            have := ih j hs
            simp only [List.take_succ_cons, List.drop_succ_cons, List.cons_append, List.cons.injEq,
              true_and]
            exact this

/-- No delimiter lies before the index `search` returns. -/
theorem search_delimiter_take (l : Str) : ∀ i : Nat, TCPClient.search_delimiter l = some i →
    TCPClient.search_delimiter (l.take i) = none := by
  induction l with
  | nil => intro i h; simp [TCPClient.search_delimiter] at h
  | cons a rest ih =>
      intro i h
      rw [TCPClient.search_delimiter] at h
      by_cases hc : a = 0x0D ∧ rest.head? = some 0x0A
      · rw [if_pos hc] at h
        simp only [Option.some.injEq] at h
        subst h
        simp [TCPClient.search_delimiter]
      · rw [if_neg hc] at h
        cases hs : TCPClient.search_delimiter rest with
        | none => rw [hs] at h; simp at h
        | some j =>
            rw [hs] at h
            simp only [Option.map_some', Option.some.injEq] at h
            subst h
            have h1 := ih j hs
            have hsp := search_delimiter_split rest j hs
            simp only [List.take_succ_cons]
            rw [TCPClient.search_delimiter, h1]
            have hc2 : ¬ (a = 0x0D ∧ (rest.take j).head? = some 0x0A) := by
              rintro ⟨ha, hh⟩
              apply hc
              refine ⟨ha, ?_⟩
              cases j with
              | zero => simp at hh
              | succ j1 =>
                  cases rest with
                  | nil => simp at hh
                  | cons b rest1 => simpa using hh
            rw [if_neg hc2]
            rfl

/-- The first delimiter of a stream is the first delimiter of every extension of it. -/
theorem search_delimiter_append (a : Str) : ∀ (i : Nat) (b : Str),
    TCPClient.search_delimiter a = some i → TCPClient.search_delimiter (a ++ b) = some i := by
  induction a with
  | nil => intro i b h; simp [TCPClient.search_delimiter] at h
  | cons x rest ih =>
      intro i b h
      rw [TCPClient.search_delimiter] at h
      by_cases hc : x = 0x0D ∧ rest.head? = some 0x0A
      · rw [if_pos hc] at h
        have hc2 : x = 0x0D ∧ (rest ++ b).head? = some 0x0A := by
          refine ⟨hc.1, ?_⟩
          cases rest with
          | nil => simp at hc
          | cons y rest1 => simpa using hc.2
        rw [List.cons_append, TCPClient.search_delimiter, if_pos hc2]
        exact h
      · rw [if_neg hc] at h
        cases hs : TCPClient.search_delimiter rest with
        | none => rw [hs] at h; simp at h
        | some j =>
            rw [hs] at h
            have hb := search_delimiter_bound rest j hs
            have hc2 : ¬ (x = 0x0D ∧ (rest ++ b).head? = some 0x0A) := by
              rintro ⟨hx, hh⟩
              apply hc
              refine ⟨hx, ?_⟩
              cases rest with
              | nil => simp at hb
              | cons y rest1 => simpa using hh
            rw [List.cons_append, TCPClient.search_delimiter, if_neg hc2, ih j b hs]
            exact h

theorem segments_none (l : Str) (h : TCPClient.search_delimiter l = none) :
    segments l = ([], l) := by
  simpa [segments] using segments_from_none l [] h

theorem segments_some (l : Str) (i : Nat) (h : TCPClient.search_delimiter l = some i) :
    segments l = (l.take i :: (segments (l.drop (i + 2))).1, (segments (l.drop (i + 2))).2) := by
  simpa [segments] using segments_from_some l [] i h

/-- The segments of a stream, as a statement by induction on its length: they put the
stream together again, none of them contains a delimiter, and no delimiter is left
behind them. -/
theorem segments_sound (n : Nat) : ∀ l : Str, l.length ≤ n →
    unsegment (segments l).1 (segments l).2 = l
    ∧ (∀ f ∈ (segments l).1, TCPClient.search_delimiter f = none)
    ∧ TCPClient.search_delimiter (segments l).2 = none := by
  induction n with
  | zero =>
      intro l hl
      have h0 : l = [] := List.length_eq_zero.1 (Nat.le_zero.1 hl)
      subst h0
      simp [segments, segments_from, unsegment, TCPClient.search_delimiter]
  | succ n ih =>
      intro l hl
      cases hs : TCPClient.search_delimiter l with
      | none =>
          rw [segments_none l hs]
          simp [unsegment, hs]
      | some i =>
          have hb := search_delimiter_bound l i hs
          have hlen : (l.drop (i + 2)).length ≤ n := by
            simp only [List.length_drop]; omega
          obtain ⟨h1, h2, h3⟩ := ih (l.drop (i + 2)) hlen
          rw [segments_some l i hs]
          refine ⟨?_, ?_, h3⟩
          · simp only [unsegment, List.foldr_cons]
            simp only [unsegment] at h1
            rw [h1]
            have := search_delimiter_split l i hs
            simpa using this.symm
          · intro f hf
            rcases List.mem_cons.1 hf with h | h
            · rw [h]; exact search_delimiter_take l i hs
            · exact h2 f h

/-- The segments of a stream that is read in two parts: the segments of the first
part, then the segments of what the first part left behind followed by the second. -/
theorem segments_append (n : Nat) : ∀ a : Str, a.length ≤ n → ∀ b : Str,
    segments (a ++ b)
      = ((segments a).1 ++ (segments ((segments a).2 ++ b)).1,
          (segments ((segments a).2 ++ b)).2) := by
  induction n with
  | zero =>
      intro a hl b
      have h0 : a = [] := List.length_eq_zero.1 (Nat.le_zero.1 hl)
      subst h0
      simp [segments, segments_from]
  | succ n ih =>
      intro a hl b
      cases hs : TCPClient.search_delimiter a with
      | none =>
          rw [segments_none a hs]
          simp
      | some i =>
          have hb := search_delimiter_bound a i hs
          have hlen : (a.drop (i + 2)).length ≤ n := by
            simp only [List.length_drop]; omega
          have hab := search_delimiter_append a i b hs
          have hd : (a ++ b).drop (i + 2) = a.drop (i + 2) ++ b := by
            rw [List.drop_append_of_le_length hb]
          have ht : (a ++ b).take i = a.take i := by
            rw [List.take_append_of_le_length (by omega)]
          rw [segments_some (a ++ b) i hab, segments_some a i hs, hd, ht,
            ih (a.drop (i + 2)) hlen b]
          simp

/-- The loop of `receive_msg` with enough fuel moves the segments of the accumulator
to the inbound queue and leaves the bytes behind them. -/
theorem extract_frames_segments (fuel : Nat) : ∀ c : Client, c.received.length ≤ fuel →
    TCPClient.extract_frames fuel c
      = { c with
          server_msg_queue := c.server_msg_queue ++ (segments c.received).1
          received := (segments c.received).2 } := by
  induction fuel with
  | zero =>
      intro c h
      have h0 : c.received = [] := List.length_eq_zero.1 (Nat.le_zero.1 h)
      cases c
      simp only at h0
      subst h0
      simp [TCPClient.extract_frames, segments, segments_from]
  | succ fuel ih =>
      intro c h
      rw [TCPClient.extract_frames]
      cases hs : TCPClient.search_delimiter c.received with
      | none =>
          rw [segments_none _ hs]
          cases c
          simp
      | some iter =>
          have hb := search_delimiter_bound _ _ hs
          simp only
          rw [ih _ (by simp only [Client.push_server_msg, List.length_drop]; omega),
            segments_some _ _ hs]
          simp [Client.push_server_msg]

/-- One read of at least one byte. -/
theorem receive_msg_segments (bytes : Str) (c : Client) (hne : bytes ≠ []) :
    TCPClient.receive_msg (some bytes) c
      = { c with
          server_msg_queue := c.server_msg_queue ++ (segments (c.received ++ bytes)).1
          received := (segments (c.received ++ bytes)).2 } := by
  have he : bytes.isEmpty = false := by
    cases bytes with
    | nil => exact absurd rfl hne
    | cons a l => rfl
  simp only [TCPClient.receive_msg, he, Bool.false_eq_true, if_false]
  exact extract_frames_segments (c.received ++ bytes).length
    { c with received := c.received ++ bytes } (le_refl _)

/-- A sequence of reads, started with an accumulator that holds no delimiter. -/
theorem receive_all_segments (reads : List Str) : ∀ c : Client,
    (∀ bytes ∈ reads, bytes ≠ []) → TCPClient.search_delimiter c.received = none →
    TCPClient.receive_all reads c
      = { c with
          server_msg_queue := c.server_msg_queue ++ (segments (c.received ++ reads.flatten)).1
          received := (segments (c.received ++ reads.flatten)).2 } := by
  induction reads with
  | nil =>
      intro c _ hs
      cases c
      simp only at hs
      simp [TCPClient.receive_all, segments_none _ hs]
  | cons bytes more ih =>
      intro c hne hs
      have h1 := receive_msg_segments bytes c (hne bytes (List.mem_cons_self _ _))
      have h2 := (segments_sound _ (c.received ++ bytes) (le_refl _)).2.2
      have h3 := segments_append _ (c.received ++ bytes) (le_refl _) more.flatten
      have hm : ∀ b ∈ more, b ≠ [] := fun b hb => hne b (List.mem_cons_of_mem _ hb)
      have h4 := ih (TCPClient.receive_msg (some bytes) c) hm (by rw [h1]; exact h2)
      simp only [TCPClient.receive_all, List.foldl_cons] at h4 ⊢
      rw [h4, h1]
      simp only [List.flatten_cons, ← List.append_assoc]
      rw [h3]
      simp

/-- C19: for every sequence of non-empty reads, received into an empty accumulator,
the frames `receive_msg` pushes to the inbound queue over all reads are the segments
of the whole stream, in order, and the accumulator is left with the bytes behind
them.  The segments and those bytes are the stream cut at its delimiters: joined
again with CR LF behind every segment they give the stream, no segment contains a
CR LF, and no CR LF is left in the accumulator. -/
theorem frame_straddling (reads : List Str) (c : Client)
    (hne : ∀ bytes ∈ reads, bytes ≠ []) (hacc : c.received = []) :
    TCPClient.receive_all reads c
        = { c with
            server_msg_queue := c.server_msg_queue ++ (segments reads.flatten).1
            received := (segments reads.flatten).2 }
    ∧ unsegment (segments reads.flatten).1 (segments reads.flatten).2 = reads.flatten
    ∧ (∀ frame ∈ (segments reads.flatten).1, TCPClient.search_delimiter frame = none)
    ∧ TCPClient.search_delimiter (segments reads.flatten).2 = none := by
  have h := receive_all_segments reads c hne (by rw [hacc]; rfl)
  rw [hacc, List.nil_append] at h
  exact ⟨h, segments_sound _ reads.flatten (le_refl _)⟩

/-- Witness of C19: the two reads of the example, and a stream cut between the CR and
the LF of its delimiter. -/
theorem frame_straddling_witness :
    TCPClient.receive_all [ascii "MSG FROM a IS hi\r\nMSG FR", ascii "OM b IS yo\r\n"]
        (Client.init 0 7 true [] [])
      = { Client.init 0 7 true [] [] with
          server_msg_queue := [ascii "MSG FROM a IS hi", ascii "MSG FROM b IS yo"] }
    ∧ TCPClient.receive_all [ascii "BYE\r", ascii "\nMSG"] (Client.init 0 7 true [] [])
      = { Client.init 0 7 true [] [] with
          server_msg_queue := [ascii "BYE"], received := ascii "MSG" } :=
  ⟨(frame_straddling [ascii "MSG FROM a IS hi\r\nMSG FR", ascii "OM b IS yo\r\n"]
      (Client.init 0 7 true [] []) (by decide) rfl).1.trans (by decide),
   (frame_straddling [ascii "BYE\r", ascii "\nMSG"]
      (Client.init 0 7 true [] []) (by decide) rfl).1.trans (by decide)⟩

/-! ## C20: the letter case of the keywords -/

theorem isspace_toupper (x : Nat) : isspace (toupper x) = isspace x := by
  unfold toupper isspace
  by_cases h : 0x61 ≤ x ∧ x ≤ 0x7A
  · rw [if_pos h]
    have h1 : (x - 0x20 == 0x20) = false := by
      rw [beq_eq_false_iff_ne]; omega
    have h2 : (x == 0x20) = false := by
      rw [beq_eq_false_iff_ne]; omega
    have h3 : decide (x - 0x20 ≤ 0x0D) = false := by
      rw [decide_eq_false_iff_not]; omega
    have h4 : decide (x ≤ 0x0D) = false := by
      rw [decide_eq_false_iff_not]; omega
    simp only [h1, h2, h3, h4, Bool.and_false, Bool.or_false]
  · rw [if_neg h]

theorem str_toupper_idem (s : Str) : str_toupper (str_toupper s) = str_toupper s := by
  unfold str_toupper
  rw [List.map_map]
  apply List.map_congr_left
  intro x _
  simp only [Function.comp, toupper]
  by_cases h : 0x61 ≤ x ∧ x ≤ 0x7A
  · rw [if_pos h]
    have : ¬ (0x61 ≤ x - 0x20 ∧ x - 0x20 ≤ 0x7A) := by omega
    rw [if_neg this]
  · rw [if_neg h, if_neg h]

theorem fold_tokens_nil (mask : List Bool) : fold_tokens mask [] = [] := by
  induction mask with
  | nil => rfl
  | cons kw mask ih =>
      cases kw <;> simp [fold_tokens, ih, str_toupper]

/-- What follows a token is empty or starts with whitespace; folding leaves that so. -/
theorem fold_tokens_head (mask : List Bool) (s : Nat) (rest : Str) (hs : isspace s = true) :
    ∃ tail, fold_tokens mask (s :: rest) = s :: tail := by
  cases mask with
  | nil => exact ⟨rest, rfl⟩
  | cons kw mask =>
      simp only [fold_tokens, List.takeWhile_cons, hs, if_true, List.cons_append]
      exact ⟨_, rfl⟩

/-- The token a stream yields, folded or not, and what is left of the characters. -/
theorem dropWhile_nonspace_shape (l : Str) :
    l.dropWhile (fun x => !isspace x) = []
    ∨ ∃ s rest, isspace s = true ∧ l.dropWhile (fun x => !isspace x) = s :: rest := by
  induction l with
  | nil => exact Or.inl rfl
  | cons a l1 ih =>
      by_cases ha : isspace a = true
      · right
        exact ⟨a, l1, ha, by simp [List.dropWhile_cons, ha]⟩
      · have ha2 : isspace a = false := by simpa using ha
        simpa [List.dropWhile_cons, ha2] using ih

/-- Extraction from a good stream whose characters are whitespace, a token, and
something that is empty or starts with whitespace. -/
theorem extract_shape (ws tok tail : Str) (hws : ∀ b ∈ ws, isspace b = true)
    (htok : ∀ b ∈ tok, isspace b = false) (hne : tok ≠ [])
    (htail : tail = [] ∨ ∃ s rest, isspace s = true ∧ tail = s :: rest) :
    (IStringStream.mk (ws ++ tok ++ tail) false false).extract []
      = (⟨tail, tail.isEmpty, false⟩, tok) := by
  rcases htail with h | ⟨s, rest, hs, h⟩
  · subst h
    have h1 := dropWhile_isspace_token ws tok [] hws htok hne
    have h2 : tok.takeWhile (fun x => !isspace x) = tok := by
      rw [List.takeWhile_eq_self_iff]
      intro b hb
      simp [htok b hb]
    have h3 : tok.dropWhile (fun x => !isspace x) = [] := by
      rw [List.dropWhile_eq_nil_iff]
      intro b hb
      simp [htok b hb]
    cases tok with
    | nil => exact absurd rfl hne
    | cons a w1 =>
        simp only [List.append_nil] at h1 ⊢
        simp only [IStringStream.extract, IStringStream.good, h1, h2, h3]
        simp
  · subst h
    rw [extract_token ws tok s rest [] hws htok hne hs]
    rfl

/-- The characters of a stream as whitespace, token and rest. -/
theorem token_split (buf : Str) :
    buf = buf.takeWhile isspace ++ (buf.dropWhile isspace).takeWhile (fun x => !isspace x)
            ++ (buf.dropWhile isspace).dropWhile (fun x => !isspace x) := by
  rw [List.append_assoc, List.takeWhile_append_dropWhile, List.takeWhile_append_dropWhile]

/-- One extraction from two streams that agree up to the letter case of their
keywords: the tokens agree, up to letter case for a keyword, and the streams agree
up to the letter case of the keywords still to come. -/
theorem extract_variant (kw : Bool) (mask : List Bool) (s t : IStringStream)
    (h : stream_variant (kw :: mask) s t) :
    stream_variant mask (s.extract []).1 (t.extract []).1
    ∧ (t.extract []).2 = (if kw then str_toupper (s.extract []).2 else (s.extract []).2) := by
  obtain ⟨he, hf, hb⟩ := h
  obtain ⟨buf, e, f⟩ := s
  obtain ⟨buf2, e2, f2⟩ := t
  simp only at he hf hb
  subst he hf
  by_cases hg : (IStringStream.mk buf e f).good = true
  · have hb2 := hb hg
    have hg2 : (IStringStream.mk buf2 e f).good = true := hg
    have hef : e = false ∧ f = false := by
      simpa [IStringStream.good] using hg
    obtain ⟨he0, hf0⟩ := hef
    subst he0 hf0
    subst hb2
    cases hd : buf.dropWhile isspace with
    | nil =>
        have htw : buf.takeWhile isspace = buf := by
          have := List.takeWhile_append_dropWhile isspace buf
          rw [hd, List.append_nil] at this
          exact this
        have hfold : fold_tokens (kw :: mask) buf = buf := by
          cases kw <;> simp [fold_tokens, hd, htw, fold_tokens_nil, str_toupper]
        rw [hfold]
        simp only [IStringStream.extract, IStringStream.good, hd]
        refine ⟨⟨rfl, rfl, ?_⟩, ?_⟩
        · intro hgood
          simp [IStringStream.good] at hgood
        · cases kw <;> simp [str_toupper]
    | cons x xs =>
        have hx : isspace x = false := head_dropWhile_isspace buf x xs hd
        have hws : ∀ b ∈ buf.takeWhile isspace, isspace b = true := by
          intro b hb
          exact (List.mem_takeWhile_imp hb)
        have htokmem : ∀ b ∈ (x :: xs).takeWhile (fun y => !isspace y), isspace b = false := by
          intro b hb
          have := List.mem_takeWhile_imp hb
          simpa using this
        have htokne : (x :: xs).takeWhile (fun y => !isspace y) ≠ [] := by
          simp [List.takeWhile_cons, hx]
        have hrest := dropWhile_nonspace_shape (x :: xs)
        have hs1 := extract_shape (buf.takeWhile isspace)
          ((x :: xs).takeWhile (fun y => !isspace y))
          ((x :: xs).dropWhile (fun y => !isspace y)) hws htokmem htokne hrest
        have hsplit := token_split buf
        rw [hd] at hsplit
        rw [← hsplit] at hs1
        -- the folded stream
        have hrest2 : fold_tokens mask ((x :: xs).dropWhile (fun y => !isspace y)) = []
            ∨ ∃ s rest, isspace s = true
                ∧ fold_tokens mask ((x :: xs).dropWhile (fun y => !isspace y)) = s :: rest := by
          rcases hrest with h0 | ⟨s, rest, hs, h0⟩
          · left; rw [h0, fold_tokens_nil]
          · right
            obtain ⟨tail, ht⟩ := fold_tokens_head mask s rest hs
            exact ⟨s, tail, hs, by rw [h0, ht]⟩
        have hempty : (fold_tokens mask ((x :: xs).dropWhile (fun y => !isspace y))).isEmpty
            = ((x :: xs).dropWhile (fun y => !isspace y)).isEmpty := by
          rcases hrest with h0 | ⟨s, rest, hs, h0⟩
          · rw [h0, fold_tokens_nil]
          · obtain ⟨tail, ht⟩ := fold_tokens_head mask s rest hs
            rw [h0, ht]
            rfl
        cases kw with
        | false =>
            have hs2 := extract_shape (buf.takeWhile isspace)
              ((x :: xs).takeWhile (fun y => !isspace y))
              (fold_tokens mask ((x :: xs).dropWhile (fun y => !isspace y)))
              hws htokmem htokne hrest2
            have hfold : fold_tokens (false :: mask) buf
                = buf.takeWhile isspace ++ (x :: xs).takeWhile (fun y => !isspace y)
                    ++ fold_tokens mask ((x :: xs).dropWhile (fun y => !isspace y)) := by
              simp [fold_tokens, hd]
            rw [hfold, hs1, hs2]
            refine ⟨⟨hempty.symm, rfl, fun _ => rfl⟩, ?_⟩
            simp
        | true =>
            have hupmem : ∀ b ∈ str_toupper ((x :: xs).takeWhile (fun y => !isspace y)),
                isspace b = false := by
              intro b hb
              simp only [str_toupper, List.mem_map] at hb
              obtain ⟨a, ha, hab⟩ := hb
              rw [← hab, isspace_toupper]
              exact htokmem a ha
            have hupne : str_toupper ((x :: xs).takeWhile (fun y => !isspace y)) ≠ [] := by
              simp [str_toupper, List.takeWhile_cons, hx]
            have hs2 := extract_shape (buf.takeWhile isspace)
              (str_toupper ((x :: xs).takeWhile (fun y => !isspace y)))
              (fold_tokens mask ((x :: xs).dropWhile (fun y => !isspace y)))
              hws hupmem hupne hrest2
            have hfold : fold_tokens (true :: mask) buf
                = buf.takeWhile isspace
                    ++ str_toupper ((x :: xs).takeWhile (fun y => !isspace y))
                    ++ fold_tokens mask ((x :: xs).dropWhile (fun y => !isspace y)) := by
              simp [fold_tokens, hd]
            rw [hfold, hs1, hs2]
            refine ⟨⟨hempty.symm, rfl, fun _ => rfl⟩, ?_⟩
            simp
  · have hg2 : ¬ (IStringStream.mk buf2 e f).good = true := hg
    simp only [IStringStream.extract, hg, hg2, if_false, Bool.false_eq_true]
    refine ⟨⟨rfl, rfl, ?_⟩, ?_⟩
    · intro hgood
      simp [IStringStream.good] at hgood
    · cases kw <;> simp [str_toupper]

/-- Two streams that agree, no keyword being left, yield the same line. -/
theorem getline_variant (s t : IStringStream) (h : stream_variant [] s t) :
    (s.getline []).2 = (t.getline []).2 := by
  obtain ⟨he, hf, hb⟩ := h
  obtain ⟨buf, e, f⟩ := s
  obtain ⟨buf2, e2, f2⟩ := t
  simp only at he hf hb
  subst he hf
  by_cases hg : (IStringStream.mk buf e f).good = true
  · have hb2 := hb hg
    simp only [fold_tokens] at hb2
    subst hb2
    rfl
  · have hg2 : ¬ (IStringStream.mk buf2 e f).good = true := hg
    simp only [IStringStream.getline, hg, hg2, if_false, Bool.false_eq_true]

/-- The REPLY branch on two streams that agree up to the letter case of the result
and of `IS`. -/
theorem process_reply_variant (s t : IStringStream) (c : Client)
    (h : stream_variant [true, true] s t) :
    TCPClient.process_reply s c = TCPClient.process_reply t c := by
  obtain ⟨h1, r1⟩ := extract_variant true [true] s t h
  obtain ⟨h2, r2⟩ := extract_variant true [] _ _ h1
  have h3 := getline_variant _ _ h2
  simp only [if_true] at r1 r2
  have hfail := h2.2.1
  simp only [TCPClient.process_reply, r1, r2, str_toupper_idem, ← h3, ← hfail]

/-- The statements behind the type of an ERR or a MSG on two streams that agree up to
the letter case of `FROM` and of `IS`. -/
theorem parse_from_is_variant (s t : IStringStream)
    (h : stream_variant [true, false, true] s t) :
    TCPClient.parse_from_is s = TCPClient.parse_from_is t := by
  obtain ⟨h1, r1⟩ := extract_variant true [false, true] s t h
  obtain ⟨h2, r2⟩ := extract_variant false [true] _ _ h1
  obtain ⟨h3, r3⟩ := extract_variant true [] _ _ h2
  have h4 := getline_variant _ _ h3
  simp only [if_true, Bool.false_eq_true, if_false] at r1 r2 r3
  have hf1 := h1.2.1
  have hf3 := h3.2.1
  simp only [TCPClient.parse_from_is, r1, r2, r3, str_toupper_idem, ← h4, ← hf1, ← hf3]

/-- A frame and the frame with its keywords in upper case, as streams. -/
theorem ofStr_variant (mask : List Bool) (frame : Str) :
    stream_variant mask (IStringStream.ofStr frame)
      (IStringStream.ofStr (fold_tokens mask frame)) :=
  ⟨rfl, rfl, fun _ => rfl⟩

theorem fold_tokens_isEmpty (mask : List Bool) (frame : Str) :
    (fold_tokens mask frame).isEmpty = frame.isEmpty := by
  cases frame with
  | nil => rw [fold_tokens_nil]
  | cons a l =>
      cases mask with
      | nil => rfl
      | cons kw mask =>
          by_cases ha : isspace a = true
          · simp [fold_tokens, List.takeWhile_cons, ha]
          · have ha2 : isspace a = false := by simpa using ha
            cases kw <;>
              simp [fold_tokens, List.takeWhile_cons, List.dropWhile_cons, ha2, str_toupper]

/-- The result of `process_server_messages` for a frame does not depend on the letter
case of its keywords. -/
theorem process_server_messages_fold (frame : Str) (rest : List Str) (c : Client) :
    TCPClient.process_server_messages_loop (fold_keywords frame :: rest) c
      = TCPClient.process_server_messages_loop (frame :: rest) c := by
  have hty : str_toupper ((IStringStream.ofStr frame).extract []).2
      = str_toupper ((frame.dropWhile isspace).takeWhile (fun x => !isspace x)) := by
    cases hd : frame.dropWhile isspace with
    | nil => simp [IStringStream.extract, IStringStream.ofStr, IStringStream.good, hd]
    | cons x xs => simp [IStringStream.extract, IStringStream.ofStr, IStringStream.good, hd]
  by_cases he : frame.isEmpty = true
  · have hem := fold_tokens_isEmpty (keyword_mask frame) frame
    rw [TCPClient.process_server_messages_loop, TCPClient.process_server_messages_loop]
    simp only [fold_keywords, hem, he, if_true]
  · by_cases hr : str_toupper ((frame.dropWhile isspace).takeWhile (fun x => !isspace x))
        = ascii "REPLY"
    · have hm : keyword_mask frame = [true, true, true] := by
        simp only [keyword_mask, hr, if_true]
      have hem := fold_tokens_isEmpty [true, true, true] frame
      obtain ⟨h1, r1⟩ := extract_variant true [true, true] _ _ (ofStr_variant _ frame)
      simp only [if_true] at r1
      have hp := process_reply_variant _ _ ({ c with server_msg_queue := rest } : Client) h1
      have hty2 := (congrArg str_toupper r1).trans ((str_toupper_idem _).trans hty)
      rw [fold_keywords, hm, TCPClient.process_server_messages_loop,
        TCPClient.process_server_messages_loop]
      simp only [hem, he, Bool.false_eq_true, if_false, hty2, hty, hr, if_true, ← hp]
    · by_cases hem2 : str_toupper ((frame.dropWhile isspace).takeWhile (fun x => !isspace x))
          = ascii "ERR"
          ∨ str_toupper ((frame.dropWhile isspace).takeWhile (fun x => !isspace x))
          = ascii "MSG"
      · have hm : keyword_mask frame = [true, true, false, true] := by
          simp only [keyword_mask, hr, if_false, hem2, if_true]
        have hem := fold_tokens_isEmpty [true, true, false, true] frame
        obtain ⟨h1, r1⟩ := extract_variant true [true, false, true] _ _ (ofStr_variant _ frame)
        simp only [if_true] at r1
        have hp := parse_from_is_variant _ _ h1
        have hty2 := (congrArg str_toupper r1).trans ((str_toupper_idem _).trans hty)
        rw [fold_keywords, hm, TCPClient.process_server_messages_loop,
          TCPClient.process_server_messages_loop]
        simp only [hem, he, Bool.false_eq_true, if_false, hty2, hty, hr, ← hp]
      · have hm : keyword_mask frame = [true] := by
          simp only [keyword_mask, hr, if_false, hem2]
        have hem := fold_tokens_isEmpty [true] frame
        obtain ⟨h1, r1⟩ := extract_variant true [] _ _ (ofStr_variant _ frame)
        simp only [if_true] at r1
        have hn1 : ¬ str_toupper ((frame.dropWhile isspace).takeWhile (fun x => !isspace x))
            = ascii "ERR" := fun h => hem2 (Or.inl h)
        have hn2 : ¬ str_toupper ((frame.dropWhile isspace).takeWhile (fun x => !isspace x))
            = ascii "MSG" := fun h => hem2 (Or.inr h)
        have hty2 := (congrArg str_toupper r1).trans ((str_toupper_idem _).trans hty)
        rw [fold_keywords, hm, TCPClient.process_server_messages_loop,
          TCPClient.process_server_messages_loop]
        simp only [hem, he, Bool.false_eq_true, if_false, hty2, hty, hr, hn1, hn2]

/-- C20: two inbound TCP frames that differ only in the letter case of their keyword
tokens, that is frames that are equal once the keyword tokens of both are written in
upper case (the type; in a REPLY the result and `IS`; in an ERR or a MSG `FROM` and
`IS`), give the same result of `process_server_messages`, for every client and every
rest of the inbound queue: the whole client is the same, in what it printed and sent,
in state, `auth`, `err_received`, `waiting_on_reply`, `error_msg` and outbound queue.
In particular the result for a frame is the result for the frame with its keywords
in upper case. -/
theorem case_insensitivity (frame variant : Str) (rest : List Str) (c : Client)
    (h : fold_keywords frame = fold_keywords variant) :
    TCPClient.process_server_messages_loop (frame :: rest) c
        = TCPClient.process_server_messages_loop (variant :: rest) c
    ∧ TCPClient.process_server_messages_loop (frame :: rest) c
        = TCPClient.process_server_messages_loop (fold_keywords frame :: rest) c := by
  refine ⟨?_, (process_server_messages_fold frame rest c).symm⟩
  rw [← process_server_messages_fold frame rest c, h,
    process_server_messages_fold variant rest c]

/-- Witness of C20: `reply ok is hi` and `REPLY OK IS hi`, for the client that waits
for the reply to its AUTH. -/
theorem case_insensitivity_witness :
    fold_keywords (ascii "reply ok is hi") = ascii "REPLY OK IS hi"
    ∧ fold_keywords (ascii "msg From bob iS Hi") = ascii "MSG FROM bob IS Hi"
    ∧ TCPClient.process_server_messages_loop [ascii "reply ok is hi"]
        { Client.init 0 7 true [] [] with
          state := .AUTHENTICATE, waiting_on_reply := true
          client_msg_queue := [some (.MsgAUTH (ascii "u") (ascii "s") (ascii "d") 0)] }
      = TCPClient.process_server_messages_loop [ascii "REPLY OK IS hi"]
        { Client.init 0 7 true [] [] with
          state := .AUTHENTICATE, waiting_on_reply := true
          client_msg_queue := [some (.MsgAUTH (ascii "u") (ascii "s") (ascii "d") 0)] } :=
  ⟨by decide, by decide,
   (case_insensitivity (ascii "reply ok is hi") (ascii "REPLY OK IS hi") []
      { Client.init 0 7 true [] [] with
        state := .AUTHENTICATE, waiting_on_reply := true
        client_msg_queue := [some (.MsgAUTH (ascii "u") (ascii "s") (ascii "d") 0)] }
      (by decide)).1⟩

/-! ## C21: the exit status -/

/-- The shutdown of the TCP client when the main loop was left in state `ERROR`: the
write of the BYE, if it succeeds, replaces the state `ERROR` by `END`, so that the
exit status is failure only when that write fails or an ERR of the server was
received. -/
theorem tcp_shutdown_error (s : MainState) (hs : s.client.state = .ERROR) :
    (shutdown TCPClient.transport s).map (fun s1 => exit_code s1.client)
      = some (if s.client.err_received = true ∨ s.client.send_ok.tail.headD true = false
              then .EXIT_FAILURE else .EXIT_SUCCESS) := by
  obtain ⟨c, h, i⟩ := s
  cases c
  simp only at hs
  subst hs
  rename_i send_ok _ _ _
  rcases send_ok with _ | ⟨b1, _ | ⟨b2, l⟩⟩ <;>
    [skip; cases b1; (cases b1 <;> cases b2)] <;>
    simp [shutdown, TCPClient.transport, TCPClient.send_msg, Client.cerr, Client.emit,
      Client.set_state, Message.get_type, exit_code]

/-- C21, the code at the failing input: a TCP client authenticates, is accepted, and
then receives the frame `HELLO`.  The unknown type sets the state to `ERROR` and the
main loop is left in state `ERROR`.  The shutdown sends the ERR and then the BYE; the
successful write of the BYE sets the state to `END`, and the exit status, computed
from the state after the shutdown, is success. -/
theorem exit_code_failing_input :
    main TCPClient.transport
        [.ready (some (ascii "/auth u s d", false)) none,
         .ready none (some (some (ascii "REPLY OK IS ok\r\n"))),
         .ready none (some (some (ascii "HELLO\r\n")))]
        (Client.init 0 7 true [] [])
      = some (⟨{ Client.init 0 7 true [] [] with
                  state := .END, auth := true
                  error_msg := ascii "Unknown message type"
                  out := [.send (ascii "AUTH u AS d USING s\r\n"),
                          .cerr (ascii "Success: ok\n"),
                          .cerr (ascii "ERR: Unknown message type\n"),
                          .send (ascii "ERR FROM d IS Unknown message type\r\n"),
                          .send (ascii "BYE\r\n")] },
                ⟨2, ascii "d"⟩, false⟩, some .EXIT_SUCCESS)
    ∧ (main_loop TCPClient.transport
        [.ready (some (ascii "/auth u s d", false)) none,
         .ready none (some (some (ascii "REPLY OK IS ok\r\n"))),
         .ready none (some (some (ascii "HELLO\r\n")))]
        ⟨Client.init 0 7 true [] [], InputHandler.new, false⟩).map
          (fun r => (r.1.client.state, r.2))
      = some (.ERROR, true) := by
  constructor
  · decide
  · decide

/-! ## C22: an inbound MSG -/

/-- The TCP dispatch of a well-formed MSG frame at the head of the inbound queue. -/
theorem tcp_msg_step (d ct : Str) (c : Client) (rest : List Str)
    (hd : ∀ b ∈ d, 0x21 ≤ b ∧ b ≤ 0x7E) (hd1 : d ≠ []) (hct : ∀ b ∈ ct, 0x20 ≤ b ∧ b ≤ 0x7E) :
    TCPClient.process_server_messages_loop
        ((ascii "MSG FROM " ++ d ++ ascii " IS " ++ ct) :: rest) c
      = TCPClient.process_server_messages_loop rest
          (({ c with server_msg_queue := rest } : Client).cout
            (d ++ ascii ": " ++ ct ++ ascii "\n")) := by
  have hf := (frame_fields_encoded d ct hd hd1 hct).1
  have m1 : ascii "MSG FROM " = ascii "MSG" ++ ascii " FROM " := by decide
  have a1 := extract_keyword (ascii "MSG") (d ++ ascii " IS " ++ ct) (by decide) (by decide)
  simp only [← List.append_assoc, ← m1] at a1
  have hne : (ascii "MSG FROM " ++ d ++ ascii " IS " ++ ct).isEmpty = false := by
    rw [m1]; rfl
  have hout : d ++ ascii ":" ++ 0x20 :: ct ++ ascii "\n" = d ++ ascii ": " ++ ct ++ ascii "\n" := by
    have k : ascii ": " = ascii ":" ++ [0x20] := by decide
    rw [k]; simp
  have u : str_toupper (ascii "MSG") = ascii "MSG" := by decide
  have n1 : ¬ ascii "MSG" = ascii "REPLY" := by decide
  have n2 : ¬ ascii "MSG" = ascii "ERR" := by decide
  simp only [TCPClient.frame_fields, a1] at hf
  rw [TCPClient.process_server_messages_loop]
  simp only [hne, a1, u, n1, n2, hf, hout, if_false, if_true, Bool.false_eq_true]

/-- The UDP dispatch of a well-formed MSG datagram with a MessageID not seen before,
at the head of the inbound queue. -/
theorem udp_msg_step (d ct : Str) (hi lo fuel : Nat) (c : Client) (rest : List Str)
    (hd : ∀ b ∈ d, b ≠ 0) (hct : ∀ b ∈ ct, b ≠ 0)
    (hq : c.server_msg_queue = (0x04 :: hi :: lo :: (d ++ 0 :: (ct ++ [0]))) :: rest)
    (hseen : UDPClient.msgID_seen c
      (UDPClient.vector_msgID (0x04 :: hi :: lo :: (d ++ 0 :: (ct ++ [0])))) = false)
    (hub : c.ub = false) :
    UDPClient.process_server_messages (fuel + 1) c
      = UDPClient.process_server_messages fuel
          { c with
            seen_msg_ids := c.seen_msg_ids
              ++ [UDPClient.vector_msgID (0x04 :: hi :: lo :: (d ++ 0 :: (ct ++ [0])))]
            server_msg_queue := rest
            out := c.out ++
              [.cout (d ++ ascii ": " ++ ct ++ ascii "\n"),
               .sendto c.response_addr
                (Message.MsgCONFIRM
                  (UDPClient.vector_msgID (0x04 :: hi :: lo :: (d ++ 0 :: (ct ++ [0]))))).UDP_msg] } := by
  have hns : UDPClient.vector_msgID (0x04 :: hi :: lo :: (d ++ 0 :: (ct ++ [0])))
      ∉ c.seen_msg_ids := by
    simpa [UDPClient.msgID_seen] using hseen
  have hdg := handle_datagram_MSG hi lo _ (d ++ 0 :: (ct ++ [0])) c rfl hns
  rw [read_fields_encoded 0x04 hi lo d ct hd hct, hq, List.tail_cons] at hdg
  have hl : ¬ (0x04 :: hi :: lo :: (d ++ 0 :: (ct ++ [0]))).length < 3 := by
    simp only [List.length_cons]; omega
  have h0 : ¬ ((0x04 :: hi :: lo :: (d ++ 0 :: (ct ++ [0]))).getD 0 0
      = MessageType.REPLY.toByte) := by
    simp [MessageType.toByte]
  rw [UDPClient.process_server_messages]
  simp only [hq, hl, if_false, hdg, hub, Bool.false_eq_true, h0, false_and]

/-- C22: for every display name `d` (not empty, bytes `0x21`..`0x7E`) and content
`ct` (bytes `0x20`..`0x7E`), the TCP frame `MSG FROM d IS ct` and the UDP datagram
`[0x04, hi, lo] ++ d ++ [0] ++ ct ++ [0]` with a MessageID not seen before are
dispatched by writing exactly `d: ct` and a newline to stdout; state, `auth`,
`waiting_on_reply` and `err_received` stay as they are (the UDP client also marks the
MessageID as seen and confirms the datagram), and the loop goes on with the rest of
the inbound queue. -/
theorem inbound_msg_display (d ct : Str) (c : Client)
    (hd : ∀ b ∈ d, 0x21 ≤ b ∧ b ≤ 0x7E) (hd1 : d ≠ []) (hct : ∀ b ∈ ct, 0x20 ≤ b ∧ b ≤ 0x7E) :
    (∀ rest : List Str,
      TCPClient.process_server_messages_loop
          ((ascii "MSG FROM " ++ d ++ ascii " IS " ++ ct) :: rest) c
        = TCPClient.process_server_messages_loop rest
            { c with
              server_msg_queue := rest
              out := c.out ++ [.cout (d ++ ascii ": " ++ ct ++ ascii "\n")] })
    ∧ (∀ (hi lo fuel : Nat) (rest : List Str),
        c.server_msg_queue = (0x04 :: hi :: lo :: (d ++ 0 :: (ct ++ [0]))) :: rest →
        UDPClient.msgID_seen c
          (UDPClient.vector_msgID (0x04 :: hi :: lo :: (d ++ 0 :: (ct ++ [0])))) = false →
        c.ub = false →
        UDPClient.process_server_messages (fuel + 1) c
          = UDPClient.process_server_messages fuel
              { c with
                seen_msg_ids := c.seen_msg_ids
                  ++ [UDPClient.vector_msgID (0x04 :: hi :: lo :: (d ++ 0 :: (ct ++ [0])))]
                server_msg_queue := rest
                out := c.out ++
                  [.cout (d ++ ascii ": " ++ ct ++ ascii "\n"),
                   .sendto c.response_addr
                    (Message.MsgCONFIRM
                      (UDPClient.vector_msgID
                        (0x04 :: hi :: lo :: (d ++ 0 :: (ct ++ [0]))))).UDP_msg] }) := by
  have hd0 : ∀ b ∈ d, b ≠ 0 := fun b hb => by have := hd b hb; omega
  have hct0 : ∀ b ∈ ct, b ≠ 0 := fun b hb => by have := hct b hb; omega
  exact ⟨fun rest => tcp_msg_step d ct c rest hd hd1 hct,
    fun hi lo fuel rest hq hseen hub => udp_msg_step d ct hi lo fuel c rest hd0 hct0 hq hseen hub⟩

/-- Witness of C22: `MSG FROM bob IS hi all` over TCP, and the same message with
MessageID `0x0102` over UDP. -/
theorem inbound_msg_display_witness :
    TCPClient.process_server_messages_loop [ascii "MSG FROM bob IS hi all"]
        { Client.init 0 7 true [] [] with state := .OPEN, auth := true }
      = { Client.init 0 7 true [] [] with
          state := .OPEN, auth := true, out := [.cout (ascii "bob: hi all\n")] }
    ∧ UDPClient.process_server_messages 2
        { Client.init 0 7 true [] [] with
          state := .OPEN, auth := true, response_addr := 9
          server_msg_queue := [[0x04, 0x01, 0x02] ++ ascii "bob" ++ [0] ++ ascii "hi all" ++ [0]] }
      = some { Client.init 0 7 true [] [] with
          state := .OPEN, auth := true, response_addr := 9, seen_msg_ids := [0x0102]
          out := [.cout (ascii "bob: hi all\n"), .sendto 9 [0x00, 0x01, 0x02]] } :=
  ⟨((inbound_msg_display (ascii "bob") (ascii "hi all")
      { Client.init 0 7 true [] [] with state := .OPEN, auth := true }
      (by decide) (by decide) (by decide)).1 []).trans (by decide),
   ((inbound_msg_display (ascii "bob") (ascii "hi all")
      { Client.init 0 7 true [] [] with
        state := .OPEN, auth := true, response_addr := 9
        server_msg_queue := [[0x04, 0x01, 0x02] ++ ascii "bob" ++ [0] ++ ascii "hi all" ++ [0]] }
      (by decide) (by decide) (by decide)).2 0x01 0x02 1 [] (by decide) (by decide) rfl).trans
      (by decide)⟩

/-! ## C23: what one call of `handle_input` does to the counter -/

/-- A call of `handle_input` that prints something, the text of `/help` or a
diagnostic, returns no message and leaves the handler as it is. -/
theorem handle_input_output (h : InputHandler) (line : Str)
    (ho : (h.handle_input line).out ≠ []) :
    (h.handle_input line).msg = none ∧ (h.handle_input line).handler = h := by
  cases line with
  | nil => simp [InputHandler.handle_input] at ho
  | cons a rest =>
      by_cases ha : a = 0x2F
      · subst ha
        rw [handle_input_slash] at ho ⊢
        by_cases hh : command_word rest = ascii "help"
        · rw [if_pos hh]
          exact ⟨rfl, rfl⟩
        · rw [if_neg hh] at ho ⊢
          unfold InputHandler.handle_command at ho ⊢
          split_ifs at ho ⊢ <;> first
            | exact ⟨rfl, rfl⟩
            | exact absurd rfl ho
      · rw [handle_input_chat h a rest ha] at ho ⊢
        split_ifs at ho ⊢
        · exact ⟨rfl, rfl⟩
        · exact absurd rfl ho

/-- A command `rename` returns no message and leaves the counter as it is, whatever
its parameters. -/
theorem handle_command_rename_counter (h : InputHandler) (args : List Str) :
    (h.handle_command (ascii "rename") args).msg = none
    ∧ (h.handle_command (ascii "rename") args).handler.msgID_sent = h.msgID_sent := by
  have n1 : ¬ ascii "rename" = ascii "auth" := by decide
  have n2 : ¬ ascii "rename" = ascii "join" := by decide
  have n3 : ¬ ascii "rename" = ascii "exit" := by decide
  unfold InputHandler.handle_command
  simp only [n1, n2, n3, false_and, if_false]
  split_ifs <;> exact ⟨rfl, rfl⟩

/-- C23: one call `handle_input(line)` with the counter at `n` either returns no
message and leaves the counter at `n`, or returns a message whose MessageID is `n`
(as a 16-bit value, which `n` is) and leaves the counter at `n + 1` modulo `2^16`.
The second case is that of the valid inputs: a command line whose words behind the
slash are `auth` with three valid arguments, `join` with one valid argument or `exit`
alone, and a line without a leading slash that is a valid message content.  Every
other line is in the first case: the empty line, `/help`, `/rename` with any
parameters, and every invalid input, that is every other command line (unknown
command word, wrong number of arguments, argument that is not valid, no word at all)
and every other line without a leading slash; so is every line for which the handler
prints something. -/
theorem id_consumption (h : InputHandler) (line : Str) :
    (((h.handle_input line).msg = none
        ∧ (h.handle_input line).handler.msgID_sent = h.msgID_sent)
      ∨ (∃ m, (h.handle_input line).msg = some m ∧ m.get_msgID = u16 h.msgID_sent
          ∧ (h.msgID_sent < 65536 → m.get_msgID = h.msgID_sent)
          ∧ (h.handle_input line).handler.msgID_sent = u16 (h.msgID_sent + 1)))
    ∧ (line = [] → (h.handle_input line).msg = none
        ∧ (h.handle_input line).handler.msgID_sent = h.msgID_sent)
    ∧ (∀ rest, line = 0x2F :: rest →
        command_word rest = ascii "help" ∨ command_word rest = ascii "rename" →
        (h.handle_input line).msg = none
        ∧ (h.handle_input line).handler.msgID_sent = h.msgID_sent)
    ∧ ((h.handle_input line).out ≠ [] → (h.handle_input line).msg = none
        ∧ (h.handle_input line).handler.msgID_sent = h.msgID_sent)
    ∧ (∀ rest, line = 0x2F :: rest →
        ¬ (∃ u s d, words rest = [ascii "auth", u, s, d]
            ∧ valid_username u ∧ valid_secret s ∧ valid_display_name d) →
        ¬ (∃ ch, words rest = [ascii "join", ch] ∧ valid_username ch) →
        words rest ≠ [ascii "exit"] →
        (h.handle_input line).msg = none
        ∧ (h.handle_input line).handler.msgID_sent = h.msgID_sent)
    ∧ (line.head? ≠ some 0x2F → ¬ valid_content line →
        (h.handle_input line).msg = none
        ∧ (h.handle_input line).handler.msgID_sent = h.msgID_sent)
    ∧ (∀ rest, line = 0x2F :: rest →
        (∃ u s d, words rest = [ascii "auth", u, s, d]
            ∧ valid_username u ∧ valid_secret s ∧ valid_display_name d)
          ∨ (∃ ch, words rest = [ascii "join", ch] ∧ valid_username ch)
          ∨ words rest = [ascii "exit"] →
        ∃ m, (h.handle_input line).msg = some m ∧ m.get_msgID = u16 h.msgID_sent
          ∧ (h.handle_input line).handler.msgID_sent = u16 (h.msgID_sent + 1))
    ∧ (line.head? ≠ some 0x2F → valid_content line →
        ∃ m, (h.handle_input line).msg = some m ∧ m.get_msgID = u16 h.msgID_sent
          ∧ (h.handle_input line).handler.msgID_sent = u16 (h.msgID_sent + 1)) := by
  have hsome : ∀ m, (h.handle_input line).msg = some m →
      ∃ m, (h.handle_input line).msg = some m ∧ m.get_msgID = u16 h.msgID_sent
        ∧ (h.handle_input line).handler.msgID_sent = u16 (h.msgID_sent + 1) := by
    intro m hm
    rcases handle_input_counter h line with h1 | h1
    · rw [hm] at h1
      exact absurd h1.1 (by simp)
    · exact h1
  refine ⟨?_, ?_, ?_, ?_, ?_, ?_, ?_, ?_⟩
  · rcases handle_input_counter h line with h1 | ⟨m, h1, h2, h3⟩
    · exact Or.inl h1
    · refine Or.inr ⟨m, h1, h2, ?_, h3⟩
      intro hn
      rw [h2, u16, Nat.mod_eq_of_lt hn]
  · intro hl
    subst hl
    exact ⟨rfl, rfl⟩
  · intro rest hl hc
    subst hl
    rw [handle_input_slash]
    rcases hc with hc | hc
    · rw [if_pos hc]
      exact ⟨rfl, rfl⟩
    · have n0 : ¬ ascii "rename" = ascii "help" := by decide
      rw [hc, if_neg n0]
      exact handle_command_rename_counter h _
  · intro ho
    obtain ⟨h1, h2⟩ := handle_input_output h line ho
    exact ⟨h1, by rw [h2]⟩
  · intro rest hl h1 h2 h3
    subst hl
    exact handle_input_command_none h rest h1 h2 h3
  · intro hs hv
    cases line with
    | nil => exact ⟨rfl, rfl⟩
    | cons a rest =>
        have ha : a ≠ 0x2F := by
          intro e
          subst e
          exact hs rfl
        exact handle_input_chat_none h a rest ha hv
  · intro rest hl hv
    subst hl
    rcases hv with ⟨u, s, d, hw, vu, vs, vd⟩ | ⟨ch, hw, vc⟩ | hw
    · exact hsome _ ((handle_input_auth_iff h _ (.MsgAUTH u s d h.msgID_sent)).2
        ⟨rest, u, s, d, rfl, hw, vu, vs, vd, rfl⟩).1
    · exact hsome _ ((handle_input_join_iff h _ (.MsgJOIN ch h.display_name h.msgID_sent)).2
        ⟨rest, ch, rfl, hw, vc, rfl⟩).1
    · exact hsome (.MsgBYE h.msgID_sent) (by rw [handle_input_exit h rest hw])
  · intro hs hv
    cases line with
    | nil => exact absurd hv (by decide)
    | cons a rest =>
        have ha : a ≠ 0x2F := by
          intro e
          subst e
          exact hs rfl
        have hr : ¬ regex_match (a :: rest) message_content_pattern = false := by
          rw [(regex_match_content _).2 hv]
          decide
        exact hsome (.MsgMSG h.display_name (a :: rest) h.msgID_sent)
          (by rw [handle_input_chat h a rest ha, if_neg hr])

/-- Witness of C23: `/auth u s`, an `auth` with two arguments, with the counter at 7:
no message, and the counter stays at 7. -/
theorem id_consumption_witness :
    ((InputHandler.mk 7 (ascii "d")).handle_input (ascii "/auth u s")).msg = none
    ∧ ((InputHandler.mk 7 (ascii "d")).handle_input (ascii "/auth u s")).handler.msgID_sent
        = 7 :=
  (id_consumption (InputHandler.mk 7 (ascii "d")) (ascii "/auth u s")).2.2.2.2.1
    (ascii "auth u s") (by decide)
    (by
      rintro ⟨u, s, d, h, _⟩
      rw [show words (ascii "auth u s") = [ascii "auth", ascii "u", ascii "s"] from by decide]
        at h
      simp at h)
    (by
      rintro ⟨ch, h, _⟩
      rw [show words (ascii "auth u s") = [ascii "auth", ascii "u", ascii "s"] from by decide]
        at h
      simp at h)
    (by decide)

/-! ## C24: after `send_msg` -/

/-- The TCP dispatch of a REPLY frame while `waiting_on_reply` is false: the frame is
dropped and nothing else happens. -/
theorem tcp_reply_unsolicited (frame : Str) (rest : List Str) (c : Client)
    (hne : frame.isEmpty = false)
    (hty : str_toupper ((IStringStream.ofStr frame).extract []).2 = ascii "REPLY")
    (hw : c.waiting_on_reply = false) :
    TCPClient.process_server_messages_loop (frame :: rest) c
      = TCPClient.process_server_messages_loop rest { c with server_msg_queue := rest } := by
  rw [TCPClient.process_server_messages_loop]
  simp only [hne, Bool.false_eq_true, if_false, hty, if_true, hw]

/-- One round of the UDP dispatcher on a REPLY while `waiting_on_reply` is false, up
to and including its CONFIRM: the MessageID is marked as seen, the datagram is
popped and confirmed, and nothing else happens. -/
theorem handle_datagram_reply_unsolicited (msg : Str) (c : Client)
    (h0 : msg.getD 0 0 = MessageType.REPLY.toByte) (hw : c.waiting_on_reply = false) :
    UDPClient.handle_datagram msg c
      = { c with
          seen_msg_ids := if UDPClient.vector_msgID msg ∈ c.seen_msg_ids then c.seen_msg_ids
                          else c.seen_msg_ids ++ [UDPClient.vector_msgID msg]
          server_msg_queue := c.server_msg_queue.tail
          out := c.out ++ [.sendto c.response_addr
                    (Message.MsgCONFIRM (UDPClient.vector_msgID msg)).UDP_msg] } := by
  have hn : msg.getD 0 0 ≠ MessageType.CONFIRM.toByte := by
    rw [h0]; decide
  obtain ⟨mr, st, sa, cq, sq, w, er, au, em, rc, ra, seen, cs, so, ni, out, ub⟩ := c
  simp only at hw
  subst hw
  have hn2 : ¬ MessageType.REPLY.toByte = MessageType.CONFIRM.toByte := by decide
  by_cases hs : UDPClient.vector_msgID msg ∈ seen
  · simp only [UDPClient.handle_datagram, hn2, UDPClient.msgID_seen, hs, decide_True,
      Bool.true_eq_false, hn, or_self, if_false, ne_eq, not_false_eq_true, if_true,
      Client.emit]
  · simp only [UDPClient.handle_datagram, hn2, UDPClient.msgID_seen, hs, decide_False, true_or,
      if_true, hn, ne_eq, not_false_eq_true, UDPClient.mark_msgID_as_seen, if_false,
      UDPClient.dispatch, h0, UDPClient.dispatch_reply, Client.emit]

/-- The dispatch of C25 with fuel 4. -/
theorem udp_unsolicited_eval :
    UDPClient.process_server_messages 4
        { Client.init 0 7 true [] [] with
          state := .OPEN, auth := true, response_addr := 9
          client_msg_queue := [some (.MsgMSG (ascii "d") (ascii "hi") 1)]
          server_msg_queue := [[0x01, 0x00, 0x05, 0x01, 0x00, 0x00] ++ ascii "ok" ++ [0x00]]
          net_in := [.data 9 (Message.MsgCONFIRM 1).UDP_msg]
          out := [.sendto 9 (Message.MsgMSG (ascii "d") (ascii "hi") 1).UDP_msg] }
      = some
        { Client.init 0 7 true [] [] with
          state := .OPEN, auth := true, response_addr := 9, seen_msg_ids := [5]
          out := [.sendto 9 (Message.MsgMSG (ascii "d") (ascii "hi") 1).UDP_msg,
                  .sendto 9 (Message.MsgCONFIRM 5).UDP_msg,
                  .sendto 9 (Message.MsgMSG (ascii "d") (ascii "hi") 1).UDP_msg] } := by
  decide

/-- The whole call of `process_client_messages` of C25 with fuel 7. -/
theorem udp_unsolicited_drive :
    UDPClient.process_client_messages 7
        { Client.init 0 7 true [] [] with
          state := .OPEN, auth := true, response_addr := 9
          client_msg_queue := [some (.MsgMSG (ascii "d") (ascii "hi") 1)]
          net_in := [.data 9 ([0x01, 0x00, 0x05, 0x01, 0x00, 0x00] ++ ascii "ok" ++ [0x00]),
                     .data 9 (Message.MsgCONFIRM 1).UDP_msg] }
      = some
        { Client.init 0 7 true [] [] with
          state := .END, auth := true, response_addr := 9, seen_msg_ids := [5], ub := true
          out := [.sendto 9 (Message.MsgMSG (ascii "d") (ascii "hi") 1).UDP_msg,
                  .sendto 9 (Message.MsgCONFIRM 5).UDP_msg,
                  .sendto 9 (Message.MsgMSG (ascii "d") (ascii "hi") 1).UDP_msg] } := by
  rw [udp_send_admissible 6 _ (.MsgMSG (ascii "d") (ascii "hi") 1) [] rfl rfl (by decide),
    udp_retransmission_eval]
  decide

/-- C25, the code at the failing input: a UDP client in state `OPEN` has sent the MSG
at the head of its outbound queue (MessageID 1) and waits for the CONFIRM inside
`send_msg`; `waiting_on_reply` is false.  A REPLY arrives (MessageID 5) and is
dispatched.  The `switch` ignores it and its CONFIRM is sent, but then
`process_client_messages` is called: the MSG goes out a second time, takes the
CONFIRM that arrives and is popped, so that the REPLY has changed the outbound queue
and caused a datagram besides its CONFIRM.  The second part is the whole call of
`process_client_messages`, without retransmissions: the first `send_msg` ends in
state `END` and the `pop` that follows it finds the queue empty.  These are the
results for every fuel of at least four, respectively seven. -/
theorem unsolicited_reply_failing_input (fuel : Nat) :
    UDPClient.process_server_messages (4 + fuel)
        { Client.init 0 7 true [] [] with
          state := .OPEN, auth := true, response_addr := 9
          client_msg_queue := [some (.MsgMSG (ascii "d") (ascii "hi") 1)]
          server_msg_queue := [[0x01, 0x00, 0x05, 0x01, 0x00, 0x00] ++ ascii "ok" ++ [0x00]]
          net_in := [.data 9 (Message.MsgCONFIRM 1).UDP_msg]
          out := [.sendto 9 (Message.MsgMSG (ascii "d") (ascii "hi") 1).UDP_msg] }
      = some
        { Client.init 0 7 true [] [] with
          state := .OPEN, auth := true, response_addr := 9, seen_msg_ids := [5]
          out := [.sendto 9 (Message.MsgMSG (ascii "d") (ascii "hi") 1).UDP_msg,
                  .sendto 9 (Message.MsgCONFIRM 5).UDP_msg,
                  .sendto 9 (Message.MsgMSG (ascii "d") (ascii "hi") 1).UDP_msg] }
    ∧ UDPClient.process_client_messages (7 + fuel)
        { Client.init 0 7 true [] [] with
          state := .OPEN, auth := true, response_addr := 9
          client_msg_queue := [some (.MsgMSG (ascii "d") (ascii "hi") 1)]
          net_in := [.data 9 ([0x01, 0x00, 0x05, 0x01, 0x00, 0x00] ++ ascii "ok" ++ [0x00]),
                     .data 9 (Message.MsgCONFIRM 1).UDP_msg] }
      = some
        { Client.init 0 7 true [] [] with
          state := .END, auth := true, response_addr := 9, seen_msg_ids := [5], ub := true
          out := [.sendto 9 (Message.MsgMSG (ascii "d") (ascii "hi") 1).UDP_msg,
                  .sendto 9 (Message.MsgCONFIRM 5).UDP_msg,
                  .sendto 9 (Message.MsgMSG (ascii "d") (ascii "hi") 1).UDP_msg] } :=
  ⟨(udp_fuel_add 4 fuel).2.2.2 _ _ udp_unsolicited_eval,
   (udp_fuel_add 7 fuel).2.2.1 _ _ udp_unsolicited_drive⟩

/-! ## C26: messages handed to `send_msg` twice -/

/-- The `send_msg` of the AUTH in the run of C26, with fuel 6. -/
theorem udp_in_flight_send :
    UDPClient.send_msg 6 (.MsgAUTH (ascii "u") (ascii "s") (ascii "d") 0)
        { Client.init 1 7 true [] [] with
          client_msg_queue := [some (.MsgAUTH (ascii "u") (ascii "s") (ascii "d") 0)]
          net_in := [.data 9 ([0x01, 0x00, 0x05, 0x01, 0x00, 0x00] ++ ascii "ok" ++ [0x00]),
                     .data 9 (Message.MsgCONFIRM 0).UDP_msg,
                     .data 9 (Message.MsgCONFIRM 0).UDP_msg] }
      = some
        { Client.init 1 7 true [] [] with
          state := .AUTHENTICATE, waiting_on_reply := true, response_addr := 9
          seen_msg_ids := [5]
          client_msg_queue := [some (.MsgAUTH (ascii "u") (ascii "s") (ascii "d") 0)]
          out := [.sendto 7 (Message.MsgAUTH (ascii "u") (ascii "s") (ascii "d") 0).UDP_msg,
                  .sendto 9 (Message.MsgCONFIRM 5).UDP_msg,
                  .sendto 7 (Message.MsgAUTH (ascii "u") (ascii "s") (ascii "d") 0).UDP_msg] } := by
  decide

/-- The run of C26 with fuel 7. -/
theorem udp_in_flight_eval :
    UDPClient.process_client_messages 7
        { Client.init 1 7 true [] [] with
          client_msg_queue := [some (.MsgAUTH (ascii "u") (ascii "s") (ascii "d") 0)]
          net_in := [.data 9 ([0x01, 0x00, 0x05, 0x01, 0x00, 0x00] ++ ascii "ok" ++ [0x00]),
                     .data 9 (Message.MsgCONFIRM 0).UDP_msg,
                     .data 9 (Message.MsgCONFIRM 0).UDP_msg] }
      = some
        { Client.init 1 7 true [] [] with
          state := .AUTHENTICATE, waiting_on_reply := true, response_addr := 9
          seen_msg_ids := [5]
          client_msg_queue := [some (.MsgAUTH (ascii "u") (ascii "s") (ascii "d") 0)]
          out := [.sendto 7 (Message.MsgAUTH (ascii "u") (ascii "s") (ascii "d") 0).UDP_msg,
                  .sendto 9 (Message.MsgCONFIRM 5).UDP_msg,
                  .sendto 7 (Message.MsgAUTH (ascii "u") (ascii "s") (ascii "d") 0).UDP_msg] } := by
  rw [udp_send_admissible 6 _ (.MsgAUTH (ascii "u") (ascii "s") (ascii "d") 0) [] rfl rfl
    (by decide), udp_in_flight_send]
  decide

/-- C26, the code at the failing input: a UDP client in state `START` hands the AUTH
at the head of its outbound queue (MessageID 0) to `send_msg`; one retransmission is
allowed, and no `recvfrom` times out.  The REPLY of the server (MessageID 5) arrives
before the CONFIRM of the AUTH.  It is dispatched inside `send_msg`, where
`waiting_on_reply` is still false: the `switch` ignores it, its CONFIRM is sent, and
`process_client_messages` is called.  That call finds the AUTH at the head of the
queue and hands it to `send_msg` a second time: the AUTH goes out again, while the
first `send_msg` of it has not returned and no REPLY has cleared `waiting_on_reply`.
The trace holds the AUTH twice although no retransmission took place.  This is the
result for every fuel of at least seven. -/
theorem in_flight_failing_input (fuel : Nat) :
    UDPClient.process_client_messages (7 + fuel)
        { Client.init 1 7 true [] [] with
          client_msg_queue := [some (.MsgAUTH (ascii "u") (ascii "s") (ascii "d") 0)]
          net_in := [.data 9 ([0x01, 0x00, 0x05, 0x01, 0x00, 0x00] ++ ascii "ok" ++ [0x00]),
                     .data 9 (Message.MsgCONFIRM 0).UDP_msg,
                     .data 9 (Message.MsgCONFIRM 0).UDP_msg] }
      = some
        { Client.init 1 7 true [] [] with
          state := .AUTHENTICATE, waiting_on_reply := true, response_addr := 9
          seen_msg_ids := [5]
          client_msg_queue := [some (.MsgAUTH (ascii "u") (ascii "s") (ascii "d") 0)]
          out := [.sendto 7 (Message.MsgAUTH (ascii "u") (ascii "s") (ascii "d") 0).UDP_msg,
                  .sendto 9 (Message.MsgCONFIRM 5).UDP_msg,
                  .sendto 7 (Message.MsgAUTH (ascii "u") (ascii "s") (ascii "d") 0).UDP_msg] } :=
  (udp_fuel_add 7 fuel).2.2.1 _ _ udp_in_flight_eval

/-! ## C29: the CONFIRM for an inbound datagram -/

/-- The CONFIRM built for the MessageID read from two header bytes echoes the bytes. -/
theorem confirm_echo (msg : Str) (h1 : msg.getD 1 0 < 256) (h2 : msg.getD 2 0 < 256) :
    (Message.MsgCONFIRM (UDPClient.vector_msgID msg)).UDP_msg
      = [0x00, msg.getD 1 0, msg.getD 2 0] := by
  have hv : UDPClient.vector_msgID msg = msg.getD 1 0 * 256 + msg.getD 2 0 := by
    rw [UDPClient.vector_msgID, shl8_or _ _ h2, u16]
    exact Nat.mod_eq_of_lt (by omega)
  have hid : msg.getD 1 0 * 256 + msg.getD 2 0 < 65536 := by omega
  have hu : (Message.MsgCONFIRM (UDPClient.vector_msgID msg)).get_msgID
      = u16 (msg.getD 1 0 * 256 + msg.getD 2 0) := by
    rw [hv]; rfl
  rw [Message.UDP_msg, UDP_header_eq _ _ hid hu]
  have e1 : (msg.getD 1 0 * 256 + msg.getD 2 0) >>> 8 = msg.getD 1 0 := by
    rw [Nat.shiftRight_eq_div_pow]; omega
  have e2 : (msg.getD 1 0 * 256 + msg.getD 2 0) &&& 0xFF = msg.getD 2 0 := by
    rw [and_0xFF]; omega
  rw [e1, e2]
  rfl

/-- The `switch` of the UDP dispatcher writes to stdout or stderr at most; it sends
nothing. -/
theorem dispatch_out (msg : Str) (c : Client) :
    ∃ prints : List Output,
      (∀ o ∈ prints, (∃ t, o = .cout t) ∨ (∃ t, o = .cerr t))
      ∧ (UDPClient.dispatch msg c).out = c.out ++ prints := by
  have hnil : ∀ x : Client, x.out = c.out →
      ∃ prints : List Output,
        (∀ o ∈ prints, (∃ t, o = .cout t) ∨ (∃ t, o = .cerr t)) ∧ x.out = c.out ++ prints :=
    fun x hx => ⟨[], by simp, by simpa using hx⟩
  have hcerr : ∀ (x : Client) (t : Str), x.out = c.out ++ [.cerr t] →
      ∃ prints : List Output,
        (∀ o ∈ prints, (∃ t, o = .cout t) ∨ (∃ t, o = .cerr t)) ∧ x.out = c.out ++ prints :=
    fun x t hx => ⟨[.cerr t], by simp, hx⟩
  have hcout : ∀ (x : Client) (t : Str), x.out = c.out ++ [.cout t] →
      ∃ prints : List Output,
        (∀ o ∈ prints, (∃ t, o = .cout t) ∨ (∃ t, o = .cerr t)) ∧ x.out = c.out ++ prints :=
    fun x t hx => ⟨[.cout t], by simp, hx⟩
  unfold UDPClient.dispatch UDPClient.dispatch_reply
  simp only [UDPClient.fail, Client.cerr, Client.emit, Client.cout, Client.set_state,
    Client.pop_client_msg]
  split_ifs <;> first
    | exact hnil _ rfl
    | exact hcerr _ _ rfl
    | exact hcout _ _ rfl
    | (split <;> first
        | exact hnil _ rfl
        | exact hcerr _ _ rfl
        | (split_ifs <;> first
            | exact hnil _ rfl
            | exact hcerr _ _ rfl
            | (split <;> first
                | exact hnil _ rfl
                | exact hcerr _ _ rfl)))

/-- C29: one round of `UDPClient::process_server_messages` on a datagram at the head
of the inbound queue (`handle_datagram`, which the loop runs for every datagram of at
least three bytes).  If the type byte is not `0x00`, the round writes to stdout or
stderr at most and then sends exactly one datagram, the CONFIRM `[0x00, b1, b2]` that
echoes the two MessageID bytes, to `response_addr`: whether or not the MessageID was
seen before, and whatever the `switch` did with the datagram.  If the type byte is
`0x00` the round sends and prints nothing. -/
theorem confirm_emission (msg : Str) (c : Client)
    (h1 : msg.getD 1 0 < 256) (h2 : msg.getD 2 0 < 256) :
    (msg.getD 0 0 ≠ 0x00 →
      ∃ prints : List Output,
        (∀ o ∈ prints, (∃ t, o = .cout t) ∨ (∃ t, o = .cerr t))
        ∧ (UDPClient.handle_datagram msg c).out
            = c.out ++ prints ++ [.sendto c.response_addr [0x00, msg.getD 1 0, msg.getD 2 0]])
    ∧ (msg.getD 0 0 = 0x00 → (UDPClient.handle_datagram msg c).out = c.out)
    ∧ (∀ (fuel : Nat) (rest : List Str), c.server_msg_queue = msg :: rest → 3 ≤ msg.length →
        UDPClient.process_server_messages (fuel + 1) c
          = if (UDPClient.handle_datagram msg c).ub then some (UDPClient.handle_datagram msg c)
            else if msg.getD 0 0 = MessageType.REPLY.toByte
                ∧ (UDPClient.handle_datagram msg c).state ≠ .ERROR then
              match UDPClient.process_client_messages fuel (UDPClient.handle_datagram msg c) with
              | none => none
              | some c2 =>
                  if c2.ub then some c2 else UDPClient.process_server_messages fuel c2
            else UDPClient.process_server_messages fuel (UDPClient.handle_datagram msg c)) := by
  refine ⟨?_, ?_, ?_⟩
  · intro h0
    have hn : msg.getD 0 0 ≠ MessageType.CONFIRM.toByte := h0
    rw [← confirm_echo msg h1 h2]
    rcases Bool.eq_false_or_eq_true (UDPClient.msgID_seen c (UDPClient.vector_msgID msg))
      with hs | hs
    · refine ⟨[], by simp, ?_⟩
      simp only [UDPClient.handle_datagram, hs, hn, Bool.true_eq_false, or_self, if_false,
        ne_eq, not_false_eq_true, if_true, Client.emit, List.append_nil]
    · obtain ⟨prints, hp, ho⟩ := dispatch_out msg
        (UDPClient.mark_msgID_as_seen c (UDPClient.vector_msgID msg))
      refine ⟨prints, hp, ?_⟩
      simp only [UDPClient.handle_datagram, hs, hn, true_or, if_true, ne_eq,
        not_false_eq_true, Client.emit, dispatch_response_addr, ho]
      rfl
  · intro h0
    have hc : msg.getD 0 0 = MessageType.CONFIRM.toByte := h0
    have hr : ¬ MessageType.CONFIRM.toByte = MessageType.REPLY.toByte := by decide
    simp only [UDPClient.handle_datagram, hc, or_true, if_true, ne_eq, not_true_eq_false,
      if_false, UDPClient.dispatch, hr]
  · intro fuel rest hq hl
    have hl3 : ¬ msg.length < 3 := by omega
    rw [UDPClient.process_server_messages]
    simp only [hq, hl3, if_false]

/-- Witness of C29: a datagram of the unknown type `0x07` with the MessageID bytes
`0x12`, `0x34`, and a CONFIRM with the same bytes. -/
theorem confirm_emission_witness :
    (∃ prints : List Output,
        (∀ o ∈ prints, (∃ t, o = .cout t) ∨ (∃ t, o = .cerr t))
        ∧ (UDPClient.handle_datagram [0x07, 0x12, 0x34]
            { Client.init 0 7 true [] [] with
              response_addr := 9, server_msg_queue := [[0x07, 0x12, 0x34]] }).out
          = [] ++ prints ++ [.sendto 9 [0x00, 0x12, 0x34]])
    ∧ (UDPClient.handle_datagram [0x00, 0x12, 0x34]
        { Client.init 0 7 true [] [] with
          response_addr := 9, server_msg_queue := [[0x00, 0x12, 0x34]] }).out = [] :=
  ⟨(confirm_emission [0x07, 0x12, 0x34]
      { Client.init 0 7 true [] [] with
        response_addr := 9, server_msg_queue := [[0x07, 0x12, 0x34]] }
      (by decide) (by decide)).1 (by decide),
   (confirm_emission [0x00, 0x12, 0x34]
      { Client.init 0 7 true [] [] with
        response_addr := 9, server_msg_queue := [[0x00, 0x12, 0x34]] }
      (by decide) (by decide)).2.1 rfl⟩

/-! ## C27: how the state `OPEN` is entered -/

/-- The loop of `TCPClient::process_server_messages`, one round at a time. -/
theorem process_server_messages_loop_round (frame : Str) (rest : List Str) (c : Client) :
    TCPClient.process_server_messages_loop (frame :: rest) c
      = if frame.isEmpty then
          TCPClient.process_server_messages_loop rest { c with server_msg_queue := rest }
        else if (TCPClient.handle_frame frame { c with server_msg_queue := rest }).2 then
          (TCPClient.handle_frame frame { c with server_msg_queue := rest }).1
        else
          TCPClient.process_server_messages_loop rest
            (TCPClient.handle_frame frame { c with server_msg_queue := rest }).1 := by
  have n1 : ¬ ascii "ERR" = ascii "REPLY" := by decide
  have n2 : ¬ ascii "MSG" = ascii "REPLY" := by decide
  have n3 : ¬ ascii "MSG" = ascii "ERR" := by decide
  have n4 : ¬ ascii "BYE" = ascii "REPLY" := by decide
  have n5 : ¬ ascii "BYE" = ascii "ERR" := by decide
  have n6 : ¬ ascii "BYE" = ascii "MSG" := by decide
  rw [TCPClient.process_server_messages_loop]
  by_cases he : frame.isEmpty = true
  · simp only [he, if_true]
  · simp only [he, Bool.false_eq_true, if_false, TCPClient.handle_frame]
    generalize str_toupper ((IStringStream.ofStr frame).extract []).2 = ty
    generalize ((IStringStream.ofStr frame).extract []).1 = iss
    by_cases hr : ty = ascii "REPLY"
    · by_cases hw : c.waiting_on_reply = true
      · simp only [hr, if_true, hw]
      · simp only [hr, if_true, hw, Bool.false_eq_true, if_false]
    · by_cases h2 : ty = ascii "ERR"
      · subst h2
        simp only [n1, if_false, if_true]
        cases TCPClient.parse_from_is iss with
        | none => simp
        | some p => simp
      · by_cases h3 : ty = ascii "MSG"
        · subst h3
          simp only [n2, n3, if_false, if_true]
          cases TCPClient.parse_from_is iss with
          | none => simp
          | some p => simp
        · by_cases h4 : ty = ascii "BYE"
          · subst h4
            simp only [n4, n5, n6, if_false, if_true, Bool.false_eq_true]
          · simp only [hr, if_false, h2, h3, h4, Bool.false_eq_true]

/-- The member `TCPClient::send_msg` does not enter the state `OPEN`. -/
theorem tcp_send_msg_not_open (m : Message) (c : Client)
    (h : (TCPClient.send_msg m c).state = .OPEN) : c.state = .OPEN := by
  unfold TCPClient.send_msg at h
  simp only [Client.cerr, Client.emit, Client.set_state] at h
  split_ifs at h
  exact h

/-- The member `TCPClient::process_client_messages` does not enter the state `OPEN`. -/
theorem tcp_process_client_messages_not_open (q : List (Option Message)) :
    ∀ c : Client, (TCPClient.process_client_messages_loop q c).state = .OPEN →
      c.state = .OPEN := by
  induction q with
  | nil => intro c h; exact h
  | cons front rest ih =>
      intro c h
      rw [TCPClient.process_client_messages_loop] at h
      by_cases hw : c.waiting_on_reply = true
      · rw [if_pos hw] at h
        exact h
      · rw [if_neg hw] at h
        cases front with
        | none =>
            simp only at h
            exact (ih _ h :)
        | some msg =>
            simp only at h
            by_cases h1 : msg.get_type ≠ .AUTH ∧ c.auth = false
            · rw [if_pos h1] at h
              exact (ih _ h :)
            · rw [if_neg h1] at h
              by_cases h2 : (msg.get_type = .MSG ∨ msg.get_type = .JOIN) ∧ c.state ≠ .OPEN
              · rw [if_pos h2] at h
                exact (ih _ h :)
              · rw [if_neg h2] at h
                by_cases h3 : msg.get_type = .AUTH ∧ c.auth = true
                · rw [if_pos h3] at h
                  exact (ih _ h :)
                · rw [if_neg h3] at h
                  by_cases h4 : msg.get_type = .AUTH ∨ msg.get_type = .JOIN
                  · rw [if_pos h4] at h
                    exact tcp_send_msg_not_open msg c h
                  · rw [if_neg h4] at h
                    exact tcp_send_msg_not_open msg c (ih _ h :)

theorem pop_client_msg_state (c : Client) : c.pop_client_msg.state = c.state := by
  unfold Client.pop_client_msg
  split <;> rfl

theorem get_curr_msg_some (c : Client) (m : Message) (h : c.get_curr_msg = some m) :
    ∃ rest, c.client_msg_queue = some m :: rest := by
  unfold Client.get_curr_msg at h
  split at h
  · rename_i msg rest hq
    simp only [Option.some.injEq] at h
    subst h
    exact ⟨rest, hq⟩
  · exact absurd h (by simp)

/-- A round of the TCP loop that enters the state `OPEN` is the dispatch of a frame
`REPLY OK IS ...` while `waiting_on_reply` is true and an AUTH is at the head of the
outbound queue. -/
theorem handle_frame_open (frame : Str) (c : Client) (hc : c.state ≠ .OPEN)
    (h : (TCPClient.handle_frame frame c).1.state = .OPEN) :
    c.waiting_on_reply = true
    ∧ (∃ m rest, c.client_msg_queue = some m :: rest ∧ m.get_type = .AUTH)
    ∧ str_toupper ((IStringStream.ofStr frame).extract []).2 = ascii "REPLY"
    ∧ str_toupper ((((IStringStream.ofStr frame).extract []).1).extract []).2 = ascii "OK"
    ∧ str_toupper (((((IStringStream.ofStr frame).extract []).1).extract []).1.extract []).2
        = ascii "IS" := by
  have hpcm : ∀ x : Client, x.state = c.state →
      (TCPClient.process_client_messages x).state ≠ .OPEN := by
    intro x hx hopen
    have := tcp_process_client_messages_not_open _ x hopen
    exact hc (hx ▸ this)
  unfold TCPClient.handle_frame at h
  simp only at h
  by_cases hr : str_toupper ((IStringStream.ofStr frame).extract []).2 = ascii "REPLY"
  · rw [if_pos hr] at h
    by_cases hw : c.waiting_on_reply = true
    · rw [if_pos hw] at h
      unfold TCPClient.process_reply at h
      simp only at h
      by_cases his : (((((IStringStream.ofStr frame).extract []).1).extract []).1.extract
            []).1.failbit = false
          ∧ str_toupper (((((IStringStream.ofStr frame).extract []).1).extract []).1.extract
            []).2 = ascii "IS"
      · rw [if_pos his] at h
        by_cases hnok : str_toupper ((((IStringStream.ofStr frame).extract []).1).extract
            []).2 = ascii "NOK"
        · rw [if_pos hnok] at h
          exact absurd h (hpcm _ (by simp [pop_client_msg_state, Client.cerr, Client.emit]))
        · rw [if_neg hnok] at h
          by_cases hok : str_toupper ((((IStringStream.ofStr frame).extract []).1).extract
              []).2 = ascii "OK"
          · rw [if_pos hok] at h
            split at h
            · exact absurd h hc
            · rename_i curr hcur
              obtain ⟨rest, hq⟩ := get_curr_msg_some _ curr hcur
              by_cases ha : curr.get_type = .AUTH
              · exact ⟨hw, ⟨curr, rest, hq, ha⟩, hr, hok, his.2⟩
              · rw [if_neg ha] at h
                exact absurd h
                  (hpcm _ (by simp [pop_client_msg_state, Client.cerr, Client.emit]))
          · rw [if_neg hok] at h
            exact absurd h (by simp [TCPClient.fail, Client.set_state])
      · rw [if_neg his] at h
        exact absurd h (by simp [TCPClient.fail, Client.set_state])
    · rw [if_neg hw] at h
      exact absurd h hc
  · rw [if_neg hr] at h
    split_ifs at h
    · split at h
      · exact absurd h (by simp [TCPClient.fail, Client.set_state])
      · exact absurd h hc
    · split at h
      · exact absurd h (by simp [TCPClient.fail, Client.set_state])
      · exact absurd h hc
    · exact absurd h (by simp [Client.set_state])
    · exact absurd h (by simp [TCPClient.fail, Client.set_state])

/-- A round of the UDP dispatcher that enters the state `OPEN` is the dispatch of a
REPLY with result byte `0x01`, a MessageID not seen before and the ref_id of the head
of the outbound queue, while `waiting_on_reply` is true and that head is an AUTH. -/
theorem handle_datagram_open (msg : Str) (c : Client) (hc : c.state ≠ .OPEN)
    (h : (UDPClient.handle_datagram msg c).state = .OPEN) :
    c.waiting_on_reply = true
    ∧ (∃ m rest, c.client_msg_queue = some m :: rest ∧ m.get_type = .AUTH
        ∧ m.get_msgID = u16 ((msg.getD 4 0 <<< 8) ||| msg.getD 5 0))
    ∧ msg.getD 0 0 = MessageType.REPLY.toByte
    ∧ msg.getD 3 0 = 0x01
    ∧ UDPClient.msgID_seen c (UDPClient.vector_msgID msg) = false := by
  have hn2 : ¬ MessageType.REPLY.toByte = MessageType.CONFIRM.toByte := by decide
  have hs : (UDPClient.handle_datagram msg c).state
      = (if UDPClient.msgID_seen c (UDPClient.vector_msgID msg) = false
            ∨ msg.getD 0 0 = MessageType.CONFIRM.toByte then
          UDPClient.dispatch msg
            (if msg.getD 0 0 ≠ MessageType.CONFIRM.toByte then
              UDPClient.mark_msgID_as_seen c (UDPClient.vector_msgID msg) else c)
          else c).state := by
    unfold UDPClient.handle_datagram
    simp only [Client.emit]
    split_ifs <;> rfl
  have h' := hs.symm.trans h
  clear h
  by_cases hcond : UDPClient.msgID_seen c (UDPClient.vector_msgID msg) = false
      ∨ msg.getD 0 0 = MessageType.CONFIRM.toByte
  · rw [if_pos hcond] at h'
    unfold UDPClient.dispatch at h'
    by_cases hr : msg.getD 0 0 = MessageType.REPLY.toByte
    · have hnc : msg.getD 0 0 ≠ MessageType.CONFIRM.toByte := by rw [hr]; exact hn2
      have hseen : UDPClient.msgID_seen c (UDPClient.vector_msgID msg) = false := by
        rcases hcond with h1 | h1
        · exact h1
        · exact absurd h1 hnc
      rw [if_pos hr, if_pos hnc] at h'
      unfold UDPClient.dispatch_reply at h'
      simp only [UDPClient.mark_msgID_as_seen] at h'
      by_cases hw : c.waiting_on_reply = false
      · rw [if_pos hw] at h'
        exact absurd h' hc
      · rw [if_neg hw] at h'
        have hwt : c.waiting_on_reply = true := by simpa using hw
        by_cases hl : msg.length < 6
        · rw [if_pos hl] at h'
          exact absurd h' hc
        · rw [if_neg hl] at h'
          split at h'
          · exact absurd h' hc
          · rename_i curr hcur
            obtain ⟨rest, hq⟩ := get_curr_msg_some _ curr hcur
            by_cases hid : curr.get_msgID ≠ u16 ((msg.getD 4 0 <<< 8) ||| msg.getD 5 0)
            · rw [if_pos hid] at h'
              exact absurd h' (by simp [UDPClient.fail, Client.set_state])
            · rw [if_neg hid] at h'
              have hid2 : curr.get_msgID = u16 ((msg.getD 4 0 <<< 8) ||| msg.getD 5 0) := by
                simpa using hid
              by_cases h30 : msg.getD 3 0 = 0x00
              · rw [if_pos h30] at h'
                rw [pop_client_msg_state] at h'
                exact absurd h' hc
              · rw [if_neg h30] at h'
                by_cases h31 : msg.getD 3 0 = 0x01
                · rw [if_pos h31] at h'
                  by_cases ha : curr.get_type = .AUTH
                  · exact ⟨hwt, ⟨curr, rest, hq, ha, hid2⟩, hr, h31, hseen⟩
                  · rw [if_neg ha, pop_client_msg_state] at h'
                    exact absurd h' hc
                · rw [if_neg h31] at h'
                  exact absurd h' (by simp [UDPClient.fail, Client.set_state])
    · rw [if_neg hr] at h'
      split_ifs at h' <;> first
        | exact absurd h' hc
        | exact absurd h' (by simp [UDPClient.fail, Client.set_state, Client.cerr, Client.emit])
  · rw [if_neg hcond] at h'
    exact absurd h' hc

theorem extract_frames_state (fuel : Nat) : ∀ c : Client,
    (TCPClient.extract_frames fuel c).state = c.state := by
  induction fuel with
  | zero => intro c; rfl
  | succ fuel ih =>
      intro c
      rw [TCPClient.extract_frames]
      split
      · rfl
      · rw [ih]
        rfl

/-- The member `TCPClient::receive_msg` does not enter the state `OPEN`. -/
theorem tcp_receive_msg_not_open (rx : Option Str) (c : Client) (hc : c.state ≠ .OPEN) :
    (TCPClient.receive_msg rx c).state ≠ .OPEN := by
  unfold TCPClient.receive_msg
  cases rx with
  | none => exact hc
  | some bytes =>
      simp only
      split_ifs
      · simp [Client.set_state]
      · rw [extract_frames_state]
        exact hc

theorem recvfrom_state (c : Client) : (UDPClient.recvfrom c).2.state = c.state := by
  unfold UDPClient.recvfrom
  rcases c.net_in with _ | ⟨_ | _, rest⟩ <;> rfl

theorem udp_receive_msg_state (c : Client) : (UDPClient.receive_msg c).state = c.state := by
  have h := recvfrom_state c
  unfold UDPClient.receive_msg
  rcases hr : UDPClient.recvfrom c with ⟨_ | _, c1⟩ <;> rw [hr] at h <;> exact h

/-- C27, the code at the failing input: a TCP client in state `AUTHENTICATE` waits for
the reply to its AUTH, and one read brings the frames `BYE` and `REPLY OK IS ok`.  The
round on `BYE` sets the state to `END`, but the loop goes on; the round on the REPLY
then sets the state to `OPEN`, starting in state `END` and not in `AUTHENTICATE`.  The
same in a run of `main`, which is in state `OPEN` afterwards and has not left its
loop, although the server has sent BYE. -/
theorem open_reachability_failing_input :
    TCPClient.handle_frame (ascii "BYE")
        { Client.init 0 7 true [] [] with
          state := .AUTHENTICATE, waiting_on_reply := true
          client_msg_queue := [some (.MsgAUTH (ascii "u") (ascii "s") (ascii "d") 0)] }
      = ({ Client.init 0 7 true [] [] with
          state := .END, waiting_on_reply := true
          client_msg_queue := [some (.MsgAUTH (ascii "u") (ascii "s") (ascii "d") 0)] }, false)
    ∧ TCPClient.handle_frame (ascii "REPLY OK IS ok")
        { Client.init 0 7 true [] [] with
          state := .END, waiting_on_reply := true
          client_msg_queue := [some (.MsgAUTH (ascii "u") (ascii "s") (ascii "d") 0)] }
      = ({ Client.init 0 7 true [] [] with
          state := .OPEN, auth := true
          out := [.cerr (ascii "Success: ok\n")] }, false)
    ∧ TCPClient.process_server_messages_loop [ascii "BYE", ascii "REPLY OK IS ok"]
        { Client.init 0 7 true [] [] with
          state := .AUTHENTICATE, waiting_on_reply := true
          client_msg_queue := [some (.MsgAUTH (ascii "u") (ascii "s") (ascii "d") 0)] }
      = { Client.init 0 7 true [] [] with
          state := .OPEN, auth := true
          out := [.cerr (ascii "Success: ok\n")] }
    ∧ main TCPClient.transport
        [.ready (some (ascii "/auth u s d", false)) none,
         .ready none (some (some (ascii "BYE\r\nREPLY OK IS ok\r\n")))]
        (Client.init 0 7 true [] [])
      = some (⟨{ Client.init 0 7 true [] [] with
                  state := .OPEN, auth := true
                  out := [.send (ascii "AUTH u AS d USING s\r\n"),
                          .cerr (ascii "Success: ok\n")] },
                ⟨1, ascii "d"⟩, false⟩, none) := by
  refine ⟨?_, ?_, ?_, ?_⟩
  · decide
  · decide
  · decide
  · decide

/-- The rounds that enter the state `OPEN`: the dispatch of an OK REPLY while
`waiting_on_reply` is true and an AUTH is at the head of the outbound queue, a TCP
frame whose first three tokens are `REPLY`, `OK`, `IS` up to letter case, or a UDP
REPLY with result byte `0x01`, a MessageID not seen before and a ref_id equal to the
MessageID of that AUTH.  No other round of the two dispatchers enters it, nor do
`TCPClient::send_msg`, `TCPClient::process_client_messages` and the two
`receive_msg`.  The state in which the REPLY is dispatched is not tested. -/
theorem open_entry_steps (c : Client) (hc : c.state ≠ .OPEN) :
    (∀ frame : Str, (TCPClient.handle_frame frame c).1.state = .OPEN →
      c.waiting_on_reply = true
      ∧ (∃ m rest, c.client_msg_queue = some m :: rest ∧ m.get_type = .AUTH)
      ∧ str_toupper ((IStringStream.ofStr frame).extract []).2 = ascii "REPLY"
      ∧ str_toupper ((((IStringStream.ofStr frame).extract []).1).extract []).2 = ascii "OK"
      ∧ str_toupper (((((IStringStream.ofStr frame).extract []).1).extract []).1.extract []).2
          = ascii "IS")
    ∧ (∀ msg : Str, (UDPClient.handle_datagram msg c).state = .OPEN →
      c.waiting_on_reply = true
      ∧ (∃ m rest, c.client_msg_queue = some m :: rest ∧ m.get_type = .AUTH
          ∧ m.get_msgID = u16 ((msg.getD 4 0 <<< 8) ||| msg.getD 5 0))
      ∧ msg.getD 0 0 = MessageType.REPLY.toByte
      ∧ msg.getD 3 0 = 0x01
      ∧ UDPClient.msgID_seen c (UDPClient.vector_msgID msg) = false)
    ∧ (∀ m : Message, (TCPClient.send_msg m c).state ≠ .OPEN)
    ∧ (TCPClient.process_client_messages c).state ≠ .OPEN
    ∧ (∀ rx : Option Str, (TCPClient.receive_msg rx c).state ≠ .OPEN)
    ∧ (UDPClient.receive_msg c).state ≠ .OPEN := by
  refine ⟨fun frame h => handle_frame_open frame c hc h,
    fun msg h => handle_datagram_open msg c hc h,
    fun m h => hc (tcp_send_msg_not_open m c h),
    fun h => hc (tcp_process_client_messages_not_open _ c h),
    fun rx => tcp_receive_msg_not_open rx c hc, ?_⟩
  rw [udp_receive_msg_state]
  exact hc

/-! ## Properties that every step of the UDP client keeps -/

/-- A property `P` of the client that the single steps of the four loops of the UDP
client keep is kept by the loops.  `M` restricts the messages `send_msg` is called
with: the step that accepts the CONFIRM of the message has to keep `P` for such
messages only, and `process_client_messages` has to hand only such messages to
`send_msg`. -/
theorem udp_invariant (P : Client → Prop) (M : Message → Prop)
    (h_emit : ∀ c o, P c → P (c.emit o))
    (h_recv : ∀ c, P c → P (UDPClient.recvfrom c).2)
    (h_end : ∀ c, P c → P (c.set_state .END))
    (h_accept : ∀ c msg, M msg → P c →
      P (if (if msg.get_type = .BYE then c.set_state .END else c).state = .START then
          (if msg.get_type = .BYE then c.set_state .END else c).set_state .AUTHENTICATE
        else (if msg.get_type = .BYE then c.set_state .END else c)))
    (h_push : ∀ c bytes, P c → P (c.push_server_msg bytes))
    (h_popq : ∀ c front rest, P c → c.client_msg_queue = front :: rest →
      P { c with client_msg_queue := rest })
    (h_link : ∀ c msg rest, P c → c.client_msg_queue = some msg :: rest →
      ¬ (msg.get_type ≠ .AUTH ∧ c.auth = false) →
      ¬ ((msg.get_type = .MSG ∨ msg.get_type = .JOIN) ∧ c.state ≠ .OPEN) →
      ¬ (msg.get_type = .AUTH ∧ c.auth = true) → M msg)
    (h_wait : ∀ c, P c → P { c with waiting_on_reply := true })
    (h_pop : ∀ c, P c → P c.pop_client_msg)
    (h_spop : ∀ c rest, P c → P { c with server_msg_queue := rest })
    (h_dg : ∀ c msg, P c → P (UDPClient.handle_datagram msg c))
    (fuel : Nat) :
    (∀ msg r c c1, M msg → P c → UDPClient.send_loop fuel msg r c = some c1 → P c1)
    ∧ (∀ msg r c c1, M msg → P c → UDPClient.wait_loop fuel msg r c = some c1 → P c1)
    ∧ (∀ c c1, P c → UDPClient.process_client_messages fuel c = some c1 → P c1)
    ∧ (∀ c c1, P c → UDPClient.process_server_messages fuel c = some c1 → P c1) := by
  induction fuel with
  | zero =>
      refine ⟨?_, ?_, ?_, ?_⟩ <;> intros <;> simp_all [UDPClient.send_loop, UDPClient.wait_loop,
        UDPClient.process_client_messages, UDPClient.process_server_messages]
  | succ fuel ih =>
      obtain ⟨ihs, ihw, ihc, ihp⟩ := ih
      refine ⟨?_, ?_, ?_, ?_⟩
      · intro msg r c c1 hm hp h
        rw [UDPClient.send_loop] at h
        exact ihw _ _ _ _ hm (h_emit _ _ hp) h
      · intro msg r c0 c1 hm hp h
        rw [UDPClient.wait_loop] at h
        have hp1 := h_recv c0 hp
        rcases hrec : UDPClient.recvfrom c0 with ⟨res, c⟩
        rw [hrec] at h hp1
        simp only at hp1
        cases res with
        | error timeout =>
            simp only at h
            by_cases hc : timeout = true ∧ r < c.max_retransmissions
            · rw [if_pos hc] at h
              exact ihs _ _ _ _ hm hp1 h
            · rw [if_neg hc] at h
              simp only [Option.some.injEq] at h
              rw [← h]
              exact h_end _ hp1
        | data src bytes =>
            simp only at h
            by_cases h0 : bytes.getD 0 0 = MessageType.CONFIRM.toByte
            · rw [if_pos h0] at h
              by_cases h1 : UDPClient.buffer_msgID c.char_is_signed bytes ≠ msg.get_msgID
              · rw [if_pos h1] at h
                exact ihw _ _ _ _ hm hp1 h
              · rw [if_neg h1] at h
                simp only [Option.some.injEq] at h
                rw [← h]
                exact h_accept c msg hm hp1
            · rw [if_neg h0] at h
              cases hps : UDPClient.process_server_messages fuel (c.push_server_msg bytes) with
              | none => rw [hps] at h; exact absurd h (by simp)
              | some c2 =>
                  rw [hps] at h
                  have hp2 := ihp _ _ (h_push c bytes hp1) hps
                  simp only at h
                  by_cases hub : c2.ub = true
                  · rw [if_pos hub] at h
                    simp only [Option.some.injEq] at h
                    rw [← h]
                    exact hp2
                  · rw [if_neg hub] at h
                    exact ihw _ _ _ _ hm hp2 h
      · intro c c1 hp h
        rw [UDPClient.process_client_messages] at h
        by_cases hw : c.waiting_on_reply = true
        · rw [if_pos hw] at h
          simp only [Option.some.injEq] at h
          rw [← h]
          exact hp
        · rw [if_neg hw] at h
          cases hq : c.client_msg_queue with
          | nil =>
              rw [hq] at h
              simp only [Option.some.injEq] at h
              rw [← h]
              exact hp
          | cons front rest =>
              rw [hq] at h
              cases front with
              | none => exact ihc _ _ (h_popq c _ rest hp hq) h
              | some msg =>
                  simp only at h
                  by_cases h1 : msg.get_type ≠ .AUTH ∧ c.auth = false
                  · rw [if_pos h1] at h
                    exact ihc _ _ (h_emit _ _ (h_popq c _ rest hp hq)) h
                  · rw [if_neg h1] at h
                    by_cases h2 : (msg.get_type = .MSG ∨ msg.get_type = .JOIN) ∧ c.state ≠ .OPEN
                    · rw [if_pos h2] at h
                      exact ihc _ _ (h_emit _ _ (h_popq c _ rest hp hq)) h
                    · rw [if_neg h2] at h
                      by_cases h3 : msg.get_type = .AUTH ∧ c.auth = true
                      · rw [if_pos h3] at h
                        exact ihc _ _ (h_emit _ _ (h_popq c _ rest hp hq)) h
                      · rw [if_neg h3] at h
                        have hm := h_link c msg rest hp hq h1 h2 h3
                        cases hs : UDPClient.send_loop fuel msg 0 c with
                        | none => rw [hs] at h; exact absurd h (by simp)
                        | some sent =>
                            rw [hs] at h
                            have hp2 := ihs _ _ _ _ hm hp hs
                            simp only at h
                            by_cases hub : sent.ub = true
                            · rw [if_pos hub] at h
                              simp only [Option.some.injEq] at h
                              rw [← h]
                              exact hp2
                            · rw [if_neg hub] at h
                              by_cases ht : msg.get_type = .AUTH ∨ msg.get_type = .JOIN
                              · rw [if_pos ht] at h
                                exact ihc _ _ (h_wait _ hp2) h
                              · rw [if_neg ht] at h
                                by_cases hub2 : sent.pop_client_msg.ub = true
                                · rw [if_pos hub2] at h
                                  simp only [Option.some.injEq] at h
                                  rw [← h]
                                  exact h_pop _ hp2
                                · rw [if_neg hub2] at h
                                  exact ihc _ _ (h_pop _ hp2) h
      · intro c c1 hp h
        rw [UDPClient.process_server_messages] at h
        cases hq : c.server_msg_queue with
        | nil =>
            rw [hq] at h
            simp only [Option.some.injEq] at h
            rw [← h]
            exact hp
        | cons msg rest =>
            rw [hq] at h
            simp only at h
            by_cases hl : msg.length < 3
            · rw [if_pos hl] at h
              exact ihp _ _ (h_spop c rest hp) h
            · rw [if_neg hl] at h
              have hp1 := h_dg c msg hp
              by_cases hub : (UDPClient.handle_datagram msg c).ub = true
              · rw [if_pos hub] at h
                simp only [Option.some.injEq] at h
                rw [← h]
                exact hp1
              · rw [if_neg hub] at h
                by_cases hr : msg.getD 0 0 = MessageType.REPLY.toByte
                    ∧ (UDPClient.handle_datagram msg c).state ≠ .ERROR
                · rw [if_pos hr] at h
                  cases hc : UDPClient.process_client_messages fuel
                      (UDPClient.handle_datagram msg c) with
                  | none => rw [hc] at h; exact absurd h (by simp)
                  | some c2 =>
                      rw [hc] at h
                      have hp2 := ihc _ _ hp1 hc
                      simp only at h
                      by_cases hub2 : c2.ub = true
                      · rw [if_pos hub2] at h
                        simp only [Option.some.injEq] at h
                        rw [← h]
                        exact hp2
                      · rw [if_neg hub2] at h
                        exact ihp _ _ hp2 h
                · rw [if_neg hr] at h
                  exact ihp _ _ hp1 h

/-! ## C30: the set of MessageIDs seen -/

/-- The `switch` of the UDP dispatcher leaves `seen_msg_ids` as it is. -/
theorem dispatch_seen (msg : Str) (c : Client) :
    (UDPClient.dispatch msg c).seen_msg_ids = c.seen_msg_ids := by
  unfold UDPClient.dispatch UDPClient.dispatch_reply
  simp only [UDPClient.fail, Client.cerr, Client.emit, Client.cout, Client.set_state,
    Client.pop_client_msg]
  split_ifs <;> first
    | rfl
    | (split <;> first
        | rfl
        | (split_ifs <;> first
            | rfl
            | (split <;> rfl)))

/-- What one round of the UDP dispatcher does to `seen_msg_ids`: the MessageID of a
datagram that is not a CONFIRM is added unless it is there, and nothing else
changes. -/
theorem handle_datagram_seen (msg : Str) (c : Client) :
    (UDPClient.handle_datagram msg c).seen_msg_ids
      = if msg.getD 0 0 ≠ MessageType.CONFIRM.toByte
            ∧ UDPClient.vector_msgID msg ∉ c.seen_msg_ids then
          c.seen_msg_ids ++ [UDPClient.vector_msgID msg]
        else c.seen_msg_ids := by
  by_cases h0 : msg.getD 0 0 = MessageType.CONFIRM.toByte
  · have hr : ¬ MessageType.CONFIRM.toByte = MessageType.REPLY.toByte := by decide
    simp only [UDPClient.handle_datagram, h0, or_true, if_true, ne_eq, not_true_eq_false,
      if_false, false_and, UDPClient.dispatch, hr]
  · by_cases hs : UDPClient.vector_msgID msg ∈ c.seen_msg_ids
    · simp only [UDPClient.handle_datagram, UDPClient.msgID_seen, hs, decide_True,
        Bool.true_eq_false, h0, or_self, if_false, ne_eq, not_false_eq_true, if_true,
        Client.emit, not_true_eq_false, and_false]
    · simp only [UDPClient.handle_datagram, UDPClient.msgID_seen, hs, decide_False, true_or,
        if_true, h0, ne_eq, not_false_eq_true, Client.emit, dispatch_seen,
        UDPClient.mark_msgID_as_seen, and_self, if_false]

theorem handle_datagram_seen_mono (msg : Str) (c : Client) :
    c.seen_msg_ids ⊆ (UDPClient.handle_datagram msg c).seen_msg_ids := by
  rw [handle_datagram_seen]
  split_ifs
  · exact List.subset_append_left _ _
  · exact List.Subset.refl _

theorem recvfrom_seen (c : Client) : (UDPClient.recvfrom c).2.seen_msg_ids = c.seen_msg_ids := by
  unfold UDPClient.recvfrom
  rcases c.net_in with _ | ⟨_ | _, rest⟩ <;> rfl

theorem pop_client_msg_seen (c : Client) : c.pop_client_msg.seen_msg_ids = c.seen_msg_ids := by
  unfold Client.pop_client_msg
  split <;> rfl

/-- The four loops of the UDP client return `seen_msg_ids` as a superset of what they
were given. -/
theorem udp_seen_mono (fuel : Nat) :
    (∀ msg r c c1, UDPClient.send_loop fuel msg r c = some c1 →
        c.seen_msg_ids ⊆ c1.seen_msg_ids)
    ∧ (∀ msg r c c1, UDPClient.wait_loop fuel msg r c = some c1 →
        c.seen_msg_ids ⊆ c1.seen_msg_ids)
    ∧ (∀ c c1, UDPClient.process_client_messages fuel c = some c1 →
        c.seen_msg_ids ⊆ c1.seen_msg_ids)
    ∧ (∀ c c1, UDPClient.process_server_messages fuel c = some c1 →
        c.seen_msg_ids ⊆ c1.seen_msg_ids) := by
  have key : ∀ S : List Nat,
      (∀ msg r c c1, True → S ⊆ c.seen_msg_ids →
        UDPClient.send_loop fuel msg r c = some c1 → S ⊆ c1.seen_msg_ids)
      ∧ (∀ msg r c c1, True → S ⊆ c.seen_msg_ids →
        UDPClient.wait_loop fuel msg r c = some c1 → S ⊆ c1.seen_msg_ids)
      ∧ (∀ c c1, S ⊆ c.seen_msg_ids →
        UDPClient.process_client_messages fuel c = some c1 → S ⊆ c1.seen_msg_ids)
      ∧ (∀ c c1, S ⊆ c.seen_msg_ids →
        UDPClient.process_server_messages fuel c = some c1 → S ⊆ c1.seen_msg_ids) := by
    intro S
    refine udp_invariant (fun c => S ⊆ c.seen_msg_ids) (fun _ => True)
      (fun c o h => h) ?_ (fun c h => h) ?_ (fun c bytes h => h) (fun c front rest h _ => h)
      (fun _ _ _ _ _ _ _ _ => trivial) (fun c h => h) ?_ (fun c rest h => h) ?_ fuel
    · intro c h
      simp only [recvfrom_seen]
      exact h
    · intro c msg _ h
      simp only [Client.set_state]
      split_ifs <;> exact h
    · intro c h
      simp only [pop_client_msg_seen]
      exact h
    · intro c msg h
      exact List.Subset.trans h (handle_datagram_seen_mono msg c)
  exact ⟨fun msg r c c1 h => (key c.seen_msg_ids).1 msg r c c1 trivial (List.Subset.refl _) h,
    fun msg r c c1 h => (key c.seen_msg_ids).2.1 msg r c c1 trivial (List.Subset.refl _) h,
    fun c c1 h => (key c.seen_msg_ids).2.2.1 c c1 (List.Subset.refl _) h,
    fun c c1 h => (key c.seen_msg_ids).2.2.2 c c1 (List.Subset.refl _) h⟩

/-- A CONFIRM received inside `send_msg`: it is skipped or accepted, and in both cases
`seen_msg_ids` stays as it is. -/
theorem wait_loop_confirm (fuel : Nat) (msg : Message) (r : Int) (c : Client) (src : Addr)
    (bytes : Str) (rest : List RecvResult) (hn : c.net_in = .data src bytes :: rest)
    (h0 : bytes.getD 0 0 = MessageType.CONFIRM.toByte) :
    (UDPClient.buffer_msgID c.char_is_signed bytes ≠ msg.get_msgID →
      UDPClient.wait_loop (fuel + 1) msg r c
        = UDPClient.wait_loop fuel msg r { c with net_in := rest, response_addr := src })
    ∧ (UDPClient.buffer_msgID c.char_is_signed bytes = msg.get_msgID →
      ∃ c1, UDPClient.wait_loop (fuel + 1) msg r c = some c1
        ∧ c1.seen_msg_ids = c.seen_msg_ids) := by
  constructor
  · intro h1
    rw [UDPClient.wait_loop]
    simp only [UDPClient.recvfrom, hn, h0, if_true, h1, ne_eq, not_false_eq_true]
  · intro h1
    rw [UDPClient.wait_loop]
    simp only [UDPClient.recvfrom, hn, h0, if_true, h1, ne_eq, not_true_eq_false, if_false]
    refine ⟨_, rfl, ?_⟩
    simp only [Client.set_state]
    split_ifs <;> rfl

/-- The MessageID of a datagram that is not a CONFIRM is in `seen_msg_ids` after its
round of the dispatcher. -/
theorem handle_datagram_marks (msg : Str) (c : Client)
    (h0 : msg.getD 0 0 ≠ MessageType.CONFIRM.toByte) :
    UDPClient.vector_msgID msg ∈ (UDPClient.handle_datagram msg c).seen_msg_ids := by
  rw [handle_datagram_seen]
  by_cases hs : UDPClient.vector_msgID msg ∈ c.seen_msg_ids
  · rw [if_neg (fun h => h.2 hs)]
    exact hs
  · rw [if_pos ⟨h0, hs⟩]
    exact List.mem_append_right _ (List.mem_singleton_self _)

/-- A run of `process_server_messages` that starts with a datagram of at least three
bytes is the round of that datagram followed by the rest of the run. -/
theorem udp_round_seen (fuel : Nat) (msg : Str) (rest : List Str) (c c1 : Client)
    (hq : c.server_msg_queue = msg :: rest) (hl : 3 ≤ msg.length)
    (h : UDPClient.process_server_messages fuel c = some c1) :
    (UDPClient.handle_datagram msg c).seen_msg_ids ⊆ c1.seen_msg_ids := by
  cases fuel with
  | zero => simp [UDPClient.process_server_messages] at h
  | succ fuel =>
    have hl3 : ¬ msg.length < 3 := by omega
    rw [UDPClient.process_server_messages] at h
    simp only [hq, hl3, if_false] at h
    split_ifs at h with hu hr
    · cases h
      exact List.Subset.refl _
    · rcases hp : UDPClient.process_client_messages fuel (UDPClient.handle_datagram msg c)
        with _ | c2
      · rw [hp] at h
        cases h
      · rw [hp] at h
        simp only at h
        have m1 := (udp_seen_mono fuel).2.2.1 _ _ hp
        split_ifs at h
        · cases h
          exact m1
        · exact List.Subset.trans m1 ((udp_seen_mono fuel).2.2.2 _ _ h)
    · exact (udp_seen_mono fuel).2.2.2 _ _ h

theorem udp_receive_msg_seen (c : Client) :
    (UDPClient.receive_msg c).seen_msg_ids = c.seen_msg_ids := by
  unfold UDPClient.receive_msg UDPClient.recvfrom
  rcases c.net_in with _ | ⟨_ | _, rest⟩ <;> rfl

/-- C30: the set `seen_msg_ids` of the UDP client.  Every operation that returns
(`send_msg`, `process_client_messages`, `process_server_messages`, `receive_msg`, one
round of the dispatcher) returns `seen_msg_ids` as a superset of what it was given.
After the round of a datagram of at least three bytes that is not a CONFIRM, the
MessageID of the datagram is in the set, and it is still there when the run of
`process_server_messages` that started with the datagram returns.  The round of a
CONFIRM datagram leaves the set as it is, and so does a CONFIRM received inside
`send_msg`: with another ref_id it is skipped, the only change being the datagram
taken from the socket and `response_addr`; with the ref_id of the message it ends
`send_msg` with the same set. -/
theorem seen_ids_discipline (fuel : Nat) (c : Client) (m : Message) (dg : Str) :
    (∀ c1, UDPClient.send_msg fuel m c = some c1 → c.seen_msg_ids ⊆ c1.seen_msg_ids)
    ∧ (∀ c1, UDPClient.process_client_messages fuel c = some c1 →
        c.seen_msg_ids ⊆ c1.seen_msg_ids)
    ∧ (∀ c1, UDPClient.process_server_messages fuel c = some c1 →
        c.seen_msg_ids ⊆ c1.seen_msg_ids)
    ∧ c.seen_msg_ids ⊆ (UDPClient.receive_msg c).seen_msg_ids
    ∧ c.seen_msg_ids ⊆ (UDPClient.handle_datagram dg c).seen_msg_ids
    ∧ (3 ≤ dg.length → dg.getD 0 0 ≠ MessageType.CONFIRM.toByte →
        UDPClient.vector_msgID dg ∈ (UDPClient.handle_datagram dg c).seen_msg_ids
        ∧ ∀ rest c1, c.server_msg_queue = dg :: rest →
            UDPClient.process_server_messages fuel c = some c1 →
            UDPClient.vector_msgID dg ∈ c1.seen_msg_ids)
    ∧ (dg.getD 0 0 = MessageType.CONFIRM.toByte →
        (UDPClient.handle_datagram dg c).seen_msg_ids = c.seen_msg_ids)
    ∧ (∀ src rest r, c.net_in = .data src dg :: rest →
        dg.getD 0 0 = MessageType.CONFIRM.toByte →
        (UDPClient.buffer_msgID c.char_is_signed dg ≠ m.get_msgID →
          UDPClient.wait_loop (fuel + 1) m r c
            = UDPClient.wait_loop fuel m r { c with net_in := rest, response_addr := src })
        ∧ (UDPClient.buffer_msgID c.char_is_signed dg = m.get_msgID →
          ∃ c1, UDPClient.wait_loop (fuel + 1) m r c = some c1
            ∧ c1.seen_msg_ids = c.seen_msg_ids)) := by
  refine ⟨fun c1 h => (udp_seen_mono fuel).1 m 0 c c1 h,
    fun c1 h => (udp_seen_mono fuel).2.2.1 c c1 h,
    fun c1 h => (udp_seen_mono fuel).2.2.2 c c1 h, ?_, handle_datagram_seen_mono dg c,
    ?_, ?_, ?_⟩
  · rw [udp_receive_msg_seen]
    exact List.Subset.refl _
  · intro hl h0
    exact ⟨handle_datagram_marks dg c h0,
      fun rest c1 hq h => udp_round_seen fuel dg rest c c1 hq hl h (handle_datagram_marks dg c h0)⟩
  · intro h0
    rw [handle_datagram_seen, if_neg (fun h => h.1 h0)]
  · intro src rest r hn h0
    exact wait_loop_confirm fuel m r c src dg rest hn h0

/-- Witness of C30: with the MessageID 3 seen, the datagram MSG with the MessageID
`0x0102` is dispatched; the run returns with both MessageIDs in the set. -/
theorem seen_ids_discipline_witness :
    UDPClient.process_server_messages 2
        { Client.init 0 7 true [] [] with
          seen_msg_ids := [3], server_msg_queue := [[0x04, 0x01, 0x02, 0x61, 0x00, 0x62, 0x00]] }
      = some { Client.init 0 7 true [] [] with
          seen_msg_ids := [3, 258],
          out := [.cout (ascii "a: b\n"), .sendto 0 [0x00, 0x01, 0x02]] }
    ∧ [3] ⊆ [3, 258]
    ∧ 258 ∈ [3, 258] :=
  ⟨by decide,
   (seen_ids_discipline 2
      { Client.init 0 7 true [] [] with
        seen_msg_ids := [3], server_msg_queue := [[0x04, 0x01, 0x02, 0x61, 0x00, 0x62, 0x00]] }
      (Message.MsgCONFIRM 0) [0x04, 0x01, 0x02, 0x61, 0x00, 0x62, 0x00]).2.2.1
      ({ Client.init 0 7 true [] [] with
          seen_msg_ids := [3, 258],
          out := [.cout (ascii "a: b\n"), .sendto 0 [0x00, 0x01, 0x02]] }) (by decide),
   ((seen_ids_discipline 2
      { Client.init 0 7 true [] [] with
        seen_msg_ids := [3], server_msg_queue := [[0x04, 0x01, 0x02, 0x61, 0x00, 0x62, 0x00]] }
      (Message.MsgCONFIRM 0) [0x04, 0x01, 0x02, 0x61, 0x00, 0x62, 0x00]).2.2.2.2.2.1
        (by decide) (by decide)).2 []
      ({ Client.init 0 7 true [] [] with
          seen_msg_ids := [3, 258],
          out := [.cout (ascii "a: b\n"), .sendto 0 [0x00, 0x01, 0x02]] }) rfl (by decide)⟩

/-! ## C28: how the state `START` is left -/

theorem cannot_authenticate_pop (c : Client) (h : cannot_authenticate c) :
    cannot_authenticate c.pop_client_msg := by
  obtain ⟨mr, st, sa, cq, sq, w, er, au, em, rc, ra, seen, cs, so, ni, out, ub⟩ := c
  cases cq with
  | nil => exact h
  | cons front rest =>
      exact ⟨h.1, h.2.1, fun x hx => h.2.2 x (List.mem_cons_of_mem _ hx)⟩

theorem cannot_authenticate_curr (c : Client) (h : cannot_authenticate c) (curr : Message)
    (hc : c.get_curr_msg = some curr) : curr.get_type ≠ .AUTH := by
  obtain ⟨rest, hq⟩ := get_curr_msg_some c curr hc
  intro ha
  exact h.2.2 (some curr) (by rw [hq]; exact List.mem_cons_self _ _) (by simp [ha])

/-- The `switch` of the UDP dispatcher cannot authenticate such a client. -/
theorem dispatch_cannot_authenticate (msg : Str) (c : Client) (h : cannot_authenticate c) :
    cannot_authenticate (UDPClient.dispatch msg c) := by
  have hfail : ∀ what, cannot_authenticate (UDPClient.fail c what) := fun what =>
    ⟨h.1, by simp [UDPClient.fail, Client.set_state], h.2.2⟩
  unfold UDPClient.dispatch
  by_cases hr : msg.getD 0 0 = MessageType.REPLY.toByte
  · rw [if_pos hr]
    unfold UDPClient.dispatch_reply
    by_cases hw : c.waiting_on_reply = false
    · rw [if_pos hw]
      exact h
    · rw [if_neg hw]
      by_cases hl : msg.length < 6
      · rw [if_pos hl]
        exact h
      · rw [if_neg hl]
        simp only
        rcases hcur : c.get_curr_msg with _ | curr
        · exact h
        · simp only
          have hna := cannot_authenticate_curr c h curr hcur
          split_ifs
          · exact hfail _
          · exact cannot_authenticate_pop (c.cerr _) h
          · exact cannot_authenticate_pop (c.cerr _) h
          · exact hfail _
  · rw [if_neg hr]
    split_ifs
    · exact h
    · exact h
    · exact h
    · exact ⟨h.1, by simp [Client.set_state], h.2.2⟩
    · exact hfail _

/-- One round of the UDP dispatcher: state, `auth` and the outbound queue are those
the `switch` leaves behind, if it is run at all. -/
theorem handle_datagram_fields (msg : Str) (c : Client) :
    ∃ c1 : Client,
      (c1 = UDPClient.dispatch msg (UDPClient.mark_msgID_as_seen c (UDPClient.vector_msgID msg))
        ∨ c1 = UDPClient.dispatch msg c ∨ c1 = c)
      ∧ (UDPClient.handle_datagram msg c).state = c1.state
      ∧ (UDPClient.handle_datagram msg c).auth = c1.auth
      ∧ (UDPClient.handle_datagram msg c).client_msg_queue = c1.client_msg_queue
      ∧ (UDPClient.handle_datagram msg c).waiting_on_reply = c1.waiting_on_reply := by
  unfold UDPClient.handle_datagram
  simp only [Client.emit]
  split_ifs <;> first
    | exact ⟨_, Or.inl rfl, rfl, rfl, rfl, rfl⟩
    | exact ⟨_, Or.inr (Or.inl rfl), rfl, rfl, rfl, rfl⟩
    | exact ⟨_, Or.inr (Or.inr rfl), rfl, rfl, rfl, rfl⟩

/-- One round of the UDP dispatcher cannot authenticate such a client. -/
theorem handle_datagram_cannot_authenticate (msg : Str) (c : Client)
    (h : cannot_authenticate c) : cannot_authenticate (UDPClient.handle_datagram msg c) := by
  have hm : cannot_authenticate (UDPClient.mark_msgID_as_seen c (UDPClient.vector_msgID msg)) :=
    h
  obtain ⟨c1, hc1, hs, ha, hq, _⟩ := handle_datagram_fields msg c
  have h1 : cannot_authenticate c1 := by
    rcases hc1 with e | e | e <;> rw [e]
    · exact dispatch_cannot_authenticate msg _ hm
    · exact dispatch_cannot_authenticate msg _ h
    · exact h
  unfold cannot_authenticate
  rw [hs, ha, hq]
  exact h1

/-- A UDP client that is not authenticated and has no AUTH to send does not enter the
state `AUTHENTICATE`: not in `send_msg` of a BYE, and not in the two `process`
functions, whatever datagrams arrive. -/
theorem udp_cannot_authenticate (fuel : Nat) :
    (∀ msg r c c1, msg.get_type = .BYE → cannot_authenticate c →
        UDPClient.send_loop fuel msg r c = some c1 → cannot_authenticate c1)
    ∧ (∀ msg r c c1, msg.get_type = .BYE → cannot_authenticate c →
        UDPClient.wait_loop fuel msg r c = some c1 → cannot_authenticate c1)
    ∧ (∀ c c1, cannot_authenticate c →
        UDPClient.process_client_messages fuel c = some c1 → cannot_authenticate c1)
    ∧ (∀ c c1, cannot_authenticate c →
        UDPClient.process_server_messages fuel c = some c1 → cannot_authenticate c1) := by
  refine udp_invariant cannot_authenticate (fun msg => msg.get_type = .BYE)
    (fun c o h => h) ?_ ?_ ?_ (fun c bytes h => h) ?_ ?_ (fun c h => h)
    cannot_authenticate_pop (fun c rest h => h) (fun c msg h => handle_datagram_cannot_authenticate msg c h)
    fuel
  · intro c h
    unfold UDPClient.recvfrom
    rcases hn : c.net_in with _ | ⟨_ | _, rest⟩ <;> exact h
  · intro c h
    exact ⟨h.1, by simp [Client.set_state], h.2.2⟩
  · intro c msg hm h
    rw [if_pos hm]
    exact ⟨h.1, by simp [Client.set_state], h.2.2⟩
  · intro c front rest h hq
    exact ⟨h.1, h.2.1, fun x hx => h.2.2 x (by rw [hq]; exact List.mem_cons_of_mem _ hx)⟩
  · intro c msg rest h hq h1 _ _
    exfalso
    apply h1
    refine ⟨fun ha => ?_, h.1⟩
    exact h.2.2 (some msg) (by rw [hq]; exact List.mem_cons_self _ _) (by simp [ha])

/-! ## Properties that every step of the TCP client keeps -/

theorem tcp_send_msg_queue (m : Message) (c : Client) :
    (TCPClient.send_msg m c).client_msg_queue = c.client_msg_queue := by
  unfold TCPClient.send_msg
  simp only [Client.cerr, Client.emit, Client.set_state]
  split_ifs <;> rfl

/-- A property `P` of the client that the single steps of `process_client_messages`
of the TCP client keep is kept by the function.  `M` restricts the messages
`send_msg` is called with. -/
theorem tcp_client_invariant (P : Client → Prop) (M : Message → Prop)
    (h_emit : ∀ c o, P c → P (c.emit o))
    (h_popq : ∀ c front rest, P c → c.client_msg_queue = front :: rest →
      P { c with client_msg_queue := rest })
    (h_link : ∀ c msg rest, P c → c.client_msg_queue = some msg :: rest →
      ¬ (msg.get_type ≠ .AUTH ∧ c.auth = false) →
      ¬ ((msg.get_type = .MSG ∨ msg.get_type = .JOIN) ∧ c.state ≠ .OPEN) →
      ¬ (msg.get_type = .AUTH ∧ c.auth = true) → M msg)
    (h_send : ∀ c msg, M msg → P c → P (TCPClient.send_msg msg c))
    (h_wait : ∀ c, P c → P { c with waiting_on_reply := true })
    (q : List (Option Message)) :
    ∀ c : Client, c.client_msg_queue = q → P c →
      P (TCPClient.process_client_messages_loop q c) := by
  induction q with
  | nil => intro c _ hp; exact hp
  | cons front rest ih =>
      intro c hq hp
      rw [TCPClient.process_client_messages_loop]
      by_cases hw : c.waiting_on_reply = true
      · rw [if_pos hw]
        exact hp
      · rw [if_neg hw]
        have hpop := h_popq c front rest hp hq
        cases front with
        | none => exact ih _ rfl hpop
        | some msg =>
            simp only
            by_cases h1 : msg.get_type ≠ .AUTH ∧ c.auth = false
            · rw [if_pos h1]
              exact ih _ rfl (h_emit _ _ hpop)
            · rw [if_neg h1]
              by_cases h2 : (msg.get_type = .MSG ∨ msg.get_type = .JOIN) ∧ c.state ≠ .OPEN
              · rw [if_pos h2]
                exact ih _ rfl (h_emit _ _ hpop)
              · rw [if_neg h2]
                by_cases h3 : msg.get_type = .AUTH ∧ c.auth = true
                · rw [if_pos h3]
                  exact ih _ rfl (h_emit _ _ hpop)
                · rw [if_neg h3]
                  have hsent := h_send c msg (h_link c msg rest hp hq h1 h2 h3) hp
                  by_cases h4 : msg.get_type = .AUTH ∨ msg.get_type = .JOIN
                  · rw [if_pos h4]
                    exact h_wait _ hsent
                  · rw [if_neg h4]
                    exact ih _ rfl
                      (h_popq _ (some msg) rest hsent ((tcp_send_msg_queue msg c).trans hq))

/-- A property `P` of the client that the single steps of the TCP client keep is kept
by one round of `process_server_messages` and by the function, `process_client_messages`
called for a REPLY included. -/
theorem tcp_server_invariant (P : Client → Prop)
    (h_pcm : ∀ c, P c → P (TCPClient.process_client_messages c))
    (h_emit : ∀ c o, P c → P (c.emit o))
    (h_pop : ∀ c, P c → P c.pop_client_msg)
    (h_nowait : ∀ c, P c → P { c with waiting_on_reply := false })
    (h_ub : ∀ c, P c → P { c with ub := true })
    (h_fail : ∀ c what, P c → P (TCPClient.fail c what))
    (h_open : ∀ c curr, P c → c.get_curr_msg = some curr → curr.get_type = .AUTH →
      P (({ c with auth := true } : Client).set_state .OPEN))
    (h_err : ∀ c, P c → P { c with err_received := true })
    (h_end : ∀ c, P c → P (c.set_state .END))
    (h_spop : ∀ c rest, P c → P { c with server_msg_queue := rest }) :
    (∀ frame c, P c → P (TCPClient.handle_frame frame c).1)
    ∧ (∀ q c, P c → P (TCPClient.process_server_messages_loop q c)) := by
  have hframe : ∀ frame c, P c → P (TCPClient.handle_frame frame c).1 := by
    intro frame c hp
    unfold TCPClient.handle_frame
    simp only
    by_cases hr : str_toupper ((IStringStream.ofStr frame).extract []).2 = ascii "REPLY"
    · rw [if_pos hr]
      by_cases hw : c.waiting_on_reply = true
      · rw [if_pos hw]
        unfold TCPClient.process_reply
        simp only
        split_ifs
        · exact h_pcm _ (h_nowait _ (h_pop _ (h_emit _ _ hp)))
        · split
          · exact h_ub _ (h_emit _ _ hp)
          · rename_i curr hcur
            by_cases ha : curr.get_type = .AUTH
            · rw [if_pos ha]
              exact h_pcm _ (h_nowait _ (h_pop _ (h_open _ curr (h_emit _ _ hp) hcur ha)))
            · rw [if_neg ha]
              exact h_pcm _ (h_nowait _ (h_pop _ (h_emit _ _ hp)))
        · exact h_fail _ _ hp
        · exact h_fail _ _ hp
      · rw [if_neg hw]
        exact hp
    · rw [if_neg hr]
      split_ifs
      · split
        · exact h_fail _ _ hp
        · exact h_err _ (h_emit _ _ hp)
      · split
        · exact h_fail _ _ hp
        · exact h_emit _ _ hp
      · exact h_end _ hp
      · exact h_fail _ _ hp
  refine ⟨hframe, ?_⟩
  intro q
  induction q with
  | nil => intro c hp; exact hp
  | cons frame rest ih =>
      intro c hp
      rw [process_server_messages_loop_round]
      split_ifs
      · exact ih _ (h_spop _ _ hp)
      · exact hframe _ _ (h_spop _ _ hp)
      · exact ih _ (hframe _ _ (h_spop _ _ hp))

theorem tcp_send_msg_auth (m : Message) (c : Client) :
    (TCPClient.send_msg m c).auth = c.auth := by
  unfold TCPClient.send_msg
  simp only [Client.cerr, Client.emit, Client.set_state]
  split_ifs <;> rfl

/-- No call of `TCPClient::send_msg` returns in state `START`. -/
theorem tcp_send_msg_not_start (m : Message) (c : Client) :
    (TCPClient.send_msg m c).state ≠ .START := by
  unfold TCPClient.send_msg
  simp only [Client.cerr, Client.emit, Client.set_state]
  split_ifs <;> simp_all

/-- `TCPClient::send_msg` of a BYE does not enter the state `AUTHENTICATE`. -/
theorem tcp_send_bye_cannot_authenticate (m : Message) (c : Client) (hm : m.get_type = .BYE)
    (h : cannot_authenticate c) : cannot_authenticate (TCPClient.send_msg m c) := by
  refine ⟨(tcp_send_msg_auth m c).trans h.1, ?_, ?_⟩
  · unfold TCPClient.send_msg
    simp only [Client.cerr, Client.emit, Client.set_state, hm, if_true]
    split_ifs <;> simp_all
  · rw [tcp_send_msg_queue]
    exact h.2.2

/-- A TCP client that is not authenticated and has no AUTH to send hands nothing to
`send_msg` and stays as it is in this respect. -/
theorem tcp_client_cannot_authenticate (c : Client) (h : cannot_authenticate c) :
    cannot_authenticate (TCPClient.process_client_messages c) := by
  refine tcp_client_invariant cannot_authenticate (fun msg => msg.get_type = .BYE)
    (fun c o h => h) ?_ ?_ (fun c m hm h => tcp_send_bye_cannot_authenticate m c hm h)
    (fun c h => h)
    c.client_msg_queue c rfl h
  · intro c front rest h hq
    exact ⟨h.1, h.2.1, fun x hx => h.2.2 x (by rw [hq]; exact List.mem_cons_of_mem _ hx)⟩
  · intro c msg rest h hq h1 _ _
    exfalso
    apply h1
    refine ⟨fun ha => ?_, h.1⟩
    exact h.2.2 (some msg) (by rw [hq]; exact List.mem_cons_self _ _) (by simp [ha])

/-- A TCP client that is not authenticated and has no AUTH to send does not enter the
state `AUTHENTICATE` in `process_server_messages`, whatever frames arrive. -/
theorem tcp_server_cannot_authenticate :
    (∀ frame c, cannot_authenticate c → cannot_authenticate (TCPClient.handle_frame frame c).1)
    ∧ (∀ q c, cannot_authenticate c →
        cannot_authenticate (TCPClient.process_server_messages_loop q c)) := by
  refine tcp_server_invariant cannot_authenticate tcp_client_cannot_authenticate
    (fun c o h => h) cannot_authenticate_pop (fun c h => h) (fun c h => h) ?_ ?_
    (fun c h => h) ?_ (fun c rest h => h)
  · intro c what h
    exact ⟨h.1, by simp [TCPClient.fail, Client.set_state], h.2.2⟩
  · intro c curr h hcur ha
    exact absurd ha (cannot_authenticate_curr c h curr hcur)
  · intro c h
    exact ⟨h.1, by simp [Client.set_state], h.2.2⟩

theorem extract_frames_fields (fuel : Nat) : ∀ c : Client,
    (TCPClient.extract_frames fuel c).auth = c.auth
    ∧ (TCPClient.extract_frames fuel c).client_msg_queue = c.client_msg_queue := by
  induction fuel with
  | zero => intro c; exact ⟨rfl, rfl⟩
  | succ fuel ih =>
      intro c
      rw [TCPClient.extract_frames]
      split
      · exact ⟨rfl, rfl⟩
      · exact ih _

theorem tcp_receive_cannot_authenticate (rx : Option Str) (c : Client)
    (h : cannot_authenticate c) : cannot_authenticate (TCPClient.receive_msg rx c) := by
  unfold TCPClient.receive_msg
  cases rx with
  | none => exact h
  | some bytes =>
      simp only
      split_ifs
      · exact ⟨h.1, by simp [Client.set_state], h.2.2⟩
      · unfold cannot_authenticate
        rw [(extract_frames_fields _ _).1, (extract_frames_fields _ _).2, extract_frames_state]
        exact h

theorem udp_receive_cannot_authenticate (c : Client) (h : cannot_authenticate c) :
    cannot_authenticate (UDPClient.receive_msg c) := by
  unfold UDPClient.receive_msg UDPClient.recvfrom
  rcases hn : c.net_in with _ | ⟨_ | _, rest⟩ <;> exact h

theorem pop_client_msg_auth (c : Client) : c.pop_client_msg.auth = c.auth := by
  unfold Client.pop_client_msg
  split <;> rfl

theorem pop_nowait_fields (x : Client) :
    ({ x.pop_client_msg with waiting_on_reply := false } : Client).state = x.state
    ∧ ({ x.pop_client_msg with waiting_on_reply := false } : Client).auth = x.auth :=
  ⟨pop_client_msg_state x, pop_client_msg_auth x⟩

/-- The `switch` of the UDP dispatcher: a client it leaves in state `START` was in
state `START`, and its `auth` is as before. -/
theorem dispatch_start (msg : Str) (c : Client)
    (h : (UDPClient.dispatch msg c).state = .START) :
    c.state = .START ∧ (UDPClient.dispatch msg c).auth = c.auth := by
  have hfail : ∀ what, (UDPClient.fail c what).state ≠ .START := by
    intro what
    simp [UDPClient.fail, Client.set_state]
  unfold UDPClient.dispatch at h ⊢
  by_cases hr : msg.getD 0 0 = MessageType.REPLY.toByte
  · rw [if_pos hr] at h ⊢
    unfold UDPClient.dispatch_reply at h ⊢
    by_cases hw : c.waiting_on_reply = false
    · rw [if_pos hw] at h ⊢
      exact ⟨h, rfl⟩
    · rw [if_neg hw] at h ⊢
      by_cases hl : msg.length < 6
      · rw [if_pos hl] at h ⊢
        exact ⟨h, rfl⟩
      · rw [if_neg hl] at h ⊢
        simp only at h ⊢
        rcases hcur : c.get_curr_msg with _ | curr
        · rw [hcur] at h
          exact ⟨h, rfl⟩
        · rw [hcur] at h
          simp only at h ⊢
          by_cases hid : curr.get_msgID ≠ u16 ((msg.getD 4 0 <<< 8) ||| msg.getD 5 0)
          · rw [if_pos hid] at h
            exact absurd h (hfail _)
          · rw [if_neg hid] at h ⊢
            by_cases h30 : msg.getD 3 0 = 0x00
            · rw [if_pos h30] at h ⊢
              rw [(pop_nowait_fields _).1] at h
              rw [(pop_nowait_fields _).2]
              exact ⟨h, rfl⟩
            · rw [if_neg h30] at h ⊢
              by_cases h31 : msg.getD 3 0 = 0x01
              · rw [if_pos h31] at h ⊢
                by_cases ha : curr.get_type = .AUTH
                · rw [if_pos ha] at h
                  rw [(pop_nowait_fields _).1] at h
                  exact absurd h (by simp [Client.set_state])
                · rw [if_neg ha] at h ⊢
                  rw [(pop_nowait_fields _).1] at h
                  rw [(pop_nowait_fields _).2]
                  exact ⟨h, rfl⟩
              · rw [if_neg h31] at h
                exact absurd h (hfail _)
  · rw [if_neg hr] at h ⊢
    split_ifs at h ⊢
    · exact ⟨h, rfl⟩
    · exact ⟨h, rfl⟩
    · exact ⟨h, rfl⟩
    · exact absurd h (by simp [Client.set_state])
    · exact absurd h (hfail _)

/-- One round of the UDP dispatcher keeps a client in state `START` unauthenticated. -/
theorem handle_datagram_start (msg : Str) (c : Client)
    (hj : c.state = .START → c.auth = false)
    (h : (UDPClient.handle_datagram msg c).state = .START) :
    (UDPClient.handle_datagram msg c).auth = false := by
  obtain ⟨c1, hc1, hs, ha, _, _⟩ := handle_datagram_fields msg c
  rw [hs] at h
  rw [ha]
  rcases hc1 with e | e | e <;> subst e
  · obtain ⟨h1, h2⟩ := dispatch_start msg _ h
    rw [h2]
    exact hj h1
  · obtain ⟨h1, h2⟩ := dispatch_start msg _ h
    rw [h2]
    exact hj h1
  · exact hj h

/-- In state `START` the UDP client is not authenticated, and its four loops keep it
so. -/
theorem udp_start_unauthenticated (fuel : Nat) :
    (∀ msg r c c1, (c.state = .START → c.auth = false) →
        UDPClient.send_loop fuel msg r c = some c1 → c1.state = .START → c1.auth = false)
    ∧ (∀ msg r c c1, (c.state = .START → c.auth = false) →
        UDPClient.wait_loop fuel msg r c = some c1 → c1.state = .START → c1.auth = false)
    ∧ (∀ c c1, (c.state = .START → c.auth = false) →
        UDPClient.process_client_messages fuel c = some c1 →
        c1.state = .START → c1.auth = false)
    ∧ (∀ c c1, (c.state = .START → c.auth = false) →
        UDPClient.process_server_messages fuel c = some c1 →
        c1.state = .START → c1.auth = false) := by
  have key := udp_invariant (fun c => c.state = .START → c.auth = false) (fun _ => True)
    (fun c o h => h) ?_ ?_ ?_ (fun c bytes h => h) (fun c front rest h _ => h)
    (fun _ _ _ _ _ _ _ _ => trivial) (fun c h => h) ?_ (fun c rest h => h)
    (fun c msg h => handle_datagram_start msg c h) fuel
  · exact ⟨fun msg r c c1 h => key.1 msg r c c1 trivial h,
      fun msg r c c1 h => key.2.1 msg r c c1 trivial h, key.2.2.1, key.2.2.2⟩
  · intro c h
    unfold UDPClient.recvfrom
    rcases hn : c.net_in with _ | ⟨_ | _, rest⟩ <;> exact h
  · intro c _ hs
    exact absurd hs (by simp [Client.set_state])
  · intro c msg _ _ hs
    exfalso
    split_ifs at hs <;> simp_all [Client.set_state]
  · intro c h hs
    rw [pop_client_msg_state] at hs
    rw [pop_client_msg_auth]
    exact h hs

/-- In state `START` the TCP client is not authenticated, and `process_client_messages`
and `process_server_messages` keep it so. -/
theorem tcp_start_unauthenticated (c : Client) (hj : c.state = .START → c.auth = false) :
    ((TCPClient.process_client_messages c).state = .START →
        (TCPClient.process_client_messages c).auth = false)
    ∧ (∀ frame, (TCPClient.handle_frame frame c).1.state = .START →
        (TCPClient.handle_frame frame c).1.auth = false)
    ∧ ((TCPClient.process_server_messages c).state = .START →
        (TCPClient.process_server_messages c).auth = false) := by
  have hpcm : ∀ c : Client, (c.state = .START → c.auth = false) →
      (TCPClient.process_client_messages c).state = .START →
        (TCPClient.process_client_messages c).auth = false := by
    intro c hj
    refine tcp_client_invariant (fun c => c.state = .START → c.auth = false) (fun _ => True)
      (fun c o h => h) (fun c front rest h _ => h) (fun _ _ _ _ _ _ _ _ => trivial) ?_
      (fun c h => h) c.client_msg_queue c rfl hj
    intro c msg _ _ hs
    exact absurd hs (tcp_send_msg_not_start msg c)
  have hsrv := tcp_server_invariant (fun c => c.state = .START → c.auth = false) hpcm
    (fun c o h => h) ?_ (fun c h => h) (fun c h => h) ?_ ?_ (fun c h => h) ?_
    (fun c rest h => h)
  · exact ⟨hpcm c hj, fun frame => hsrv.1 frame c hj, hsrv.2 _ c hj⟩
  · intro c h hs
    rw [pop_client_msg_state] at hs
    rw [pop_client_msg_auth]
    exact h hs
  · intro c what _ hs
    exact absurd hs (by simp [TCPClient.fail, Client.set_state])
  · intro c curr _ _ _ hs
    exact absurd hs (by simp [Client.set_state])
  · intro c _ hs
    exact absurd hs (by simp [Client.set_state])

/-- The statements of `main` behind the loop, in state `START`: no ERR is sent, and a
BYE is sent only after an ERR of the server. -/
theorem shutdown_start (t : Transport) (s : MainState) (hs : s.client.state = .START) :
    shutdown t s
      = if s.client.err_received = true then
          (t.send_msg (.MsgBYE s.input_handler.msgID_sent) s.client).map
            (fun c => { s with client := c })
        else some s := by
  have h1 : ¬ ClientState.START = ClientState.ERROR := by decide
  unfold shutdown
  simp only [hs, h1, if_false, Option.some_bind, false_or, ne_eq, not_true_eq_false, and_false,
    or_false]


/-- The state after `TCPClient::send_msg` in state `START`: `ERROR` after a failed
write, otherwise `END` for a BYE and `AUTHENTICATE` for every other message. -/
theorem tcp_send_msg_start (m : Message) (c : Client) (hs : c.state = .START) :
    (TCPClient.send_msg m c).state
      = if c.send_ok.headD true = false then .ERROR
        else if m.get_type = .BYE then .END else .AUTHENTICATE := by
  unfold TCPClient.send_msg
  simp only [Client.cerr, Client.emit, Client.set_state]
  split_ifs <;> first | rfl | simp_all

/-- Before the authentication the only head message that `process_client_messages`
hands to `send_msg` is an AUTH. -/
theorem admissible_unauthenticated (m : Message) (c : Client) (ha : admissible m c)
    (hau : c.auth = false) : m.get_type = .AUTH := by
  rcases ha with h | h
  · exact h.1
  · rw [hau] at h
    exact absurd h.1 (by decide)

/-- The CONFIRM that `send_msg` accepts in state `START`: the state becomes `END` for
a BYE and `AUTHENTICATE` for every other message. -/
theorem wait_loop_accept_start (fuel : Nat) (m : Message) (r : Int) (c : Client) (src : Addr)
    (bytes : Str) (rest : List RecvResult) (hs : c.state = .START)
    (hn : c.net_in = .data src bytes :: rest)
    (h0 : bytes.getD 0 0 = MessageType.CONFIRM.toByte)
    (h1 : UDPClient.buffer_msgID c.char_is_signed bytes = m.get_msgID) :
    UDPClient.wait_loop (fuel + 1) m r c
      = some { c with
          net_in := rest, response_addr := src
          state := if m.get_type = .BYE then .END else .AUTHENTICATE } := by
  obtain ⟨mr, st, sa, cq, sq, w, er, au, em, rc, ra, seen, cs, so, ni, out, ub⟩ := c
  simp only at hs hn h1
  subst hs hn
  rw [UDPClient.wait_loop]
  simp only [UDPClient.recvfrom, h0, if_true, h1, ne_eq, not_true_eq_false, if_false,
    Client.set_state]
  split_ifs <;> first | rfl | simp_all

/-- C28, the code at the failing input: an AUTH with the MessageID 0xFF80 is sent in
state `START` on a platform with signed `char`, and the datagram `[0x00, 0x00, 0x80]`
arrives, a CONFIRM whose ref_id is 0x0080; the input handler gives this MessageID to
an `/auth` that follows 0xFF80 lines which consumed one each.  The reference
`send_msg` reads from its buffer is 0xFF80, so the CONFIRM is accepted and the state
becomes `AUTHENTICATE`; this is the result for every fuel of at least two.  With
unsigned `char` the same datagram is skipped and the state becomes `END` after the
timeout. -/
theorem leaving_start_failing_input (fuel : Nat) :
    UDPClient.vector_msgID [0x00, 0x00, 0x80] = 0x0080
    ∧ ((InputHandler.mk 0xFF80 []).handle_input (ascii "/auth u s d")).msg
      = some (.MsgAUTH (ascii "u") (ascii "s") (ascii "d") 0xFF80)
    ∧ (Message.MsgAUTH (ascii "u") (ascii "s") (ascii "d") 0xFF80).get_msgID = 0xFF80
    ∧ UDPClient.buffer_msgID true [0x00, 0x00, 0x80] = 0xFF80
    ∧ UDPClient.send_msg (2 + fuel) (.MsgAUTH (ascii "u") (ascii "s") (ascii "d") 0xFF80)
        (Client.init 0 7 true [] [.data 9 [0x00, 0x00, 0x80]])
      = some
        { Client.init 0 7 true [] [] with
          state := .AUTHENTICATE
          response_addr := 9
          out := [.sendto 7 (Message.MsgAUTH (ascii "u") (ascii "s") (ascii "d") 0xFF80).UDP_msg] }
    ∧ UDPClient.send_msg (3 + fuel) (.MsgAUTH (ascii "u") (ascii "s") (ascii "d") 0xFF80)
        (Client.init 0 7 false [] [.data 9 [0x00, 0x00, 0x80]])
      = some
        { Client.init 0 7 false [] [] with
          state := .END
          response_addr := 9
          out := [.sendto 7 (Message.MsgAUTH (ascii "u") (ascii "s") (ascii "d") 0xFF80).UDP_msg] } :=
  ⟨by decide, by decide, by decide, by decide,
   udp_send_msg_fuel_add 2 fuel _ _ _ (by decide),
   udp_send_msg_fuel_add 3 fuel _ _ _ (by decide)⟩

/-! ## C32: frames that cannot be decoded -/

/-- What the error exit of `TCPClient::process_server_messages` does to the client. -/
theorem tcp_fail_effect (c : Client) (what : String) :
    (TCPClient.fail c what).state = .ERROR
    ∧ (TCPClient.fail c what).error_msg = ascii what
    ∧ (TCPClient.fail c what).out = c.out ++ [.cerr (ascii ("ERR: " ++ what ++ "\n"))]
    ∧ (TCPClient.fail c what).auth = c.auth
    ∧ (TCPClient.fail c what).waiting_on_reply = c.waiting_on_reply
    ∧ (TCPClient.fail c what).client_msg_queue = c.client_msg_queue
    ∧ (TCPClient.fail c what).err_received = c.err_received :=
  ⟨rfl, rfl, rfl, rfl, rfl, rfl, rfl⟩

/-- The parse of an ERR or MSG frame behind its first token fails exactly when the
second token is not `FROM` or the fourth is not `IS`, up to letter case. -/
theorem parse_from_is_none (frame : Str) :
    TCPClient.parse_from_is (TCPClient.token1 frame).1 = none
      ↔ (¬ TCPClient.is_keyword (TCPClient.token2 frame) "FROM"
          ∨ ¬ TCPClient.is_keyword (TCPClient.token4 frame) "IS") := by
  unfold TCPClient.parse_from_is TCPClient.is_keyword TCPClient.token4 TCPClient.token3
    TCPClient.token2
  simp only
  constructor
  · intro h
    by_cases h1 : ((TCPClient.token1 frame).1.extract []).1.failbit = false
        ∧ str_toupper ((TCPClient.token1 frame).1.extract []).2 = ascii "FROM"
    · rw [if_pos h1] at h
      right
      intro h2
      rw [if_pos h2] at h
      exact absurd h (by simp)
    · exact Or.inl h1
  · intro h
    rcases h with h | h
    · rw [if_neg h]
    · split_ifs <;> rfl

/-- C32: one round of `TCPClient::process_server_messages` on a frame that is not
empty and cannot be decoded.  If the first token, in upper case, is none of `REPLY`,
`ERR`, `MSG`, `BYE`; if the frame is an ERR or a MSG whose second token is not `FROM`
or whose fourth token is not `IS` (missing, or another word, letter case apart); if
the frame is a REPLY dispatched while `waiting_on_reply` whose third token is not
`IS`, or whose result is neither `OK` nor `NOK`: then the round is the error exit with
a diagnostic.  The error exit sets the state to `ERROR` and `error_msg` to the
diagnostic, which is not empty, writes `ERR: ` and the diagnostic to stderr and
nothing to stdout, and leaves `auth`, `waiting_on_reply`, `err_received` and the
outbound queue as they are.  The function returns at once after a malformed frame,
and goes on with the next frame after an unknown type. -/
theorem decoding_failure (frame : Str) (c : Client) (hne : frame.isEmpty = false) :
    (str_toupper (TCPClient.token1 frame).2 ≠ ascii "REPLY"
        ∧ str_toupper (TCPClient.token1 frame).2 ≠ ascii "ERR"
        ∧ str_toupper (TCPClient.token1 frame).2 ≠ ascii "MSG"
        ∧ str_toupper (TCPClient.token1 frame).2 ≠ ascii "BYE" →
      TCPClient.handle_frame frame c = (TCPClient.fail c "Unknown message type", false))
    ∧ (str_toupper (TCPClient.token1 frame).2 = ascii "ERR" →
        (¬ TCPClient.is_keyword (TCPClient.token2 frame) "FROM"
          ∨ ¬ TCPClient.is_keyword (TCPClient.token4 frame) "IS") →
      TCPClient.handle_frame frame c = (TCPClient.fail c "Invalid ERR message", true))
    ∧ (str_toupper (TCPClient.token1 frame).2 = ascii "MSG" →
        (¬ TCPClient.is_keyword (TCPClient.token2 frame) "FROM"
          ∨ ¬ TCPClient.is_keyword (TCPClient.token4 frame) "IS") →
      TCPClient.handle_frame frame c = (TCPClient.fail c "Invalid MSG message", true))
    ∧ (str_toupper (TCPClient.token1 frame).2 = ascii "REPLY" → c.waiting_on_reply = true →
        ¬ TCPClient.is_keyword (TCPClient.token3 frame) "IS" →
      TCPClient.handle_frame frame c = (TCPClient.fail c "Invalid REPLY message", true))
    ∧ (str_toupper (TCPClient.token1 frame).2 = ascii "REPLY" → c.waiting_on_reply = true →
        TCPClient.is_keyword (TCPClient.token3 frame) "IS" →
        str_toupper (TCPClient.token2 frame).2 ≠ ascii "NOK"
          ∧ str_toupper (TCPClient.token2 frame).2 ≠ ascii "OK" →
      TCPClient.handle_frame frame c = (TCPClient.fail c "Unknown result", true))
    ∧ (∀ what : String,
        (TCPClient.fail c what).state = .ERROR
        ∧ (TCPClient.fail c what).error_msg = ascii what
        ∧ (TCPClient.fail c what).out = c.out ++ [.cerr (ascii ("ERR: " ++ what ++ "\n"))]
        ∧ (TCPClient.fail c what).auth = c.auth
        ∧ (TCPClient.fail c what).waiting_on_reply = c.waiting_on_reply
        ∧ (TCPClient.fail c what).client_msg_queue = c.client_msg_queue
        ∧ (TCPClient.fail c what).err_received = c.err_received)
    ∧ (∀ what ∈ ["Unknown message type", "Invalid ERR message", "Invalid MSG message",
          "Invalid REPLY message", "Unknown result"], ascii what ≠ [])
    ∧ (∀ rest : List Str,
        TCPClient.process_server_messages_loop (frame :: rest) c
          = if (TCPClient.handle_frame frame { c with server_msg_queue := rest }).2 then
              (TCPClient.handle_frame frame { c with server_msg_queue := rest }).1
            else
              TCPClient.process_server_messages_loop rest
                (TCPClient.handle_frame frame { c with server_msg_queue := rest }).1) := by
  have n1 : ¬ ascii "ERR" = ascii "REPLY" := by decide
  have n2 : ¬ ascii "MSG" = ascii "REPLY" := by decide
  have n3 : ¬ ascii "MSG" = ascii "ERR" := by decide
  refine ⟨?_, ?_, ?_, ?_, ?_, tcp_fail_effect c, by decide, ?_⟩
  · rintro ⟨h1, h2, h3, h4⟩
    unfold TCPClient.token1 at h1 h2 h3 h4
    unfold TCPClient.handle_frame
    simp only [h1, h2, h3, h4, if_false]
  · intro hty hbad
    have hp := (parse_from_is_none frame).2 hbad
    unfold TCPClient.token1 at hty hp
    unfold TCPClient.handle_frame
    simp only [hty, n1, if_false, if_true, hp]
  · intro hty hbad
    have hp := (parse_from_is_none frame).2 hbad
    unfold TCPClient.token1 at hty hp
    unfold TCPClient.handle_frame
    simp only [hty, n2, n3, if_false, if_true, hp]
  · intro hty hw his
    unfold TCPClient.is_keyword TCPClient.token3 TCPClient.token2 TCPClient.token1 at his
    unfold TCPClient.token1 at hty
    unfold TCPClient.handle_frame TCPClient.process_reply
    simp only [hty, if_true, hw, his, if_false]
  · intro hty hw his hres
    unfold TCPClient.is_keyword TCPClient.token3 TCPClient.token2 TCPClient.token1 at his
    unfold TCPClient.token2 TCPClient.token1 at hres
    unfold TCPClient.token1 at hty
    unfold TCPClient.handle_frame TCPClient.process_reply
    simp only [hty, if_true, hw, his, hres.1, hres.2, if_false, and_self]
  · intro rest
    rw [process_server_messages_loop_round]
    simp only [hne, Bool.false_eq_true, if_false]

/-- Witness of C32: the frame `HELLO`. -/
theorem decoding_failure_witness :
    TCPClient.handle_frame (ascii "HELLO") (Client.init 0 7 true [] [])
      = (TCPClient.fail (Client.init 0 7 true [] []) "Unknown message type", false) :=
  (decoding_failure (ascii "HELLO") (Client.init 0 7 true [] []) (by decide)).1 (by decide)

/-! ## C34: the transitions of `TCPClient::send_msg` -/

/-- C34: `TCPClient::send_msg(m)`.  When the write fails, the state becomes `ERROR`
and, apart from the diagnostic written to stderr, nothing else changes.  When the
write succeeds, the frame of `m` is sent and the state becomes `END` if `m` is a BYE,
`AUTHENTICATE` if `m` is not a BYE and the state was `START`, and stays as it was
otherwise; nothing else changes.  In both cases `auth`, `waiting_on_reply`,
`err_received`, `error_msg` and both queues are those of before the call. -/
theorem tcp_send_transitions (m : Message) (c : Client) :
    (c.send_ok.headD true = false →
      TCPClient.send_msg m c
        = { c with
            state := .ERROR
            send_ok := c.send_ok.tail
            out := c.out ++ [.cerr (ascii "ERR: Failed to send message to server\n")] })
    ∧ (c.send_ok.headD true = true →
      TCPClient.send_msg m c
        = { c with
            state := if m.get_type = .BYE then .END
                     else if c.state = .START then .AUTHENTICATE else c.state
            send_ok := c.send_ok.tail
            out := c.out ++ [.send m.TCP_msg] })
    ∧ (TCPClient.send_msg m c).auth = c.auth
    ∧ (TCPClient.send_msg m c).waiting_on_reply = c.waiting_on_reply
    ∧ (TCPClient.send_msg m c).client_msg_queue = c.client_msg_queue
    ∧ (TCPClient.send_msg m c).server_msg_queue = c.server_msg_queue
    ∧ (TCPClient.send_msg m c).err_received = c.err_received
    ∧ (TCPClient.send_msg m c).error_msg = c.error_msg := by
  refine ⟨?_, ?_, ?_, ?_, ?_, ?_, ?_, ?_⟩
  · intro h
    unfold TCPClient.send_msg
    simp only [h, if_true, Client.cerr, Client.emit, Client.set_state]
  · intro h
    unfold TCPClient.send_msg
    simp only [h, Bool.true_eq_false, if_false, Client.emit, Client.set_state]
    split_ifs <;> first | rfl | simp_all
  all_goals
    unfold TCPClient.send_msg
    simp only [Client.cerr, Client.emit, Client.set_state]
    split_ifs <;> rfl

/-- Witness of C34: the write of an AUTH in state `START` succeeds, and the state is
`AUTHENTICATE`. -/
theorem tcp_send_transitions_witness :
    TCPClient.send_msg (.MsgAUTH (ascii "u") (ascii "s") (ascii "d") 0)
        (Client.init 0 7 true [true] [])
      = { Client.init 0 7 true [true] [] with
          state := if (Message.MsgAUTH (ascii "u") (ascii "s") (ascii "d") 0).get_type = .BYE
                     then .END
                   else if (Client.init 0 7 true [true] []).state = .START then .AUTHENTICATE
                   else (Client.init 0 7 true [true] []).state
          send_ok := (Client.init 0 7 true [true] []).send_ok.tail
          out := (Client.init 0 7 true [true] []).out
            ++ [.send (Message.MsgAUTH (ascii "u") (ascii "s") (ascii "d") 0).TCP_msg] } :=
  (tcp_send_transitions (.MsgAUTH (ascii "u") (ascii "s") (ascii "d") 0)
    (Client.init 0 7 true [true] [])).2.1 (by decide)

/-! ## C33: what the shutdown of `main` sends -/

/-- `TCPClient::send_msg` of a message that is not a BYE, in state `ERROR`: the state
stays `ERROR`, whether the write succeeds or not. -/
theorem tcp_send_msg_error (m : Message) (c : Client) (hm : m.get_type ≠ .BYE)
    (hs : c.state = .ERROR) : (TCPClient.send_msg m c).state = .ERROR := by
  unfold TCPClient.send_msg
  simp only [Client.cerr, Client.emit, Client.set_state, hm, if_false, hs]
  split_ifs <;> first | rfl | simp_all

/-- The trace of a call of `TCPClient::send_msg` whose write succeeds. -/
theorem tcp_send_msg_out (m : Message) (c : Client) (h : c.send_ok.headD true = true) :
    (TCPClient.send_msg m c).out = c.out ++ [.send m.TCP_msg]
    ∧ (TCPClient.send_msg m c).send_ok = c.send_ok.tail := by
  unfold TCPClient.send_msg
  simp only [h, Bool.true_eq_false, if_false, Client.emit, Client.set_state]
  split_ifs <;> exact ⟨rfl, rfl⟩

/-- The main loop sets `interrupt` only when `poll` was interrupted while the loop
condition held, and is left at once then: no ERR of the server has been received. -/
theorem main_loop_interrupt (t : Transport) (events : List PollResult) :
    ∀ (s0 s : MainState) (exited : Bool), main_loop t events s0 = some (s, exited) →
      s0.interrupt = false → s.interrupt = true →
      s.client.err_received = false ∧ s.client.state ≠ .ERROR ∧ exited = true := by
  induction events with
  | nil =>
      intro s0 s exited h h0 h1
      simp only [main_loop, Option.some.injEq, Prod.mk.injEq] at h
      rw [← h.1, h0] at h1
      exact absurd h1 (by decide)
  | cons p ps ih =>
      intro s0 s exited h h0 h1
      unfold main_loop at h
      by_cases hl : loop_condition s0 = false
      · rw [if_pos hl] at h
        simp only [Option.some.injEq, Prod.mk.injEq] at h
        rw [← h.1, h0] at h1
        exact absurd h1 (by decide)
      · rw [if_neg hl] at h
        have hl1 : loop_condition s0 = true := by simpa using hl
        cases p with
        | sigint =>
            simp only at h
            have hl2 : loop_condition { s0 with interrupt := true } = false := by
              simp [loop_condition]
            have hres : main_loop t ps { s0 with interrupt := true }
                = some ({ s0 with interrupt := true }, true) := by
              cases ps with
              | nil => simp [main_loop, hl2]
              | cons q qs => unfold main_loop; rw [if_pos hl2]
            rw [hres] at h
            simp only [Option.some.injEq, Prod.mk.injEq] at h
            obtain ⟨hs, he⟩ := h
            subst hs
            simp only [loop_condition, Bool.and_eq_true, decide_eq_true_eq, Bool.not_eq_true',
              ne_eq] at hl1
            exact ⟨hl1.1.1.2, hl1.1.1.1.2, he.symm⟩
        | failed =>
            simp only [Option.some.injEq, Prod.mk.injEq] at h
            rw [← h.1] at h1
            simp only at h1
            rw [h0] at h1
            exact absurd h1 (by decide)
        | ready stdin sock =>
            simp only at h
            split_ifs at h with hx
            · simp only [Option.some.injEq, Prod.mk.injEq] at h
              rw [← h.1, h0] at h1
              exact absurd h1 (by decide)
            · have hrs : ∀ line eof, (read_stdin line eof s0).interrupt = false := by
                intro line eof
                simp only [read_stdin, feed_line]
                split_ifs <;> exact h0
              rcases stdin with _ | ⟨line, eof⟩ <;> rcases sock with _ | rx <;>
                simp only at h <;>
                (split at h
                 · exact absurd h (by simp)
                 · split_ifs at h
                   · simp only [Option.some.injEq, Prod.mk.injEq] at h
                     rw [← h.1] at h1
                     simp only at h1
                     first
                       | (rw [h0] at h1; exact absurd h1 (by decide))
                       | (rw [hrs] at h1; exact absurd h1 (by decide))
                   · split at h
                     · exact absurd h (by simp)
                     · split_ifs at h
                       · simp only [Option.some.injEq, Prod.mk.injEq] at h
                         rw [← h.1] at h1
                         simp only at h1
                         first
                           | (rw [h0] at h1; exact absurd h1 (by decide))
                           | (rw [hrs] at h1; exact absurd h1 (by decide))
                       · exact ih _ s exited h (by first | exact h0 | exact hrs _ _) h1)

/-- C33: the statements of `main` behind the loop, for the TCP client.  If the loop
was left in state `ERROR`, `send_msg` is called with an ERR built from the display
name of the input handler, `error_msg` and the counter `n` of the handler, and then
with a BYE with the counter after its increment (`n + 1` as a 16-bit value); when
both writes succeed, the frames `ERR FROM name IS error_msg` and `BYE` are sent, in
that order and behind what was sent before.  If the loop was left with
`err_received` set and the state is not `ERROR`, only a BYE with the MessageID `n` is
sent.  In state `START` without an ERR of the server nothing is sent, and that is
the case whenever the loop was left because of the interrupt: the loop sets
`interrupt` only while its condition holds, which excludes `err_received`. -/
theorem shutdown_emission (s : MainState) :
    (s.client.state = .ERROR →
      shutdown TCPClient.transport s
        = some
          { client :=
              TCPClient.send_msg (.MsgBYE (u16 (s.input_handler.msgID_sent + 1)))
                (TCPClient.send_msg
                  (.MsgERR s.input_handler.display_name s.client.error_msg
                    s.input_handler.msgID_sent) s.client)
            input_handler := s.input_handler.inc_msgID_sent
            interrupt := s.interrupt }
      ∧ (s.client.send_ok.headD true = true → s.client.send_ok.tail.headD true = true →
          (shutdown TCPClient.transport s).map (fun s1 => s1.client.out)
            = some (s.client.out ++
                [.send (ascii "ERR FROM " ++ s.input_handler.display_name ++ ascii " IS "
                    ++ s.client.error_msg ++ ascii "\r\n"),
                 .send (ascii "BYE\r\n")])))
    ∧ (s.client.state ≠ .ERROR → s.client.err_received = true →
      shutdown TCPClient.transport s
        = some { s with
            client := TCPClient.send_msg (.MsgBYE s.input_handler.msgID_sent) s.client }
      ∧ (s.client.send_ok.headD true = true →
          (shutdown TCPClient.transport s).map (fun s1 => s1.client.out)
            = some (s.client.out ++ [.send (ascii "BYE\r\n")])))
    ∧ (s.client.state = .START → s.client.err_received = false →
      shutdown TCPClient.transport s = some s)
    ∧ (∀ (events : List PollResult) (s0 : MainState) (exited : Bool),
        main_loop TCPClient.transport events s0 = some (s, exited) →
        s0.interrupt = false → s.interrupt = true →
        s.client.err_received = false ∧ exited = true) := by
  refine ⟨?_, ?_, ?_, ?_⟩
  · intro hs
    have he : (TCPClient.send_msg
        (.MsgERR s.input_handler.display_name s.client.error_msg s.input_handler.msgID_sent)
        s.client).state = .ERROR :=
      tcp_send_msg_error _ _ (by simp [Message.get_type]) hs
    have hsd : shutdown TCPClient.transport s
        = some
          { client :=
              TCPClient.send_msg (.MsgBYE (u16 (s.input_handler.msgID_sent + 1)))
                (TCPClient.send_msg
                  (.MsgERR s.input_handler.display_name s.client.error_msg
                    s.input_handler.msgID_sent) s.client)
            input_handler := s.input_handler.inc_msgID_sent
            interrupt := s.interrupt } := by
      unfold shutdown
      simp only [hs, if_true, TCPClient.transport, Option.map_some', Option.some_bind, he,
        true_or, InputHandler.inc_msgID_sent]
    refine ⟨hsd, ?_⟩
    intro h1 h2
    have o1 := tcp_send_msg_out
      (.MsgERR s.input_handler.display_name s.client.error_msg s.input_handler.msgID_sent)
      s.client h1
    have o2 := tcp_send_msg_out (.MsgBYE (u16 (s.input_handler.msgID_sent + 1)))
      (TCPClient.send_msg
        (.MsgERR s.input_handler.display_name s.client.error_msg s.input_handler.msgID_sent)
        s.client) (by rw [o1.2]; exact h2)
    rw [hsd]
    simp only [Option.map_some', o2.1, o1.1, Message.TCP_msg, List.append_assoc,
      List.singleton_append]
  · intro hs he
    have hsd : shutdown TCPClient.transport s
        = some { s with
            client := TCPClient.send_msg (.MsgBYE s.input_handler.msgID_sent) s.client } := by
      unfold shutdown
      simp only [hs, if_false, he, TCPClient.transport, Option.map_some', Option.some_bind,
        true_or, or_true, if_true]
    refine ⟨hsd, ?_⟩
    intro h1
    rw [hsd]
    simp only [Option.map_some', (tcp_send_msg_out _ _ h1).1, Message.TCP_msg]
  · intro hs he
    rw [shutdown_start _ s hs]
    simp only [he, Bool.false_eq_true, if_false]
  · intro events s0 exited h h0 h1
    have := main_loop_interrupt TCPClient.transport events s0 s exited h h0 h1
    exact ⟨this.1, this.2.2⟩

/-- Witness of C33: the loop was left in state `ERROR` after an unknown frame, with the
display name `d` and the counter at 1. -/
theorem shutdown_emission_witness :
    (shutdown TCPClient.transport
        ⟨{ Client.init 0 7 true [] [] with
            state := .ERROR, auth := true, error_msg := ascii "Unknown message type" },
          ⟨1, ascii "d"⟩, false⟩).map (fun s1 => s1.client.out)
      = some ([] ++ [.send (ascii "ERR FROM " ++ ascii "d" ++ ascii " IS "
                    ++ ascii "Unknown message type" ++ ascii "\r\n"),
                 .send (ascii "BYE\r\n")]) :=
  ((shutdown_emission
      ⟨{ Client.init 0 7 true [] [] with
          state := .ERROR, auth := true, error_msg := ascii "Unknown message type" },
        ⟨1, ascii "d"⟩, false⟩).1 rfl).2 (by decide) (by decide)

/-! ## C35: inbound ERR and BYE -/

/-- The TCP dispatch of a well-formed ERR frame, in the loop. -/
theorem tcp_err_step (d ct : Str) (c : Client) (rest : List Str)
    (hd : ∀ b ∈ d, 0x21 ≤ b ∧ b ≤ 0x7E) (hd1 : d ≠ []) (hct : ∀ b ∈ ct, 0x20 ≤ b ∧ b ≤ 0x7E) :
    TCPClient.process_server_messages_loop
        ((ascii "ERR FROM " ++ d ++ ascii " IS " ++ ct) :: rest) c
      = TCPClient.process_server_messages_loop rest
          { c with
            server_msg_queue := rest
            err_received := true
            out := c.out ++ [.cerr (ascii "ERR FROM " ++ d ++ ascii ": " ++ ct ++ ascii "\n")] } := by
  have hf := (frame_fields_encoded d ct hd hd1 hct).2
  have m1 : ascii "ERR FROM " = ascii "ERR" ++ ascii " FROM " := by decide
  have a1 := extract_keyword (ascii "ERR") (d ++ ascii " IS " ++ ct) (by decide) (by decide)
  simp only [← List.append_assoc, ← m1] at a1
  have hne : (ascii "ERR FROM " ++ d ++ ascii " IS " ++ ct).isEmpty = false := by
    rw [m1]; rfl
  have hout : ascii "ERR FROM " ++ d ++ ascii ":" ++ 0x20 :: ct ++ ascii "\n"
      = ascii "ERR FROM " ++ d ++ ascii ": " ++ ct ++ ascii "\n" := by
    have k : ascii ": " = ascii ":" ++ [0x20] := by decide
    rw [k]; simp
  have u : str_toupper (ascii "ERR") = ascii "ERR" := by decide
  have n1 : ¬ ascii "ERR" = ascii "REPLY" := by decide
  simp only [TCPClient.frame_fields, a1] at hf
  rw [TCPClient.process_server_messages_loop]
  simp only [hne, a1, u, n1, hf, hout, if_false, if_true, Bool.false_eq_true, Client.cerr,
    Client.emit]

/-- The TCP dispatch of a frame whose first token is `BYE`, in the loop. -/
theorem tcp_bye_step (frame : Str) (c : Client) (rest : List Str)
    (hty : str_toupper (TCPClient.token1 frame).2 = ascii "BYE") :
    TCPClient.process_server_messages_loop (frame :: rest) c
      = TCPClient.process_server_messages_loop rest
          { c with server_msg_queue := rest, state := .END } := by
  have n1 : ¬ ascii "BYE" = ascii "REPLY" := by decide
  have n2 : ¬ ascii "BYE" = ascii "ERR" := by decide
  have n3 : ¬ ascii "BYE" = ascii "MSG" := by decide
  have hne : frame.isEmpty = false := by
    cases frame with
    | nil => exact absurd hty (by decide)
    | cons a l => rfl
  unfold TCPClient.token1 at hty
  rw [process_server_messages_loop_round]
  simp only [hne, Bool.false_eq_true, if_false, TCPClient.handle_frame, hty, n1, n2, n3,
    if_true, Client.set_state]

/-- The UDP dispatch of a BYE datagram with a MessageID not seen before. -/
theorem handle_datagram_BYE (hi lo : Nat) (tail : Str) (c : Client)
    (hseen : UDPClient.vector_msgID (0xFF :: hi :: lo :: tail) ∉ c.seen_msg_ids) :
    UDPClient.handle_datagram (0xFF :: hi :: lo :: tail) c
      = { c with
          seen_msg_ids := c.seen_msg_ids ++ [UDPClient.vector_msgID (0xFF :: hi :: lo :: tail)]
          server_msg_queue := c.server_msg_queue.tail
          state := .END
          out := c.out ++
            [.sendto c.response_addr
              (Message.MsgCONFIRM (UDPClient.vector_msgID (0xFF :: hi :: lo :: tail))).UDP_msg] } := by
  have h0 : (0xFF :: hi :: lo :: tail).getD 0 0 = 0xFF := rfl
  simp only [UDPClient.handle_datagram, UDPClient.msgID_seen, hseen, decide_False, true_or,
    if_true, h0, MessageType.toByte, ne_eq, Nat.reduceEqDiff, not_false_eq_true,
    UDPClient.mark_msgID_as_seen, UDPClient.dispatch, if_false, Client.set_state, Client.emit]

/-- C35, counterexample: the UDP datagram `[0xFF, 0x00, 0x05]`, a BYE with a
MessageID not seen before, is dispatched in state `OPEN`.  The state becomes `END`,
but that is not the only change: the MessageID is added to `seen_msg_ids` and the
CONFIRM of the datagram is sent. -/
theorem inbound_err_bye_counterexample :
    UDPClient.process_server_messages 2
        { Client.init 0 7 true [] [] with
          state := .OPEN, auth := true, response_addr := 9
          server_msg_queue := [[0xFF, 0x00, 0x05]] }
      = some { Client.init 0 7 true [] [] with
          state := .END, auth := true, response_addr := 9
          seen_msg_ids := [5]
          out := [.sendto 9 [0x00, 0x00, 0x05]] }
    ∧ (UDPClient.handle_datagram [0xFF, 0x00, 0x05]
        { Client.init 0 7 true [] [] with
          state := .OPEN, auth := true, response_addr := 9
          server_msg_queue := [[0xFF, 0x00, 0x05]] }).seen_msg_ids ≠ []
    ∧ (UDPClient.handle_datagram [0xFF, 0x00, 0x05]
        { Client.init 0 7 true [] [] with
          state := .OPEN, auth := true, response_addr := 9
          server_msg_queue := [[0xFF, 0x00, 0x05]] }).out ≠ [] := by
  refine ⟨?_, ?_, ?_⟩ <;> decide

/-- C35, amended: the dispatch of a well-formed inbound ERR, the TCP frame
`ERR FROM d IS ct` or the UDP datagram `[0xFE, hi, lo] ++ d ++ [0] ++ ct ++ [0]` with
a MessageID not seen before, sets `err_received`, writes `ERR FROM d: ct` and a
newline to stderr and leaves state, `auth`, `waiting_on_reply` and the outbound queue
as they are.  The dispatch of an inbound BYE, a TCP frame whose first token is `BYE`
up to letter case or a UDP datagram of type `0xFF` with a MessageID not seen before,
sets the state to `END`.  Besides that the TCP client changes only its inbound queue;
the UDP client, as for every datagram seen for the first time, also adds the
MessageID to `seen_msg_ids` and sends the CONFIRM of the datagram.  The last part is
the round of the UDP loop for a datagram that is not a REPLY. -/
theorem inbound_err_bye (d ct : Str) (c : Client)
    (hd : ∀ b ∈ d, 0x21 ≤ b ∧ b ≤ 0x7E) (hd1 : d ≠ []) (hct : ∀ b ∈ ct, 0x20 ≤ b ∧ b ≤ 0x7E) :
    (∀ rest : List Str,
      TCPClient.process_server_messages_loop
          ((ascii "ERR FROM " ++ d ++ ascii " IS " ++ ct) :: rest) c
        = TCPClient.process_server_messages_loop rest
            { c with
              server_msg_queue := rest
              err_received := true
              out := c.out
                ++ [.cerr (ascii "ERR FROM " ++ d ++ ascii ": " ++ ct ++ ascii "\n")] })
    ∧ (∀ (frame : Str) (rest : List Str),
        str_toupper (TCPClient.token1 frame).2 = ascii "BYE" →
        TCPClient.process_server_messages_loop (frame :: rest) c
          = TCPClient.process_server_messages_loop rest
              { c with server_msg_queue := rest, state := .END })
    ∧ (∀ hi lo : Nat,
        UDPClient.vector_msgID (0xFE :: hi :: lo :: (d ++ 0 :: (ct ++ [0]))) ∉ c.seen_msg_ids →
        UDPClient.handle_datagram (0xFE :: hi :: lo :: (d ++ 0 :: (ct ++ [0]))) c
          = { c with
              seen_msg_ids := c.seen_msg_ids
                ++ [UDPClient.vector_msgID (0xFE :: hi :: lo :: (d ++ 0 :: (ct ++ [0])))]
              server_msg_queue := c.server_msg_queue.tail
              err_received := true
              out := c.out ++
                [.cerr (ascii "ERR FROM " ++ d ++ ascii ": " ++ ct ++ ascii "\n"),
                 .sendto c.response_addr
                  (Message.MsgCONFIRM
                    (UDPClient.vector_msgID
                      (0xFE :: hi :: lo :: (d ++ 0 :: (ct ++ [0]))))).UDP_msg] })
    ∧ (∀ (hi lo : Nat) (tail : Str),
        UDPClient.vector_msgID (0xFF :: hi :: lo :: tail) ∉ c.seen_msg_ids →
        UDPClient.handle_datagram (0xFF :: hi :: lo :: tail) c
          = { c with
              seen_msg_ids := c.seen_msg_ids
                ++ [UDPClient.vector_msgID (0xFF :: hi :: lo :: tail)]
              server_msg_queue := c.server_msg_queue.tail
              state := .END
              out := c.out ++
                [.sendto c.response_addr
                  (Message.MsgCONFIRM
                    (UDPClient.vector_msgID (0xFF :: hi :: lo :: tail))).UDP_msg] })
    ∧ (∀ (msg : Str) (rest : List Str) (fuel : Nat),
        c.server_msg_queue = msg :: rest → 3 ≤ msg.length →
        msg.getD 0 0 ≠ MessageType.REPLY.toByte →
        UDPClient.process_server_messages (fuel + 1) c
          = if (UDPClient.handle_datagram msg c).ub then some (UDPClient.handle_datagram msg c)
            else UDPClient.process_server_messages fuel (UDPClient.handle_datagram msg c)) := by
  have hd0 : ∀ b ∈ d, b ≠ 0 := fun b hb => by have := (hd b hb).1; omega
  have hct0 : ∀ b ∈ ct, b ≠ 0 := fun b hb => by have := (hct b hb).1; omega
  refine ⟨fun rest => tcp_err_step d ct c rest hd hd1 hct,
    fun frame rest hty => tcp_bye_step frame c rest hty, ?_,
    fun hi lo tail hseen => handle_datagram_BYE hi lo tail c hseen, ?_⟩
  · intro hi lo hseen
    have hdg := handle_datagram_ERR hi lo _ (d ++ 0 :: (ct ++ [0])) c rfl hseen
    rw [read_fields_encoded 0xFE hi lo d ct hd0 hct0] at hdg
    exact hdg
  · intro msg rest fuel hq hl h0
    have hl3 : ¬ msg.length < 3 := by omega
    rw [UDPClient.process_server_messages]
    simp only [hq, hl3, if_false, h0, false_and]

/-- Witness of C35 (amended): `ERR FROM srv IS boom` over TCP. -/
theorem inbound_err_bye_witness :
    TCPClient.process_server_messages_loop [ascii "ERR FROM srv IS boom"]
        { Client.init 0 7 true [] [] with state := .OPEN, auth := true }
      = { Client.init 0 7 true [] [] with
          state := .OPEN, auth := true, err_received := true
          out := [.cerr (ascii "ERR FROM srv: boom\n")] } :=
  ((inbound_err_bye (ascii "srv") (ascii "boom")
      { Client.init 0 7 true [] [] with state := .OPEN, auth := true }
      (by decide) (by decide) (by decide)).1 []).trans (by decide)

/-! ## C36: the reads of the UDP dispatcher -/

/-- The REPLY branch of the UDP dispatcher, entered while `waiting_on_reply` with a
datagram of fewer than six bytes: `msg[4]` and `msg[5]` are read outside the
datagram. -/
theorem dispatch_reply_short (msg : Str) (c : Client) (hw : c.waiting_on_reply = true)
    (hl : msg.length < 6) : UDPClient.dispatch_reply msg c = { c with ub := true } := by
  unfold UDPClient.dispatch_reply
  simp only [hw, Bool.true_eq_false, if_false, hl, if_true]

/-- The branches of the `switch` other than REPLY read inside the datagram only. -/
theorem dispatch_ub (msg : Str) (c : Client) (h0 : msg.getD 0 0 ≠ MessageType.REPLY.toByte) :
    (UDPClient.dispatch msg c).ub = c.ub := by
  unfold UDPClient.dispatch
  simp only [h0, if_false, UDPClient.fail, Client.cerr, Client.emit, Client.set_state]
  split_ifs <;> rfl

/-- C36, the code at the failing input: a UDP client waits for the reply to its AUTH
and the datagram `[0x01, 0x00, 0x05]` arrives, a REPLY of three bytes.  The length
test of `process_server_messages` lets it pass, the REPLY branch is entered because
`waiting_on_reply` is true, and `ref_msgID = (msg[4] << 8) | msg[5]` reads two bytes
behind the end of the datagram.  The same for the REPLY datagrams of four and of five
bytes.  These are the results for every fuel of at least one. -/
theorem udp_bounds_failing_input (fuel : Nat) :
    UDPClient.process_server_messages (1 + fuel)
        { Client.init 0 7 true [] [] with
          state := .AUTHENTICATE, waiting_on_reply := true, response_addr := 9
          client_msg_queue := [some (.MsgAUTH (ascii "u") (ascii "s") (ascii "d") 0)]
          server_msg_queue := [[0x01, 0x00, 0x05]] }
      = some
        { Client.init 0 7 true [] [] with
          state := .AUTHENTICATE, waiting_on_reply := true, response_addr := 9
          client_msg_queue := [some (.MsgAUTH (ascii "u") (ascii "s") (ascii "d") 0)]
          seen_msg_ids := [5]
          out := [.sendto 9 [0x00, 0x00, 0x05]]
          ub := true }
    ∧ (UDPClient.process_server_messages (1 + fuel)
        { Client.init 0 7 true [] [] with
          state := .AUTHENTICATE, waiting_on_reply := true, response_addr := 9
          client_msg_queue := [some (.MsgAUTH (ascii "u") (ascii "s") (ascii "d") 0)]
          server_msg_queue := [[0x01, 0x00, 0x05, 0x01]] }).map (fun c => c.ub) = some true
    ∧ (UDPClient.process_server_messages (1 + fuel)
        { Client.init 0 7 true [] [] with
          state := .AUTHENTICATE, waiting_on_reply := true, response_addr := 9
          client_msg_queue := [some (.MsgAUTH (ascii "u") (ascii "s") (ascii "d") 0)]
          server_msg_queue := [[0x01, 0x00, 0x05, 0x01, 0x00]] }).map (fun c => c.ub)
        = some true :=
  ⟨(udp_fuel_add 1 fuel).2.2.2 _ _ (by decide),
   by rw [(udp_fuel_add 1 fuel).2.2.2 _ _ (by decide :
        UDPClient.process_server_messages 1
          { Client.init 0 7 true [] [] with
            state := .AUTHENTICATE, waiting_on_reply := true, response_addr := 9
            client_msg_queue := [some (.MsgAUTH (ascii "u") (ascii "s") (ascii "d") 0)]
            server_msg_queue := [[0x01, 0x00, 0x05, 0x01]] }
          = some
            { Client.init 0 7 true [] [] with
              state := .AUTHENTICATE, waiting_on_reply := true, response_addr := 9
              client_msg_queue := [some (.MsgAUTH (ascii "u") (ascii "s") (ascii "d") 0)]
              seen_msg_ids := [5]
              out := [.sendto 9 [0x00, 0x00, 0x05]]
              ub := true })]; rfl,
   by rw [(udp_fuel_add 1 fuel).2.2.2 _ _ (by decide :
        UDPClient.process_server_messages 1
          { Client.init 0 7 true [] [] with
            state := .AUTHENTICATE, waiting_on_reply := true, response_addr := 9
            client_msg_queue := [some (.MsgAUTH (ascii "u") (ascii "s") (ascii "d") 0)]
            server_msg_queue := [[0x01, 0x00, 0x05, 0x01, 0x00]] }
          = some
            { Client.init 0 7 true [] [] with
              state := .AUTHENTICATE, waiting_on_reply := true, response_addr := 9
              client_msg_queue := [some (.MsgAUTH (ascii "u") (ascii "s") (ascii "d") 0)]
              seen_msg_ids := [5]
              out := [.sendto 9 [0x00, 0x00, 0x05]]
              ub := true })]; rfl⟩

/-! ## C38: the state `ERROR` within one call of `process_server_messages` -/

/-- C38, the code at the failing input: the inbound queue of the TCP client holds the
frames `HELLO` and `BYE`.  The round on `HELLO` sets the state to `ERROR` with the
diagnostic `Unknown message type`, but this branch does not return: the round on
`BYE` sets the state to `END`, and the function returns in state `END` with the
diagnostic of the first frame.  In a run of `main` in which both frames are read at
once the loop is left in state `END`, so that neither ERR nor BYE is sent and the
exit status is success.  The loop of the UDP client has no `return` at all: a
datagram of unknown type followed by a BYE gives state `END` as well (for every fuel
of at least three). -/
theorem error_kept_failing_input (fuel : Nat) :
    (TCPClient.handle_frame (ascii "HELLO")
        { Client.init 0 7 true [] [] with
          state := .OPEN, auth := true, server_msg_queue := [ascii "BYE"] }).1.state = .ERROR
    ∧ TCPClient.process_server_messages
        { Client.init 0 7 true [] [] with
          state := .OPEN, auth := true, server_msg_queue := [ascii "HELLO", ascii "BYE"] }
      = { Client.init 0 7 true [] [] with
          state := .END, auth := true, error_msg := ascii "Unknown message type"
          out := [.cerr (ascii "ERR: Unknown message type\n")] }
    ∧ main TCPClient.transport
        [.ready (some (ascii "/auth u s d", false)) none,
         .ready none (some (some (ascii "REPLY OK IS ok\r\n"))),
         .ready none (some (some (ascii "HELLO\r\nBYE\r\n")))]
        (Client.init 0 7 true [] [])
      = some (⟨{ Client.init 0 7 true [] [] with
                  state := .END, auth := true
                  error_msg := ascii "Unknown message type"
                  out := [.send (ascii "AUTH u AS d USING s\r\n"),
                          .cerr (ascii "Success: ok\n"),
                          .cerr (ascii "ERR: Unknown message type\n")] },
                ⟨1, ascii "d"⟩, false⟩, some .EXIT_SUCCESS)
    ∧ UDPClient.process_server_messages (3 + fuel)
        { Client.init 0 7 true [] [] with
          state := .OPEN, auth := true, response_addr := 9
          server_msg_queue := [[0x07, 0x00, 0x01], [0xFF, 0x00, 0x02]] }
      = some
        { Client.init 0 7 true [] [] with
          state := .END, auth := true, response_addr := 9
          error_msg := ascii "Unknown message type"
          seen_msg_ids := [1, 2]
          out := [.cerr (ascii "ERR: Unknown message type\n"),
                  .sendto 9 [0x00, 0x00, 0x01],
                  .sendto 9 [0x00, 0x00, 0x02]] } :=
  ⟨by decide, by decide, by decide, (udp_fuel_add 3 fuel).2.2.2 _ _ (by decide)⟩

/-! ## C31: a CONFIRM with another ref_id, received inside `send_msg` -/

/-- The ref_id `send_msg` reads from its `char` buffer is the ref_id of the datagram
where `char` is unsigned, and also where it is signed if the low byte is below
`0x80`. -/
theorem buffer_msgID_vector (cs : Bool) (bytes : Str) (h1 : bytes.getD 1 0 < 256)
    (h2 : bytes.getD 2 0 < 256) (h : cs = false ∨ bytes.getD 2 0 < 0x80) :
    UDPClient.buffer_msgID cs bytes = UDPClient.vector_msgID bytes := by
  unfold UDPClient.buffer_msgID UDPClient.vector_msgID UDPClient.char_to_int
  generalize bytes.getD 1 0 = b1 at h1
  generalize bytes.getD 2 0 = b2 at h2 h
  have hlo : ¬ (cs = true ∧ 0x80 ≤ b2) := by
    rcases h with h | h
    · rw [h]; simp
    · intro hh; omega
  rw [if_neg hlo]
  by_cases hhi : cs = true ∧ 0x80 ≤ b1
  · rw [if_pos hhi]
    have e : ((0xFFFFFF00 + b1) <<< 8) % 2 ^ 32 = (0xFFFF00 + b1) <<< 8 := by
      rw [Nat.shiftLeft_eq, Nat.shiftLeft_eq]
      omega
    rw [e, shl8_or _ _ h2, shl8_or _ _ h2]
    simp only [u16]
    omega
  · rw [if_neg hhi]
    have e : (b1 <<< 8) % 2 ^ 32 = b1 <<< 8 := by
      apply Nat.mod_eq_of_lt
      rw [Nat.shiftLeft_eq]
      omega
    rw [e]

/-- C31, the code at the failing input: on a platform with signed `char` a UDP client
in state `OPEN` sends the MSG with the MessageID 0xFF80 and waits for its CONFIRM.
The datagram `[0x00, 0x00, 0x80]` arrives, a CONFIRM whose ref_id is 0x0080.
`send_msg` reads the ref_id 0xFF80 from its buffer, takes the message for confirmed
and returns, and `process_client_messages` pops the MSG: the wait has not gone on,
and the outbound queue has changed.  With unsigned `char` the same datagram is
skipped, and `send_msg` goes on to wait until the timeout. -/
theorem stale_confirm_failing_input (fuel : Nat) :
    UDPClient.vector_msgID [0x00, 0x00, 0x80] = 0x0080
    ∧ (Message.MsgMSG (ascii "d") (ascii "hi") 0xFF80).get_msgID = 0xFF80
    ∧ UDPClient.send_msg (2 + fuel) (.MsgMSG (ascii "d") (ascii "hi") 0xFF80)
        { Client.init 0 7 true [] [.data 9 [0x00, 0x00, 0x80]] with
          state := .OPEN, auth := true, response_addr := 9
          client_msg_queue := [some (.MsgMSG (ascii "d") (ascii "hi") 0xFF80)] }
      = some
        { Client.init 0 7 true [] [] with
          state := .OPEN, auth := true, response_addr := 9
          client_msg_queue := [some (.MsgMSG (ascii "d") (ascii "hi") 0xFF80)]
          out := [.sendto 9 (Message.MsgMSG (ascii "d") (ascii "hi") 0xFF80).UDP_msg] }
    ∧ UDPClient.process_client_messages (4 + fuel)
        { Client.init 0 7 true [] [.data 9 [0x00, 0x00, 0x80]] with
          state := .OPEN, auth := true, response_addr := 9
          client_msg_queue := [some (.MsgMSG (ascii "d") (ascii "hi") 0xFF80)] }
      = some
        { Client.init 0 7 true [] [] with
          state := .OPEN, auth := true, response_addr := 9
          out := [.sendto 9 (Message.MsgMSG (ascii "d") (ascii "hi") 0xFF80).UDP_msg] }
    ∧ UDPClient.send_msg (3 + fuel) (.MsgMSG (ascii "d") (ascii "hi") 0xFF80)
        { Client.init 0 7 false [] [.data 9 [0x00, 0x00, 0x80]] with
          state := .OPEN, auth := true, response_addr := 9
          client_msg_queue := [some (.MsgMSG (ascii "d") (ascii "hi") 0xFF80)] }
      = some
        { Client.init 0 7 false [] [] with
          state := .END, auth := true, response_addr := 9
          client_msg_queue := [some (.MsgMSG (ascii "d") (ascii "hi") 0xFF80)]
          out := [.sendto 9 (Message.MsgMSG (ascii "d") (ascii "hi") 0xFF80).UDP_msg] } :=
  ⟨by decide, by decide,
   udp_send_msg_fuel_add 2 fuel _ _ _ (by decide),
   (udp_fuel_add 4 fuel).2.2.1 _ _ (by decide),
   udp_send_msg_fuel_add 3 fuel _ _ _ (by decide)⟩

/-! ## C37: `waiting_on_reply` and the head of the outbound queue -/

/-- The `send_msg` of the MSG in the first run of C37, with fuel 6. -/
theorem udp_queue_head_send :
    UDPClient.send_msg 6 (.MsgMSG (ascii "d") (ascii "hi") 1)
        { Client.init 1 7 true [] [] with
          state := .OPEN, auth := true, response_addr := 9
          client_msg_queue := [some (.MsgMSG (ascii "d") (ascii "hi") 1)]
          net_in := [.data 9 ([0x01, 0x00, 0x05, 0x01, 0x00, 0x00] ++ ascii "ok" ++ [0x00]),
                     .data 9 (Message.MsgCONFIRM 1).UDP_msg,
                     .data 9 (Message.MsgCONFIRM 1).UDP_msg] }
      = some
        { Client.init 1 7 true [] [] with
          state := .OPEN, auth := true, response_addr := 9, seen_msg_ids := [5]
          out := [.sendto 9 (Message.MsgMSG (ascii "d") (ascii "hi") 1).UDP_msg,
                  .sendto 9 (Message.MsgCONFIRM 5).UDP_msg,
                  .sendto 9 (Message.MsgMSG (ascii "d") (ascii "hi") 1).UDP_msg] } := by
  decide

/-- The first run of C37 with fuel 7. -/
theorem udp_queue_head_eval :
    UDPClient.process_client_messages 7
        { Client.init 1 7 true [] [] with
          state := .OPEN, auth := true, response_addr := 9
          client_msg_queue := [some (.MsgMSG (ascii "d") (ascii "hi") 1)]
          net_in := [.data 9 ([0x01, 0x00, 0x05, 0x01, 0x00, 0x00] ++ ascii "ok" ++ [0x00]),
                     .data 9 (Message.MsgCONFIRM 1).UDP_msg,
                     .data 9 (Message.MsgCONFIRM 1).UDP_msg] }
      = some
        { Client.init 1 7 true [] [] with
          state := .OPEN, auth := true, response_addr := 9, seen_msg_ids := [5], ub := true
          out := [.sendto 9 (Message.MsgMSG (ascii "d") (ascii "hi") 1).UDP_msg,
                  .sendto 9 (Message.MsgCONFIRM 5).UDP_msg,
                  .sendto 9 (Message.MsgMSG (ascii "d") (ascii "hi") 1).UDP_msg] } := by
  rw [udp_send_admissible 6 _ (.MsgMSG (ascii "d") (ascii "hi") 1) [] rfl rfl (by decide),
    udp_queue_head_send]
  decide

/-- The `send_msg` of the JOIN in the second run of C37, with fuel 6. -/
theorem udp_queue_head_join_send :
    UDPClient.send_msg 6 (.MsgJOIN (ascii "ch") (ascii "d") 1)
        { Client.init 1 7 true [] [] with
          state := .OPEN, auth := true, response_addr := 9
          client_msg_queue := [some (.MsgJOIN (ascii "ch") (ascii "d") 1)]
          net_in := [.data 9 ([0x01, 0x00, 0x05, 0x01, 0x00, 0x01] ++ ascii "ok" ++ [0x00]),
                     .data 9 (Message.MsgCONFIRM 1).UDP_msg,
                     .data 9 ([0x01, 0x00, 0x06, 0x01, 0x00, 0x01] ++ ascii "ok" ++ [0x00]),
                     .data 9 (Message.MsgCONFIRM 1).UDP_msg] }
      = some
        { Client.init 1 7 true [] [] with
          state := .OPEN, auth := true, response_addr := 9, seen_msg_ids := [5, 6]
          out := [.sendto 9 (Message.MsgJOIN (ascii "ch") (ascii "d") 1).UDP_msg,
                  .sendto 9 (Message.MsgCONFIRM 5).UDP_msg,
                  .sendto 9 (Message.MsgJOIN (ascii "ch") (ascii "d") 1).UDP_msg,
                  .cerr (ascii "Success: ok" ++ [0x00] ++ ascii "\n"),
                  .sendto 9 (Message.MsgCONFIRM 6).UDP_msg] } := by
  decide

/-- The second run of C37 with fuel 7. -/
theorem udp_queue_head_join_eval :
    UDPClient.process_client_messages 7
        { Client.init 1 7 true [] [] with
          state := .OPEN, auth := true, response_addr := 9
          client_msg_queue := [some (.MsgJOIN (ascii "ch") (ascii "d") 1)]
          net_in := [.data 9 ([0x01, 0x00, 0x05, 0x01, 0x00, 0x01] ++ ascii "ok" ++ [0x00]),
                     .data 9 (Message.MsgCONFIRM 1).UDP_msg,
                     .data 9 ([0x01, 0x00, 0x06, 0x01, 0x00, 0x01] ++ ascii "ok" ++ [0x00]),
                     .data 9 (Message.MsgCONFIRM 1).UDP_msg] }
      = some
        { Client.init 1 7 true [] [] with
          state := .OPEN, auth := true, response_addr := 9, seen_msg_ids := [5, 6]
          waiting_on_reply := true
          out := [.sendto 9 (Message.MsgJOIN (ascii "ch") (ascii "d") 1).UDP_msg,
                  .sendto 9 (Message.MsgCONFIRM 5).UDP_msg,
                  .sendto 9 (Message.MsgJOIN (ascii "ch") (ascii "d") 1).UDP_msg,
                  .cerr (ascii "Success: ok" ++ [0x00] ++ ascii "\n"),
                  .sendto 9 (Message.MsgCONFIRM 6).UDP_msg] } := by
  rw [udp_send_admissible 6 _ (.MsgJOIN (ascii "ch") (ascii "d") 1) [] rfl rfl (by decide),
    udp_queue_head_join_send]
  decide

theorem tcp_send_msg_waiting (m : Message) (c : Client) :
    (TCPClient.send_msg m c).waiting_on_reply = c.waiting_on_reply := by
  unfold TCPClient.send_msg
  simp only [Client.cerr, Client.emit, Client.set_state]
  split_ifs <;> rfl

/-- On TCP, `process_client_messages` keeps the head of the outbound queue an AUTH or
a JOIN while `waiting_on_reply` is true. -/
theorem tcp_client_queue_head (q : List (Option Message)) :
    ∀ c : Client, c.client_msg_queue = q →
      (c.waiting_on_reply = true → ∃ m rest, c.client_msg_queue = some m :: rest
        ∧ (m.get_type = .AUTH ∨ m.get_type = .JOIN)) →
      (TCPClient.process_client_messages_loop q c).waiting_on_reply = true →
      ∃ m rest, (TCPClient.process_client_messages_loop q c).client_msg_queue = some m :: rest
        ∧ (m.get_type = .AUTH ∨ m.get_type = .JOIN) := by
  induction q with
  | nil => intro c _ hp hw; exact hp hw
  | cons front rest ih =>
      intro c hq hp
      rw [TCPClient.process_client_messages_loop]
      by_cases hw : c.waiting_on_reply = true
      · rw [if_pos hw]
        exact hp
      · rw [if_neg hw]
        have hwf : c.waiting_on_reply = false := by simpa using hw
        have hz : ∀ x : Client, x.waiting_on_reply = c.waiting_on_reply →
            (x.waiting_on_reply = true → ∃ m rest, x.client_msg_queue = some m :: rest
              ∧ (m.get_type = .AUTH ∨ m.get_type = .JOIN)) := by
          intro x hx h
          rw [hx, hwf] at h
          exact absurd h (by decide)
        cases front with
        | none => exact ih _ rfl (hz _ rfl)
        | some msg =>
            simp only
            by_cases h1 : msg.get_type ≠ .AUTH ∧ c.auth = false
            · rw [if_pos h1]
              exact ih _ rfl (hz _ rfl)
            · rw [if_neg h1]
              by_cases h2 : (msg.get_type = .MSG ∨ msg.get_type = .JOIN) ∧ c.state ≠ .OPEN
              · rw [if_pos h2]
                exact ih _ rfl (hz _ rfl)
              · rw [if_neg h2]
                by_cases h3 : msg.get_type = .AUTH ∧ c.auth = true
                · rw [if_pos h3]
                  exact ih _ rfl (hz _ rfl)
                · rw [if_neg h3]
                  by_cases h4 : msg.get_type = .AUTH ∨ msg.get_type = .JOIN
                  · rw [if_pos h4]
                    intro _
                    exact ⟨msg, rest, (tcp_send_msg_queue msg c).trans hq, h4⟩
                  · rw [if_neg h4]
                    exact ih _ rfl (hz _ (tcp_send_msg_waiting msg c))

/-- On TCP, one round of `process_server_messages` keeps the head of the outbound
queue an AUTH or a JOIN while `waiting_on_reply` is true. -/
theorem tcp_frame_queue_head (frame : Str) (c : Client)
    (hp : c.waiting_on_reply = true → ∃ m rest, c.client_msg_queue = some m :: rest
      ∧ (m.get_type = .AUTH ∨ m.get_type = .JOIN))
    (hw : (TCPClient.handle_frame frame c).1.waiting_on_reply = true) :
    ∃ m rest, (TCPClient.handle_frame frame c).1.client_msg_queue = some m :: rest
      ∧ (m.get_type = .AUTH ∨ m.get_type = .JOIN) := by
  have hpcm : ∀ x : Client, x.waiting_on_reply = false →
      (TCPClient.process_client_messages x).waiting_on_reply = true →
      ∃ m rest, (TCPClient.process_client_messages x).client_msg_queue = some m :: rest
        ∧ (m.get_type = .AUTH ∨ m.get_type = .JOIN) := by
    intro x hx
    refine tcp_client_queue_head x.client_msg_queue x rfl ?_
    intro h
    rw [hx] at h
    exact absurd h (by decide)
  revert hw
  unfold TCPClient.handle_frame
  simp only
  by_cases hr : str_toupper ((IStringStream.ofStr frame).extract []).2 = ascii "REPLY"
  · rw [if_pos hr]
    by_cases hwc : c.waiting_on_reply = true
    · rw [if_pos hwc]
      unfold TCPClient.process_reply
      simp only
      split_ifs
      · exact hpcm _ rfl
      · split
        · intro _
          exact hp hwc
        · split_ifs
          · exact hpcm _ rfl
          · exact hpcm _ rfl
      · intro _
        exact hp hwc
      · intro _
        exact hp hwc
    · rw [if_neg hwc]
      exact hp
  · rw [if_neg hr]
    split_ifs
    · split <;> exact hp
    · split <;> exact hp
    · exact hp
    · exact hp

/-- On TCP, `process_server_messages` keeps the head of the outbound queue an AUTH or
a JOIN while `waiting_on_reply` is true. -/
theorem tcp_server_queue_head (q : List Str) :
    ∀ c : Client,
      (c.waiting_on_reply = true → ∃ m rest, c.client_msg_queue = some m :: rest
        ∧ (m.get_type = .AUTH ∨ m.get_type = .JOIN)) →
      (TCPClient.process_server_messages_loop q c).waiting_on_reply = true →
      ∃ m rest, (TCPClient.process_server_messages_loop q c).client_msg_queue = some m :: rest
        ∧ (m.get_type = .AUTH ∨ m.get_type = .JOIN) := by
  induction q with
  | nil => intro c hp; exact hp
  | cons frame rest ih =>
      intro c hp
      rw [process_server_messages_loop_round]
      have hp1 : ({ c with server_msg_queue := rest } : Client).waiting_on_reply = true →
          ∃ m r, ({ c with server_msg_queue := rest } : Client).client_msg_queue = some m :: r
            ∧ (m.get_type = .AUTH ∨ m.get_type = .JOIN) := hp
      split_ifs
      · exact ih _ hp1
      · exact tcp_frame_queue_head frame _ hp1
      · exact ih _ (tcp_frame_queue_head frame _ hp1)

/-- C37, the code at the failing inputs, both on UDP in state `OPEN`.  First run: the
MSG at the head of the outbound queue (MessageID 1) is handed to `send_msg`; a REPLY
arrives before the CONFIRM and is dispatched inside `send_msg`, and
`process_client_messages`, called for every REPLY, sends the MSG again, takes the
CONFIRM and pops the MSG.  The second CONFIRM ends the first `send_msg`, and the `pop`
behind it is executed on an empty queue.  Second run: the same with a JOIN and a
second REPLY, which is accepted as the reply to the JOIN and pops it; the first
`send_msg` then returns and `waiting_on_reply` is set while the outbound queue is
empty.  A REPLY that arrives in this state makes the REPLY branch call
`get_curr_msgID` on the empty queue.  These are the results for every fuel of at
least seven, respectively one. -/
theorem queue_head_failing_input (fuel : Nat) :
    UDPClient.process_client_messages (7 + fuel)
        { Client.init 1 7 true [] [] with
          state := .OPEN, auth := true, response_addr := 9
          client_msg_queue := [some (.MsgMSG (ascii "d") (ascii "hi") 1)]
          net_in := [.data 9 ([0x01, 0x00, 0x05, 0x01, 0x00, 0x00] ++ ascii "ok" ++ [0x00]),
                     .data 9 (Message.MsgCONFIRM 1).UDP_msg,
                     .data 9 (Message.MsgCONFIRM 1).UDP_msg] }
      = some
        { Client.init 1 7 true [] [] with
          state := .OPEN, auth := true, response_addr := 9, seen_msg_ids := [5], ub := true
          out := [.sendto 9 (Message.MsgMSG (ascii "d") (ascii "hi") 1).UDP_msg,
                  .sendto 9 (Message.MsgCONFIRM 5).UDP_msg,
                  .sendto 9 (Message.MsgMSG (ascii "d") (ascii "hi") 1).UDP_msg] }
    ∧ UDPClient.process_client_messages (7 + fuel)
        { Client.init 1 7 true [] [] with
          state := .OPEN, auth := true, response_addr := 9
          client_msg_queue := [some (.MsgJOIN (ascii "ch") (ascii "d") 1)]
          net_in := [.data 9 ([0x01, 0x00, 0x05, 0x01, 0x00, 0x01] ++ ascii "ok" ++ [0x00]),
                     .data 9 (Message.MsgCONFIRM 1).UDP_msg,
                     .data 9 ([0x01, 0x00, 0x06, 0x01, 0x00, 0x01] ++ ascii "ok" ++ [0x00]),
                     .data 9 (Message.MsgCONFIRM 1).UDP_msg] }
      = some
        { Client.init 1 7 true [] [] with
          state := .OPEN, auth := true, response_addr := 9, seen_msg_ids := [5, 6]
          waiting_on_reply := true, client_msg_queue := []
          out := [.sendto 9 (Message.MsgJOIN (ascii "ch") (ascii "d") 1).UDP_msg,
                  .sendto 9 (Message.MsgCONFIRM 5).UDP_msg,
                  .sendto 9 (Message.MsgJOIN (ascii "ch") (ascii "d") 1).UDP_msg,
                  .cerr (ascii "Success: ok" ++ [0x00] ++ ascii "\n"),
                  .sendto 9 (Message.MsgCONFIRM 6).UDP_msg] }
    ∧ UDPClient.process_server_messages (1 + fuel)
        { Client.init 1 7 true [] [] with
          state := .OPEN, auth := true, response_addr := 9, seen_msg_ids := [5, 6]
          waiting_on_reply := true, client_msg_queue := []
          server_msg_queue := [[0x01, 0x00, 0x07, 0x01, 0x00, 0x01] ++ ascii "ok" ++ [0x00]] }
      = some
        { Client.init 1 7 true [] [] with
          state := .OPEN, auth := true, response_addr := 9, seen_msg_ids := [5, 6, 7]
          waiting_on_reply := true, client_msg_queue := [], ub := true
          out := [.sendto 9 (Message.MsgCONFIRM 7).UDP_msg] } :=
  ⟨(udp_fuel_add 7 fuel).2.2.1 _ _ udp_queue_head_eval,
   (udp_fuel_add 7 fuel).2.2.1 _ _ udp_queue_head_join_eval,
   (udp_fuel_add 1 fuel).2.2.2 _ _ (by decide)⟩


/-! ## C11: the messages `main` queues -/

/-- For every message that is not a CONFIRM, the condition of the specification is
the one the three checks of `process_client_messages` implement. -/
theorem spec_admissible_iff (m : Message) (c : Client) (hm : m.get_type ≠ .CONFIRM) :
    spec_admissible m c ↔ admissible m c := by
  unfold spec_admissible admissible
  cases m <;> simp [Message.get_type] at hm ⊢

theorem no_confirm_pop (c : Client) (h : no_confirm_queued c) :
    no_confirm_queued c.pop_client_msg := by
  obtain ⟨mr, st, sa, cq, sq, w, er, au, em, rc, ra, seen, cs, so, ni, out, ub⟩ := c
  cases cq with
  | nil => exact h
  | cons front rest => exact fun x hx => h x (List.mem_cons_of_mem _ hx)

/-- The functions of the TCP client add nothing to the outbound queue. -/
theorem tcp_no_confirm (c : Client) (h : no_confirm_queued c) :
    (∀ rx, no_confirm_queued (TCPClient.receive_msg rx c))
    ∧ no_confirm_queued (TCPClient.process_client_messages c)
    ∧ no_confirm_queued (TCPClient.process_server_messages c) := by
  have hpcm : ∀ c, no_confirm_queued c →
      no_confirm_queued (TCPClient.process_client_messages c) := by
    intro c h
    refine tcp_client_invariant no_confirm_queued (fun _ => True) (fun c o h => h) ?_
      (fun _ _ _ _ _ _ _ _ => trivial) ?_ (fun c h => h) c.client_msg_queue c rfl h
    · intro c front rest h hq x hx
      exact h x (by rw [hq]; exact List.mem_cons_of_mem _ hx)
    · intro c msg _ h
      unfold no_confirm_queued
      rw [tcp_send_msg_queue]
      exact h
  have hsrv := tcp_server_invariant no_confirm_queued hpcm (fun c o h => h) no_confirm_pop
    (fun c h => h) (fun c h => h) (fun c what h => h) (fun c curr h _ _ => h) (fun c h => h)
    (fun c h => h) (fun c rest h => h)
  refine ⟨?_, hpcm c h, hsrv.2 _ c h⟩
  intro rx
  unfold TCPClient.receive_msg
  cases rx with
  | none => exact h
  | some bytes =>
      simp only
      split_ifs
      · exact h
      · unfold no_confirm_queued
        rw [(extract_frames_fields _ _).2]
        exact h

/-- The functions of the UDP client add nothing to the outbound queue. -/
theorem udp_no_confirm (fuel : Nat) (c : Client) (h : no_confirm_queued c) :
    no_confirm_queued (UDPClient.receive_msg c)
    ∧ (∀ c1, UDPClient.process_client_messages fuel c = some c1 → no_confirm_queued c1)
    ∧ (∀ c1, UDPClient.process_server_messages fuel c = some c1 → no_confirm_queued c1) := by
  have hdisp : ∀ msg c, no_confirm_queued c → no_confirm_queued (UDPClient.dispatch msg c) := by
    intro msg c h
    unfold UDPClient.dispatch
    by_cases hr : msg.getD 0 0 = MessageType.REPLY.toByte
    · rw [if_pos hr]
      unfold UDPClient.dispatch_reply
      by_cases hw : c.waiting_on_reply = false
      · rw [if_pos hw]
        exact h
      · rw [if_neg hw]
        by_cases hl : msg.length < 6
        · rw [if_pos hl]
          exact h
        · rw [if_neg hl]
          simp only
          rcases hcur : c.get_curr_msg with _ | curr
          · exact h
          · simp only
            split_ifs <;> first
              | exact h
              | exact no_confirm_pop (c.cerr _) h
              | exact no_confirm_pop _ h
    · rw [if_neg hr]
      split_ifs <;> exact h
  have hdg : ∀ c msg, no_confirm_queued c →
      no_confirm_queued (UDPClient.handle_datagram msg c) := by
    intro c msg h
    obtain ⟨c1, hc1, _, _, hq, _⟩ := handle_datagram_fields msg c
    unfold no_confirm_queued
    rw [hq]
    rcases hc1 with e | e | e <;> rw [e]
    · exact hdisp msg _ h
    · exact hdisp msg _ h
    · exact h
  have key := udp_invariant no_confirm_queued (fun _ => True) (fun c o h => h) ?_
    (fun c h => h) ?_ (fun c bytes h => h) ?_ (fun _ _ _ _ _ _ _ _ => trivial) (fun c h => h)
    no_confirm_pop (fun c rest h => h) hdg fuel
  · refine ⟨?_, fun c1 h1 => key.2.2.1 c c1 h h1, fun c1 h1 => key.2.2.2 c c1 h h1⟩
    unfold UDPClient.receive_msg UDPClient.recvfrom
    rcases hn : c.net_in with _ | ⟨_ | _, rest⟩ <;> exact h
  · intro c h
    unfold UDPClient.recvfrom
    rcases hn : c.net_in with _ | ⟨_ | _, rest⟩ <;> exact h
  · intro c msg _ h
    split_ifs <;> exact h
  · intro c front rest h hq x hx
    exact h x (by rw [hq]; exact List.mem_cons_of_mem _ hx)

/-- The message `handle_input` returns is never a CONFIRM, so that pushing it keeps
the outbound queue free of CONFIRMs. -/
theorem no_confirm_push (c : Client) (h : InputHandler) (line : Str)
    (hc : no_confirm_queued c) :
    no_confirm_queued (c.push_client_msg (h.handle_input line).msg) := by
  intro x hx
  simp only [Client.push_client_msg, List.mem_append, List.mem_singleton] at hx
  rcases hx with hx | hx
  · exact hc x hx
  · subst hx
    cases hm : (h.handle_input line).msg with
    | none => simp
    | some m =>
        have ht := handle_input_types h line m hm
        simp only [Option.map_some', ne_eq, Option.some.injEq]
        intro e
        rw [e] at ht
        simp at ht

theorem feed_line_no_confirm (line : Str) (s : MainState) (hs : no_confirm_queued s.client) :
    no_confirm_queued (feed_line line s).client := by
  unfold feed_line
  simp only
  cases hm : (s.input_handler.handle_input line).msg with
  | none => exact hs
  | some m =>
      have := no_confirm_push { s.client with
        out := s.client.out ++ (s.input_handler.handle_input line).out } s.input_handler line hs
      rw [hm] at this
      exact this

theorem read_stdin_no_confirm (line : Str) (eof : Bool) (s : MainState)
    (hs : no_confirm_queued s.client) : no_confirm_queued (read_stdin line eof s).client := by
  have h1 := feed_line_no_confirm line s hs
  unfold read_stdin
  simp only
  split_ifs
  · exact no_confirm_push { (feed_line line s).client with
      out := (feed_line line s).client.out
        ++ ((feed_line line s).input_handler.handle_input (ascii "/exit")).out }
      (feed_line line s).input_handler (ascii "/exit") h1
  · exact h1

/-- A run of the main loop over a transport whose functions add nothing to the
outbound queue keeps the queue free of CONFIRMs: `main` queues only what
`handle_input` returns. -/
theorem main_loop_no_confirm (t : Transport)
    (hrecv : ∀ rx c, no_confirm_queued c → no_confirm_queued (t.receive_msg rx c))
    (hpcm : ∀ c c1, no_confirm_queued c → t.process_client_messages c = some c1 →
      no_confirm_queued c1)
    (hpsm : ∀ c c1, no_confirm_queued c → t.process_server_messages c = some c1 →
      no_confirm_queued c1)
    (events : List PollResult) :
    ∀ (s0 s : MainState) (exited : Bool), main_loop t events s0 = some (s, exited) →
      no_confirm_queued s0.client → no_confirm_queued s.client := by
  induction events with
  | nil =>
      intro s0 s exited h h0
      simp only [main_loop, Option.some.injEq, Prod.mk.injEq] at h
      rw [← h.1]
      exact h0
  | cons p ps ih =>
      intro s0 s exited h h0
      unfold main_loop at h
      by_cases hl : loop_condition s0 = false
      · rw [if_pos hl] at h
        simp only [Option.some.injEq, Prod.mk.injEq] at h
        rw [← h.1]
        exact h0
      · rw [if_neg hl] at h
        cases p with
        | sigint =>
            simp only at h
            exact ih _ s exited h h0
        | failed =>
            simp only [Option.some.injEq, Prod.mk.injEq] at h
            rw [← h.1]
            exact h0
        | ready stdin sock =>
            simp only at h
            split_ifs at h with hx
            · simp only [Option.some.injEq, Prod.mk.injEq] at h
              rw [← h.1]
              exact h0
            · rcases stdin with _ | ⟨line, eof⟩ <;> rcases sock with _ | rx <;>
                simp only at h <;>
                (split at h
                 · exact absurd h (by simp)
                 · rename_i c3 hc3
                   have h3 : no_confirm_queued c3 := by
                     first
                       | exact hpcm _ c3 h0 hc3
                       | exact hpcm _ c3 (hrecv _ _ h0) hc3
                       | exact hpcm _ c3 (read_stdin_no_confirm _ _ _ h0) hc3
                       | exact hpcm _ c3 (hrecv _ _ (read_stdin_no_confirm _ _ _ h0)) hc3
                   split_ifs at h
                   · simp only [Option.some.injEq, Prod.mk.injEq] at h
                     rw [← h.1]
                     exact h3
                   · split at h
                     · exact absurd h (by simp)
                     · rename_i c4 hc4
                       have h4 : no_confirm_queued c4 := hpsm _ c4 h3 hc4
                       split_ifs at h
                       · simp only [Option.some.injEq, Prod.mk.injEq] at h
                         rw [← h.1]
                         exact h4
                       · exact ih _ s exited h h4)

/-- C11: with `waiting_on_reply = false`, `process_client_messages` (TCP and UDP)
hands the message at the head of the outbound queue to `send_msg` exactly when its
type is AUTH and `auth = false`, or `auth = true` and its type is not AUTH and (it is
a BYE or an ERR or the state is `OPEN`).  A head message that does not meet the
condition is popped without being sent and a diagnostic is printed; state, `auth` and
`waiting_on_reply` stay as they are, and the loop goes on.  With `auth = true` this is
the case for an AUTH, and for a MSG or a JOIN when the state is not `OPEN`.  The head
message is one that `main` has queued, which is never a CONFIRM: `handle_input`
returns only AUTH, JOIN, MSG and BYE, and a run of the main loop started with a queue
without CONFIRMs, with the TCP or the UDP client, keeps the queue so. -/
theorem admissibility (c : Client) (m : Message) (rest : List (Option Message)) (fuel : Nat)
    (hw : c.waiting_on_reply = false) (hq : c.client_msg_queue = some m :: rest)
    (hm : m.get_type ≠ .CONFIRM) :
    (spec_admissible m c →
      TCPClient.process_client_messages c
        = (if m.get_type = .AUTH ∨ m.get_type = .JOIN then
            { TCPClient.send_msg m c with waiting_on_reply := true }
          else
            TCPClient.process_client_messages_loop rest
              { TCPClient.send_msg m c with client_msg_queue := rest })
      ∧ UDPClient.process_client_messages (fuel + 1) c
        = match UDPClient.send_msg fuel m c with
          | none => none
          | some sent =>
              if sent.ub then some sent
              else if m.get_type = .AUTH ∨ m.get_type = .JOIN then
                UDPClient.process_client_messages fuel { sent with waiting_on_reply := true }
              else if sent.pop_client_msg.ub then some sent.pop_client_msg
              else UDPClient.process_client_messages fuel sent.pop_client_msg)
    ∧ (¬ spec_admissible m c →
      TCPClient.process_client_messages c
        = TCPClient.process_client_messages
            (({ c with client_msg_queue := rest } : Client).cerr (drop_diagnostic m c))
      ∧ UDPClient.process_client_messages (fuel + 1) c
        = UDPClient.process_client_messages fuel
            (({ c with client_msg_queue := rest } : Client).cerr (drop_diagnostic m c))
      ∧ (({ c with client_msg_queue := rest } : Client).cerr (drop_diagnostic m c)).state
          = c.state
      ∧ (({ c with client_msg_queue := rest } : Client).cerr (drop_diagnostic m c)).auth
          = c.auth
      ∧ (({ c with client_msg_queue := rest } : Client).cerr
            (drop_diagnostic m c)).waiting_on_reply = c.waiting_on_reply)
    ∧ (c.auth = true ∧ m.get_type = .AUTH → ¬ spec_admissible m c)
    ∧ (c.auth = true ∧ (m.get_type = .MSG ∨ m.get_type = .JOIN) ∧ c.state ≠ .OPEN →
        ¬ spec_admissible m c)
    ∧ (∀ (h : InputHandler) (line : Str) (m1 : Message),
        (h.handle_input line).msg = some m1 →
        m1.get_type = .AUTH ∨ m1.get_type = .JOIN ∨ m1.get_type = .MSG ∨ m1.get_type = .BYE)
    ∧ (∀ (events : List PollResult) (s0 s : MainState) (exited : Bool),
        no_confirm_queued s0.client →
        (main_loop TCPClient.transport events s0 = some (s, exited)
          ∨ ∃ f, main_loop (UDPClient.transport f) events s0 = some (s, exited)) →
        no_confirm_queued s.client) := by
  refine ⟨fun ha => ?_, fun ha => ?_, ?_, ?_, handle_input_types, ?_⟩
  · have ha1 := (spec_admissible_iff m c hm).1 ha
    exact ⟨tcp_send_admissible c m rest hw hq ha1, udp_send_admissible fuel c m rest hw hq ha1⟩
  · have ha1 : ¬ admissible m c := fun h => ha ((spec_admissible_iff m c hm).2 h)
    exact ⟨tcp_drop_inadmissible c m rest hw hq ha1,
      udp_drop_inadmissible fuel c m rest hw hq ha1, rfl, rfl, rfl⟩
  · rintro ⟨h1, h2⟩ ha
    exact ((admissible_iff m c).1 ((spec_admissible_iff m c hm).1 ha)).2.2 ⟨h2, h1⟩
  · rintro ⟨_, h2, h3⟩ ha
    exact ((admissible_iff m c).1 ((spec_admissible_iff m c hm).1 ha)).2.1 ⟨h2, h3⟩
  · intro events s0 s exited h0 hrun
    rcases hrun with hrun | ⟨f, hrun⟩
    · refine main_loop_no_confirm TCPClient.transport ?_ ?_ ?_ events s0 s exited hrun h0
      · intro rx c hc
        exact (tcp_no_confirm c hc).1 rx
      · intro c c1 hc h1
        simp only [TCPClient.transport, Option.some.injEq] at h1
        rw [← h1]
        exact (tcp_no_confirm c hc).2.1
      · intro c c1 hc h1
        simp only [TCPClient.transport, Option.some.injEq] at h1
        rw [← h1]
        exact (tcp_no_confirm c hc).2.2
    · refine main_loop_no_confirm (UDPClient.transport f) ?_ ?_ ?_ events s0 s exited hrun h0
      · intro rx c hc
        exact (udp_no_confirm f c hc).1
      · intro c c1 hc h1
        exact (udp_no_confirm f c hc).2.1 c1 h1
      · intro c c1 hc h1
        exact (udp_no_confirm f c hc).2.2 c1 h1

/-- Witness of C11: a second AUTH queued by an authenticated client in state `OPEN` is
dropped with its diagnostic. -/
theorem admissibility_witness :
    TCPClient.process_client_messages
        { Client.init 0 7 true [] [] with
          state := .OPEN, auth := true
          client_msg_queue := [some (.MsgAUTH (ascii "u") (ascii "s") (ascii "d") 3)] }
      = { Client.init 0 7 true [] [] with
          state := .OPEN, auth := true
          out := [.cerr (ascii "ERR: No need to authenticate, already authenticated\n")] } :=
  (((admissibility
      { Client.init 0 7 true [] [] with
        state := .OPEN, auth := true
        client_msg_queue := [some (.MsgAUTH (ascii "u") (ascii "s") (ascii "d") 3)] }
      (.MsgAUTH (ascii "u") (ascii "s") (ascii "d") 3) [] 0 rfl rfl (by decide)).2.1
        (by decide)).1).trans
    (by decide)

end IPK24
